import Mathlib

/-!
# Screen Worms: protocol engines of the game server and the client

A shallow embedding of the C sources `utils.h`, `game_server_protocol.{h,c}`,
`client_protocol.{h,c}`, `screen-worms-server.c` and `screen-worms-client.c`.

Conventions of the embedding.

* Machine integers are natural numbers; a value stored in a `uintN_t` object is reduced
  modulo `2^N` where the C code can overflow.  `ssize_t` values are integers.
* A byte is a natural number below 256.  A buffer is a list of bytes, index 0 being the
  byte the C pointer points at.  A read past the end of the list yields 0, a write past
  the end of a list is dropped.
* A C function that fills an output buffer and returns the number of bytes written is
  embedded as a function returning the list of bytes written (its length is the C return
  value); the error return `-1` of such a function is `none`.
* A C function that mutates `*state` takes the state and returns the new state next to
  the C return value.
* A `char[21]` name is the list of the bytes of the array; the string it holds is the part
  before the first NUL (`strlen`, `strcmp` below).
* Loops are structural recursions on a fuel argument that the caller sets to the number of
  iterations the C loop can make at most.
-/

namespace ScreenWorms

/-! ## Constants (`utils.h`, `game_server_protocol.h`, `client_protocol.h`) -/

def MAX_PLAYERS : Nat := 25
def MAX_PLAYER_NAME_LENGTH : Nat := 20
def PLAYER_NAME_MINIMAL_ASCII : Nat := 33
def PLAYER_NAME_MAXIMAL_ASCII : Nat := 126
def SEED_MULTIPLIER : Nat := 279410273
def SEED_MODULUS : Nat := 4294967291

def MIN_SERVER_UDP_DGRAM_LENGTH : Nat := 17
def MAX_SERVER_UDP_DGRAM_LENGTH : Nat := 550
def INTEGER_FIELDS_LEN_EVENT_RECORD_NEW_GAME : Nat := 21
def EVENT_FIELDS_LENGTH_NEW_GAME_RAW : Nat := 13
def EVENT_RECORD_LENGTH_PIXEL : Nat := 22
def EVENT_RECORD_LENGTH_PLAYER_ELIMINATED : Nat := 14
def EVENT_RECORD_LENGTH_GAME_OVER : Nat := 13
def EVENT_FIELDS_LENGTH_PIXEL : Nat := 14
def EVENT_FIELDS_LENGTH_PLAYER_ELIMINATED : Nat := 6
def EVENT_FIELDS_LENGTH_GAME_OVER : Nat := 5
def MINIMAL_EVENT_RECORD_LENGTH : Nat := 13
def EVENT_NEW_GAME : Nat := 0
def EVENT_PIXEL : Nat := 1
def EVENT_PLAYER_ELIMINATED : Nat := 2
def EVENT_GAME_OVER : Nat := 3
def EVENT_DATA_BYTE_OFFSET : Nat := 9
def GAME_STATE_GAME_STARTED : Nat := 1
def GAME_STATE_WAITING_FOR_PLAYERS : Nat := 2
def DEFAULT_EVENTS_QUEUE_SIZE : Nat := 4096

def CLIENT_DGRAM_INTEGERS_LEN : Nat := 13
def MAX_CLIENT_DGRAM_LENGTH : Nat := 33

/-- The number of values of a `uint32_t`. -/
def UINT32_RANGE : Nat := 4294967296

/-! ## Bytes, network byte order, C strings -/

/-- Read of the byte `buffer[off]`. -/
def byte_at (buffer : List Nat) (off : Nat) : Nat := buffer.getD off 0 % 256

/-- The four bytes that `memcpy` writes for a `uint32_t` holding `htonl(x)`. -/
def htonl (x : Nat) : List Nat :=
  [x / 16777216 % 256, x / 65536 % 256, x / 256 % 256, x % 256]

/-- The value `ntohl(*(uint32_t *) (buffer + off))`. -/
def ntohl (buffer : List Nat) (off : Nat) : Nat :=
  byte_at buffer off * 16777216 + byte_at buffer (off + 1) * 65536 +
    byte_at buffer (off + 2) * 256 + byte_at buffer (off + 3)

/-- The value `be64toh(*(uint64_t *) (buffer + off))`. -/
def be64toh (buffer : List Nat) (off : Nat) : Nat :=
  ntohl buffer off * 4294967296 + ntohl buffer (off + 4)

/-- The C string held in a character array: the bytes before the first NUL. -/
def c_str (name : List Nat) : List Nat := name.takeWhile (fun c => c != 0)

/-- The value `strlen(name)`. -/
def strlen (name : List Nat) : Nat := (c_str name).length

/-- The sign of `strcmp(a, b)`: the arrays are compared byte by byte as unsigned
characters up to the first difference or the first NUL; the end of a list reads as NUL. -/
def strcmp : List Nat → List Nat → Int
  | [], [] => 0
  | [], b :: _ => if b = 0 then 0 else -1
  | a :: _, [] => if a = 0 then 0 else 1
  | a :: as, b :: bs =>
    if a < b then -1 else if b < a then 1 else if a = 0 then 0 else strcmp as bs

/-- Every element of the list is a byte. -/
def bytes_ok (buffer : List Nat) : Prop := ∀ b ∈ buffer, b < 256

instance (buffer : List Nat) : Decidable (bytes_ok buffer) := by
  unfold bytes_ok; infer_instance

/-! ## CRC-32 (`crc_32` of `utils.h`; its body is not among the sources) -/

/-- One shift of the reflected CRC-32 register (polynomial 0x04C11DB7, reflected
0xEDB88320). -/
def crc_32_bit (c : Nat) : Nat :=
  if c % 2 = 1 then (c / 2) ^^^ 0xEDB88320 else c / 2

/-- Feeding one byte into the CRC-32 register. -/
def crc_32_byte (c b : Nat) : Nat :=
  crc_32_bit (crc_32_bit (crc_32_bit (crc_32_bit (crc_32_bit (crc_32_bit (crc_32_bit
    (crc_32_bit (c ^^^ (b % 256)))))))))

/-- Modelled from the spec: `crc_32(buffer, len)` of `utils.h`, whose definition is not
among the sources.  Section 4.2 of the specification: the IEEE 802.3 CRC-32, reflected
input and output, initial value 0xFFFFFFFF, final XOR 0xFFFFFFFF, over the first `len`
bytes of the buffer. -/
def crc_32 (buffer : List Nat) (len : Nat) : Nat :=
  ((buffer.take len).foldl crc_32_byte 0xFFFFFFFF) ^^^ 0xFFFFFFFF

/-! ## Deterministic generator (`game_server_protocol.c`, lines 10-21) -/

/-- The C `struct seed_status_t`: two `uint32_t` fields. -/
structure seed_status_t where
  seed : Nat
  seed_no : Nat
  deriving DecidableEq, Repr, Inhabited

/-- The C `generate_random`: the returned value and the updated status.  The product is
taken in 64 bits (no overflow: both factors are below `2^32`), the result of the
remainder is stored in the 32-bit `seed`, and the 32-bit `seed_no` is incremented. -/
def generate_random (status : seed_status_t) : Nat × seed_status_t :=
  let seed :=
    if status.seed_no ≠ 0 then
      (status.seed * SEED_MULTIPLIER % SEED_MODULUS) % UINT32_RANGE
    else status.seed
  (seed, { seed := seed, seed_no := (status.seed_no + 1) % UINT32_RANGE })

/-- The status after `n` calls of `generate_random`. -/
def status_after : Nat → seed_status_t → seed_status_t
  | 0, status => status
  | n + 1, status => (generate_random (status_after n status)).2

/-- The value returned by call number `n` (the first call is number 0) of a run of
consecutive calls of `generate_random` that starts in `status`. -/
def nth_random (n : Nat) (status : seed_status_t) : Nat :=
  (generate_random (status_after n status)).1

/-- The values returned by the first `n` consecutive calls of `generate_random`. -/
def random_values (n : Nat) (status : seed_status_t) : List Nat :=
  (List.range n).map (fun k => nth_random k status)

/-! ## Data model of the server (`game_server_protocol.h`) -/

/-- The C `struct event_data_t`: an entry of the event log.  `x`, `y` are `uint32_t`,
`event_type` and `player_number` are `uint8_t`. -/
structure event_data_t where
  x : Nat
  y : Nat
  event_type : Nat
  player_number : Nat
  deriving DecidableEq, Repr, Inhabited

/-- The C `struct connection_data_t`; the socket address is kept as its bytes. -/
structure connection_data_t where
  session_id : Nat
  is_connection_active : Bool
  address : List Nat
  address_length : Nat
  deriving DecidableEq, Repr, Inhabited

/-- The C `struct client_t`: a slot of the client table.  The positions `x_pos` and
`y_pos` are the exact values of the `double` fields. -/
structure client_t where
  conn : connection_data_t
  direction : Int
  player_number : Nat
  turn_direction : Nat
  name : List Nat
  x_pos : ℚ
  y_pos : ℚ
  ready : Bool
  is_playing : Bool
  is_spectator : Bool
  message : Bool
  deriving DecidableEq, Repr, Inhabited

/-- The C `struct game_params_t`. -/
structure game_params_t where
  turning_speed : Nat
  rounds_per_sec : Nat
  board_dimension_x : Nat
  board_dimension_y : Nat
  deriving DecidableEq, Repr, Inhabited

/-- The C `struct server_game_state_t` without the socket and its buffers.
`events_queue` holds the entries of the block that the pointer `events_queue` points to;
only the entries below `events_count` are ever read.  `events_queue_size` is the field of
that name.  Two components are not fields of the C structure.  `events_queue_stale` tells
that `realloc` has been called on the block of `events_queue` and its result discarded
(`enqueue_event`, lines 47-56): from then on the pointer refers to a block that `realloc`
may have released.  `timer_created` stands for the entries `fds[2 + k]` of the array of
`poll`: entry `k` tells whether `fds[2 + k].fd` holds a descriptor, that is, differs from
the -1 to which `main` sets it (lines 660-664).  A descriptor is stored there only when
the timer of the slot is created (lines 207 and 283 of `screen-worms-server.c`); the
`close` of lines 96 and 277 leaves the number in place, and the system may give the
number to a timer that is created later. -/
structure server_game_state_t where
  game_id : Nat
  events_count : Nat
  ready_players : Nat
  game_status : Nat
  connected_players : Nat
  players : List client_t
  players_count : Nat
  game_primary_player_names : List (List Nat)
  alive : List Bool
  alive_players_count : Nat
  game_params : game_params_t
  game_board : List (List Bool)
  events_queue : List event_data_t
  random : seed_status_t
  events_queue_size : Nat
  events_queue_stale : Bool
  timer_created : List Bool
  deriving DecidableEq, Repr, Inhabited

/-- The slot as `main` of the server initialises it (lines 595-606); the fields that
`main` leaves uninitialised are 0. -/
def initial_client : client_t :=
  { conn := { session_id := 0, is_connection_active := false, address := [],
              address_length := 0 },
    direction := 0, player_number := 0, turn_direction := 0,
    name := List.replicate (MAX_PLAYER_NAME_LENGTH + 1) 0, x_pos := 0, y_pos := 0,
    ready := false, is_playing := false, is_spectator := false, message := false }

/-- The server state as `main` initialises it (lines 548-609) for the given seed and
game parameters. -/
def initial_server_state (seed : Nat) (params : game_params_t) : server_game_state_t :=
  { game_id := 0, events_count := 0, ready_players := 0,
    game_status := GAME_STATE_WAITING_FOR_PLAYERS, connected_players := 0,
    players := List.replicate MAX_PLAYERS initial_client,
    players_count := 0,
    game_primary_player_names :=
      List.replicate MAX_PLAYERS (List.replicate (MAX_PLAYER_NAME_LENGTH + 1) 0),
    alive := List.replicate MAX_PLAYERS true,
    alive_players_count := 0,
    game_params := params,
    game_board :=
      List.replicate params.board_dimension_x (List.replicate params.board_dimension_y false),
    events_queue := [],
    random := { seed := seed, seed_no := 0 },
    events_queue_size := DEFAULT_EVENTS_QUEUE_SIZE,
    events_queue_stale := false,
    timer_created := List.replicate MAX_PLAYERS false }

/-! ## Serialisation of event records (`game_server_protocol.c`, lines 68-206) -/

/-- The loop of lines 98-108: the bytes copied to `buffer + 17`, for the names
`i, i + 1, ...`; each `memcpy` copies `strlen(name) + 1` bytes, the string and its NUL. -/
def player_names_bytes (names : List (List Nat)) : Nat → Nat → List Nat
  | 0, _ => []
  | fuel + 1, i => (c_str (names.getD i []) ++ [0]) ++ player_names_bytes names fuel (i + 1)

/-- The C `serialize_event_record`: the record written to `buffer`, or `none` for the
return value `-1`.  The returned `record_size` is the length of the list. -/
def serialize_event_record (state : server_game_state_t) (event_no : Nat)
    (remaining_space : Int) : Option (List Nat) :=
  let data := state.events_queue.getD event_no default
  if data.event_type = EVENT_NEW_GAME then
    let names := player_names_bytes state.game_primary_player_names state.players_count 0
    let event_fields_length := (EVENT_FIELDS_LENGTH_NEW_GAME_RAW + names.length) % UINT32_RANGE
    let body := htonl event_fields_length ++ htonl event_no ++ [data.event_type % 256] ++
      htonl data.x ++ htonl data.y ++ names
    some (body ++ htonl (crc_32 body (4 + event_fields_length)))
  else if data.event_type = EVENT_PIXEL then
    if (EVENT_RECORD_LENGTH_PIXEL : Int) > remaining_space then none
    else
      let body := htonl EVENT_FIELDS_LENGTH_PIXEL ++ htonl event_no ++
        [data.event_type % 256, data.player_number % 256] ++ htonl data.x ++ htonl data.y
      some (body ++ htonl (crc_32 body (4 + EVENT_FIELDS_LENGTH_PIXEL)))
  else if data.event_type = EVENT_PLAYER_ELIMINATED then
    if (EVENT_RECORD_LENGTH_PLAYER_ELIMINATED : Int) > remaining_space then none
    else
      let body := htonl EVENT_FIELDS_LENGTH_PLAYER_ELIMINATED ++ htonl event_no ++
        [data.event_type % 256, data.player_number % 256]
      some (body ++ htonl (crc_32 body (4 + EVENT_FIELDS_LENGTH_PLAYER_ELIMINATED)))
  else
    if (EVENT_RECORD_LENGTH_GAME_OVER : Int) > remaining_space then none
    else
      let body := htonl EVENT_FIELDS_LENGTH_GAME_OVER ++ htonl event_no ++
        [data.event_type % 256]
      some (body ++ htonl (crc_32 body (4 + EVENT_FIELDS_LENGTH_GAME_OVER)))

/-! ## Packing and sending (`game_server_protocol.c`, lines 209-261 and 360-392) -/

/-- The `for` loop of `pack_events` (lines 375-388): `buf` is the part of
`server_buffer` written so far (its length is `datagram_size`).  The result is the
datagram and the value stored in `*first_not_packed`. -/
def pack_events_loop (state : server_game_state_t) :
    Nat → Nat → List Nat → Int → List Nat × Nat
  | 0, event_no, buf, _ => (buf, event_no)
  | fuel + 1, event_no, buf, free_space =>
    if event_no < state.events_count then
      match serialize_event_record state event_no free_space with
      | none => (buf, event_no)
      | some record =>
        pack_events_loop state fuel (event_no + 1) (buf ++ record)
          (free_space - (record.length : Int))
    else (buf, event_no)

/-- The C `pack_events`: the datagram written to `server_buffer` (its length is the
returned `datagram_size`) and the value stored in `*first_not_packed`.  `server_buffer`
has `MAX_SERVER_UDP_DGRAM_LENGTH` bytes, and `players_count` and
`game_primary_player_names` follow it in `server_game_state_t`: in a datagram of more
than 550 bytes the bytes of index 550 and higher are written on these two fields.  The
list is what the program writes as long as the call does not read the two fields after it
has written on them, which holds when the bytes behind the buffer belong to the checksum
of a NEW_GAME record that is the last of the log. -/
def pack_events (state : server_game_state_t) (from_which : Nat) (remaining_space : Int) :
    List Nat × Nat :=
  pack_events_loop state (state.events_count - from_which) from_which
    (htonl state.game_id) (remaining_space - 4)

/-- The `while` loop shared by `send_game_data` and `broadcast_events`: the datagrams
handed to `sendto`, in order.  `none` when the fuel does not suffice. -/
def send_loop (state : server_game_state_t) : Nat → Nat → Option (List (List Nat))
  | 0, first_not_sent => if first_not_sent < state.events_count then none else some []
  | fuel + 1, first_not_sent =>
    if first_not_sent < state.events_count then
      let packed := pack_events state first_not_sent (MAX_SERVER_UDP_DGRAM_LENGTH : Int)
      (send_loop state fuel packed.2).map (fun rest => packed.1 :: rest)
    else some []

/-- The C `send_game_data`: the list of `sendto` calls as pairs (slot, datagram). -/
def send_game_data (fuel : Nat) (state : server_game_state_t) (since_event : Nat)
    (client_no : Nat) : Option (List (Nat × List Nat)) :=
  (send_loop state fuel since_event).map (fun ds => ds.map (fun d => (client_no, d)))

/-- The slots `i, i + 1, ...` whose connection is active (the inner loop of
`broadcast_events`). -/
def active_slots : List client_t → Nat → List Nat
  | [], _ => []
  | c :: cs, i => if c.conn.is_connection_active then i :: active_slots cs (i + 1)
                  else active_slots cs (i + 1)

/-- The C `broadcast_events`: the list of `sendto` calls as pairs (slot, datagram). -/
def broadcast_events (fuel : Nat) (state : server_game_state_t) (since_event : Nat) :
    Option (List (Nat × List Nat)) :=
  (send_loop state fuel since_event).map (fun ds =>
    ds.foldr (fun d acc =>
      (active_slots (state.players.take MAX_PLAYERS) 0).map (fun i => (i, d)) ++ acc) [])

/-! ## Data model of the client (`client_protocol.h`) -/

/-- The C `struct client_dgram_t`; `player_name` is the array `char[20]`. -/
structure client_dgram_t where
  session_id : Nat
  turn_direction : Nat
  next_expected_event_no : Nat
  player_name : List Nat
  deriving DecidableEq, Repr, Inhabited

/-- The C `struct basic_event_data_t`. -/
structure basic_event_data_t where
  x : Nat
  y : Nat
  event_type : Nat
  player_no : Nat
  ready_to_send : Nat
  deriving DecidableEq, Repr, Inhabited

/-- The C `struct client_game_state_t` without the descriptors and the own name of the
client.  `game_players` is the table `char[25][21]`, `is_alive` the array `bool[25]`.
`names_out_of_table` is not a field of the C structure: it tells that
`parse_player_names` has stored a name into a row `game_players[k]` with `k >= 25`, a row
that the table does not have (the loop of lines 26-59 has no test of `names_count`).  In C
such a store overwrites what follows the table in memory, `data_for_gui` first; what the
model says of a state describes the program as long as the flag is false. -/
structure client_game_state_t where
  game_id : Nat
  next_expected : Nat
  board_dimension_x : Nat
  board_dimension_y : Nat
  players_count : Nat
  client_turn_direction : Nat
  played_any : Bool
  game_over : Bool
  is_alive : List Bool
  game_players : List (List Nat)
  data_for_gui : basic_event_data_t
  names_out_of_table : Bool
  deriving DecidableEq, Repr, Inhabited

/-- The C `initialise_client_game_state` (`client_protocol.c`, lines 222-236). -/
def initialise_client_game_state (state : client_game_state_t) : client_game_state_t :=
  { state with
    client_turn_direction := 0
    next_expected := 0
    players_count := 0
    game_over := false
    is_alive := List.replicate MAX_PLAYERS true
    game_players := List.replicate MAX_PLAYERS (List.replicate (MAX_PLAYER_NAME_LENGTH + 1) 0)
    data_for_gui := { state.data_for_gui with ready_to_send := 0 } }

/-! ## Client datagram (`client_protocol.c`, lines 239-275) -/

/-- The `for` loop of `deserialize_client_dgram` (lines 263-272), from index `i` on. -/
def deserialize_client_dgram_loop (buffer : List Nat) (message_size : Int) :
    Nat → Nat → client_dgram_t → Int × client_dgram_t
  | 0, _, datagram => (0, datagram)
  | fuel + 1, i, datagram =>
    if (i : Int) < message_size then
      if byte_at buffer i < PLAYER_NAME_MINIMAL_ASCII ∨
          byte_at buffer i > PLAYER_NAME_MAXIMAL_ASCII then
        (-1, datagram)
      else
        deserialize_client_dgram_loop buffer message_size fuel (i + 1)
          { datagram with
            player_name := datagram.player_name.set (i - CLIENT_DGRAM_INTEGERS_LEN)
              (byte_at buffer i) }
    else (0, datagram)

/-- The C `deserialize_client_dgram`: the return value and the contents of `*datagram`
on return. -/
def deserialize_client_dgram (datagram : client_dgram_t) (buffer : List Nat)
    (message_size : Int) : Int × client_dgram_t :=
  if message_size > (MAX_CLIENT_DGRAM_LENGTH : Int) ∨
      message_size < (CLIENT_DGRAM_INTEGERS_LEN : Int) then
    (-1, datagram)
  else
    let received_session_id := be64toh buffer 0
    let received_turn_direction := byte_at buffer 8
    let received_expected_event_no := ntohl buffer 9
    if received_turn_direction ≠ 0 ∧ received_turn_direction ≠ 1 ∧
        received_turn_direction ≠ 2 then
      (-1, datagram)
    else
      deserialize_client_dgram_loop buffer message_size
        (message_size - (CLIENT_DGRAM_INTEGERS_LEN : Int)).toNat CLIENT_DGRAM_INTEGERS_LEN
        { datagram with
          session_id := received_session_id
          turn_direction := received_turn_direction
          next_expected_event_no := received_expected_event_no }

/-! ## Event records on the client (`client_protocol.c`, lines 11-79 and 293-454) -/

/-- The copy loop of `parse_player_names` (lines 37-39) on one row of `game_players`:
`row[i] = buffer[start + i]` for the indices `i, i + 1, ...`. -/
def copy_name_loop (buffer : List Nat) (start : Nat) : Nat → Nat → List Nat → List Nat
  | 0, _, row => row
  | fuel + 1, i, row =>
    copy_name_loop buffer start fuel (i + 1) (row.set i (byte_at buffer (start + i)))

/-- The `while` loop of `parse_player_names` (lines 26-59) followed by the final `return`
(line 67).  `names_count` is a `uint8_t`, as is `players_count`.  The copy loop of lines
37-39 stores into the row `game_players[names_count]` without a test of `names_count`:
for `names_count >= 25` the row is outside the table, the model stores nothing and sets
`names_out_of_table`. -/
def parse_player_names_loop (buffer : List Nat) (remaining : Nat) :
    Nat → Nat → Nat → Nat → client_game_state_t → Bool × client_game_state_t
  | 0, _, _, current_name_len, state => (decide (current_name_len = 0), state)
  | fuel + 1, offset, names_count, current_name_len, state =>
    if offset < remaining then
      let step : Option (Nat × Nat × client_game_state_t) :=
        if byte_at buffer offset ≥ PLAYER_NAME_MINIMAL_ASCII ∧
            byte_at buffer offset ≤ PLAYER_NAME_MAXIMAL_ASCII then
          some (names_count, current_name_len + 1, state)
        else if byte_at buffer offset = 0 then
          if current_name_len = 0 then none
          else
            some ((names_count + 1) % 256, 0,
              { state with
                game_players :=
                  if names_count < MAX_PLAYERS then
                    state.game_players.set names_count
                      (copy_name_loop buffer (offset - current_name_len) current_name_len 0
                        (state.game_players.getD names_count []))
                  else state.game_players
                players_count := (state.players_count + 1) % 256
                names_out_of_table :=
                  state.names_out_of_table || decide (MAX_PLAYERS ≤ names_count) })
        else none
      match step with
      | none => (false, state)
      | some (names_count1, current_name_len1, state1) =>
        if current_name_len1 > 20 then (false, state1)
        else
          parse_player_names_loop buffer remaining fuel (offset + 1) names_count1
            current_name_len1 state1
    else (decide (current_name_len = 0), state)

/-- The C `parse_player_names`: the return value and the state on return. -/
def parse_player_names (buffer : List Nat) (remaining : Nat) (state : client_game_state_t) :
    Bool × client_game_state_t :=
  parse_player_names_loop buffer remaining remaining 0 0 0 state

/-- The `for` loop of `check_names_order` (lines 73-77), from index `i` on; the bound
`players_count - 1` is computed in `int`. -/
def check_names_order_loop (state : client_game_state_t) : Nat → Nat → Bool
  | 0, _ => true
  | fuel + 1, i =>
    if (i : Int) < (state.players_count : Int) - 1 then
      if strcmp (state.game_players.getD i []) (state.game_players.getD (i + 1) []) ≥ 0 then
        false
      else check_names_order_loop state fuel (i + 1)
    else true

/-- The C `check_names_order`. -/
def check_names_order (state : client_game_state_t) : Bool :=
  check_names_order_loop state state.players_count 0

/-- The NEW_GAME branch of `deserialize_event_record` (lines 349-381). -/
def deserialize_new_game (state : client_game_state_t) (buffer : List Nat)
    (event_no : Nat) (event_record_size : Int) (event_data_size : Int) :
    Int × client_game_state_t :=
  let dimension_x := ntohl buffer 9
  let dimension_y := ntohl buffer 13
  let parsed := parse_player_names (buffer.drop (EVENT_DATA_BYTE_OFFSET + 8))
    ((event_data_size - 8) % (UINT32_RANGE : Int)).toNat state
  if !parsed.1 then (-2, parsed.2)
  else if !check_names_order parsed.2 then (-2, parsed.2)
  else if event_no > 0 then (-2, parsed.2)
  else
    let state1 := { parsed.2 with
      board_dimension_x := dimension_x
      board_dimension_y := dimension_y }
    if event_no = state1.next_expected then
      (event_record_size,
        { state1 with
          data_for_gui := { state1.data_for_gui with
            event_type := EVENT_NEW_GAME
            x := dimension_x
            y := dimension_y
            ready_to_send := 1 }
          next_expected := (state1.next_expected + 1) % UINT32_RANGE })
    else (event_record_size, state1)

/-- The PIXEL branch of `deserialize_event_record` (lines 382-412). -/
def deserialize_pixel (state : client_game_state_t) (buffer : List Nat)
    (event_no : Nat) (event_record_size : Int) : Int × client_game_state_t :=
  if event_record_size ≠ (EVENT_RECORD_LENGTH_PIXEL : Int) then (-2, state)
  else
    let player_no := byte_at buffer EVENT_DATA_BYTE_OFFSET
    let coordinate_x := ntohl buffer (EVENT_DATA_BYTE_OFFSET + 1)
    let coordinate_y := ntohl buffer (EVENT_DATA_BYTE_OFFSET + 5)
    if coordinate_x ≥ state.board_dimension_x ∨
        coordinate_y ≥ state.board_dimension_y then (-2, state)
    else if player_no ≥ state.players_count then (-2, state)
    else if event_no = state.next_expected then
      (event_record_size,
        { state with
          data_for_gui := { state.data_for_gui with
            event_type := EVENT_PIXEL
            player_no := player_no
            x := coordinate_x
            y := coordinate_y
            ready_to_send := 1 }
          next_expected := (state.next_expected + 1) % UINT32_RANGE })
    else (event_record_size, state)

/-- The PLAYER_ELIMINATED branch of `deserialize_event_record` (lines 413-440). -/
def deserialize_player_eliminated (state : client_game_state_t) (buffer : List Nat)
    (event_no : Nat) (event_record_size : Int) : Int × client_game_state_t :=
  if event_record_size ≠ (EVENT_RECORD_LENGTH_PLAYER_ELIMINATED : Int) then (-2, state)
  else
    let player_no := byte_at buffer 9
    if player_no ≥ state.players_count then (-2, state)
    else if event_no = state.next_expected then
      if !state.is_alive.getD player_no false then (-2, state)
      else
        (event_record_size,
          { state with
            is_alive := state.is_alive.set player_no false
            data_for_gui := { state.data_for_gui with
              event_type := EVENT_PLAYER_ELIMINATED
              player_no := player_no
              ready_to_send := 1 }
            next_expected := (state.next_expected + 1) % UINT32_RANGE })
    else (event_record_size, state)

/-- The GAME_OVER branch of `deserialize_event_record` (lines 441-451). -/
def deserialize_game_over (state : client_game_state_t) (event_no : Nat)
    (event_record_size : Int) : Int × client_game_state_t :=
  if event_record_size ≠ (EVENT_RECORD_LENGTH_GAME_OVER : Int) then (-2, state)
  else if event_no = state.next_expected then
    (event_record_size,
      { state with
        game_over := true
        next_expected := (state.next_expected + 1) % UINT32_RANGE })
  else (event_record_size, state)

/-- The C `deserialize_event_record`: the return value and the state on return.
`buffer` holds the bytes from the position of the record on.  The four branches of the
dispatch on `event_type` are the four functions above. -/
def deserialize_event_record (state : client_game_state_t) (buffer : List Nat)
    (remaining : Int) : Int × client_game_state_t :=
  if remaining < (MINIMAL_EVENT_RECORD_LENGTH : Int) then (-2, state)
  else
    let event_fields_len := ntohl buffer 0
    let event_no := ntohl buffer 4
    let event_type := byte_at buffer 8
    let event_record_size : Int := (event_fields_len : Int) + 8
    if event_record_size > remaining then (-2, state)
    else
      let crc_value := ntohl buffer (4 + event_fields_len)
      if crc_32 buffer (event_fields_len + 4) ≠ crc_value then (-1, state)
      else
        let event_data_size : Int :=
          (((event_fields_len + UINT32_RANGE - 5) % UINT32_RANGE : Nat) : Int)
        if event_type = EVENT_NEW_GAME then
          deserialize_new_game state buffer event_no event_record_size event_data_size
        else if event_type = EVENT_PIXEL then
          deserialize_pixel state buffer event_no event_record_size
        else if event_type = EVENT_PLAYER_ELIMINATED then
          deserialize_player_eliminated state buffer event_no event_record_size
        else if event_type = EVENT_GAME_OVER then
          deserialize_game_over state event_no event_record_size
        else (event_record_size, state)

/-! ## Notions used in the statements -/

/-- The `record_size` that `serialize_event_record` computes for entry `event_no` when
it does not return `-1` (lines 91 and 105, 156, 179, 202). -/
def record_size (state : server_game_state_t) (event_no : Nat) : Nat :=
  let data := state.events_queue.getD event_no default
  if data.event_type = EVENT_NEW_GAME then
    INTEGER_FIELDS_LEN_EVENT_RECORD_NEW_GAME +
      (player_names_bytes state.game_primary_player_names state.players_count 0).length
  else if data.event_type = EVENT_PIXEL then EVENT_RECORD_LENGTH_PIXEL
  else if data.event_type = EVENT_PLAYER_ELIMINATED then EVENT_RECORD_LENGTH_PLAYER_ELIMINATED
  else EVENT_RECORD_LENGTH_GAME_OVER

/-- The record of log entry `event_no`: the bytes `serialize_event_record` writes for it
when the space suffices (546 bytes, the space of an empty datagram, always do). -/
def event_record (state : server_game_state_t) (event_no : Nat) : List Nat :=
  (serialize_event_record state event_no ((MAX_SERVER_UDP_DGRAM_LENGTH : Int) - 4)).getD []

/-- The records of the `count` log entries `event_no, event_no + 1, ...`, concatenated in
log order. -/
def records_bytes (state : server_game_state_t) : Nat → Nat → List Nat
  | 0, _ => []
  | count + 1, event_no => event_record state event_no ++ records_bytes state count (event_no + 1)

/-- The payloads of a list of datagrams (each without its 4-byte `game_id` header),
concatenated. -/
def payloads : List (List Nat) → List Nat
  | [] => []
  | d :: ds => d.drop 4 ++ payloads ds

/-- The event log is the log of a game: a NEW_GAME entry occurs at index 0 only
(section 3 of the specification: NEW_GAME is always event number 0). -/
def new_game_only_first (state : server_game_state_t) : Prop :=
  ∀ k, k < state.events_count → 0 < k →
    (state.events_queue.getD k default).event_type ≠ EVENT_NEW_GAME

/-- The frozen names fit the table `char[25][21]`: at most 25 players, each name a
string of at most 20 bytes. -/
def names_fit (state : server_game_state_t) : Prop :=
  state.players_count ≤ 25 ∧
  ∀ i, i < state.players_count → strlen (state.game_primary_player_names.getD i []) ≤ 20

/-- The validation rule of the client datagram in the words of the specification
(section 4.3): total length in [13, 33], `turn_direction` (the byte at offset 8) in
{0, 1, 2}, every name byte (offsets 13 and up) in [33, 126]. -/
def client_dgram_valid (buffer : List Nat) (message_size : Int) : Prop :=
  13 ≤ message_size ∧ message_size ≤ 33 ∧
  (byte_at buffer 8 = 0 ∨ byte_at buffer 8 = 1 ∨ byte_at buffer 8 = 2) ∧
  ∀ i : Nat, 13 ≤ i → (i : Int) < message_size →
    33 ≤ byte_at buffer i ∧ byte_at buffer i ≤ 126

/-- A valid player name (section 4.5.1): 1 to 20 bytes, each in ASCII 33..126. -/
def valid_name (name : List Nat) : Prop :=
  1 ≤ name.length ∧ name.length ≤ 20 ∧ ∀ c ∈ name, 33 ≤ c ∧ c ≤ 126

/-- A `char[21]` array holding the given string, padded with NUL bytes. -/
def name_array (name : List Nat) : List Nat :=
  name ++ List.replicate (MAX_PLAYER_NAME_LENGTH + 1 - name.length) 0

/-- The table `game_players` after the strings of the names `i, i + 1, ...`, `count` of
them, have been written over rows of NUL bytes: row `r` holds the string of name `r`. -/
def store_names (names : List (List Nat)) : Nat → Nat → List (List Nat) → List (List Nat)
  | 0, _, table => table
  | count + 1, i, table =>
    store_names names count (i + 1) (table.set i (name_array (c_str (names.getD i []))))

/-! ## The client between two games (`screen-worms-client.c`) -/

/-- The client state as `main` of the client sets it up (lines 404-415); the fields that
`main` leaves uninitialised are 0. -/
def initial_client_game_state : client_game_state_t :=
  { initialise_client_game_state default with
    game_id := 0
    next_expected := 0
    game_over := true
    played_any := false }

/-- The test of the `game_id` of a datagram in `handle_server_message` (lines 191-209):
the state with which the records of the datagram are parsed, or `none` when the datagram
is dropped. -/
def adopt_game_id (state : client_game_state_t) (received_game_id : Nat) :
    Option client_game_state_t :=
  if received_game_id ≠ state.game_id ∨ !state.played_any then
    if state.game_over then
      some { state with
        game_id := received_game_id
        next_expected := 0
        players_count := 0
        played_any := true
        game_over := false
        is_alive := List.replicate MAX_PLAYERS true }
    else none
  else some state

/-- The client state after one round of the loop of `handle_server_message` (lines
217-243) on a record that `deserialize_event_record` accepts: the record is consumed and,
once the pending message is written to the frontend, `ready_to_send` is cleared. -/
def client_after_record (state : client_game_state_t) (record : List Nat) :
    client_game_state_t :=
  let state1 := (deserialize_event_record state record (record.length : Int)).2
  if state1.data_for_gui.ready_to_send ≠ 0 then
    { state1 with data_for_gui := { state1.data_for_gui with ready_to_send := 0 } }
  else state1

/-- The client state after the records `event_no, event_no + 1, ...` of the log of a
server state, `count` of them, have been consumed in order. -/
def client_after_log (server : server_game_state_t) :
    Nat → Nat → client_game_state_t → client_game_state_t
  | 0, _, state => state
  | count + 1, event_no, state =>
    client_after_log server count (event_no + 1)
      (client_after_record state (event_record server event_no))

/-! ## Example states -/

/-- The bytes of "Alice". -/
def name_Alice : List Nat := [65, 108, 105, 99, 101]

/-- The bytes of "Bob". -/
def name_Bob : List Nat := [66, 111, 98]

/-- The bytes of "Al". -/
def name_Al : List Nat := [65, 108]

/-- The bytes of "Alh". -/
def name_Alh : List Nat := [65, 108, 104]

/-- The parameters of a board of 800 by 600. -/
def board_800_600 : game_params_t :=
  { turning_speed := 6, rounds_per_sec := 50, board_dimension_x := 800,
    board_dimension_y := 600 }

/-- A server state of a game between the two given players on a board of 800 by 600
whose log is NEW_GAME, PIXEL of player 0 at (10, 20), PLAYER_ELIMINATED of player 1 and
GAME_OVER. -/
def two_player_game (game_id : Nat) (first second : List Nat) : server_game_state_t :=
  { initial_server_state 77 board_800_600 with
    game_id := game_id
    game_status := GAME_STATE_GAME_STARTED
    events_count := 4
    players_count := 2
    alive_players_count := 1
    game_primary_player_names :=
      [name_array first, name_array second] ++
        List.replicate 23 (List.replicate (MAX_PLAYER_NAME_LENGTH + 1) 0)
    events_queue :=
      [{ x := 800, y := 600, event_type := EVENT_NEW_GAME, player_number := 0 },
       { x := 10, y := 20, event_type := EVENT_PIXEL, player_number := 0 },
       { x := 10, y := 20, event_type := EVENT_PLAYER_ELIMINATED, player_number := 1 },
       { x := 10, y := 20, event_type := EVENT_GAME_OVER, player_number := 1 }] }

/-- The game of "Alice" and "Bob". -/
def alice_bob_game : server_game_state_t := two_player_game 77 name_Alice name_Bob

/-- The NEW_GAME record of the game of Alice and Bob: `len = 23`, `event_no = 0`,
`event_type = 0`, `x = 800`, `y = 600`, the names "Alice" and "Bob" with their NUL bytes,
and the checksum. -/
def alice_bob_new_game_record : List Nat :=
  [0, 0, 0, 23, 0, 0, 0, 0, 0, 0, 0, 3, 32, 0, 0, 2, 88, 65, 108, 105, 99, 101, 0,
    66, 111, 98, 0, 24, 243, 74, 202]

/-- The next game, of "Al" and "Bob". -/
def al_bob_game : server_game_state_t := two_player_game 78 name_Al name_Bob

/-- Another next game, of "Al" and "Alh". -/
def al_alh_game : server_game_state_t := two_player_game 78 name_Al name_Alh

/-- A server state whose log entry number 42 is the PIXEL of player 3 at (10, 20). -/
def pixel_42_game : server_game_state_t :=
  { initial_server_state 77 board_800_600 with
    game_status := GAME_STATE_GAME_STARTED
    events_count := 43
    players_count := 4
    alive_players_count := 4
    game_primary_player_names :=
      [name_array [97], name_array [98], name_array [99], name_array [100]] ++
        List.replicate 21 (List.replicate (MAX_PLAYER_NAME_LENGTH + 1) 0)
    events_queue :=
      [{ x := 800, y := 600, event_type := EVENT_NEW_GAME, player_number := 0 }] ++
        List.replicate 41 { x := 0, y := 0, event_type := EVENT_PIXEL, player_number := 0 } ++
        [{ x := 10, y := 20, event_type := EVENT_PIXEL, player_number := 3 }] }

/-- A client datagram of 16 bytes: session id 0x0102030405060708, turn direction 1, next
expected event number 258, name "Bob". -/
def bob_dgram : List Nat :=
  [1, 2, 3, 4, 5, 6, 7, 8, 1, 0, 0, 1, 2] ++ name_Bob

/-- A `client_dgram_t` with all fields zero. -/
def zero_dgram : client_dgram_t :=
  { session_id := 0, turn_direction := 0, next_expected_event_no := 0,
    player_name := List.replicate MAX_PLAYER_NAME_LENGTH 0 }

/-- A client that has followed the game of "Alice" and "Bob" (game id 77) from its
NEW_GAME to its GAME_OVER and has then received the first datagram of the next game
(game id 78): the state with which the records of that datagram are parsed. -/
def client_before_second_game : client_game_state_t :=
  ((adopt_game_id
    (client_after_log alice_bob_game 4 0
      ((adopt_game_id initial_client_game_state 77).getD initial_client_game_state))
    78).getD initial_client_game_state)

/-! ## Server datagrams on the client (`screen-worms-client.c`, lines 169-250) -/

/-- The value `*(uint32_t *) (buffer + off)` of a read without byte-order conversion, on
a little-endian host. -/
def host_uint32 (buffer : List Nat) (off : Nat) : Nat :=
  byte_at buffer off + byte_at buffer (off + 1) * 256 + byte_at buffer (off + 2) * 65536 +
    byte_at buffer (off + 3) * 16777216

/-- What a call of `handle_server_message` leaves behind: the client state, whether the
call ended in `exit(1)`, and the states passed to `prepare_message` for the lines written
to the frontend, in order. -/
structure client_run_t where
  state : client_game_state_t
  exited : Bool
  gui_writes : List client_game_state_t
  deriving DecidableEq, Repr, Inhabited

/-- The `while` loop of `handle_server_message` (lines 216-249); `buffer` is
`server_dgram_buffer`.  Every `write` to the frontend succeeds.  `none` when the fuel does
not suffice. -/
def handle_server_message_loop (buffer : List Nat) :
    Nat → client_game_state_t → Nat → Int → List client_game_state_t → Option client_run_t
  | 0, _, _, _, _ => none
  | fuel + 1, state, buffer_offset, remaining_bytes, gui_writes =>
    let ret := deserialize_event_record state (buffer.drop buffer_offset) remaining_bytes
    if ret.1 = -1 then some { state := ret.2, exited := false, gui_writes := gui_writes }
    else if ret.1 = -2 then some { state := ret.2, exited := true, gui_writes := gui_writes }
    else
      let buffer_offset1 := buffer_offset + ret.1.toNat
      let remaining_bytes1 := remaining_bytes - ret.1
      let state1 :=
        if ret.2.data_for_gui.ready_to_send ≠ 0 then
          { ret.2 with data_for_gui := { ret.2.data_for_gui with ready_to_send := 0 } }
        else ret.2
      let gui_writes1 :=
        if ret.2.data_for_gui.ready_to_send ≠ 0 then gui_writes ++ [ret.2] else gui_writes
      if remaining_bytes1 = 0 then
        some { state := state1, exited := false, gui_writes := gui_writes1 }
      else handle_server_message_loop buffer fuel state1 buffer_offset1 remaining_bytes1
        gui_writes1

/-- The C `handle_server_message` for a datagram of `read_bytes` bytes received into
`buffer`.  Every record takes at least 8 bytes, so `read_bytes` rounds of the loop
suffice. -/
def handle_server_message (state : client_game_state_t) (buffer : List Nat)
    (read_bytes : Int) : Option client_run_t :=
  if read_bytes > (MAX_SERVER_UDP_DGRAM_LENGTH : Int) then
    some { state := state, exited := false, gui_writes := [] }
  else if read_bytes < 0 then some { state := state, exited := true, gui_writes := [] }
  else if read_bytes < (MIN_SERVER_UDP_DGRAM_LENGTH : Int) then
    some { state := state, exited := false, gui_writes := [] }
  else
    match adopt_game_id state (host_uint32 buffer 0) with
    | none => some { state := state, exited := false, gui_writes := [] }
    | some state1 => handle_server_message_loop buffer read_bytes.toNat state1 4
        (read_bytes - 4) []

/-- The game of Alice and Bob in a server state whose `players_count` is 1: the NEW_GAME
record that `serialize_event_record` writes lists the name "Alice" alone. -/
def single_name_game : server_game_state_t := { alice_bob_game with players_count := 1 }

/-- The game of Alice and Bob in a server state whose `players_count` is 0: the NEW_GAME
record that `serialize_event_record` writes lists no name. -/
def no_name_game : server_game_state_t := { alice_bob_game with players_count := 0 }

/-- A client that has received the first datagram of its first game (game id 77): the
state with which the records of that datagram are parsed. -/
def client_before_first_game : client_game_state_t :=
  (adopt_game_id initial_client_game_state 77).getD initial_client_game_state

/-! ## Notions for the order of application on the client -/

/-- A call of `deserialize_event_record` that took the state to `result` did not apply the
record: `next_expected`, `is_alive`, `game_over` and `data_for_gui` are as before. -/
def record_ignored (state result : client_game_state_t) : Prop :=
  result.next_expected = state.next_expected ∧ result.is_alive = state.is_alive ∧
  result.game_over = state.game_over ∧ result.data_for_gui = state.data_for_gui

/-- A call of `deserialize_event_record` on a record with the given event number and
type that took the state to `result` applied the record: the event number was the
expected one, `next_expected` has been incremented (as a `uint32_t`), and either a
frontend message is flagged or the record is a GAME_OVER that has set `game_over`. -/
def record_applied (state : client_game_state_t) (event_no event_type : Nat)
    (result : client_game_state_t) : Prop :=
  event_no = state.next_expected ∧
  result.next_expected = (state.next_expected + 1) % UINT32_RANGE ∧
  (result.data_for_gui.ready_to_send = 1 ∨
    (event_type = EVENT_GAME_OVER ∧ result.game_over = true ∧
      result.data_for_gui = state.data_for_gui ∧ result.is_alive = state.is_alive))

/-- The event numbers of the records that flag a frontend message when the calls
`deserialize_event_record state buffer remaining` for the listed pairs `(buffer,
remaining)` are made in order, the flag being cleared after each message as
`handle_server_message` does (lines 232-243) and the sequence ending at a fatal
result.  The sequence also ends at a call that stores a name outside the table
`game_players`: what the program does from then on is not described. -/
def flagged_event_nos : client_game_state_t → List (List Nat × Int) → List Nat
  | _, [] => []
  | state, call :: calls =>
    let ret := deserialize_event_record state call.1 call.2
    if ret.1 = -2 then []
    else if ret.2.names_out_of_table = true then []
    else if ret.2.data_for_gui.ready_to_send ≠ 0 then
      ntohl call.1 4 ::
        flagged_event_nos
          { ret.2 with data_for_gui := { ret.2.data_for_gui with ready_to_send := 0 } } calls
    else flagged_event_nos ret.2 calls

/-! ## Starting a game (`game_server_protocol.c`, lines 24-65 and 264-357) -/

/-- The inner loop of `sort_players` (lines 31-35): the value of `index_min` after the
indices `j, j + 1, ...` have been compared. -/
def sort_players_min (players : List client_t) : Nat → Nat → Nat → Nat
  | 0, _, index_min => index_min
  | fuel + 1, j, index_min =>
    sort_players_min players fuel (j + 1)
      (if strcmp (players.getD j default).name (players.getD index_min default).name < 0
        then j else index_min)

/-- The outer loop of `sort_players` (lines 28-40), from index `i` on. -/
def sort_players_loop : Nat → Nat → List client_t → List client_t
  | 0, _, players => players
  | fuel + 1, i, players =>
    let index_min := sort_players_min players (MAX_PLAYERS - i) i i
    let swap_client := players.getD i default
    sort_players_loop fuel (i + 1)
      ((players.set i (players.getD index_min default)).set index_min swap_client)

/-- The C `sort_players`. -/
def sort_players (state : server_game_state_t) : server_game_state_t :=
  { state with players := sort_players_loop MAX_PLAYERS 0 state.players }

/-- The C `enqueue_event`.  Lines 47-56: when `events_count >= events_queue_size - 2`
(in `uint32_t`) the function calls `realloc` for twice the size, discards the pointer that
`realloc` returns and doubles `events_queue_size`; the pointer `events_queue` is left as
it is and refers to the old block, which `realloc` may have released: the model sets
`events_queue_stale`.  (When `realloc` returns NULL the server exits; that case is not
part of the model.)  Lines 58-64 write the entry through `events_queue` at the index
`events_count` and increment `events_count`; the list is extended when the entry written
lies past its end.  What the list holds describes the program as long as
`events_queue_stale` is false. -/
def enqueue_event (state : server_game_state_t) (event : event_data_t) :
    server_game_state_t :=
  { state with
    events_queue :=
      (state.events_queue ++
        List.replicate (state.events_count + 1 - state.events_queue.length) default).set
          state.events_count event
    events_count := (state.events_count + 1) % UINT32_RANGE
    events_queue_size :=
      if state.events_count ≥ (state.events_queue_size + UINT32_RANGE - 2) % UINT32_RANGE then
        (state.events_queue_size * 2) % UINT32_RANGE
      else state.events_queue_size
    events_queue_stale :=
      if state.events_count ≥ (state.events_queue_size + UINT32_RANGE - 2) % UINT32_RANGE then
        true
      else state.events_queue_stale }

/-- The value `(int32_t) x` of a `double` within the range of `int32_t`: truncation
towards zero. -/
def trunc_int32 (x : ℚ) : Int := if 0 ≤ x then Rat.floor x else -Rat.floor (-x)

/-- The value `(int32_t) floor(x)` of a `double` within the range of `int32_t`. -/
def floor_int32 (x : ℚ) : Int := Rat.floor x

/-- The value `(uint32_t) v` of an `int32_t`. -/
def to_uint32 (v : Int) : Nat := (v % (UINT32_RANGE : Int)).toNat

/-- The loop of lines 281-296 of `initiate_game`, from slot `i` on: every entry of `alive`
is set, the playing slots are numbered and their names copied. -/
def initiate_game_numbers : Nat → Nat → Nat → server_game_state_t → server_game_state_t
  | 0, _, _, state => state
  | fuel + 1, i, player_no, state =>
    if (state.players.getD i default).is_playing then
      initiate_game_numbers fuel (i + 1) ((player_no + 1) % 256)
        { state with
          alive := state.alive.set i true
          players := state.players.set i
            { state.players.getD i default with player_number := player_no }
          game_primary_player_names := state.game_primary_player_names.set player_no
            ((state.players.getD i default).name.take (MAX_PLAYER_NAME_LENGTH + 1)) }
    else
      initiate_game_numbers fuel (i + 1) player_no
        { state with alive := state.alive.set i true }

/-- The loop of lines 308-344 of `initiate_game`, from slot `i` on; `current_event` is the
local variable of that name. -/
def initiate_game_place :
    Nat → Nat → event_data_t → server_game_state_t → server_game_state_t
  | 0, _, _, state => state
  | fuel + 1, i, current_event, state =>
    if (state.players.getD i default).is_playing then
      let draw_x := generate_random state.random
      let draw_y := generate_random draw_x.2
      let draw_direction := generate_random draw_y.2
      let x_pos : ℚ := ((draw_x.1 % state.game_params.board_dimension_x : Nat) : ℚ) + 1 / 2
      let y_pos : ℚ := ((draw_y.1 % state.game_params.board_dimension_y : Nat) : ℚ) + 1 / 2
      let player : client_t :=
        { state.players.getD i default with
          x_pos := x_pos
          y_pos := y_pos
          direction := ((draw_direction.1 % 360 : Nat) : Int) }
      let integer_coord_x := trunc_int32 x_pos
      let integer_coord_y := trunc_int32 y_pos
      let state1 : server_game_state_t :=
        { state with random := draw_direction.2, players := state.players.set i player }
      if integer_coord_x < 0 ∨ integer_coord_y < 0 ∨
          to_uint32 integer_coord_x ≥ state.game_params.board_dimension_x ∨
          to_uint32 integer_coord_y ≥ state.game_params.board_dimension_y ∨
          (state.game_board.getD integer_coord_x.toNat []).getD integer_coord_y.toNat false
            = true then
        let event : event_data_t :=
          { current_event with
            event_type := EVENT_PLAYER_ELIMINATED
            player_number := player.player_number }
        initiate_game_place fuel (i + 1) event (enqueue_event state1 event)
      else
        let event : event_data_t :=
          { event_type := EVENT_PIXEL
            player_number := player.player_number
            x := to_uint32 integer_coord_x
            y := to_uint32 integer_coord_y }
        initiate_game_place fuel (i + 1) event
          (enqueue_event
            { state1 with
              game_board := state1.game_board.set integer_coord_x.toNat
                ((state1.game_board.getD integer_coord_x.toNat []).set integer_coord_y.toNat
                  true) }
            event)
    else initiate_game_place fuel (i + 1) current_event state

/-- The C `initiate_game` up to the broadcast of line 348: the state with which
`broadcast_events(state, 0)` is called.  The board is the array of `board_dimension_x` by
`board_dimension_y` entries that `main` allocates; the field `player_number` of the local
`current_event`, not initialised for the NEW_GAME entry, is 0. -/
def initiate_game_state (state : server_game_state_t) : server_game_state_t :=
  let state1 := sort_players state
  let state2 : server_game_state_t :=
    { state1 with
      game_board := List.replicate state1.game_params.board_dimension_x
        (List.replicate state1.game_params.board_dimension_y false)
      players_count := state1.ready_players
      alive_players_count := state1.ready_players
      events_count := 0 }
  let state3 := initiate_game_numbers MAX_PLAYERS 0 0 state2
  let draw := generate_random state3.random
  let current_event : event_data_t :=
    { event_type := EVENT_NEW_GAME
      x := state3.game_params.board_dimension_x
      y := state3.game_params.board_dimension_y
      player_number := 0 }
  let state4 := enqueue_event { state3 with game_id := draw.1, random := draw.2 } current_event
  let state5 := initiate_game_place MAX_PLAYERS 0 current_event state4
  { state5 with game_status := GAME_STATE_GAME_STARTED }

/-- The C `initiate_game`: the state on return and the list of `sendto` calls as pairs
(slot, datagram).  The round timer that lines 350-356 create is outside the model: its
expiry is the field `round_timer` of `poll_result_t`. -/
def initiate_game (state : server_game_state_t) :
    server_game_state_t × List (Nat × List Nat) :=
  let state1 := initiate_game_state state
  (state1, (broadcast_events state1.events_count state1 0).getD [])

/-! ## The round tick (`screen-worms-server.c`, lines 384-476, and
`game_server_protocol.c`, lines 396-416) -/

/-- The loop of `update_players_after_game` (lines 400-415), from slot `i` on. -/
def update_players_after_game_loop : Nat → Nat → server_game_state_t → server_game_state_t
  | 0, _, state => state
  | fuel + 1, i, state =>
    let player := { state.players.getD i default with ready := false }
    if player.conn.is_connection_active then
      if strlen player.name > 0 then
        update_players_after_game_loop fuel (i + 1)
          { state with
            players_count := (state.players_count + 1) % 256
            players := state.players.set i
              { player with is_playing := true, is_spectator := false } }
      else
        update_players_after_game_loop fuel (i + 1)
          { state with
            players := state.players.set i
              { player with is_playing := false, is_spectator := true } }
    else
      update_players_after_game_loop fuel (i + 1)
        { state with players := state.players.set i player }

/-- The C `update_players_after_game`. -/
def update_players_after_game (state : server_game_state_t) : server_game_state_t :=
  update_players_after_game_loop MAX_PLAYERS 0
    { state with ready_players := 0, players_count := 0 }

/-- The two computations of `handle_board_update` that go through the C library, as
functions on the exact values of the `double`s: `move_x x direction` is the `double`
`x + cos((double) direction * M_PI / 180)` and `move_y y direction` is the `double`
`y + sin((double) direction * M_PI / 180)`. -/
structure libm_t where
  move_x : ℚ → Int → ℚ
  move_y : ℚ → Int → ℚ

/-- The slot `i` after the turn and the move of lines 399-418 of `handle_board_update`.
The arithmetic on `direction` is that of integers (no overflow of the `int32_t`). -/
def moved_player (libm : libm_t) (state : server_game_state_t) (i : Nat) : client_t :=
  let player := state.players.getD i default
  let direction1 : Int :=
    if player.turn_direction = 1 then
      player.direction + (state.game_params.turning_speed : Int)
    else if player.turn_direction = 2 then
      player.direction - (state.game_params.turning_speed : Int)
    else player.direction
  let direction2 : Int := if direction1 < 0 then direction1 + 360 else direction1
  { player with
    direction := direction2
    x_pos := libm.move_x player.x_pos direction2
    y_pos := libm.move_y player.y_pos direction2 }

/-- The test of lines 426-427: the worm of slot `i` is in the same cell after its move. -/
def same_cell (libm : libm_t) (state : server_game_state_t) (i : Nat) : Bool :=
  decide (to_uint32 (floor_int32 (moved_player libm state i).x_pos) =
      to_uint32 (floor_int32 (state.players.getD i default).x_pos) ∧
    to_uint32 (floor_int32 (moved_player libm state i).y_pos) =
      to_uint32 (floor_int32 (state.players.getD i default).y_pos))

/-- The test of lines 431-433: the cell of the worm of slot `i` after its move is outside
the board or occupied. -/
def move_eliminates (libm : libm_t) (state : server_game_state_t) (i : Nat) : Bool :=
  decide (floor_int32 (moved_player libm state i).x_pos < 0 ∨
    to_uint32 (floor_int32 (moved_player libm state i).x_pos) ≥
      state.game_params.board_dimension_x ∨
    floor_int32 (moved_player libm state i).y_pos < 0 ∨
    to_uint32 (floor_int32 (moved_player libm state i).y_pos) ≥
      state.game_params.board_dimension_y ∨
    (state.game_board.getD (floor_int32 (moved_player libm state i).x_pos).toNat []).getD
      (floor_int32 (moved_player libm state i).y_pos).toNat false = true)

/-- The local `current_event` after lines 435-449 for the worm of slot `i`. -/
def move_event (libm : libm_t) (state : server_game_state_t) (i : Nat)
    (current_event : event_data_t) : event_data_t :=
  if move_eliminates libm state i then
    { current_event with
      event_type := EVENT_PLAYER_ELIMINATED
      player_number := (moved_player libm state i).player_number }
  else
    { event_type := EVENT_PIXEL
      player_number := (moved_player libm state i).player_number
      x := to_uint32 (floor_int32 (moved_player libm state i).x_pos)
      y := to_uint32 (floor_int32 (moved_player libm state i).y_pos) }

/-- The state after lines 399-449 for the worm of slot `i` that has changed its cell: the
slot is moved, and either it is dead and `alive_players_count` is decremented or its new
cell is occupied. -/
def move_state (libm : libm_t) (state : server_game_state_t) (i : Nat) :
    server_game_state_t :=
  if move_eliminates libm state i then
    { state with
      players := state.players.set i (moved_player libm state i)
      alive_players_count := (state.alive_players_count + 255) % 256
      alive := state.alive.set i false }
  else
    { state with
      players := state.players.set i (moved_player libm state i)
      game_board := state.game_board.set (floor_int32 (moved_player libm state i).x_pos).toNat
        ((state.game_board.getD (floor_int32 (moved_player libm state i).x_pos).toNat []).set
          (floor_int32 (moved_player libm state i).y_pos).toNat true) }

/-- The `for` loop of `handle_board_update` (lines 393-470), from slot `i` on;
`current_event` is the local variable of that name. -/
def handle_board_update_loop (libm : libm_t) :
    Nat → Nat → event_data_t → server_game_state_t → server_game_state_t
  | 0, _, _, state => state
  | fuel + 1, i, current_event, state =>
    if (state.players.getD i default).is_playing = false then
      handle_board_update_loop libm fuel (i + 1) current_event state
    else if state.alive.getD i false = true then
      if same_cell libm state i = true then
        handle_board_update_loop libm fuel (i + 1) current_event
          { state with players := state.players.set i (moved_player libm state i) }
      else if (enqueue_event (move_state libm state i)
          (move_event libm state i current_event)).alive_players_count = 1 then
        update_players_after_game
          (enqueue_event
            { enqueue_event (move_state libm state i) (move_event libm state i current_event)
              with game_status := GAME_STATE_WAITING_FOR_PLAYERS }
            { move_event libm state i current_event with event_type := EVENT_GAME_OVER })
      else
        handle_board_update_loop libm fuel (i + 1) (move_event libm state i current_event)
          (enqueue_event (move_state libm state i) (move_event libm state i current_event))
    else handle_board_update_loop libm fuel (i + 1) current_event state

/-- The C `handle_board_update`: the state on return and the list of `sendto` calls as
pairs (slot, datagram).  The fields of the local `current_event`, not initialised, are
0. -/
def handle_board_update (libm : libm_t) (state : server_game_state_t) :
    server_game_state_t × List (Nat × List Nat) :=
  let first_to_be_broadcast := state.events_count
  let state1 := handle_board_update_loop libm MAX_PLAYERS 0 default state
  (state1,
    (broadcast_events (state1.events_count - first_to_be_broadcast) state1
      first_to_be_broadcast).getD [])

/-! ## Client datagrams and timeouts on the server (`screen-worms-server.c`, lines
68-381) -/

/-- The sign of `strncmp(a, b, n)`: as `strcmp`, over at most `n` bytes. -/
def strncmp : List Nat → List Nat → Nat → Int
  | _, _, 0 => 0
  | [], [], _ + 1 => 0
  | [], b :: _, _ + 1 => if b = 0 then 0 else -1
  | a :: _, [], _ + 1 => if a = 0 then 0 else 1
  | a :: as, b :: bs, n + 1 =>
    if a < b then -1 else if b < a then 1 else if a = 0 then 0 else strncmp as bs n

/-- Modelled from the spec: `equal_addresses` of `utils.h`, whose definition is not among
the sources.  Section 2 of the specification: equality of IPv6 socket addresses. -/
def equal_addresses (a b : List Nat) : Bool := a == b

/-- The array `name` after `memcpy(name, player_name, name_length)`. -/
def memcpy_name (name player_name : List Nat) (name_length : Int) : List Nat :=
  player_name.take name_length.toNat ++ name.drop name_length.toNat

/-- The loop of lines 163-168 of `handle_new_client`: the value of `index_for_player`. -/
def first_inactive_slot (players : List client_t) : Nat → Nat → Nat
  | 0, _ => 0
  | fuel + 1, i =>
    if !(players.getD i default).conn.is_connection_active then i
    else first_inactive_slot players fuel (i + 1)

/-- The C `handle_new_client` for a datagram received from `receive_address`: the state
on return and the list of `sendto` calls.  Lines 207-218 create and arm the timer of the
slot (the calls are taken to succeed). -/
def handle_new_client (state : server_game_state_t) (receive_address : List Nat)
    (receive_address_length : Nat) (datagram_size : Int) (dgram : client_dgram_t) :
    server_game_state_t × List (Nat × List Nat) :=
  if state.connected_players = MAX_PLAYERS then (state, [])
  else
    let index_for_player := first_inactive_slot state.players MAX_PLAYERS 0
    let name_length := datagram_size - (CLIENT_DGRAM_INTEGERS_LEN : Int)
    let player := state.players.getD index_for_player default
    let player1 : client_t :=
      { player with
        conn :=
          { session_id := dgram.session_id
            is_connection_active := true
            address := receive_address
            address_length := receive_address_length } }
    let joins : Bool := decide (state.game_status ≠ GAME_STATE_GAME_STARTED ∧ name_length > 0)
    let player2 : client_t :=
      if state.game_status = GAME_STATE_GAME_STARTED then { player1 with is_spectator := true }
      else if name_length > 0 then
        { player1 with
          is_playing := true
          ready := if dgram.turn_direction ≠ 0 then true else player1.ready
          turn_direction := dgram.turn_direction }
      else { player1 with is_spectator := true }
    let player3 : client_t :=
      { player2 with name := memcpy_name player2.name dgram.player_name name_length }
    let state1 : server_game_state_t :=
      { state with
        connected_players := (state.connected_players + 1) % 256
        players_count :=
          if joins then (state.players_count + 1) % 256 else state.players_count
        ready_players :=
          if joins ∧ dgram.turn_direction ≠ 0 then (state.ready_players + 1) % 256
          else state.ready_players
        players := state.players.set index_for_player player3
        timer_created := state.timer_created.set index_for_player true }
    let sent :=
      (send_game_data (state1.events_count - dgram.next_expected_event_no) state1
        dgram.next_expected_event_no index_for_player).getD []
    if state1.game_status = GAME_STATE_WAITING_FOR_PLAYERS ∧
        state1.ready_players = state1.players_count ∧ state1.players_count > 1 then
      ((initiate_game state1).1, sent ++ (initiate_game state1).2)
    else (state1, sent)

/-- The C `handle_existing_client`.  The function has no call of `sendto`, of
`send_game_data` or of `broadcast_events`.  For a greater session id, lines 277-291 close
the timer of the slot and create and arm a new one (the calls are taken to succeed). -/
def handle_existing_client (state : server_game_state_t) (addr_index : Nat)
    (datagram_size : Int) (dgram : client_dgram_t) : server_game_state_t :=
  let name_length := datagram_size - (CLIENT_DGRAM_INTEGERS_LEN : Int)
  let player := state.players.getD addr_index default
  if dgram.session_id > player.conn.session_id then
    let player1 : client_t :=
      { player with conn := { player.conn with session_id := dgram.session_id } }
    let fresh_name : List Nat :=
      memcpy_name (List.replicate (MAX_PLAYER_NAME_LENGTH + 1) 0) dgram.player_name name_length
    if state.game_status = GAME_STATE_GAME_STARTED then
      { state with
        players := state.players.set addr_index
          { player1 with is_spectator := true, name := fresh_name }
        timer_created := state.timer_created.set addr_index true }
    else if strlen player1.name = 0 then
      if name_length > 0 then
        { state with
          players_count := (state.players_count + 1) % 256
          ready_players :=
            if dgram.turn_direction ≠ 0 then (state.ready_players + 1) % 256
            else state.ready_players
          players := state.players.set addr_index
            { player1 with is_spectator := false, name := fresh_name }
          timer_created := state.timer_created.set addr_index true }
      else
        { state with
          players := state.players.set addr_index { player1 with name := fresh_name }
          timer_created := state.timer_created.set addr_index true }
    else if name_length = 0 then
      { state with
        players_count := (state.players_count + 255) % 256
        ready_players :=
          if player1.ready then (state.ready_players + 255) % 256 else state.ready_players
        players := state.players.set addr_index
          { player1 with is_spectator := true, ready := false, name := fresh_name }
        timer_created := state.timer_created.set addr_index true }
    else
      { state with
        players := state.players.set addr_index { player1 with name := fresh_name }
        timer_created := state.timer_created.set addr_index true }
  else if dgram.session_id < player.conn.session_id then state
  else if (strlen player.name : Int) ≠ name_length ∨
      strncmp player.name dgram.player_name name_length.toNat ≠ 0 then state
  else if state.game_status = GAME_STATE_WAITING_FOR_PLAYERS then
    { state with
      ready_players :=
        if dgram.turn_direction ≠ 0 ∧ player.ready = false then
          (state.ready_players + 1) % 256
        else state.ready_players
      players := state.players.set addr_index
        { player with
          ready := if dgram.turn_direction ≠ 0 then true else player.ready
          turn_direction := dgram.turn_direction
          message := true } }
  else if player.is_spectator = false ∧ state.alive.getD addr_index false = true then
    { state with
      players := state.players.set addr_index
        { player with turn_direction := dgram.turn_direction, message := true } }
  else
    { state with players := state.players.set addr_index { player with message := true } }

/-- The loop of lines 362-373 of `handle_client_datagram`, from slot `i` on: the values
of `addr_index` and `exists_name` after the loop. -/
def find_client (state : server_game_state_t) (receive_address : List Nat)
    (dgram : client_dgram_t) (name_length : Int) : Nat → Nat → Bool → Nat × Bool
  | 0, _, exists_name => (MAX_PLAYERS, exists_name)
  | fuel + 1, i, exists_name =>
    let player := state.players.getD i default
    let exists_name1 : Bool :=
      if name_length > 0 ∧ (strlen player.name : Int) = name_length ∧
          strncmp player.name dgram.player_name name_length.toNat = 0 then true
      else exists_name
    if player.conn.is_connection_active ∧
        equal_addresses player.conn.address receive_address = true then (i, exists_name1)
    else find_client state receive_address dgram name_length fuel (i + 1) exists_name1

/-- The C `handle_client_datagram` for a datagram of `read_bytes` bytes received into
`buffer` from `receive_address`: the state on return and the list of `sendto` calls.  The
bytes of the local `dgram` that `deserialize_client_dgram` does not write are 0. -/
def handle_client_datagram (state : server_game_state_t) (receive_address : List Nat)
    (receive_address_length : Nat) (buffer : List Nat) (read_bytes : Int) :
    server_game_state_t × List (Nat × List Nat) :=
  let parsed := deserialize_client_dgram zero_dgram buffer read_bytes
  if parsed.1 < 0 then (state, [])
  else
    let name_length := read_bytes - (CLIENT_DGRAM_INTEGERS_LEN : Int)
    let found := find_client state receive_address parsed.2 name_length MAX_PLAYERS 0 false
    if found.1 < MAX_PLAYERS then
      (handle_existing_client state found.1 read_bytes parsed.2, [])
    else if !found.2 then
      handle_new_client state receive_address receive_address_length read_bytes parsed.2
    else (state, [])

/-- The `for` loop of `handle_timers` (lines 75-147), from slot `client_index` on;
`fired` tells for each slot whether `revents` of its timer has `POLLIN`.  The result is
the state and the list of `sendto` calls.  Line 96 closes the timer of the slot that is
disconnected and leaves `fds[i].fd` as it is. -/
def handle_timers_loop (fired : List Bool) :
    Nat → Nat → server_game_state_t → List (Nat × List Nat) →
      server_game_state_t × List (Nat × List Nat)
  | 0, _, state, sent => (state, sent)
  | fuel + 1, client_index, state, sent =>
    if fired.getD client_index false then
      let player := state.players.getD client_index default
      let step : server_game_state_t × List (Nat × List Nat) :=
        if player.conn.is_connection_active ∧ player.message = false then
          let disconnected_name_len := strlen player.name
          let player1 : client_t :=
            { player with
              conn := { player.conn with is_connection_active := false }
              name := List.replicate (MAX_PLAYER_NAME_LENGTH + 1) 0 }
          let state1 : server_game_state_t :=
            { state with
              connected_players := (state.connected_players + 255) % 256
              players := state.players.set client_index player1 }
          if state1.game_status = GAME_STATE_WAITING_FOR_PLAYERS then
            let state2 : server_game_state_t :=
              { state1 with
                ready_players :=
                  if player1.ready then (state1.ready_players + 255) % 256
                  else state1.ready_players
                players_count :=
                  if disconnected_name_len > 0 then (state1.players_count + 255) % 256
                  else state1.players_count
                players := state1.players.set client_index { player1 with ready := false } }
            if state2.ready_players = state2.players_count ∧ state2.ready_players > 1 then
              ((initiate_game state2).1, sent ++ (initiate_game state2).2)
            else (state2, sent)
          else (state1, sent)
        else (state, sent)
      handle_timers_loop fired fuel (client_index + 1)
        { step.1 with
          players := step.1.players.set client_index
            { step.1.players.getD client_index default with message := false } }
        step.2
    else handle_timers_loop fired fuel (client_index + 1) state sent

/-- The C `handle_timers`. -/
def handle_timers (state : server_game_state_t) (fired : List Bool) :
    server_game_state_t × List (Nat × List Nat) :=
  handle_timers_loop fired MAX_PLAYERS 0 state []

/-! ## The loop of `main` of the server (`screen-worms-server.c`, lines 670-695) -/

/-- What happens while the server waits in `poll`: whether the time of the round timer
and the time of the timer of each slot have run out, and the datagram that `recvfrom`
then returns when the socket is readable (source address, its length, the bytes and their
number).  What `poll` reports of the timers of the slots is `fired_timers`: an entry of
`fds` that holds no descriptor reports nothing. -/
structure poll_result_t where
  round_timer : Bool
  slot_timers : List Bool
  datagram : Option (List Nat × Nat × List Nat × Int)

/-- The `revents` of the timers of the slots as `poll` reports them (line 671): `POLLIN`
for slot `k` only if `fds[2 + k].fd` holds a descriptor; `poll` skips an entry whose `fd`
is -1 and sets its `revents` to 0. -/
def fired_timers (state : server_game_state_t) (polled : poll_result_t) : List Bool :=
  (List.range MAX_PLAYERS).map
    (fun k => polled.slot_timers.getD k false && state.timer_created.getD k false)

/-- The first part of a round of the loop of `main` (lines 674-687): the round tick, when
the round timer has fired and a game is on. -/
def round_tick (libm : libm_t) (state : server_game_state_t) (polled : poll_result_t) :
    server_game_state_t × List (Nat × List Nat) :=
  if polled.round_timer = true ∧ state.game_status = GAME_STATE_GAME_STARTED then
    handle_board_update libm state
  else (state, [])

/-- One round of the loop of `main` after `poll` has returned: the state at the end of
the round and the list of `sendto` calls of the round. -/
def main_loop_step (libm : libm_t) (state : server_game_state_t) (polled : poll_result_t) :
    server_game_state_t × List (Nat × List Nat) :=
  let after_tick := round_tick libm state polled
  let after_timers := handle_timers after_tick.1 (fired_timers state polled)
  let after_datagram :=
    match polled.datagram with
    | some (receive_address, receive_address_length, buffer, read_bytes) =>
      handle_client_datagram after_timers.1 receive_address receive_address_length buffer
        read_bytes
    | none => (after_timers.1, [])
  (after_datagram.1, after_tick.2 ++ after_timers.2 ++ after_datagram.2)

/-! ## A client that follows the datagrams of the server -/

/-- The datagrams among the `sendto` calls that are sent to the given slot, in order. -/
def received (slot : Nat) (sent : List (Nat × List Nat)) : List (List Nat) :=
  (sent.filter (fun p => p.1 == slot)).map Prod.snd

/-- The calls of `handle_server_message` for the listed datagrams, in order, up to a call
that ends in `exit(1)`. -/
def handle_server_messages : client_game_state_t → List (List Nat) → Option client_run_t
  | state, [] => some { state := state, exited := false, gui_writes := [] }
  | state, datagram :: datagrams =>
    match handle_server_message state datagram (datagram.length : Int) with
    | none => none
    | some run =>
      if run.exited then some run
      else
        (handle_server_messages run.state datagrams).map
          (fun rest => { rest with gui_writes := run.gui_writes ++ rest.gui_writes })

/-- The default parameters of the server (`utils.h`): turning speed 6, 50 rounds per
second, a board of 640 by 480. -/
def default_params : game_params_t :=
  { turning_speed := 6, rounds_per_sec := 50, board_dimension_x := 640,
    board_dimension_y := 480 }

/-- The moves of a worm that heads east: in direction 0 the C library computes
`cos(0.0) = 1.0` and `sin(0.0) = 0.0`, and the sum of a position `n + 0.5` and 1.0 is
exact.  In the other directions the functions do not describe the C library; the examples
move worms in direction 0 only. -/
def east_libm : libm_t :=
  { move_x := fun x direction => if direction = 0 then x + 1 else x
    move_y := fun y _ => y }

/-- A client datagram: session id 1, the given turn direction and next expected event
number, and the given name. -/
def session_1_dgram (turn_direction next_expected_event_no : Nat) (name : List Nat) :
    List Nat :=
  [0, 0, 0, 0, 0, 0, 0, 1, turn_direction] ++ htonl next_expected_event_no ++ name

/-- The socket address of the client of Alice. -/
def address_Alice : List Nat := [10, 0, 0, 1]

/-- The socket address of the client of Bob. -/
def address_Bob : List Nat := [10, 0, 0, 2]

/-- The server started with seed 91923 and the default parameters, after the first
datagram of Alice (turn direction 2, so Alice is ready). -/
def lobby_with_alice : server_game_state_t :=
  (handle_client_datagram (initial_server_state 91923 default_params) address_Alice 28
    (session_1_dgram 2 0 name_Alice) 18).1

/-- The round of the loop of `main` in which the first datagram of Bob (turn direction 2)
arrives: both players are ready and `handle_new_client` calls `initiate_game`. -/
def game_of_91923_started : server_game_state_t × List (Nat × List Nat) :=
  main_loop_step east_libm lobby_with_alice
    { round_timer := false, slot_timers := [],
      datagram := some (address_Bob, 28, session_1_dgram 2 0 name_Bob, 16) }

/-- The next round of the loop of `main`, in which the round timer has fired. -/
def game_of_91923_ended : server_game_state_t × List (Nat × List Nat) :=
  main_loop_step east_libm game_of_91923_started.1
    { round_timer := true, slot_timers := [], datagram := none }

/-- The bytes of "Carol". -/
def name_Carol : List Nat := [67, 97, 114, 111, 108]

/-- The socket address of the client of Carol. -/
def address_Carol : List Nat := [10, 0, 0, 3]

/-! ## The run of a game -/

/-- Some entry before index `m` of the log is the PLAYER_ELIMINATED of player `p`. -/
def eliminated_before (queue : List event_data_t) (m p : Nat) : Prop :=
  ∃ k, k < m ∧ (queue.getD k default).event_type = EVENT_PLAYER_ELIMINATED ∧
    (queue.getD k default).player_number = p

/-- Entry `k` of the log is one that a client of a game of `count` players on a board of
`width` by `height` accepts in its turn: a PIXEL inside the board of a player of the game,
the PLAYER_ELIMINATED of a player of the game not eliminated before, or a GAME_OVER. -/
def log_entry_ok (queue : List event_data_t) (count width height k : Nat) : Prop :=
  ((queue.getD k default).event_type = EVENT_PIXEL ∧ (queue.getD k default).x < width ∧
    (queue.getD k default).y < height ∧ (queue.getD k default).player_number < count) ∨
  ((queue.getD k default).event_type = EVENT_PLAYER_ELIMINATED ∧
    (queue.getD k default).player_number < count ∧
    ¬ eliminated_before queue k (queue.getD k default).player_number) ∨
  (queue.getD k default).event_type = EVENT_GAME_OVER

/-- The frozen names of the game are those of at most 25 players, valid and strictly
ascending. -/
def frozen_names_ok (state : server_game_state_t) : Prop :=
  state.players_count ≤ MAX_PLAYERS ∧
  (∀ r, r < state.players_count →
    valid_name (c_str (state.game_primary_player_names.getD r []))) ∧
  (∀ r, r < state.players_count → r + 1 < state.players_count →
    strcmp (state.game_primary_player_names.getD r [])
      (state.game_primary_player_names.getD (r + 1) []) < 0)

instance (state : server_game_state_t) : Decidable (frozen_names_ok state) := by
  unfold frozen_names_ok valid_name
  infer_instance

/-- The playing slots carry different player numbers below `players_count` and are
alive. -/
def playing_slots_ok (state : server_game_state_t) : Prop :=
  (∀ i, i < MAX_PLAYERS → (state.players.getD i default).is_playing = true →
    (state.players.getD i default).player_number < state.players_count ∧
    state.alive.getD i false = true) ∧
  (∀ i, i < MAX_PLAYERS → ∀ j, j < MAX_PLAYERS →
    (state.players.getD i default).is_playing = true →
    (state.players.getD j default).is_playing = true →
    (state.players.getD i default).player_number =
      (state.players.getD j default).player_number → i = j)

instance (state : server_game_state_t) : Decidable (playing_slots_ok state) := by
  unfold playing_slots_ok
  infer_instance

/-- The log consists of the NEW_GAME entry of the board and of PIXEL entries inside the
board for players of the game. -/
def start_log_ok (state : server_game_state_t) : Prop :=
  1 ≤ state.events_count ∧
  (state.events_queue.getD 0 default).event_type = EVENT_NEW_GAME ∧
  (state.events_queue.getD 0 default).x = state.game_params.board_dimension_x ∧
  (state.events_queue.getD 0 default).y = state.game_params.board_dimension_y ∧
  (∀ k, k < state.events_count → 1 ≤ k →
    (state.events_queue.getD k default).event_type = EVENT_PIXEL ∧
    (state.events_queue.getD k default).x < state.game_params.board_dimension_x ∧
    (state.events_queue.getD k default).y < state.game_params.board_dimension_y ∧
    (state.events_queue.getD k default).player_number < state.players_count)

instance (state : server_game_state_t) : Decidable (start_log_ok state) := by
  unfold start_log_ok
  infer_instance

/-- The state in which `initiate_game` leaves the server is the start of a game as the
specification describes it: at most 25 players whose frozen names are valid and strictly
ascending, a board with dimensions of 32 bits, the playing slots numbered with different
numbers below `players_count` and alive, and a log that consists of the NEW_GAME entry
and of PIXEL entries inside the board (no worm is eliminated at its starting cell). -/
def game_start_ok (state : server_game_state_t) : Prop :=
  state.game_status = GAME_STATE_GAME_STARTED ∧
  state.game_params.board_dimension_x < UINT32_RANGE ∧
  state.game_params.board_dimension_y < UINT32_RANGE ∧
  frozen_names_ok state ∧ playing_slots_ok state ∧ start_log_ok state

instance (state : server_game_state_t) : Decidable (game_start_ok state) := by
  unfold game_start_ok
  infer_instance

/-- The rounds of the loop of `main` during a game, as seen from a slot: every round
starts in a started game whose log has room for the events of a tick within the 32-bit
event numbers, with the slot connected, its tick does not end the game, what the round
sends to the slot is what its tick broadcasts, and no call of `enqueue_event` in the
round takes the branch of `realloc` (the state after the round has
`events_queue_stale = false`).  The result is the state after the rounds and the
datagrams that the rounds send to the slot, in order; `none` when a round is not of this
kind. -/
def game_rounds (libm : libm_t) (slot : Nat) :
    server_game_state_t → List poll_result_t →
      Option (server_game_state_t × List (List Nat))
  | state, [] => some (state, [])
  | state, polled :: rest =>
    if state.game_status = GAME_STATE_GAME_STARTED ∧
        (round_tick libm state polled).1.game_status = GAME_STATE_GAME_STARTED ∧
        (state.players.getD slot default).conn.is_connection_active = true ∧
        state.events_count + MAX_PLAYERS + 1 < UINT32_RANGE ∧
        received slot (main_loop_step libm state polled).2 =
          received slot (round_tick libm state polled).2 ∧
        (main_loop_step libm state polled).1.events_queue_stale = false then
      (game_rounds libm slot (main_loop_step libm state polled).1 rest).map
        (fun r => (r.1, received slot (main_loop_step libm state polled).2 ++ r.2))
    else none

/-- The invariant of the game that began in the state `start`: the parameters, the game
identifier, the player numbers of the slots and the first entry of the log are those of
`start`, every later entry of the log is one that a client accepts in its turn, and a
playing slot is dead exactly when the log holds the PLAYER_ELIMINATED of its player
number. -/
def game_inv (start state : server_game_state_t) : Prop :=
  state.game_params = start.game_params ∧
  state.game_id = start.game_id ∧
  (∀ i, i < MAX_PLAYERS → (state.players.getD i default).player_number =
    (start.players.getD i default).player_number) ∧
  1 ≤ state.events_count ∧
  state.events_queue.getD 0 default = start.events_queue.getD 0 default ∧
  (∀ k, 1 ≤ k → k < state.events_count →
    log_entry_ok state.events_queue start.players_count
      start.game_params.board_dimension_x start.game_params.board_dimension_y k) ∧
  (∀ i, i < MAX_PLAYERS → (start.players.getD i default).is_playing = true →
    (state.alive.getD i false = false ↔
      eliminated_before state.events_queue state.events_count
        (start.players.getD i default).player_number))

/-- The game that began in the state `start` is on: the status is GAME_STARTED and the
playing slots, the count of players and the frozen names are those of `start`. -/
def game_on (start state : server_game_state_t) : Prop :=
  state.game_status = GAME_STATE_GAME_STARTED ∧
  (∀ i, i < MAX_PLAYERS → (state.players.getD i default).is_playing =
    (start.players.getD i default).is_playing) ∧
  state.players_count = start.players_count ∧
  state.game_primary_player_names = start.game_primary_player_names

/-- The states `a` and `b` have the same log, the same array `alive`, the same parameters
and game identifier, and slots with the same player numbers and connection data. -/
def same_log_and_slots (a b : server_game_state_t) : Prop :=
  b.events_queue = a.events_queue ∧ b.events_count = a.events_count ∧ b.alive = a.alive ∧
  b.game_params = a.game_params ∧ b.game_id = a.game_id ∧
  (∀ j, (b.players.getD j default).player_number = (a.players.getD j default).player_number) ∧
  (∀ j, (b.players.getD j default).conn = (a.players.getD j default).conn) ∧
  b.players.length = a.players.length

/-- What a round tick, or a part of it, that takes the state `state` to `result` ensures
in the game that began in `start`: the invariant holds, the game is on or over, at most
`bound` entries are appended to the log, and the connections of the slots are kept. -/
def tick_post (start state result : server_game_state_t) (bound : Nat) : Prop :=
  game_inv start result ∧
  (game_on start result ∨ result.game_status = GAME_STATE_WAITING_FOR_PLAYERS) ∧
  state.events_count ≤ result.events_count ∧
  result.events_count ≤ state.events_count + bound ∧
  (∀ k, k < state.events_count →
    result.events_queue.getD k default = state.events_queue.getD k default) ∧
  (∀ j, (result.players.getD j default).conn = (state.players.getD j default).conn) ∧
  result.players.length = state.players.length

/-- The states `a` and `b` are in the same game: they have the same log, array `alive`,
parameters, game identifier, status, count of players and frozen names, and slots with
the same player numbers and `is_playing` flags. -/
def same_game (a b : server_game_state_t) : Prop :=
  b.events_queue = a.events_queue ∧ b.events_count = a.events_count ∧ b.alive = a.alive ∧
  b.game_params = a.game_params ∧ b.game_id = a.game_id ∧ b.game_status = a.game_status ∧
  b.players_count = a.players_count ∧
  b.game_primary_player_names = a.game_primary_player_names ∧
  (∀ j, (b.players.getD j default).player_number = (a.players.getD j default).player_number) ∧
  (∀ j, (b.players.getD j default).is_playing = (a.players.getD j default).is_playing)

/-- The client has applied the entries before index `m` of the log `queue` of the game
that began in the server state `start`: it expects event `m`, knows the count of players
and the board of the game, has no pending message, and its entry of `is_alive` for a
player is false exactly when the log holds the PLAYER_ELIMINATED of that player before
index `m`. -/
def client_in_step (start : server_game_state_t) (queue : List event_data_t) (m : Nat)
    (client : client_game_state_t) : Prop :=
  client.next_expected = m ∧ client.players_count = start.players_count ∧
  client.board_dimension_x = start.game_params.board_dimension_x ∧
  client.board_dimension_y = start.game_params.board_dimension_y ∧
  client.data_for_gui.ready_to_send = 0 ∧ client.played_any = true ∧
  client.game_id = host_uint32 (htonl start.game_id) 0 ∧
  client.is_alive.length = MAX_PLAYERS ∧
  ∀ p, p < MAX_PLAYERS →
    (client.is_alive.getD p false = false ↔ eliminated_before queue m p)

/-- The client is reset for the game that began in the server state `start` and has rows
of NUL bytes in `game_players` for the players of the game. -/
def client_reset_for (start : server_game_state_t) (client : client_game_state_t) : Prop :=
  client.next_expected = 0 ∧ client.players_count = 0 ∧
  client.data_for_gui.ready_to_send = 0 ∧ client.played_any = true ∧
  client.game_id = host_uint32 (htonl start.game_id) 0 ∧
  client.is_alive = List.replicate MAX_PLAYERS true ∧
  ∀ r, r < start.players_count → client.game_players.getD r [] = List.replicate 21 0

/-- The state of the client when the pending message, if there is one, has been written
to the frontend (lines 232-243 of `handle_server_message`). -/
def message_written (client : client_game_state_t) : client_game_state_t :=
  if client.data_for_gui.ready_to_send ≠ 0 then
    { client with data_for_gui := { client.data_for_gui with ready_to_send := 0 } }
  else client

/-- The client has played no game yet, as after the set-up in `main` of the client: it
takes the next `game_id` it receives, has no pending message, and its table of names is
cleared. -/
def client_fresh (client : client_game_state_t) : Prop :=
  client.played_any = false ∧ client.game_over = true ∧
  client.data_for_gui.ready_to_send = 0 ∧
  ∀ r, r < MAX_PLAYERS → client.game_players.getD r [] = List.replicate 21 0

instance (client : client_game_state_t) : Decidable (client_fresh client) := by
  unfold client_fresh
  infer_instance

/-- The lobby with Alice when `handle_new_client` has admitted Bob, whose first datagram
has turn direction 2, to slot 1: the state with which it calls `initiate_game`. -/
def lobby_with_alice_and_bob : server_game_state_t :=
  { lobby_with_alice with
    connected_players := 2
    players_count := 2
    ready_players := 2
    players := lobby_with_alice.players.set 1
      { lobby_with_alice.players.getD 1 default with
        conn := { session_id := 1, is_connection_active := true, address := address_Bob,
                  address_length := 28 }
        is_playing := true
        ready := true
        turn_direction := 2
        name := memcpy_name (lobby_with_alice.players.getD 1 default).name name_Bob 3 }
    timer_created := lobby_with_alice.timer_created.set 1 true }

/-! ## Runs of the server used for the lobby and the start of a game -/

/-- A round of the loop of `main` in which only the datagram `buffer` of `read_bytes`
bytes arrives from `address`: no timer has fired. -/
def datagram_round (address buffer : List Nat) (read_bytes : Int) : poll_result_t :=
  { round_timer := false, slot_timers := [],
    datagram := some (address, 28, buffer, read_bytes) }

/-- A client datagram with session id 2, the given turn direction and next expected event
number, and the given name. -/
def session_2_dgram (turn_direction next_expected_event_no : Nat) (name : List Nat) :
    List Nat :=
  [0, 0, 0, 0, 0, 0, 0, 2, turn_direction] ++ htonl next_expected_event_no ++ name

/-- The lobby with Alice (ready) after the first datagram of Bob, with turn direction 0:
Bob is admitted to slot 1 and is not ready. -/
def lobby_bob_not_ready : server_game_state_t :=
  (main_loop_step east_libm lobby_with_alice
    (datagram_round address_Bob (session_1_dgram 0 0 name_Bob) 16)).1

/-- The round in which the next datagram of Bob arrives, with turn direction 1:
`handle_existing_client` marks Bob ready. -/
def lobby_all_ready : server_game_state_t × List (Nat × List Nat) :=
  main_loop_step east_libm lobby_bob_not_ready
    (datagram_round address_Bob (session_1_dgram 1 0 name_Bob) 16)

/-- The situation of the start condition of the specification: the server waits, every
active slot with a non-empty name is marked ready, and there are at least two such
slots. -/
def start_condition_met (state : server_game_state_t) : Prop :=
  state.game_status = GAME_STATE_WAITING_FOR_PLAYERS ∧
  (∀ i, i < MAX_PLAYERS → (state.players.getD i default).conn.is_connection_active = true →
    strlen (state.players.getD i default).name ≠ 0 →
    (state.players.getD i default).ready = true) ∧
  2 ≤ ((state.players.take MAX_PLAYERS).filter
    (fun p => p.conn.is_connection_active && strlen p.name != 0)).length

instance (state : server_game_state_t) : Decidable (start_condition_met state) := by
  unfold start_condition_met
  infer_instance

/-- The lobby with Alice (ready), Carol (admitted with turn direction 0, not ready) and
Bob (ready), in the slots 0, 1 and 2. -/
def lobby_alice_carol_bob : server_game_state_t :=
  (main_loop_step east_libm
    (main_loop_step east_libm lobby_with_alice
      (datagram_round address_Carol (session_1_dgram 0 0 name_Carol) 18)).1
    (datagram_round address_Bob (session_1_dgram 1 0 name_Bob) 16)).1

/-- The round in which the timer of slot 1 (Carol, from whom no datagram has arrived since
her admission) fires: `handle_timers` disconnects the slot and calls `initiate_game`. -/
def game_after_timeout_of_carol : server_game_state_t × List (Nat × List Nat) :=
  main_loop_step east_libm lobby_alice_carol_bob
    { round_timer := false, slot_timers := [false, true], datagram := none }

/-- The empty lobby after a datagram without a name (session id 1) from the address of
Bob: slot 0 is a spectator. -/
def lobby_with_spectator : server_game_state_t :=
  (main_loop_step east_libm (initial_server_state 91923 default_params)
    (datagram_round address_Bob (session_1_dgram 0 0 []) 13)).1

/-- The round in which the same address sends session id 2, turn direction 1 and the name
"Bob". -/
def spectator_renamed : server_game_state_t :=
  (main_loop_step east_libm lobby_with_spectator
    (datagram_round address_Bob (session_2_dgram 1 0 name_Bob) 16)).1

/-- The lobby with Alice (ready) after a datagram from her address with session id 2, turn
direction 0 and the name "Alice". -/
def alice_reassigned : server_game_state_t :=
  (main_loop_step east_libm lobby_with_alice
    (datagram_round address_Alice (session_2_dgram 0 0 name_Alice) 18)).1

/-! ## Notions for the handling of client datagrams -/

/-- The name carried by a client datagram of `read_bytes` bytes: the bytes from offset 13
on. -/
def dgram_name (buffer : List Nat) (read_bytes : Int) : List Nat :=
  (List.range (read_bytes - (CLIENT_DGRAM_INTEGERS_LEN : Int)).toNat).map
    (fun k => byte_at buffer (CLIENT_DGRAM_INTEGERS_LEN + k))

/-- The `dgram` that `deserialize_client_dgram` fills from a valid datagram. -/
def parsed_dgram (buffer : List Nat) (read_bytes : Int) : client_dgram_t :=
  { session_id := be64toh buffer 0
    turn_direction := byte_at buffer 8
    next_expected_event_no := ntohl buffer 9
    player_name := dgram_name buffer read_bytes ++
      List.replicate (MAX_PLAYER_NAME_LENGTH - (dgram_name buffer read_bytes).length) 0 }

instance (buffer : List Nat) (message_size : Int) :
    Decidable (client_dgram_valid buffer message_size) :=
  decidable_of_iff
    (13 ≤ message_size ∧ message_size ≤ 33 ∧
      (byte_at buffer 8 = 0 ∨ byte_at buffer 8 = 1 ∨ byte_at buffer 8 = 2) ∧
      ∀ i : Nat, i < 33 → 13 ≤ i → (i : Int) < message_size →
        33 ≤ byte_at buffer i ∧ byte_at buffer i ≤ 126)
    (by
      unfold client_dgram_valid
      constructor
      · rintro ⟨h1, h2, h3, h4⟩
        exact ⟨h1, h2, h3, fun i hi1 hi2 => h4 i (by omega) hi1 hi2⟩
      · rintro ⟨h1, h2, h3, h4⟩
        exact ⟨h1, h2, h3, fun i _ hi1 hi2 => h4 i hi1 hi2⟩)

/-! ## Notions for the end of a game -/

/-- The slot `player` after the body of the loop of `update_players_after_game` (lines
401-414). -/
def slot_after_game (player : client_t) : client_t :=
  if player.conn.is_connection_active then
    if strlen player.name > 0 then
      { player with ready := false, is_playing := true, is_spectator := false }
    else { player with ready := false, is_playing := false, is_spectator := true }
  else { player with ready := false }

/-- The slot is active and has a non-empty name. -/
def named_active (player : client_t) : Bool :=
  player.conn.is_connection_active && decide (strlen player.name > 0)

/-- The number of active slots with a non-empty name. -/
def named_active_count (players : List client_t) : Nat :=
  ((List.range MAX_PLAYERS).filter (fun j => named_active (players.getD j default))).length

/-! ## Messages for the frontend (`client_protocol.c`, lines 82-219) -/

def MSG_GUI_BUFFER_LENGTH : Nat := 1024

/-- The bytes of the string literal "NEW_GAME " of line 133. -/
def text_NEW_GAME : List Nat := [78, 69, 87, 95, 71, 65, 77, 69, 32]

/-- The bytes of the string literal "PIXEL " of line 178. -/
def text_PIXEL : List Nat := [80, 73, 88, 69, 76, 32]

/-- The bytes of the string literal "PLAYER_ELIMINATED " of line 202. -/
def text_PLAYER_ELIMINATED : List Nat :=
  [80, 76, 65, 89, 69, 82, 95, 69, 76, 73, 77, 73, 78, 65, 84, 69, 68, 32]

/-- The characters that the conversion `%lu` of the C library produces for `n`: its
decimal digits. -/
def decimal (n : Nat) : List Nat := (Nat.toDigits 10 n).map (fun c => c.toNat)

/-- The array `buffer` after `bytes` have been stored from offset `offset` on. -/
def write_at (buffer : List Nat) (offset : Nat) (bytes : List Nat) : List Nat :=
  buffer.take offset ++ bytes ++ buffer.drop (offset + bytes.length)

/-- The array `buffer` after `snprintf(buffer + offset, size, format, ...)` of the C
library, where `text` are the characters that the format produces: at most `size - 1` of
them are stored, followed by a NUL. -/
def snprintf (buffer : List Nat) (offset size : Nat) (text : List Nat) : List Nat :=
  if size = 0 then buffer else write_at buffer offset (text.take (size - 1) ++ [0])

/-- The C `inject_two_separated_numbers` called with the pointer `buffer + start`: the
returned number of characters and the array. -/
def inject_two_separated_numbers (buffer : List Nat) (start x digits_x y digits_y : Nat) :
    Nat × List Nat :=
  let buffer1 := snprintf buffer start (digits_x + 1) (decimal x)
  let generated_offset1 := digits_x
  let buffer2 := buffer1.set (start + generated_offset1) 32
  let generated_offset2 := generated_offset1 + 1
  let buffer3 := snprintf buffer2 (start + generated_offset2) (digits_y + 1) (decimal y)
  let generated_offset3 := generated_offset2 + digits_y
  let buffer4 := buffer3.set (start + generated_offset3) 32
  (generated_offset3 + 1, buffer4)

/-- The loop of lines 148-161 of `prepare_message`, from the name `i` on: the value of
`buffer_offset` and the array after the loop. -/
def prepare_message_names (state : client_game_state_t) :
    Nat → Nat → Nat → List Nat → Nat × List Nat
  | 0, _, buffer_offset, buffer => (buffer_offset, buffer)
  | fuel + 1, i, buffer_offset, buffer =>
    if i < state.players_count then
      let len := strlen (state.game_players.getD i [])
      let buffer1 := snprintf buffer buffer_offset (len + 1) (c_str (state.game_players.getD i []))
      let buffer_offset1 := buffer_offset + len
      if (i : Int) < (state.players_count : Int) - 1 then
        prepare_message_names state fuel (i + 1) (buffer_offset1 + 1)
          (buffer1.set buffer_offset1 32)
      else prepare_message_names state fuel (i + 1) buffer_offset1 buffer1
    else (buffer_offset, buffer)

/-- The C `prepare_message`: the returned length and the array `buffer`.  The function
`digits_count` of `utils.h`, whose definition is not among the sources, is a parameter. -/
def prepare_message (digits_count : Nat → Nat) (state : client_game_state_t)
    (buffer : List Nat) : Nat × List Nat :=
  if state.data_for_gui.event_type = EVENT_NEW_GAME then
    let dim_x := state.data_for_gui.x
    let dim_y := state.data_for_gui.y
    let buffer1 := write_at buffer 0 text_NEW_GAME
    let injected := inject_two_separated_numbers buffer1 9 dim_x (digits_count dim_x) dim_y
      (digits_count dim_y)
    let named := prepare_message_names state state.players_count 0 (9 + injected.1) injected.2
    (named.1 + 1, named.2.set named.1 10)
  else if state.data_for_gui.event_type = EVENT_PIXEL then
    let coord_x := state.data_for_gui.x
    let coord_y := state.data_for_gui.y
    let player_no := state.data_for_gui.player_no
    let name_length := strlen (state.game_players.getD player_no [])
    let buffer1 := write_at buffer 0 text_PIXEL
    let injected := inject_two_separated_numbers buffer1 6 coord_x (digits_count coord_x)
      coord_y (digits_count coord_y)
    let buffer_offset := 6 + injected.1
    let buffer2 := snprintf injected.2 buffer_offset (name_length + 1)
      (c_str (state.game_players.getD player_no []))
    (buffer_offset + name_length + 1, buffer2.set (buffer_offset + name_length) 10)
  else if state.data_for_gui.event_type = EVENT_PLAYER_ELIMINATED then
    let player_no := state.data_for_gui.player_no
    let name_len := strlen (state.game_players.getD player_no [])
    let buffer1 := write_at buffer 0 text_PLAYER_ELIMINATED
    let buffer2 := snprintf buffer1 18 (name_len + 1)
      (c_str (state.game_players.getD player_no []))
    (18 + name_len + 1, buffer2.set (18 + name_len) 10)
  else (0, buffer)

/-- The line of the frontend protocol (section 4.6 of the specification) for the pending
event of the client: "NEW_GAME", the board dimensions and the names of the players,
"PIXEL", the coordinates and the name of the player, or "PLAYER_ELIMINATED" and the name
of the player, separated by single spaces and ended by a newline; no line for another
type. -/
def frontend_line (state : client_game_state_t) : List Nat :=
  if state.data_for_gui.event_type = EVENT_NEW_GAME then
    text_NEW_GAME ++ decimal state.data_for_gui.x ++ [32] ++ decimal state.data_for_gui.y ++
      [32] ++
      List.intercalate [32]
        ((List.range state.players_count).map (fun i => c_str (state.game_players.getD i []))) ++
      [10]
  else if state.data_for_gui.event_type = EVENT_PIXEL then
    text_PIXEL ++ decimal state.data_for_gui.x ++ [32] ++ decimal state.data_for_gui.y ++
      [32] ++ c_str (state.game_players.getD state.data_for_gui.player_no []) ++ [10]
  else if state.data_for_gui.event_type = EVENT_PLAYER_ELIMINATED then
    text_PLAYER_ELIMINATED ++ c_str (state.game_players.getD state.data_for_gui.player_no []) ++
      [10]
  else []

/-- A client in the game of "Alice" and "Bob" on the board of 640 by 480 with the pending
event `pending`. -/
def client_with_pending (pending : basic_event_data_t) : client_game_state_t :=
  { initialise_client_game_state default with
    players_count := 2
    board_dimension_x := 640
    board_dimension_y := 480
    game_players :=
      ((List.replicate MAX_PLAYERS (List.replicate (MAX_PLAYER_NAME_LENGTH + 1) 0)).set 0
        (name_array name_Alice)).set 1 (name_array name_Bob)
    data_for_gui := pending }

/-! ## Notions for the start of a game -/

/-- The number of playing slots among the `n` slots `i, i + 1, ...`. -/
def playing_count (players : List client_t) (i n : Nat) : Nat :=
  ((List.range' i n).filter (fun j => (players.getD j default).is_playing)).length

/-- The data of the client in a slot that `initiate_game` leaves as they are: the
connection, the name, the turn direction and the flags. -/
def client_of_slot (player : client_t) :
    connection_data_t × List Nat × Nat × Bool × Bool × Bool × Bool :=
  (player.conn, player.name, player.turn_direction, player.ready, player.is_playing,
    player.is_spectator, player.message)

/-- The bytes of "A". -/
def name_A : List Nat := [65]

/-- The bytes of "B". -/
def name_B : List Nat := [66]

/-- The bytes of "C". -/
def name_C : List Nat := [67]

/-- The lobby in which three clients have connected as "C" (ready), "A" (not ready) and
"B" (ready), in the slots 0, 1 and 2, and "A" has then sent turn direction 1: the three
slots are ready. -/
def lobby_C_A_B : server_game_state_t :=
  (main_loop_step east_libm
    (main_loop_step east_libm
      (main_loop_step east_libm
        (main_loop_step east_libm (initial_server_state 91923 default_params)
          (datagram_round address_Carol (session_1_dgram 1 0 name_C) 14)).1
        (datagram_round address_Alice (session_1_dgram 0 0 name_A) 14)).1
      (datagram_round address_Bob (session_1_dgram 1 0 name_B) 14)).1
    (datagram_round address_Alice (session_1_dgram 1 0 name_A) 14)).1

/-! ## Notions for the timeout and the admission of a client -/

/-- The state with the slot disconnected, in the words of the specification: the
connection is not active, the name is cleared,
`connected_players` is decreased by one, and while the server waits `ready_players` is
decreased when the slot was ready, `players_count` when it had a name, and the slot is not
ready. -/
def slot_timed_out (state : server_game_state_t) (slot : Nat) : server_game_state_t :=
  { state with
    connected_players := (state.connected_players + 255) % 256
    ready_players :=
      if state.game_status = GAME_STATE_WAITING_FOR_PLAYERS ∧
          (state.players.getD slot default).ready = true then
        (state.ready_players + 255) % 256
      else state.ready_players
    players_count :=
      if state.game_status = GAME_STATE_WAITING_FOR_PLAYERS ∧
          strlen (state.players.getD slot default).name > 0 then
        (state.players_count + 255) % 256
      else state.players_count
    players := state.players.set slot
      { state.players.getD slot default with
        conn := { (state.players.getD slot default).conn with is_connection_active := false }
        name := List.replicate (MAX_PLAYER_NAME_LENGTH + 1) 0
        ready :=
          if state.game_status = GAME_STATE_WAITING_FOR_PLAYERS then false
          else (state.players.getD slot default).ready } }

/-- The test with which `handle_timers` and `handle_new_client` start a game: the server
waits, every counted player is ready, and there are at least two of them. -/
def game_starts (state : server_game_state_t) : Prop :=
  state.game_status = GAME_STATE_WAITING_FOR_PLAYERS ∧
  state.ready_players = state.players_count ∧ state.ready_players > 1

instance (state : server_game_state_t) : Decidable (game_starts state) := by
  unfold game_starts
  infer_instance

/-- The state with the flag `message` of the slot cleared. -/
def message_cleared (state : server_game_state_t) (slot : Nat) : server_game_state_t :=
  { state with
    players := state.players.set slot
      { state.players.getD slot default with message := false } }

/-- The lobby after the game of Alice and Bob of seed 91923 when the address of Bob has
sent a datagram with session id 2, turn direction 0 and the name "Bob":
`handle_existing_client` takes the new session for slot 24, where the sort of
`initiate_game` has put Bob, and creates the timer of slot 24 (line 283).  The timers of
the slots 0 and 1 are those of the admissions of Alice and Bob. -/
def lobby_bob_renewed : server_game_state_t :=
  (main_loop_step east_libm game_of_91923_ended.1
    (datagram_round address_Bob (session_2_dgram 0 5 name_Bob) 16)).1

/-- The lobby `lobby_bob_renewed` in which Carol has then been admitted to slot 0 (ready),
and Alice (slot 23) and Carol have sent keepalive datagrams with turn direction 1: Alice
and Carol are ready and have their flag `message` set, Bob (slot 24) is not ready and has
sent nothing since his timer was created. -/
def lobby_after_game : server_game_state_t :=
  (main_loop_step east_libm
    (main_loop_step east_libm
      (main_loop_step east_libm lobby_bob_renewed
        (datagram_round address_Carol (session_1_dgram 1 5 name_Carol) 18)).1
      (datagram_round address_Alice (session_1_dgram 1 5 name_Alice) 18)).1
    (datagram_round address_Carol (session_1_dgram 1 5 name_Carol) 18)).1

/-- The timers of which only that of `slot` has fired. -/
def timer_of_slot (slot : Nat) : List Bool := List.replicate slot false ++ [true]

/-- What happens while the server waits in `poll` when only the time of the timer of
`slot` runs out and no datagram arrives. -/
def timer_round (slot : Nat) : poll_result_t :=
  { round_timer := false, slot_timers := timer_of_slot slot, datagram := none }

/-- The number of slots whose connection is active. -/
def active_count (players : List client_t) : Nat :=
  ((List.range MAX_PLAYERS).filter
    (fun j => (players.getD j default).conn.is_connection_active)).length

/-- The admission rule of the specification (section 4.4) for a datagram that carries the
name `name`: a slot is free, and the name is empty or no active slot holds exactly that
name. -/
def admissible (state : server_game_state_t) (name : List Nat) : Prop :=
  state.connected_players < MAX_PLAYERS ∧
  (name = [] ∨
    ∀ j, j < MAX_PLAYERS → (state.players.getD j default).conn.is_connection_active = true →
      c_str (state.players.getD j default).name ≠ name)

instance (state : server_game_state_t) (name : List Nat) :
    Decidable (admissible state name) := by
  unfold admissible
  infer_instance

/-! ## Messages of the frontend (`screen-worms-client.c`, lines 253-325) -/

def PARTIAL_MSG_BUFFER_LENGTH : Nat := 32
def LENGTH_LEFT_KEY_DOWN : Nat := 14
def LENGTH_LEFT_KEY_UP : Nat := 12
def LENGTH_RIGHT_KEY_DOWN : Nat := 15
def LENGTH_RIGHT_KEY_UP : Nat := 13

/-- The bytes of the string literal "LEFT_KEY_DOWN\n" of line 299. -/
def text_LEFT_KEY_DOWN : List Nat := [76, 69, 70, 84, 95, 75, 69, 89, 95, 68, 79, 87, 78, 10]

/-- The bytes of the string literal "RIGHT_KEY_DOWN\n" of line 304. -/
def text_RIGHT_KEY_DOWN : List Nat :=
  [82, 73, 71, 72, 84, 95, 75, 69, 89, 95, 68, 79, 87, 78, 10]

/-- The bytes of the string literal "LEFT_KEY_UP\n" of line 309. -/
def text_LEFT_KEY_UP : List Nat := [76, 69, 70, 84, 95, 75, 69, 89, 95, 85, 80, 10]

/-- The bytes of the string literal "RIGHT_KEY_UP\n" of line 314. -/
def text_RIGHT_KEY_UP : List Nat := [82, 73, 71, 72, 84, 95, 75, 69, 89, 95, 85, 80, 10]

/-- The client state together with the static variables `partial_gui_msg` (the array
`char[32]`) and `partial_gui_msg_length` of `screen-worms-client.c`. -/
structure gui_reader_t where
  state : client_game_state_t
  partial_gui_msg : List Nat
  partial_gui_msg_length : Nat
  deriving DecidableEq, Repr, Inhabited

/-- The `while` loop of lines 281-287, from index `len` on: the values of `len` and
`newline` after the loop.  The loop makes at most `read_bytes` rounds, and with the fuel
`read_bytes` the fuel is used up only when `len` has reached `read_bytes`. -/
def newline_scan (client_to_gui_buffer : List Nat) (read_bytes : Nat) :
    Nat → Nat → Nat × Bool
  | 0, len => (len, false)
  | fuel + 1, len =>
    if len < read_bytes then
      if client_to_gui_buffer.getD len 0 = 10 then (len + 1, true)
      else newline_scan client_to_gui_buffer read_bytes fuel (len + 1)
    else (len, false)

/-- The `for` loop of lines 294-296, from index `i` on:
`partial_gui_msg[i] = client_to_gui_buffer[i]`. -/
def copy_gui_msg (client_to_gui_buffer : List Nat) : Nat → Nat → List Nat → List Nat
  | 0, _, partial_gui_msg => partial_gui_msg
  | fuel + 1, i, partial_gui_msg =>
    copy_gui_msg client_to_gui_buffer fuel (i + 1)
      (partial_gui_msg.set i (client_to_gui_buffer.getD i 0))

/-- The C `handle_gui_message` when `read` has returned `data.length > 0` bytes, the bytes
`data` (at most 1024): `client_to_gui_buffer` holds them, followed by the NUL bytes of the
`memset` of line 255. -/
def handle_gui_data (reader : gui_reader_t) (data : List Nat) : gui_reader_t :=
  let client_to_gui_buffer := data ++ List.replicate (MSG_GUI_BUFFER_LENGTH - data.length) 0
  let read_bytes := data.length
  let scan := newline_scan client_to_gui_buffer read_bytes read_bytes 0
  let len := scan.1
  let newline := scan.2
  let start := reader.partial_gui_msg_length
  let partial_gui_msg_length := start + len
  let reader1 : gui_reader_t :=
    if newline = true ∧ partial_gui_msg_length < PARTIAL_MSG_BUFFER_LENGTH then
      let partial_gui_msg :=
        copy_gui_msg client_to_gui_buffer (partial_gui_msg_length - start) start
          reader.partial_gui_msg
      let client_turn_direction :=
        if partial_gui_msg_length = LENGTH_LEFT_KEY_DOWN ∧
            strcmp partial_gui_msg text_LEFT_KEY_DOWN = 0 then 2
        else if partial_gui_msg_length = LENGTH_RIGHT_KEY_DOWN ∧
            strcmp partial_gui_msg text_RIGHT_KEY_DOWN = 0 then 1
        else if partial_gui_msg_length = LENGTH_LEFT_KEY_UP ∧
            strcmp partial_gui_msg text_LEFT_KEY_UP = 0 then 0
        else if partial_gui_msg_length = LENGTH_RIGHT_KEY_UP ∧
            strcmp partial_gui_msg text_RIGHT_KEY_UP = 0 then 0
        else reader.state.client_turn_direction
      { state := { reader.state with client_turn_direction := client_turn_direction }
        partial_gui_msg := partial_gui_msg
        partial_gui_msg_length := partial_gui_msg_length }
    else { reader with partial_gui_msg_length := partial_gui_msg_length }
  if newline = true then
    { reader1 with
      partial_gui_msg := List.replicate PARTIAL_MSG_BUFFER_LENGTH 0
      partial_gui_msg_length := 0 }
  else reader1

/-- The C `handle_gui_message`: `read_result` is what `read` returns, `none` for a
negative value (then `errno_is_EINTR` tells whether `errno` is `EINTR`) and the bytes read
otherwise.  The result is `none` when the function calls `exit`. -/
def handle_gui_message (reader : gui_reader_t) (read_result : Option (List Nat))
    (errno_is_EINTR : Bool) : Option gui_reader_t :=
  match read_result with
  | none => if errno_is_EINTR then some reader else none
  | some data => if data.length = 0 then none else some (handle_gui_data reader data)

/-- The reads of the frontend socket handled in order, each returning the given bytes:
`none` when a call of `handle_gui_message` exits. -/
def handle_gui_messages : gui_reader_t → List (List Nat) → Option gui_reader_t
  | reader, [] => some reader
  | reader, data :: rest =>
    match handle_gui_message reader (some data) false with
    | none => none
    | some reader1 => handle_gui_messages reader1 rest

/-- The key mapping of the specification (section 4.6): the turn direction after the line
`line`, when it was `old` before. -/
def key_direction (line : List Nat) (old : Nat) : Nat :=
  if line = text_LEFT_KEY_DOWN then 2
  else if line = text_RIGHT_KEY_DOWN then 1
  else if line = text_LEFT_KEY_UP ∨ line = text_RIGHT_KEY_UP then 0
  else old

/-- The client `state` with an empty buffer for the partial line. -/
def empty_reader (state : client_game_state_t) : gui_reader_t :=
  { state := state
    partial_gui_msg := List.replicate PARTIAL_MSG_BUFFER_LENGTH 0
    partial_gui_msg_length := 0 }

/-! ## Runs of the server used for the round tick -/

/-- The server started with seed 84 and the default parameters after the first datagrams
of Alice and of Bob, both with turn direction 1 (right): the game has started. -/
def game_of_84_started : server_game_state_t :=
  (main_loop_step east_libm
    (main_loop_step east_libm (initial_server_state 84 default_params)
      (datagram_round address_Alice (session_1_dgram 1 0 name_Alice) 18)).1
    (datagram_round address_Bob (session_1_dgram 1 0 name_Bob) 16)).1

/-- The state after the next round of the loop of `main`, in which the round timer has
fired. -/
def game_of_84_after_tick : server_game_state_t :=
  (main_loop_step east_libm game_of_84_started
    { round_timer := true, slot_timers := [], datagram := none }).1

/-! ## Notions for the occupancy of the board -/

/-- Some entry before index `count` of the log is the PIXEL of the cell (`x`, `y`). -/
def pixel_logged (queue : List event_data_t) (count x y : Nat) : Prop :=
  ∃ k, k < count ∧ (queue.getD k default).event_type = EVENT_PIXEL ∧
    (queue.getD k default).x = x ∧ (queue.getD k default).y = y

/-- The occupancy invariant of the log: every PIXEL entry lies inside the board, no two
PIXEL entries name the same cell, and a cell of `game_board` is true exactly when a PIXEL
entry names it. -/
def occupancy_inv (state : server_game_state_t) : Prop :=
  (∀ k, k < state.events_count →
    (state.events_queue.getD k default).event_type = EVENT_PIXEL →
    (state.events_queue.getD k default).x < state.game_params.board_dimension_x ∧
    (state.events_queue.getD k default).y < state.game_params.board_dimension_y) ∧
  (∀ k m, k < state.events_count → m < state.events_count →
    (state.events_queue.getD k default).event_type = EVENT_PIXEL →
    (state.events_queue.getD m default).event_type = EVENT_PIXEL →
    (state.events_queue.getD k default).x = (state.events_queue.getD m default).x →
    (state.events_queue.getD k default).y = (state.events_queue.getD m default).y → k = m) ∧
  (∀ x y, (state.game_board.getD x []).getD y false = true ↔
    pixel_logged state.events_queue state.events_count x y)

/-- The board is the array of `board_dimension_x` rows of `board_dimension_y` entries that
`main` allocates (lines 556-572), and the dimensions are values of `uint32_t`. -/
def board_allocated (state : server_game_state_t) : Prop :=
  state.game_params.board_dimension_x < UINT32_RANGE ∧
  state.game_params.board_dimension_y < UINT32_RANGE ∧
  state.game_board.length = state.game_params.board_dimension_x ∧
  ∀ x, x < state.game_params.board_dimension_x →
    (state.game_board.getD x []).length = state.game_params.board_dimension_y

/-- The value is in the range of `int32_t`. -/
def in_int32 (v : Int) : Prop := -2147483648 ≤ v ∧ v < 2147483648

instance (v : Int) : Decidable (in_int32 v) := by
  unfold in_int32
  infer_instance

/-- The moves of the slots in the state end at positions whose integer parts are in the
range of `int32_t`, as the casts `(int32_t) floor(...)` of lines 421-422 require. -/
def moves_in_int32 (libm : libm_t) (state : server_game_state_t) : Prop :=
  ∀ i, i < MAX_PLAYERS →
    in_int32 (floor_int32 (moved_player libm state i).x_pos) ∧
    in_int32 (floor_int32 (moved_player libm state i).y_pos)

instance (libm : libm_t) (state : server_game_state_t) :
    Decidable (moves_in_int32 libm state) := by
  unfold moves_in_int32
  infer_instance

/-- The states have the same board, log and parameters. -/
def same_board (a b : server_game_state_t) : Prop :=
  b.game_board = a.game_board ∧ b.events_queue = a.events_queue ∧
  b.events_count = a.events_count ∧ b.game_params = a.game_params

/-- The state `b` has the board, log and parameters of the state `a`, or it is the state
in which `initiate_game` leaves a state with the board, log and parameters of `a`. -/
def kept_or_restarted (a b : server_game_state_t) : Prop :=
  same_board a b ∨ ∃ s0, same_board a s0 ∧ b = (initiate_game s0).1

/-! ## Notions for the starting cells -/

/-- The cell of the worm of the slot: the integer parts of its position (the values
`integer_coord_x` and `integer_coord_y` of lines 321-322 of `initiate_game`). -/
def start_cell (player : client_t) : Nat × Nat :=
  ((trunc_int32 player.x_pos).toNat, (trunc_int32 player.y_pos).toNat)

/-- An earlier playing slot than `s` has the cell of slot `s`. -/
def start_cell_taken (players : List client_t) (s : Nat) : Prop :=
  ∃ t, t < s ∧ (players.getD t default).is_playing = true ∧
    start_cell (players.getD t default) = start_cell (players.getD s default)

/-- The lobby with Alice and Bob, both ready, of the server started with seed 416429. -/
def lobby_of_416429 : server_game_state_t :=
  { lobby_with_alice_and_bob with random := { seed := 416429, seed_no := 0 } }

/-- The server started with seed 416429 and the default parameters after the first
datagrams of Alice and of Bob, both with turn direction 2: the game has started. -/
def game_of_416429_started : server_game_state_t :=
  (main_loop_step east_libm
    (main_loop_step east_libm (initial_server_state 416429 default_params)
      (datagram_round address_Alice (session_1_dgram 2 0 name_Alice) 18)).1
    (datagram_round address_Bob (session_1_dgram 2 0 name_Bob) 16)).1

/-! ## Notions for the sort of the slots -/

/-- The slots of the table whose name is empty, in the order of the table. -/
def empty_named (players : List client_t) : List client_t :=
  players.filter (fun p => strlen p.name == 0)

/-- The lobby with Alice (slot 0) and Bob (slot 1, not ready) after a datagram from the
address of Bob with session id 2, turn direction 0 and the name "Alice":
`handle_existing_client` gives slot 1 the name "Alice", which slot 0 holds too. -/
def lobby_two_alices : server_game_state_t :=
  (main_loop_step east_libm lobby_bob_not_ready
    (datagram_round address_Bob (session_2_dgram 0 0 name_Alice) 18)).1

/-! ## Notions for the counters of the lobby and the player numbers of the log -/

/-- Every PIXEL and PLAYER_ELIMINATED entry of the log carries a player number below
`count`. -/
def log_numbers_below (count : Nat) (state : server_game_state_t) : Prop :=
  ∀ k, k < state.events_count →
    ((state.events_queue.getD k default).event_type = EVENT_PIXEL ∨
      (state.events_queue.getD k default).event_type = EVENT_PLAYER_ELIMINATED) →
    (state.events_queue.getD k default).player_number < count

instance (count : Nat) (state : server_game_state_t) :
    Decidable (log_numbers_below count state) := by
  unfold log_numbers_below
  infer_instance

/-- Every playing slot carries a player number below `count`. -/
def slot_numbers_below (count : Nat) (state : server_game_state_t) : Prop :=
  ∀ i, i < MAX_PLAYERS → (state.players.getD i default).is_playing = true →
    (state.players.getD i default).player_number < count

instance (count : Nat) (state : server_game_state_t) :
    Decidable (slot_numbers_below count state) := by
  unfold slot_numbers_below
  infer_instance

/-- The game of `count` players is on: the status is GAME_STARTED, `players_count` is
`count`, the playing slots are `count` many, and the player numbers of the playing slots
and of the PIXEL and PLAYER_ELIMINATED entries of the log are below `count`. -/
def game_numbers_ok (count : Nat) (state : server_game_state_t) : Prop :=
  state.game_status = GAME_STATE_GAME_STARTED ∧ state.players_count = count ∧
  playing_count state.players 0 MAX_PLAYERS = count ∧
  slot_numbers_below count state ∧ log_numbers_below count state

instance (count : Nat) (state : server_game_state_t) :
    Decidable (game_numbers_ok count state) := by
  unfold game_numbers_ok
  infer_instance

/-- The state after the given rounds of the loop of `main` when each of them is a round of
the game: it starts while the game is on, with room in the log for the events of a tick
within the 32-bit event numbers, its tick does not end the game, and no call of
`enqueue_event` in the round takes the branch of `realloc` (the state after the round has
`events_queue_stale = false`); `none` when a round is not of this kind. -/
def rounds_of_game (libm : libm_t) :
    server_game_state_t → List poll_result_t → Option server_game_state_t
  | state, [] => some state
  | state, polled :: rest =>
    if state.game_status = GAME_STATE_GAME_STARTED ∧
        state.events_count + MAX_PLAYERS + 1 < UINT32_RANGE ∧
        (round_tick libm state polled).1.game_status = GAME_STATE_GAME_STARTED ∧
        (main_loop_step libm state polled).1.events_queue_stale = false then
      rounds_of_game libm (main_loop_step libm state polled).1 rest
    else none

/-- The lobby after the game of Alice and Bob of seed 91923 when the address of Bob has
sent a datagram of 13 bytes with session id 2, turn direction 0 and no name: the slot of
Bob is a spectator and Alice alone is counted. -/
def lobby_bob_watching : server_game_state_t :=
  (main_loop_step east_libm game_of_91923_ended.1
    (datagram_round address_Bob (session_2_dgram 0 5 []) 13)).1

/-- The lobby with a spectator (slot 0, no name) after a datagram from its address with
the same session id 1, no name and turn direction 1. -/
def spectator_ready : server_game_state_t :=
  (main_loop_step east_libm lobby_with_spectator
    (datagram_round address_Bob (session_1_dgram 1 0 []) 13)).1

/-- The number of slots whose flag `ready` is set. -/
def ready_flag_count (players : List client_t) : Nat :=
  ((List.range MAX_PLAYERS).filter (fun j => (players.getD j default).ready)).length

/-! ## The rows of `game_players` written by `parse_player_names` -/

/-- The rows of `game_players` into which the copy loop of `parse_player_names` (lines
37-39) stores, in the order of the stores: the values of `names_count` at line 38, each
time with `current_name_len > 0` bytes.  The arguments are those of the `while` loop:
the offset, `names_count` (a `uint8_t`) and `current_name_len`.  The table has the rows 0
to 24; for a store into another row `parse_player_names_loop` sets `names_out_of_table`
and leaves the table as it is. -/
def parse_player_names_rows (buffer : List Nat) (remaining : Nat) :
    Nat → Nat → Nat → Nat → List Nat
  | 0, _, _, _ => []
  | fuel + 1, offset, names_count, current_name_len =>
    if offset < remaining then
      if byte_at buffer offset ≥ PLAYER_NAME_MINIMAL_ASCII ∧
          byte_at buffer offset ≤ PLAYER_NAME_MAXIMAL_ASCII then
        if current_name_len + 1 > 20 then []
        else
          parse_player_names_rows buffer remaining fuel (offset + 1) names_count
            (current_name_len + 1)
      else if byte_at buffer offset = 0 then
        if current_name_len = 0 then []
        else
          names_count ::
            parse_player_names_rows buffer remaining fuel (offset + 1)
              ((names_count + 1) % 256) 0
      else []
    else []

/-- The rows of `game_players` into which a call of `parse_player_names` stores. -/
def parse_player_names_stores (buffer : List Nat) (remaining : Nat) : List Nat :=
  parse_player_names_rows buffer remaining remaining 0 0 0

/-- A NEW_GAME record that lists the 26 names "A", "B", ..., "Z": `len = 65`,
`event_no = 0`, `event_type = 0`, `x = 800`, `y = 600`, the names with their NUL bytes,
and the checksum. -/
def new_game_record_of_26_names : List Nat :=
  [0, 0, 0, 65, 0, 0, 0, 0, 0, 0, 0, 3, 32, 0, 0, 2, 88, 65, 0, 66, 0, 67, 0, 68, 0, 69, 0,
    70, 0, 71, 0, 72, 0, 73, 0, 74, 0, 75, 0, 76, 0, 77, 0, 78, 0, 79, 0, 80, 0, 81, 0,
    82, 0, 83, 0, 84, 0, 85, 0, 86, 0, 87, 0, 88, 0, 89, 0, 90, 0, 183, 238, 113, 121]

theorem generate_random_fst (status : seed_status_t) :
    (generate_random status).1 = (generate_random status).2.seed := rfl

theorem generate_random_seed_no (status : seed_status_t) :
    (generate_random status).2.seed_no = (status.seed_no + 1) % UINT32_RANGE := rfl

theorem status_after_seed_no (n s : Nat) :
    (status_after n { seed := s, seed_no := 0 }).seed_no = n % UINT32_RANGE := by
  induction n with
  | zero => rfl
  | succ k ih =>
    rw [status_after, generate_random_seed_no, ih]
    unfold UINT32_RANGE
    omega

theorem status_after_succ_seed (n : Nat) (status : seed_status_t) :
    (status_after (n + 1) status).seed = nth_random n status := rfl

/-- A call in a status whose counter is not zero multiplies the stored seed. -/
theorem generate_random_of_ne_zero (status : seed_status_t) (h : status.seed_no ≠ 0) :
    (generate_random status).1 = status.seed * SEED_MULTIPLIER % SEED_MODULUS := by
  have hlt : status.seed * SEED_MULTIPLIER % SEED_MODULUS < UINT32_RANGE := by
    have := Nat.mod_lt (status.seed * SEED_MULTIPLIER) (show 0 < SEED_MODULUS by decide)
    unfold SEED_MODULUS at this ⊢
    unfold UINT32_RANGE
    omega
  simp only [generate_random, h, ne_eq, not_false_eq_true, if_true]
  exact Nat.mod_eq_of_lt hlt

/-- A call in a status whose counter is zero returns the stored seed unchanged. -/
theorem generate_random_of_eq_zero (status : seed_status_t) (h : status.seed_no = 0) :
    (generate_random status).1 = status.seed := by
  simp [generate_random, h]

/-- The recurrence holds for the calls number 1 to `2^32 - 1` of a run. -/
theorem nth_random_succ (n s : Nat) (h : (n + 1) % UINT32_RANGE ≠ 0) :
    nth_random (n + 1) { seed := s, seed_no := 0 } =
      nth_random n { seed := s, seed_no := 0 } * SEED_MULTIPLIER % SEED_MODULUS := by
  unfold nth_random
  rw [generate_random_of_ne_zero _ (by rw [status_after_seed_no]; exact h)]
  rfl

theorem nth_random_zero (s : Nat) : nth_random 0 { seed := s, seed_no := 0 } = s := rfl

/-- Closed form of the values returned by the calls number 1 to `2^32 - 1`. -/
theorem nth_random_closed (s : Nat) :
    ∀ n, 0 < n → n < UINT32_RANGE →
      nth_random n { seed := s, seed_no := 0 } = s * SEED_MULTIPLIER ^ n % SEED_MODULUS := by
  intro n
  induction n with
  | zero => intro h; omega
  | succ k ih =>
    intro _ hlt
    have hk : (k + 1) % UINT32_RANGE ≠ 0 := by
      rw [Nat.mod_eq_of_lt hlt]; omega
    rw [nth_random_succ k s hk]
    rcases Nat.eq_zero_or_pos k with h0 | hpos
    · subst h0
      rw [nth_random_zero]; simp
    · rw [ih hpos (by omega), Nat.mod_mul_mod, pow_succ, Nat.mul_assoc]

theorem multiplier_pow_not_fixed (k : Nat) :
    (1 * SEED_MULTIPLIER ^ k % SEED_MODULUS) * SEED_MULTIPLIER % SEED_MODULUS ≠
      1 * SEED_MULTIPLIER ^ k % SEED_MODULUS := by
  intro h
  rw [Nat.one_mul, Nat.mod_mul_mod] at h
  have hco : Nat.gcd SEED_MODULUS (SEED_MULTIPLIER ^ k) = 1 := by
    have h1 : Nat.Coprime SEED_MULTIPLIER SEED_MODULUS := by decide
    exact (Nat.Coprime.pow_left k h1).symm
  have hmod : SEED_MULTIPLIER ^ k * SEED_MULTIPLIER ≡ SEED_MULTIPLIER ^ k * 1 [MOD SEED_MODULUS] := by
    rw [Nat.mul_one]; exact h
  have hc := Nat.ModEq.cancel_left_of_coprime hco hmod
  have : SEED_MULTIPLIER % SEED_MODULUS = 1 % SEED_MODULUS := hc
  revert this
  decide

/-- C1 (defect of the code).  In the run that starts with seed 1 and `seed_no = 0`, the
32-bit counter `seed_no` is 0 again after `2^32` calls, so the call number `2^32`, a
subsequent call, returns the value of the call before it unchanged, and not that value
times 279410273 modulo 4294967291. -/
theorem generate_random_counter_wraps :
    (status_after 4294967296 { seed := 1, seed_no := 0 }).seed_no = 0 ∧
    nth_random 4294967296 { seed := 1, seed_no := 0 } =
      nth_random 4294967295 { seed := 1, seed_no := 0 } ∧
    nth_random 4294967296 { seed := 1, seed_no := 0 } ≠
      nth_random 4294967295 { seed := 1, seed_no := 0 } * SEED_MULTIPLIER % SEED_MODULUS := by
  have hno : (status_after 4294967296 { seed := 1, seed_no := 0 }).seed_no = 0 := by
    rw [status_after_seed_no]; decide
  have heq : nth_random 4294967296 { seed := 1, seed_no := 0 } =
      nth_random 4294967295 { seed := 1, seed_no := 0 } := by
    unfold nth_random
    rw [generate_random_of_eq_zero _ hno]
    exact status_after_succ_seed 4294967295 _
  refine ⟨hno, heq, ?_⟩
  rw [heq, nth_random_closed 1 4294967295 (by decide) (by decide)]
  exact fun h => multiplier_pow_not_fixed 4294967295 h.symm

/-- C2 (as the code behaves).  From seed 77 and `seed_no = 0`, seven consecutive calls of
`generate_random` return 77, 39754566, 752511514, 2436310300, 2508204497, 1087256051 and
295295583. -/
theorem generate_random_seed_77 :
    random_values 7 { seed := 77, seed_no := 0 } =
      [77, 39754566, 752511514, 2436310300, 2508204497, 1087256051, 295295583] := by
  decide

/-- C2 (as stated, refuted).  The seven values are not 77, 21533784, 2467642624,
2084910723, 1592013257, 2990447705, 2726778476: already the second call returns
39754566. -/
theorem generate_random_seed_77_not_as_stated :
    random_values 7 { seed := 77, seed_no := 0 } ≠
      [77, 21533784, 2467642624, 2084910723, 1592013257, 2990447705, 2726778476] := by
  decide

/-! ## Bytes and the checksum -/

theorem htonl_length (x : Nat) : (htonl x).length = 4 := rfl

theorem htonl_bytes_ok (x : Nat) : bytes_ok (htonl x) := by
  intro b hb
  simp only [htonl, List.mem_cons, List.mem_singleton, List.not_mem_nil, or_false] at hb
  rcases hb with h | h | h | h <;> subst h <;> exact Nat.mod_lt _ (by decide)

theorem byte_at_append_left (a b : List Nat) (i : Nat) (h : i < a.length) :
    byte_at (a ++ b) i = byte_at a i := by
  unfold byte_at
  rw [List.getD_append _ _ _ _ h]

theorem byte_at_append_right (a b : List Nat) (i : Nat) (h : a.length ≤ i) :
    byte_at (a ++ b) i = byte_at b (i - a.length) := by
  unfold byte_at
  rw [List.getD_append_right _ _ _ _ h]

theorem ntohl_append_right (a b : List Nat) (off : Nat) (h : a.length ≤ off) :
    ntohl (a ++ b) off = ntohl b (off - a.length) := by
  unfold ntohl
  rw [byte_at_append_right a b off h, byte_at_append_right a b (off + 1) (by omega),
    byte_at_append_right a b (off + 2) (by omega), byte_at_append_right a b (off + 3) (by omega)]
  have e1 : off + 1 - a.length = off - a.length + 1 := by omega
  have e2 : off + 2 - a.length = off - a.length + 2 := by omega
  have e3 : off + 3 - a.length = off - a.length + 3 := by omega
  rw [e1, e2, e3]

theorem ntohl_htonl (x : Nat) (rest : List Nat) (h : x < UINT32_RANGE) :
    ntohl (htonl x ++ rest) 0 = x := by
  unfold UINT32_RANGE at h
  simp only [ntohl, byte_at, htonl, List.cons_append, List.getD_cons_zero, List.getD_cons_succ,
    Nat.zero_add]
  omega

/-- Decoding of a big-endian field that starts right after the prefix `a`. -/
theorem ntohl_at_htonl (a : List Nat) (x : Nat) (rest : List Nat) (off : Nat)
    (hoff : off = a.length) (h : x < UINT32_RANGE) :
    ntohl (a ++ (htonl x ++ rest)) off = x := by
  subst hoff
  rw [ntohl_append_right a _ _ (Nat.le_refl _), Nat.sub_self, ntohl_htonl x rest h]

theorem crc_32_bit_lt (c : Nat) (h : c < 4294967296) : crc_32_bit c < 4294967296 := by
  unfold crc_32_bit
  split
  · exact Nat.xor_lt_two_pow (n := 32) (by omega) (by decide)
  · omega

theorem crc_32_byte_lt (c b : Nat) (h : c < 4294967296) : crc_32_byte c b < 4294967296 := by
  unfold crc_32_byte
  have h0 : c ^^^ (b % 256) < 4294967296 :=
    Nat.xor_lt_two_pow (n := 32) h (by have := Nat.mod_lt b (show 0 < 256 by decide); omega)
  exact crc_32_bit_lt _ (crc_32_bit_lt _ (crc_32_bit_lt _ (crc_32_bit_lt _ (crc_32_bit_lt _
    (crc_32_bit_lt _ (crc_32_bit_lt _ (crc_32_bit_lt _ h0)))))))

theorem crc_32_foldl_lt (l : List Nat) :
    ∀ c, c < 4294967296 → l.foldl crc_32_byte c < 4294967296 := by
  induction l with
  | nil => intro c h; exact h
  | cons b t ih => intro c h; exact ih _ (crc_32_byte_lt c b h)

/-- The checksum is a 32-bit value. -/
theorem crc_32_lt (buffer : List Nat) (len : Nat) : crc_32 buffer len < UINT32_RANGE := by
  unfold crc_32 UINT32_RANGE
  exact Nat.xor_lt_two_pow (n := 32) (crc_32_foldl_lt _ _ (by decide)) (by decide)

/-- The checksum of the first `len` bytes does not depend on the bytes that follow. -/
theorem crc_32_append (a b : List Nat) (len : Nat) (h : len = a.length) :
    crc_32 (a ++ b) len = crc_32 a len := by
  subst h
  unfold crc_32
  rw [List.take_left, List.take_length]

/-! ## Serialisation of event records -/

theorem player_names_bytes_length (names : List (List Nat)) :
    ∀ fuel i, (∀ j, i ≤ j → j < i + fuel → strlen (names.getD j []) ≤ 20) →
      (player_names_bytes names fuel i).length ≤ 21 * fuel := by
  intro fuel
  induction fuel with
  | zero => intro i _; simp [player_names_bytes]
  | succ k ih =>
    intro i h
    have h1 := h i (Nat.le_refl _) (by omega)
    have h2 := ih (i + 1) (fun j hj1 hj2 => h j (by omega) (by omega))
    simp only [player_names_bytes, List.length_append, List.length_singleton]
    unfold strlen at h1
    omega

/-- The NEW_GAME record, for a name table within the bounds of the C arrays. -/
theorem serialize_new_game (state : server_game_state_t) (event_no : Nat)
    (remaining_space : Int)
    (hcount : state.players_count ≤ 25)
    (hnames : ∀ i, i < state.players_count →
      strlen (state.game_primary_player_names.getD i []) ≤ 20)
    (ht : (state.events_queue.getD event_no default).event_type = EVENT_NEW_GAME) :
    serialize_event_record state event_no remaining_space =
      some ((htonl (13 +
          (player_names_bytes state.game_primary_player_names state.players_count 0).length) ++
        (htonl event_no ++ [0] ++ htonl (state.events_queue.getD event_no default).x ++
          htonl (state.events_queue.getD event_no default).y ++
          player_names_bytes state.game_primary_player_names state.players_count 0)) ++
        htonl (crc_32 (htonl (13 +
          (player_names_bytes state.game_primary_player_names state.players_count 0).length) ++
        (htonl event_no ++ [0] ++ htonl (state.events_queue.getD event_no default).x ++
          htonl (state.events_queue.getD event_no default).y ++
          player_names_bytes state.game_primary_player_names state.players_count 0))
          (17 +
          (player_names_bytes state.game_primary_player_names state.players_count 0).length))) := by
  have hlen := player_names_bytes_length state.game_primary_player_names state.players_count 0
    (fun j _ hj => hnames j (by omega))
  have hmod : (EVENT_FIELDS_LENGTH_NEW_GAME_RAW +
      (player_names_bytes state.game_primary_player_names state.players_count 0).length) %
        UINT32_RANGE = 13 +
      (player_names_bytes state.game_primary_player_names state.players_count 0).length := by
    unfold EVENT_FIELDS_LENGTH_NEW_GAME_RAW UINT32_RANGE
    omega
  have e17 : ∀ k : Nat, 4 + (13 + k) = 17 + k := fun k => by omega
  unfold serialize_event_record
  simp only [ht, if_true, hmod, e17]
  simp [EVENT_NEW_GAME, List.append_assoc]

/-- The PIXEL record. -/
theorem serialize_pixel (state : server_game_state_t) (event_no : Nat)
    (remaining_space : Int)
    (ht : (state.events_queue.getD event_no default).event_type = EVENT_PIXEL)
    (hs : 22 ≤ remaining_space) :
    serialize_event_record state event_no remaining_space =
      some ((htonl 14 ++ (htonl event_no ++
        [1, (state.events_queue.getD event_no default).player_number % 256] ++
        htonl (state.events_queue.getD event_no default).x ++
        htonl (state.events_queue.getD event_no default).y)) ++
        htonl (crc_32 (htonl 14 ++ (htonl event_no ++
        [1, (state.events_queue.getD event_no default).player_number % 256] ++
        htonl (state.events_queue.getD event_no default).x ++
        htonl (state.events_queue.getD event_no default).y)) 18)) := by
  unfold serialize_event_record
  have hn : ¬ ((EVENT_RECORD_LENGTH_PIXEL : Int) > remaining_space) := by
    unfold EVENT_RECORD_LENGTH_PIXEL; push_cast; omega
  simp only [ht, hn, if_false]
  simp [EVENT_NEW_GAME, EVENT_PIXEL, EVENT_FIELDS_LENGTH_PIXEL, List.append_assoc]

/-- The PLAYER_ELIMINATED record. -/
theorem serialize_player_eliminated (state : server_game_state_t) (event_no : Nat)
    (remaining_space : Int)
    (ht : (state.events_queue.getD event_no default).event_type = EVENT_PLAYER_ELIMINATED)
    (hs : 14 ≤ remaining_space) :
    serialize_event_record state event_no remaining_space =
      some ((htonl 6 ++ (htonl event_no ++
        [2, (state.events_queue.getD event_no default).player_number % 256])) ++
        htonl (crc_32 (htonl 6 ++ (htonl event_no ++
        [2, (state.events_queue.getD event_no default).player_number % 256])) 10)) := by
  unfold serialize_event_record
  have hn : ¬ ((EVENT_RECORD_LENGTH_PLAYER_ELIMINATED : Int) > remaining_space) := by
    unfold EVENT_RECORD_LENGTH_PLAYER_ELIMINATED; push_cast; omega
  simp only [ht, hn, if_false]
  simp [EVENT_NEW_GAME, EVENT_PIXEL, EVENT_PLAYER_ELIMINATED,
    EVENT_FIELDS_LENGTH_PLAYER_ELIMINATED, List.append_assoc]

/-- The record of an entry of any other type, GAME_OVER among them. -/
theorem serialize_game_over (state : server_game_state_t) (event_no : Nat)
    (remaining_space : Int)
    (h0 : (state.events_queue.getD event_no default).event_type ≠ EVENT_NEW_GAME)
    (h1 : (state.events_queue.getD event_no default).event_type ≠ EVENT_PIXEL)
    (h2 : (state.events_queue.getD event_no default).event_type ≠ EVENT_PLAYER_ELIMINATED)
    (hs : 13 ≤ remaining_space) :
    serialize_event_record state event_no remaining_space =
      some ((htonl 5 ++ (htonl event_no ++
        [(state.events_queue.getD event_no default).event_type % 256])) ++
        htonl (crc_32 (htonl 5 ++ (htonl event_no ++
        [(state.events_queue.getD event_no default).event_type % 256])) 9)) := by
  unfold serialize_event_record
  have hn : ¬ ((EVENT_RECORD_LENGTH_GAME_OVER : Int) > remaining_space) := by
    unfold EVENT_RECORD_LENGTH_GAME_OVER; push_cast; omega
  simp only [h0, h1, h2, hn, if_false]
  simp [EVENT_FIELDS_LENGTH_GAME_OVER, List.append_assoc]

theorem serialize_pixel_none (state : server_game_state_t) (event_no : Nat)
    (remaining_space : Int)
    (ht : (state.events_queue.getD event_no default).event_type = EVENT_PIXEL)
    (hs : remaining_space < 22) :
    serialize_event_record state event_no remaining_space = none := by
  unfold serialize_event_record
  have hn : (EVENT_RECORD_LENGTH_PIXEL : Int) > remaining_space := by
    unfold EVENT_RECORD_LENGTH_PIXEL; push_cast; omega
  simp only [ht, hn, if_true]
  simp [EVENT_NEW_GAME, EVENT_PIXEL]

theorem serialize_player_eliminated_none (state : server_game_state_t) (event_no : Nat)
    (remaining_space : Int)
    (ht : (state.events_queue.getD event_no default).event_type = EVENT_PLAYER_ELIMINATED)
    (hs : remaining_space < 14) :
    serialize_event_record state event_no remaining_space = none := by
  unfold serialize_event_record
  have hn : (EVENT_RECORD_LENGTH_PLAYER_ELIMINATED : Int) > remaining_space := by
    unfold EVENT_RECORD_LENGTH_PLAYER_ELIMINATED; push_cast; omega
  simp only [ht, hn, if_true]
  simp [EVENT_NEW_GAME, EVENT_PIXEL, EVENT_PLAYER_ELIMINATED]

theorem serialize_game_over_none (state : server_game_state_t) (event_no : Nat)
    (remaining_space : Int)
    (h0 : (state.events_queue.getD event_no default).event_type ≠ EVENT_NEW_GAME)
    (h1 : (state.events_queue.getD event_no default).event_type ≠ EVENT_PIXEL)
    (h2 : (state.events_queue.getD event_no default).event_type ≠ EVENT_PLAYER_ELIMINATED)
    (hs : remaining_space < 13) :
    serialize_event_record state event_no remaining_space = none := by
  unfold serialize_event_record
  have hn : (EVENT_RECORD_LENGTH_GAME_OVER : Int) > remaining_space := by
    unfold EVENT_RECORD_LENGTH_GAME_OVER; push_cast; omega
  simp only [h0, h1, h2, hn, if_true, if_false]

/-- The length of the list of bytes is the `record_size` of the C code. -/
theorem serialize_event_record_length (state : server_game_state_t) (event_no : Nat)
    (remaining_space : Int) (record : List Nat)
    (h : serialize_event_record state event_no remaining_space = some record) :
    record.length = record_size state event_no := by
  unfold serialize_event_record at h
  unfold record_size
  simp only at h ⊢
  split at h
  · next ht =>
    injection h with h
    rw [if_pos ht, ← h]
    simp [htonl_length, INTEGER_FIELDS_LEN_EVENT_RECORD_NEW_GAME]
    omega
  · next ht =>
    rw [if_neg ht]
    split at h
    · next ht1 =>
      rw [if_pos ht1]
      split at h
      · exact absurd h (by simp)
      · injection h with h
        rw [← h]; simp [htonl_length, EVENT_RECORD_LENGTH_PIXEL]
    · next ht1 =>
      rw [if_neg ht1]
      split at h
      · next ht2 =>
        rw [if_pos ht2]
        split at h
        · exact absurd h (by simp)
        · injection h with h
          rw [← h]; simp [htonl_length, EVENT_RECORD_LENGTH_PLAYER_ELIMINATED]
      · next ht2 =>
        rw [if_neg ht2]
        split at h
        · exact absurd h (by simp)
        · injection h with h
          rw [← h]; simp [htonl_length, EVENT_RECORD_LENGTH_GAME_OVER]

/-- The record is refused exactly when it is not a NEW_GAME record and its size exceeds
the remaining space. -/
theorem serialize_event_record_eq_none_iff (state : server_game_state_t) (event_no : Nat)
    (remaining_space : Int) :
    serialize_event_record state event_no remaining_space = none ↔
      (state.events_queue.getD event_no default).event_type ≠ EVENT_NEW_GAME ∧
        remaining_space < (record_size state event_no : Int) := by
  unfold serialize_event_record record_size
  simp only
  by_cases ht : (state.events_queue.getD event_no default).event_type = EVENT_NEW_GAME
  · rw [if_pos ht]
    exact ⟨fun h => absurd h (Option.some_ne_none _), fun h => absurd ht h.1⟩
  · rw [if_neg ht, if_neg ht]
    by_cases ht1 : (state.events_queue.getD event_no default).event_type = EVENT_PIXEL
    · rw [if_pos ht1, if_pos ht1]
      split
      · next hs => exact ⟨fun _ => ⟨ht, hs⟩, fun _ => rfl⟩
      · next hs => exact ⟨fun h => absurd h (Option.some_ne_none _), fun h => absurd h.2 hs⟩
    · rw [if_neg ht1, if_neg ht1]
      by_cases ht2 :
        (state.events_queue.getD event_no default).event_type = EVENT_PLAYER_ELIMINATED
      · rw [if_pos ht2, if_pos ht2]
        split
        · next hs => exact ⟨fun _ => ⟨ht, hs⟩, fun _ => rfl⟩
        · next hs => exact ⟨fun h => absurd h (Option.some_ne_none _), fun h => absurd h.2 hs⟩
      · rw [if_neg ht2, if_neg ht2]
        split
        · next hs => exact ⟨fun _ => ⟨ht, hs⟩, fun _ => rfl⟩
        · next hs => exact ⟨fun h => absurd h (Option.some_ne_none _), fun h => absurd h.2 hs⟩

/-- Properties of a framed record `len || payload || crc`. -/
theorem framed_record_properties (len : Nat) (rest : List Nat) (n : Nat)
    (hlen : len = rest.length) (hn : n = 4 + rest.length)
    (hr : 5 ≤ rest.length) (hlt : rest.length < UINT32_RANGE) (record : List Nat)
    (hrec : record = (htonl len ++ rest) ++ htonl (crc_32 (htonl len ++ rest) n)) :
    13 ≤ record.length ∧ record.take 4 = htonl (record.length - 8) ∧
    ntohl record 0 = record.length - 8 ∧
    record.drop (record.length - 4) = htonl (crc_32 record (record.length - 4)) := by
  subst hlen
  have hl : record.length = rest.length + 8 := by
    rw [hrec]; simp [htonl_length]; omega
  have hbody : (htonl rest.length ++ rest).length = n := by
    simp [htonl_length]; omega
  have e8 : rest.length + 8 - 8 = rest.length := by omega
  have e4 : rest.length + 8 - 4 = n := by omega
  rw [hl, e8, e4]
  refine ⟨by omega, ?_, ?_, ?_⟩
  · rw [hrec, List.append_assoc, List.take_left' (htonl_length _)]
  · rw [hrec, List.append_assoc, ntohl_htonl _ _ hlt]
  · rw [hrec, crc_32_append _ _ _ hbody.symm, List.drop_left' hbody]

/-- C4.  Every record written by `serialize_event_record` (for a name table within the
bounds of the C arrays: at most 25 names of at most 20 bytes) has at least 13 bytes, its
first 4 bytes are the record size less 8 in network byte order, and its last 4 bytes are,
in network byte order, the `crc_32` of all the bytes before them. -/
theorem serialize_event_record_framing (state : server_game_state_t) (event_no : Nat)
    (remaining_space : Int) (record : List Nat)
    (hcount : state.players_count ≤ 25)
    (hnames : ∀ i, i < state.players_count →
      strlen (state.game_primary_player_names.getD i []) ≤ 20)
    (h : serialize_event_record state event_no remaining_space = some record) :
    13 ≤ record.length ∧ record.take 4 = htonl (record.length - 8) ∧
    ntohl record 0 = record.length - 8 ∧
    record.drop (record.length - 4) = htonl (crc_32 record (record.length - 4)) := by
  have hsome : serialize_event_record state event_no remaining_space ≠ none := by
    rw [h]; exact Option.some_ne_none _
  have hspace : (state.events_queue.getD event_no default).event_type ≠ EVENT_NEW_GAME →
      (record_size state event_no : Int) ≤ remaining_space := by
    intro ht
    by_contra hlt
    exact hsome ((serialize_event_record_eq_none_iff state event_no remaining_space).2
      ⟨ht, by omega⟩)
  by_cases ht : (state.events_queue.getD event_no default).event_type = EVENT_NEW_GAME
  · have hb := player_names_bytes_length state.game_primary_player_names
      state.players_count 0 (fun j _ hj => hnames j (by omega))
    rw [serialize_new_game state event_no remaining_space hcount hnames ht] at h
    injection h with h
    refine framed_record_properties _ _ _ ?_ ?_ ?_ ?_ record h.symm
    · simp [htonl_length]; omega
    · simp [htonl_length]; omega
    · simp [htonl_length]; omega
    · simp [htonl_length, UINT32_RANGE]; omega
  · have hsp := hspace ht
    unfold record_size at hsp
    simp only [ht, if_false] at hsp
    by_cases ht1 : (state.events_queue.getD event_no default).event_type = EVENT_PIXEL
    · simp only [ht1, if_true, EVENT_RECORD_LENGTH_PIXEL] at hsp
      rw [serialize_pixel state event_no remaining_space ht1 (by omega)] at h
      injection h with h
      refine framed_record_properties _ _ _ ?_ ?_ ?_ ?_ record h.symm <;>
        simp [htonl_length, UINT32_RANGE]
    · simp only [ht1, if_false] at hsp
      by_cases ht2 :
          (state.events_queue.getD event_no default).event_type = EVENT_PLAYER_ELIMINATED
      · simp only [ht2, if_true, EVENT_RECORD_LENGTH_PLAYER_ELIMINATED] at hsp
        rw [serialize_player_eliminated state event_no remaining_space ht2 (by omega)] at h
        injection h with h
        refine framed_record_properties _ _ _ ?_ ?_ ?_ ?_ record h.symm <;>
          simp [htonl_length, UINT32_RANGE]
      · simp only [ht2, if_false, EVENT_RECORD_LENGTH_GAME_OVER] at hsp
        rw [serialize_game_over state event_no remaining_space ht ht1 ht2 (by omega)] at h
        injection h with h
        refine framed_record_properties _ _ _ ?_ ?_ ?_ ?_ record h.symm <;>
          simp [htonl_length, UINT32_RANGE]

set_option maxRecDepth 100000 in
/-- C4, at the NEW_GAME record of the game of Alice and Bob. -/
theorem serialize_event_record_framing_witness :
    serialize_event_record alice_bob_game 0 546 = some alice_bob_new_game_record ∧
    (13 ≤ alice_bob_new_game_record.length ∧
      alice_bob_new_game_record.take 4 = htonl (alice_bob_new_game_record.length - 8) ∧
      ntohl alice_bob_new_game_record 0 = alice_bob_new_game_record.length - 8 ∧
      alice_bob_new_game_record.drop (alice_bob_new_game_record.length - 4) =
        htonl (crc_32 alice_bob_new_game_record (alice_bob_new_game_record.length - 4))) :=
  ⟨by decide, serialize_event_record_framing alice_bob_game 0 546 _ (by decide) (by decide)
    (by decide)⟩

theorem framed_record_self (body : List Nat) (n : Nat) (hn : n = body.length) :
    body ++ htonl (crc_32 body n) =
      body ++ htonl (crc_32 (body ++ htonl (crc_32 body n)) n) := by
  rw [crc_32_append _ _ _ hn]

set_option maxRecDepth 100000 in
/-- C5.  Whenever the remaining space suffices, `serialize_event_record` writes for a
PIXEL entry the 22 bytes `len = 14, event_no, 1, player_number, x, y, crc`, for a
PLAYER_ELIMINATED entry the 14 bytes `len = 6, event_no, 2, player_number, crc` and for a
GAME_OVER entry the 13 bytes `len = 5, event_no, 3, crc`, every integer of more than one
byte in network byte order; the PIXEL of player 3 at (10, 20) with event number 42 is the
18 bytes `0 0 0 14, 0 0 0 42, 1, 3, 0 0 0 10, 0 0 0 20` followed by their checksum. -/
theorem serialize_fixed_size_records (state : server_game_state_t) (event_no : Nat)
    (remaining_space : Int) :
    ((state.events_queue.getD event_no default).event_type = EVENT_PIXEL →
      22 ≤ remaining_space →
      ∃ record, serialize_event_record state event_no remaining_space = some record ∧
        record.length = 22 ∧ ntohl record 0 = 14 ∧
        record = htonl 14 ++ htonl event_no ++
          [1, (state.events_queue.getD event_no default).player_number % 256] ++
          htonl (state.events_queue.getD event_no default).x ++
          htonl (state.events_queue.getD event_no default).y ++
          htonl (crc_32 record 18)) ∧
    ((state.events_queue.getD event_no default).event_type = EVENT_PLAYER_ELIMINATED →
      14 ≤ remaining_space →
      ∃ record, serialize_event_record state event_no remaining_space = some record ∧
        record.length = 14 ∧ ntohl record 0 = 6 ∧
        record = htonl 6 ++ htonl event_no ++
          [2, (state.events_queue.getD event_no default).player_number % 256] ++
          htonl (crc_32 record 10)) ∧
    ((state.events_queue.getD event_no default).event_type = EVENT_GAME_OVER →
      13 ≤ remaining_space →
      ∃ record, serialize_event_record state event_no remaining_space = some record ∧
        record.length = 13 ∧ ntohl record 0 = 5 ∧
        record = htonl 5 ++ htonl event_no ++ [3] ++ htonl (crc_32 record 9)) ∧
    serialize_event_record pixel_42_game 42 546 =
      some ([0, 0, 0, 14, 0, 0, 0, 42, 1, 3, 0, 0, 0, 10, 0, 0, 0, 20] ++
        htonl (crc_32 [0, 0, 0, 14, 0, 0, 0, 42, 1, 3, 0, 0, 0, 10, 0, 0, 0, 20] 18)) := by
  refine ⟨?_, ?_, ?_, ?_⟩
  · intro ht hs
    refine ⟨_, serialize_pixel state event_no remaining_space ht hs, by simp [htonl_length],
      ?_, ?_⟩
    · rw [List.append_assoc, ntohl_htonl _ _ (by decide)]
    · refine (framed_record_self _ _ (by simp [htonl_length])).trans ?_
      simp only [List.append_assoc]
  · intro ht hs
    refine ⟨_, serialize_player_eliminated state event_no remaining_space ht hs,
      by simp [htonl_length], ?_, ?_⟩
    · rw [List.append_assoc, ntohl_htonl _ _ (by decide)]
    · refine (framed_record_self _ _ (by simp [htonl_length])).trans ?_
      simp only [List.append_assoc]
  · intro ht hs
    refine ⟨_, serialize_game_over state event_no remaining_space (by rw [ht]; decide)
      (by rw [ht]; decide) (by rw [ht]; decide) hs, by simp [htonl_length], ?_, ?_⟩
    · rw [List.append_assoc, ntohl_htonl _ _ (by decide)]
    · refine (framed_record_self _ _ (by simp [htonl_length])).trans ?_
      simp only [List.append_assoc, ht, EVENT_GAME_OVER]
  · rw [serialize_pixel pixel_42_game 42 546 (by decide) (by decide)]
    decide

set_option maxRecDepth 100000 in
/-- C5, at the entries of the log of the game of Alice and Bob and at entry 42 of the
other log: the records have 22, 14 and 13 bytes. -/
theorem serialize_fixed_size_records_witness :
    (serialize_event_record alice_bob_game 1 546).map List.length = some 22 ∧
    (serialize_event_record alice_bob_game 2 524).map List.length = some 14 ∧
    (serialize_event_record alice_bob_game 3 510).map List.length = some 13 ∧
    serialize_event_record pixel_42_game 42 546 =
      some [0, 0, 0, 14, 0, 0, 0, 42, 1, 3, 0, 0, 0, 10, 0, 0, 0, 20, 104, 126, 155, 76] := by
  obtain ⟨r1, h1, l1, _⟩ :=
    (serialize_fixed_size_records alice_bob_game 1 546).1 (by decide) (by decide)
  obtain ⟨r2, h2, l2, _⟩ :=
    (serialize_fixed_size_records alice_bob_game 2 524).2.1 (by decide) (by decide)
  obtain ⟨r3, h3, l3, _⟩ :=
    (serialize_fixed_size_records alice_bob_game 3 510).2.2.1 (by decide) (by decide)
  refine ⟨by rw [h1, Option.map_some', l1], by rw [h2, Option.map_some', l2],
    by rw [h3, Option.map_some', l3], ?_⟩
  rw [(serialize_fixed_size_records pixel_42_game 42 546).2.2.2]
  decide

set_option maxRecDepth 100000 in
/-- C6 (as the code behaves).  For the NEW_GAME entry with board 800 by 600, the frozen
names "Alice" and "Bob" and event number 0, `serialize_event_record` writes, whatever the
remaining space, a record of exactly 31 bytes: the `len` field is 23, the first 27 bytes
are `len, event_no = 0, type = 0, x = 800, y = 600`, "Alice", NUL, "Bob", NUL, and the
last 4 bytes are the checksum of these 27 bytes. -/
theorem serialize_new_game_alice_bob :
    (∀ remaining_space : Int,
      serialize_event_record alice_bob_game 0 remaining_space =
        some alice_bob_new_game_record) ∧
    alice_bob_new_game_record.length = 31 ∧
    ntohl alice_bob_new_game_record 0 = 23 ∧
    alice_bob_new_game_record.take 27 =
      htonl 23 ++ htonl 0 ++ [0] ++ htonl 800 ++ htonl 600 ++
        (name_Alice ++ [0] ++ (name_Bob ++ [0])) ∧
    alice_bob_new_game_record.drop 27 = htonl (crc_32 alice_bob_new_game_record 27) := by
  refine ⟨?_, by decide, by decide, by decide, by decide⟩
  intro remaining_space
  rw [serialize_new_game alice_bob_game 0 remaining_space (by decide) (by decide) (by decide)]
  decide

set_option maxRecDepth 100000 in
/-- C6 (as stated, refuted).  The record of that entry does not have 30 bytes with a `len`
field of 22 and a checksum over its first 26 bytes. -/
theorem serialize_new_game_alice_bob_not_30_bytes :
    ¬ ∃ record, serialize_event_record alice_bob_game 0 546 = some record ∧
      record.length = 30 ∧ ntohl record 0 = 22 ∧
      record.drop 26 = htonl (crc_32 record 26) := by
  rintro ⟨record, h, hlen, -, -⟩
  have h31 : serialize_event_record alice_bob_game 0 546 = some alice_bob_new_game_record := by
    decide
  rw [h31] at h
  injection h with h
  rw [← h] at hlen
  revert hlen
  decide

/-! ## The client datagram -/

theorem getD_set (l : List Nat) : ∀ (i j v d : Nat),
    (l.set i v).getD j d = if i = j ∧ i < l.length then v else l.getD j d := by
  induction l with
  | nil => intro i j v d; simp
  | cons a t ih =>
    intro i j v d
    cases i with
    | zero =>
      cases j with
      | zero => simp
      | succ j => simp
    | succ i =>
      cases j with
      | zero => simp
      | succ j =>
        simp only [List.set_cons_succ, List.getD_cons_succ, List.length_cons]
        rw [ih i j v d]
        simp

/-- Invariant of the name loop of `deserialize_client_dgram`. -/
theorem deserialize_client_dgram_loop_spec (buffer : List Nat) (message_size : Int)
    (hsize : message_size ≤ 33) :
    ∀ (fuel i : Nat) (datagram : client_dgram_t), 13 ≤ i → message_size - (i : Int) ≤ fuel →
      datagram.player_name.length = 20 →
      ((deserialize_client_dgram_loop buffer message_size fuel i datagram).1 = 0 ∨
        (deserialize_client_dgram_loop buffer message_size fuel i datagram).1 = -1) ∧
      ((deserialize_client_dgram_loop buffer message_size fuel i datagram).1 = 0 ↔
        ∀ j : Nat, i ≤ j → (j : Int) < message_size →
          33 ≤ byte_at buffer j ∧ byte_at buffer j ≤ 126) ∧
      (deserialize_client_dgram_loop buffer message_size fuel i datagram).2.session_id =
        datagram.session_id ∧
      (deserialize_client_dgram_loop buffer message_size fuel i datagram).2.turn_direction =
        datagram.turn_direction ∧
      (deserialize_client_dgram_loop buffer message_size fuel i
        datagram).2.next_expected_event_no = datagram.next_expected_event_no ∧
      ((deserialize_client_dgram_loop buffer message_size fuel i datagram).1 = 0 →
        ∀ k : Nat, (deserialize_client_dgram_loop buffer message_size fuel i
            datagram).2.player_name.getD k 0 =
          if i ≤ 13 + k ∧ ((13 + k : Nat) : Int) < message_size then byte_at buffer (13 + k)
          else datagram.player_name.getD k 0) := by
  intro fuel
  induction fuel with
  | zero =>
    intro i datagram hi hfuel _
    unfold deserialize_client_dgram_loop
    refine ⟨Or.inl rfl, ⟨fun _ j hj1 hj2 => by omega, fun _ => rfl⟩, rfl, rfl, rfl, ?_⟩
    intro _ k
    rw [if_neg (by omega)]
  | succ n ih =>
    intro i datagram hi hfuel hlen
    unfold deserialize_client_dgram_loop
    by_cases hlt : (i : Int) < message_size
    · rw [if_pos hlt]
      by_cases hbad : byte_at buffer i < PLAYER_NAME_MINIMAL_ASCII ∨
          byte_at buffer i > PLAYER_NAME_MAXIMAL_ASCII
      · rw [if_pos hbad]
        have hne : ((-1 : Int), datagram).1 ≠ 0 := by simp
        refine ⟨Or.inr rfl, ⟨fun h => absurd h hne, fun h => ?_⟩, rfl, rfl, rfl,
          fun h => absurd h hne⟩
        have := h i (Nat.le_refl _) hlt
        unfold PLAYER_NAME_MINIMAL_ASCII PLAYER_NAME_MAXIMAL_ASCII at hbad
        omega
      · rw [if_neg hbad]
        have hgood : 33 ≤ byte_at buffer i ∧ byte_at buffer i ≤ 126 := by
          unfold PLAYER_NAME_MINIMAL_ASCII PLAYER_NAME_MAXIMAL_ASCII at hbad
          omega
        have hlen1 : (datagram.player_name.set (i - CLIENT_DGRAM_INTEGERS_LEN)
            (byte_at buffer i)).length = 20 := by
          rw [List.length_set]; exact hlen
        obtain ⟨h1, h2, h3, h4, h5, h6⟩ := ih (i + 1)
          { datagram with
            player_name := datagram.player_name.set (i - CLIENT_DGRAM_INTEGERS_LEN)
              (byte_at buffer i) } (by omega) (by push_cast; omega) hlen1
        refine ⟨h1, ?_, h3, h4, h5, ?_⟩
        · rw [h2]
          constructor
          · intro h j hj1 hj2
            rcases Nat.eq_or_lt_of_le hj1 with heq | hlt1
            · rw [← heq]; exact hgood
            · exact h j hlt1 hj2
          · intro h j hj1 hj2
            exact h j (by omega) hj2
        · intro h0 k
          rw [h6 h0 k]
          simp only
          rw [getD_set]
          unfold CLIENT_DGRAM_INTEGERS_LEN
          by_cases hk : i = 13 + k
          · have hklt : ((13 + k : Nat) : Int) < message_size := by rw [← hk]; exact hlt
            rw [if_neg (by omega), if_pos ⟨by omega, by omega⟩, if_pos ⟨by omega, hklt⟩, hk]
          · by_cases hk2 : i + 1 ≤ 13 + k ∧ ((13 + k : Nat) : Int) < message_size
            · rw [if_pos hk2, if_pos ⟨by omega, hk2.2⟩]
            · rw [if_neg hk2, if_neg (by omega), if_neg (by omega)]
    · rw [if_neg hlt]
      refine ⟨Or.inl rfl, ⟨fun _ j hj1 hj2 => by omega, fun _ => rfl⟩, rfl, rfl, rfl, ?_⟩
      intro _ k
      rw [if_neg (by omega)]

/-- C7.  `deserialize_client_dgram` returns 0 exactly when the datagram is valid (length
in [13, 33], `turn_direction` byte 0, 1 or 2, every byte from offset 13 on in [33, 126])
and -1 in every other case, lengths 12 and 34 among them; on success `*datagram` holds
the big-endian `session_id` of bytes 0..7, the `turn_direction`, the big-endian
`next_expected_event_no` of bytes 9..12 and the name bytes. -/
theorem deserialize_client_dgram_spec (datagram : client_dgram_t) (buffer : List Nat)
    (message_size : Int) (hname : datagram.player_name.length = 20) :
    ((deserialize_client_dgram datagram buffer message_size).1 = 0 ↔
      client_dgram_valid buffer message_size) ∧
    (¬ client_dgram_valid buffer message_size →
      (deserialize_client_dgram datagram buffer message_size).1 = -1) ∧
    (message_size = 12 ∨ message_size = 34 →
      (deserialize_client_dgram datagram buffer message_size).1 = -1) ∧
    (client_dgram_valid buffer message_size →
      (deserialize_client_dgram datagram buffer message_size).2.session_id =
        be64toh buffer 0 ∧
      (deserialize_client_dgram datagram buffer message_size).2.turn_direction =
        byte_at buffer 8 ∧
      (deserialize_client_dgram datagram buffer message_size).2.next_expected_event_no =
        ntohl buffer 9 ∧
      ∀ k : Nat, ((13 + k : Nat) : Int) < message_size →
        (deserialize_client_dgram datagram buffer message_size).2.player_name.getD k 0 =
          byte_at buffer (13 + k)) := by
  have key : ((deserialize_client_dgram datagram buffer message_size).1 = 0 ∨
        (deserialize_client_dgram datagram buffer message_size).1 = -1) ∧
      ((deserialize_client_dgram datagram buffer message_size).1 = 0 ↔
        client_dgram_valid buffer message_size) ∧
      (client_dgram_valid buffer message_size →
        (deserialize_client_dgram datagram buffer message_size).2.session_id =
          be64toh buffer 0 ∧
        (deserialize_client_dgram datagram buffer message_size).2.turn_direction =
          byte_at buffer 8 ∧
        (deserialize_client_dgram datagram buffer message_size).2.next_expected_event_no =
          ntohl buffer 9 ∧
        ∀ k : Nat, ((13 + k : Nat) : Int) < message_size →
          (deserialize_client_dgram datagram buffer message_size).2.player_name.getD k 0 =
            byte_at buffer (13 + k)) := by
    unfold deserialize_client_dgram client_dgram_valid
    by_cases hsz : message_size > (MAX_CLIENT_DGRAM_LENGTH : Int) ∨
        message_size < (CLIENT_DGRAM_INTEGERS_LEN : Int)
    · rw [if_pos hsz]
      have hne : ((-1 : Int), datagram).1 ≠ 0 := by simp
      unfold MAX_CLIENT_DGRAM_LENGTH CLIENT_DGRAM_INTEGERS_LEN at hsz
      push_cast at hsz
      refine ⟨Or.inr rfl, ⟨fun h => absurd h hne, fun h => ?_⟩, fun h => ?_⟩ <;> omega
    · rw [if_neg hsz]
      unfold MAX_CLIENT_DGRAM_LENGTH CLIENT_DGRAM_INTEGERS_LEN at hsz
      push_cast at hsz
      simp only
      by_cases htd : byte_at buffer 8 ≠ 0 ∧ byte_at buffer 8 ≠ 1 ∧ byte_at buffer 8 ≠ 2
      · rw [if_pos htd]
        have hne : ((-1 : Int), datagram).1 ≠ 0 := by simp
        refine ⟨Or.inr rfl, ⟨fun h => absurd h hne, fun h => ?_⟩, fun h => ?_⟩ <;> omega
      · rw [if_neg htd]
        obtain ⟨h1, h2, h3, h4, h5, h6⟩ := deserialize_client_dgram_loop_spec buffer
          message_size (by omega)
          (message_size - (CLIENT_DGRAM_INTEGERS_LEN : Int)).toNat CLIENT_DGRAM_INTEGERS_LEN
          { datagram with
            session_id := be64toh buffer 0
            turn_direction := byte_at buffer 8
            next_expected_event_no := ntohl buffer 9 }
          (by decide) (by unfold CLIENT_DGRAM_INTEGERS_LEN; push_cast; omega) hname
        unfold CLIENT_DGRAM_INTEGERS_LEN at h1 h2 h3 h4 h5 h6 ⊢
        refine ⟨h1, ?_, fun hv => ⟨h3, h4, h5, fun k hk => ?_⟩⟩
        · rw [h2]
          constructor
          · intro h
            exact ⟨by omega, by omega, by omega, h⟩
          · intro h
            exact h.2.2.2
        · rw [h6 (h2.2 hv.2.2.2) k, if_pos ⟨by omega, hk⟩]
  obtain ⟨h1, h2, h3⟩ := key
  refine ⟨h2, fun hv => ?_, fun hsz => ?_, h3⟩
  · rcases h1 with h0 | hm
    · exact absurd (h2.1 h0) hv
    · exact hm
  · rcases h1 with h0 | hm
    · have := h2.1 h0
      unfold client_dgram_valid at this
      omega
    · exact hm

/-- C7, at a datagram of 16 bytes with the name "Bob". -/
theorem deserialize_client_dgram_spec_witness :
    zero_dgram.player_name.length = 20 ∧
    deserialize_client_dgram zero_dgram bob_dgram 16 =
      (0, { session_id := 72623859790382856, turn_direction := 1,
            next_expected_event_no := 258,
            player_name := name_Bob ++ List.replicate 17 0 }) ∧
    ((deserialize_client_dgram zero_dgram bob_dgram 16).1 = 0 ↔
      client_dgram_valid bob_dgram 16) ∧
    (deserialize_client_dgram zero_dgram bob_dgram 12).1 = -1 :=
  ⟨by decide, by decide, (deserialize_client_dgram_spec zero_dgram bob_dgram 16 (by decide)).1,
    (deserialize_client_dgram_spec zero_dgram bob_dgram 12 (by decide)).2.2.1 (Or.inl rfl)⟩

/-! ## Packing of datagrams -/

/-- The bytes of a record do not depend on the remaining space. -/
theorem serialize_event_record_eq_event_record (state : server_game_state_t)
    (event_no : Nat) (remaining_space : Int) (record : List Nat)
    (h : serialize_event_record state event_no remaining_space = some record) :
    record = event_record state event_no := by
  unfold event_record
  have hsome : serialize_event_record state event_no remaining_space ≠ none := by
    rw [h]; exact Option.some_ne_none _
  have hnot := mt (serialize_event_record_eq_none_iff state event_no remaining_space).2 hsome
  unfold serialize_event_record at h ⊢
  simp only at h ⊢
  by_cases ht : (state.events_queue.getD event_no default).event_type = EVENT_NEW_GAME
  · rw [if_pos ht] at h ⊢
    injection h with h
    rw [← h]; rfl
  · rw [if_neg ht] at h ⊢
    have hsp : (record_size state event_no : Int) ≤ remaining_space := by
      by_contra hc
      exact hnot ⟨ht, by omega⟩
    unfold record_size at hsp
    simp only [ht, if_false] at hsp
    by_cases ht1 : (state.events_queue.getD event_no default).event_type = EVENT_PIXEL
    · rw [if_pos ht1] at h hsp ⊢
      rw [if_neg (by omega)] at h
      rw [if_neg (by unfold EVENT_RECORD_LENGTH_PIXEL MAX_SERVER_UDP_DGRAM_LENGTH; decide)]
      injection h with h
      rw [← h]; rfl
    · rw [if_neg ht1] at h hsp ⊢
      by_cases ht2 :
          (state.events_queue.getD event_no default).event_type = EVENT_PLAYER_ELIMINATED
      · rw [if_pos ht2] at h hsp ⊢
        rw [if_neg (by omega)] at h
        rw [if_neg (by
          unfold EVENT_RECORD_LENGTH_PLAYER_ELIMINATED MAX_SERVER_UDP_DGRAM_LENGTH; decide)]
        injection h with h
        rw [← h]; rfl
      · rw [if_neg ht2] at h hsp ⊢
        rw [if_neg (by omega)] at h
        rw [if_neg (by unfold EVENT_RECORD_LENGTH_GAME_OVER MAX_SERVER_UDP_DGRAM_LENGTH; decide)]
        injection h with h
        rw [← h]; rfl

theorem record_size_le_of_not_new_game (state : server_game_state_t) (event_no : Nat)
    (ht : (state.events_queue.getD event_no default).event_type ≠ EVENT_NEW_GAME) :
    record_size state event_no ≤ 22 := by
  unfold record_size
  simp only [ht, if_false]
  split
  · decide
  · split <;> decide

theorem records_bytes_succ_right (state : server_game_state_t) :
    ∀ count event_no, records_bytes state (count + 1) event_no =
      records_bytes state count event_no ++ event_record state (event_no + count) := by
  intro count
  induction count with
  | zero => intro event_no; simp [records_bytes]
  | succ n ih =>
    intro event_no
    rw [records_bytes, ih (event_no + 1), records_bytes, List.append_assoc]
    have e : event_no + 1 + n = event_no + (n + 1) := by omega
    rw [e]

/-- Invariant of the loop of `pack_events`. -/
theorem pack_events_loop_spec (state : server_game_state_t) :
    ∀ (fuel event_no : Nat) (buf : List Nat) (free_space : Int),
      state.events_count - event_no ≤ fuel → event_no ≤ state.events_count →
      event_no ≤ (pack_events_loop state fuel event_no buf free_space).2 ∧
      (pack_events_loop state fuel event_no buf free_space).2 ≤ state.events_count ∧
      (pack_events_loop state fuel event_no buf free_space).1 =
        buf ++ records_bytes state
          ((pack_events_loop state fuel event_no buf free_space).2 - event_no) event_no ∧
      ((pack_events_loop state fuel event_no buf free_space).2 = state.events_count ∨
        ((state.events_queue.getD (pack_events_loop state fuel event_no buf free_space).2
            default).event_type ≠ EVENT_NEW_GAME ∧
          free_space - (((pack_events_loop state fuel event_no buf free_space).1.length : Int)
              - (buf.length : Int)) <
            (record_size state (pack_events_loop state fuel event_no buf free_space).2 :
              Int))) := by
  intro fuel
  induction fuel with
  | zero =>
    intro event_no buf free_space hfuel hle
    unfold pack_events_loop
    refine ⟨Nat.le_refl _, hle, by simp [records_bytes], Or.inl (by omega)⟩
  | succ n ih =>
    intro event_no buf free_space hfuel hle
    unfold pack_events_loop
    by_cases hlt : event_no < state.events_count
    · rw [if_pos hlt]
      cases hser : serialize_event_record state event_no free_space with
      | none =>
        simp only
        have hn := (serialize_event_record_eq_none_iff state event_no free_space).1 hser
        refine ⟨Nat.le_refl _, hle, by simp [records_bytes], Or.inr ⟨hn.1, ?_⟩⟩
        have := hn.2
        omega
      | some record =>
        simp only
        have hrec := serialize_event_record_eq_event_record state event_no free_space record hser
        obtain ⟨h1, h2, h3, h4⟩ := ih (event_no + 1) (buf ++ record)
          (free_space - (record.length : Int)) (by omega) (by omega)
        refine ⟨by omega, h2, ?_, ?_⟩
        · rw [h3, List.append_assoc, hrec]
          have e : (pack_events_loop state n (event_no + 1)
              (buf ++ event_record state event_no)
              (free_space - ((event_record state event_no).length : Int))).2 - event_no =
              ((pack_events_loop state n (event_no + 1)
              (buf ++ event_record state event_no)
              (free_space - ((event_record state event_no).length : Int))).2 -
                (event_no + 1)) + 1 := by
            rw [hrec] at h1; omega
          rw [e, records_bytes]
        · rcases h4 with h4 | h4
          · exact Or.inl h4
          · refine Or.inr ⟨h4.1, ?_⟩
            have := h4.2
            rw [List.length_append] at this
            push_cast at this
            omega
    · rw [if_neg hlt]
      refine ⟨Nat.le_refl _, hle, by simp [records_bytes], Or.inl (by omega)⟩

/-- The contract of `pack_events` for any budget. -/
theorem pack_events_spec (state : server_game_state_t) (from_which : Nat)
    (remaining_space : Int) (hle : from_which ≤ state.events_count) :
    from_which ≤ (pack_events state from_which remaining_space).2 ∧
    (pack_events state from_which remaining_space).2 ≤ state.events_count ∧
    (pack_events state from_which remaining_space).1 =
      htonl state.game_id ++
        records_bytes state ((pack_events state from_which remaining_space).2 - from_which)
          from_which ∧
    ((pack_events state from_which remaining_space).2 = state.events_count ∨
      remaining_space - ((pack_events state from_which remaining_space).1.length : Int) <
        (record_size state (pack_events state from_which remaining_space).2 : Int)) := by
  unfold pack_events
  obtain ⟨h1, h2, h3, h4⟩ := pack_events_loop_spec state (state.events_count - from_which)
    from_which (htonl state.game_id) (remaining_space - 4) (Nat.le_refl _) hle
  refine ⟨h1, h2, h3, ?_⟩
  rcases h4 with h4 | h4
  · exact Or.inl h4
  · refine Or.inr ?_
    have h5 := h4.2
    have hl : ((htonl state.game_id).length : Int) = 4 := rfl
    rw [hl] at h5
    omega

/-- C9.  Packing is maximal: for a start index within the log, the datagram of
`pack_events` with budget 550 is the `game_id` in network byte order followed by exactly
the records `from_which, ..., first_not_packed - 1` in log order, and either
`first_not_packed = events_count` or the size of the record of entry `first_not_packed`
is greater than the space left, 550 less the returned datagram size. -/
theorem pack_events_maximal (state : server_game_state_t) (from_which : Nat)
    (hle : from_which ≤ state.events_count) :
    from_which ≤ (pack_events state from_which 550).2 ∧
    (pack_events state from_which 550).2 ≤ state.events_count ∧
    (pack_events state from_which 550).1 =
      htonl state.game_id ++
        records_bytes state ((pack_events state from_which 550).2 - from_which) from_which ∧
    ((pack_events state from_which 550).2 = state.events_count ∨
      550 - ((pack_events state from_which 550).1.length : Int) <
        (record_size state (pack_events state from_which 550).2 : Int)) :=
  pack_events_spec state from_which 550 hle

set_option maxRecDepth 1000000 in
/-- C9, at the log of 43 entries: from index 0 the NEW_GAME record and 23 PIXEL records
are packed (539 bytes), and the next record, of 22 bytes, does not fit the 11 bytes
left. -/
theorem pack_events_maximal_witness :
    (pack_events pixel_42_game 0 550).2 = 24 ∧
    (pack_events pixel_42_game 0 550).1.length = 539 ∧
    record_size pixel_42_game 24 = 22 ∧
    (pack_events pixel_42_game 0 550).1 =
      htonl pixel_42_game.game_id ++ records_bytes pixel_42_game 24 0 ∧
    ((pack_events pixel_42_game 0 550).2 = pixel_42_game.events_count ∨
      550 - ((pack_events pixel_42_game 0 550).1.length : Int) <
        (record_size pixel_42_game (pack_events pixel_42_game 0 550).2 : Int)) := by
  have h := pack_events_maximal pixel_42_game 0 (by decide)
  have h24 : (pack_events pixel_42_game 0 550).2 = 24 := by decide
  refine ⟨h24, by decide, by decide, ?_, h.2.2.2⟩
  have h3 := h.2.2.1
  rw [h24] at h3
  exact h3

/-- The loop of `pack_events` stays within the free space when the only entry it may
write unchecked, a NEW_GAME entry, is the first one it meets and fits. -/
theorem pack_events_loop_length (state : server_game_state_t) :
    ∀ (fuel event_no : Nat) (buf : List Nat) (free_space : Int), 0 ≤ free_space →
      (∀ k, event_no ≤ k → k < state.events_count →
        (state.events_queue.getD k default).event_type = EVENT_NEW_GAME →
        k = event_no ∧ (record_size state k : Int) ≤ free_space) →
      ((pack_events_loop state fuel event_no buf free_space).1.length : Int) ≤
        (buf.length : Int) + free_space := by
  intro fuel
  induction fuel with
  | zero =>
    intro event_no buf free_space h0 _
    unfold pack_events_loop
    show (buf.length : Int) ≤ _
    omega
  | succ n ih =>
    intro event_no buf free_space h0 hng
    unfold pack_events_loop
    by_cases hlt : event_no < state.events_count
    · rw [if_pos hlt]
      cases hser : serialize_event_record state event_no free_space with
      | none =>
        show (buf.length : Int) ≤ _
        omega
      | some record =>
        simp only
        have hlen := serialize_event_record_length state event_no free_space record hser
        have hfits : (record.length : Int) ≤ free_space := by
          rw [hlen]
          by_cases ht : (state.events_queue.getD event_no default).event_type = EVENT_NEW_GAME
          · exact (hng event_no (Nat.le_refl _) hlt ht).2
          · by_contra hc
            have hnone := (serialize_event_record_eq_none_iff state event_no free_space).2
              ⟨ht, by omega⟩
            rw [hser] at hnone
            exact Option.some_ne_none _ hnone
        have := ih (event_no + 1) (buf ++ record) (free_space - (record.length : Int))
          (by omega) (fun k hk1 hk2 hk3 => by
            have := (hng k (by omega) hk2 hk3).1
            omega)
        rw [List.length_append] at this
        push_cast at this
        omega
    · rw [if_neg hlt]
      show (buf.length : Int) ≤ _
      omega

theorem record_size_new_game_le (state : server_game_state_t) (event_no : Nat)
    (hfit : names_fit state) : record_size state event_no ≤ 546 := by
  unfold record_size
  simp only
  split
  · have hb := player_names_bytes_length state.game_primary_player_names
      state.players_count 0 (fun j _ hj => hfit.2 j (by omega))
    have := hfit.1
    unfold INTEGER_FIELDS_LEN_EVENT_RECORD_NEW_GAME
    omega
  · split
    · decide
    · split <;> decide

theorem records_bytes_add (state : server_game_state_t) :
    ∀ a b event_no, records_bytes state (a + b) event_no =
      records_bytes state a event_no ++ records_bytes state b (event_no + a) := by
  intro a
  induction a with
  | zero => intro b event_no; simp [records_bytes]
  | succ n ih =>
    intro b event_no
    have e : n + 1 + b = (n + b) + 1 := by omega
    rw [e, records_bytes, records_bytes, ih b (event_no + 1), List.append_assoc]
    have e2 : event_no + 1 + n = event_no + (n + 1) := by omega
    rw [e2]

theorem record_size_ge (state : server_game_state_t) (event_no : Nat) :
    13 ≤ record_size state event_no := by
  unfold record_size
  simp only
  split
  · unfold INTEGER_FIELDS_LEN_EVENT_RECORD_NEW_GAME; omega
  · split
    · decide
    · split <;> decide

theorem event_record_length (state : server_game_state_t) (event_no : Nat) :
    (event_record state event_no).length = record_size state event_no := by
  cases hser : serialize_event_record state event_no
      ((MAX_SERVER_UDP_DGRAM_LENGTH : Int) - 4) with
  | none =>
    have hn := (serialize_event_record_eq_none_iff state event_no _).1 hser
    have := record_size_le_of_not_new_game state event_no hn.1
    have h2 := hn.2
    unfold MAX_SERVER_UDP_DGRAM_LENGTH at h2
    push_cast at h2
    omega
  | some record =>
    have hlen := serialize_event_record_length state event_no _ record hser
    unfold event_record
    rw [hser]
    exact hlen

/-- With the budget of 550 bytes `pack_events` packs at least one record. -/
theorem pack_events_progress (state : server_game_state_t) (from_which : Nat)
    (hlt : from_which < state.events_count) :
    from_which < (pack_events state from_which 550).2 := by
  obtain ⟨h1, _, _, h4⟩ := pack_events_spec state from_which 550 (Nat.le_of_lt hlt)
  by_contra hnot
  have heq : (pack_events state from_which 550).2 = from_which := by omega
  have hlen : (pack_events state from_which 550).1.length = 4 := by
    rw [(pack_events_spec state from_which 550 (Nat.le_of_lt hlt)).2.2.1, heq, Nat.sub_self]
    simp [records_bytes, htonl_length]
  rw [heq, hlen] at h4
  rcases h4 with h4 | h4
  · omega
  · unfold pack_events at heq
    have hfuel : state.events_count - from_which = (state.events_count - from_which - 1) + 1 := by
      omega
    rw [hfuel] at heq
    unfold pack_events_loop at heq
    rw [if_pos hlt] at heq
    cases hser : serialize_event_record state from_which (550 - 4) with
    | none =>
      have hn := (serialize_event_record_eq_none_iff state from_which (550 - 4)).1 hser
      have := record_size_le_of_not_new_game state from_which hn.1
      have := hn.2
      omega
    | some record =>
      rw [hser] at heq
      simp only at heq
      have := (pack_events_loop_spec state (state.events_count - from_which - 1)
        (from_which + 1) (htonl state.game_id ++ record) (550 - 4 - (record.length : Int))
        (by omega) (by omega)).1
      omega

/-- The loop of `send_game_data` and `broadcast_events` terminates and sends the records
of the log from the start index on, in order, each once. -/
theorem send_loop_spec (state : server_game_state_t) :
    ∀ (fuel first_not_sent : Nat), first_not_sent ≤ state.events_count →
      state.events_count - first_not_sent ≤ fuel →
      ∃ datagrams, send_loop state fuel first_not_sent = some datagrams ∧
        payloads datagrams =
          records_bytes state (state.events_count - first_not_sent) first_not_sent ∧
        ∀ d ∈ datagrams, d.take 4 = htonl state.game_id ∧ 17 ≤ d.length := by
  intro fuel
  induction fuel with
  | zero =>
    intro first_not_sent hle hfuel
    refine ⟨[], ?_, ?_, fun d hd => absurd hd (List.not_mem_nil d)⟩
    · unfold send_loop
      rw [if_neg (by omega)]
    · have e : state.events_count - first_not_sent = 0 := by omega
      rw [e]; rfl
  | succ n ih =>
    intro first_not_sent hle hfuel
    unfold send_loop
    by_cases hlt : first_not_sent < state.events_count
    · rw [if_pos hlt]
      simp only
      have hprog := pack_events_progress state first_not_sent hlt
      obtain ⟨_, h2, h3, _⟩ := pack_events_spec state first_not_sent 550 hle
      have e550 : ((MAX_SERVER_UDP_DGRAM_LENGTH : Nat) : Int) = 550 := rfl
      rw [e550]
      obtain ⟨rest, hrest, hpay, hhead⟩ := ih (pack_events state first_not_sent 550).2 h2
        (by omega)
      refine ⟨(pack_events state first_not_sent 550).1 :: rest, by rw [hrest]; rfl, ?_, ?_⟩
      · rw [payloads, hpay]
        have hd : (pack_events state first_not_sent 550).1.drop 4 =
            records_bytes state ((pack_events state first_not_sent 550).2 - first_not_sent)
              first_not_sent := by
          rw [h3]
          exact List.drop_left' (htonl_length _)
        rw [hd]
        have e : state.events_count - first_not_sent =
            ((pack_events state first_not_sent 550).2 - first_not_sent) +
              (state.events_count - (pack_events state first_not_sent 550).2) := by omega
        have e2 : first_not_sent + ((pack_events state first_not_sent 550).2 - first_not_sent) =
            (pack_events state first_not_sent 550).2 := by omega
        rw [e, records_bytes_add, e2]
      · intro d hd
        rcases List.mem_cons.1 hd with hd | hd
        · subst hd
          constructor
          · rw [h3]
            exact List.take_left' (htonl_length _)
          · rw [h3, List.length_append, htonl_length]
            have e : (pack_events state first_not_sent 550).2 - first_not_sent =
                ((pack_events state first_not_sent 550).2 - first_not_sent - 1) + 1 := by
              omega
            rw [e, records_bytes, List.length_append, event_record_length]
            have := record_size_ge state first_not_sent
            omega
        · exact hhead d hd
    · rw [if_neg hlt]
      refine ⟨[], rfl, ?_, fun d hd => absurd hd (List.not_mem_nil d)⟩
      have e : state.events_count - first_not_sent = 0 := by omega
      rw [e]; rfl

theorem active_slots_ge : ∀ (cs : List client_t) (start x : Nat),
    x ∈ active_slots cs start → start ≤ x := by
  intro cs
  induction cs with
  | nil => intro start x hx; simp [active_slots] at hx
  | cons c t ih =>
    intro start x hx
    unfold active_slots at hx
    split at hx
    · rcases List.mem_cons.1 hx with h | h
      · omega
      · have := ih (start + 1) x h; omega
    · have := ih (start + 1) x hx; omega

theorem active_slots_nodup : ∀ (cs : List client_t) (start : Nat),
    (active_slots cs start).Nodup := by
  intro cs
  induction cs with
  | nil => intro start; simp [active_slots]
  | cons c t ih =>
    intro start
    unfold active_slots
    split
    · refine List.nodup_cons.2 ⟨fun h => ?_, ih (start + 1)⟩
      have := active_slots_ge t (start + 1) start h
      omega
    · exact ih (start + 1)

/-- Of the `sendto` calls of one datagram to the slots of a duplicate-free list, slot `i`
gets the datagram once if it is in the list and not at all otherwise. -/
theorem sends_of_slot_one (d : List Nat) (i : Nat) : ∀ (slots : List Nat), slots.Nodup →
    ((slots.map (fun j => (j, d))).filter (fun p => p.1 == i)).map Prod.snd =
      if i ∈ slots then [d] else [] := by
  intro slots
  induction slots with
  | nil => intro _; simp
  | cons a t ih =>
    intro hnd
    have hnd' := List.nodup_cons.1 hnd
    rw [List.map_cons, List.filter_cons]
    by_cases hai : a = i
    · subst hai
      have hnot : ¬ a ∈ t := hnd'.1
      simp only [beq_self_eq_true, if_true, List.map_cons, List.mem_cons, true_or]
      rw [ih hnd'.2, if_neg hnot]
    · have hb : ((a, d).1 == i) = false := by simpa using hai
      rw [hb]
      simp only [Bool.false_eq_true, if_false]
      rw [ih hnd'.2]
      have : (i ∈ a :: t) ↔ i ∈ t := by
        simp only [List.mem_cons]
        constructor
        · rintro (h | h)
          · exact absurd h.symm hai
          · exact h
        · exact Or.inr
      by_cases hit : i ∈ t
      · rw [if_pos hit, if_pos (this.2 hit)]
      · rw [if_neg hit, if_neg (fun h => hit (this.1 h))]

theorem sends_of_slot (slots : List Nat) (hnd : slots.Nodup) (i : Nat) :
    ∀ (datagrams : List (List Nat)),
      ((datagrams.foldr (fun d acc => slots.map (fun j => (j, d)) ++ acc) []).filter
        (fun p => p.1 == i)).map Prod.snd = if i ∈ slots then datagrams else [] := by
  intro datagrams
  induction datagrams with
  | nil => simp
  | cons d t ih =>
    rw [List.foldr_cons, List.filter_append, List.map_append, ih, sends_of_slot_one d i slots hnd]
    by_cases hi : i ∈ slots
    · simp [hi]
    · simp [hi]

/-- C10.  For every log and every start index `T ≤ events_count` the loop of
`send_game_data` and `broadcast_events` terminates (fuel `events_count - T` suffices);
every datagram it sends starts with the `game_id`, and the datagrams without these
headers, concatenated, are the records `T, T + 1, ..., events_count - 1` in log order,
each once.  `send_game_data` sends these datagrams to the given slot, `broadcast_events`
sends them, in this order, to every active slot and to no other. -/
theorem send_loop_sends_log (state : server_game_state_t) (T fuel client_no : Nat)
    (hT : T ≤ state.events_count) (hfuel : state.events_count - T ≤ fuel) :
    ∃ datagrams,
      send_loop state fuel T = some datagrams ∧
      payloads datagrams = records_bytes state (state.events_count - T) T ∧
      (∀ d ∈ datagrams, d.take 4 = htonl state.game_id) ∧
      send_game_data fuel state T client_no = some (datagrams.map (fun d => (client_no, d))) ∧
      ∃ sends, broadcast_events fuel state T = some sends ∧
        ∀ i, ((sends.filter (fun p => p.1 == i)).map Prod.snd) =
          if i ∈ active_slots (state.players.take MAX_PLAYERS) 0 then datagrams else [] := by
  obtain ⟨datagrams, h1, h2, h3⟩ := send_loop_spec state fuel T hT hfuel
  refine ⟨datagrams, h1, h2, fun d hd => (h3 d hd).1, ?_, ?_⟩
  · unfold send_game_data
    rw [h1]; rfl
  · refine ⟨_, by unfold broadcast_events; rw [h1]; rfl, fun i => ?_⟩
    exact sends_of_slot _ (active_slots_nodup _ 0) i datagrams

set_option maxRecDepth 1000000 in
/-- C10, at the log of 43 entries sent from index 0: two datagrams, of 539 and 422
bytes, carry the 43 records. -/
theorem send_loop_sends_log_witness :
    ∃ datagrams, send_loop pixel_42_game 43 0 = some datagrams ∧
      datagrams.map List.length = [539, 422] ∧
      payloads datagrams = records_bytes pixel_42_game 43 0 := by
  obtain ⟨datagrams, h1, h2, _⟩ :=
    send_loop_sends_log pixel_42_game 0 43 0 (by decide) (by decide)
  refine ⟨datagrams, h1, ?_, h2⟩
  have hl : (send_loop pixel_42_game 43 0).map (List.map List.length) = some [539, 422] := by
    decide
  rw [h1] at hl
  exact Option.some.inj hl

/-! ## Records of fixed size on the client -/

theorem pixel_reads (n p x y c : Nat) (rest : List Nat)
    (hn : n < UINT32_RANGE) (hx : x < UINT32_RANGE) (hy : y < UINT32_RANGE)
    (hc : c < UINT32_RANGE) :
    ntohl ((htonl 14 ++ (htonl n ++ [1, p % 256] ++ htonl x ++ htonl y)) ++ htonl c ++ rest) 0
      = 14 ∧
    ntohl ((htonl 14 ++ (htonl n ++ [1, p % 256] ++ htonl x ++ htonl y)) ++ htonl c ++ rest) 4
      = n ∧
    byte_at ((htonl 14 ++ (htonl n ++ [1, p % 256] ++ htonl x ++ htonl y)) ++ htonl c ++ rest) 8
      = 1 ∧
    byte_at ((htonl 14 ++ (htonl n ++ [1, p % 256] ++ htonl x ++ htonl y)) ++ htonl c ++ rest) 9
      = p % 256 ∧
    ntohl ((htonl 14 ++ (htonl n ++ [1, p % 256] ++ htonl x ++ htonl y)) ++ htonl c ++ rest) 10
      = x ∧
    ntohl ((htonl 14 ++ (htonl n ++ [1, p % 256] ++ htonl x ++ htonl y)) ++ htonl c ++ rest) 14
      = y ∧
    ntohl ((htonl 14 ++ (htonl n ++ [1, p % 256] ++ htonl x ++ htonl y)) ++ htonl c ++ rest) 18
      = c := by
  unfold UINT32_RANGE at hn hx hy hc
  simp only [htonl, List.cons_append, List.nil_append, ntohl, byte_at, List.getD_cons_zero,
    List.getD_cons_succ, List.append_assoc]
  refine ⟨?_, ?_, ?_, ?_, ?_, ?_, ?_⟩ <;> first | trivial | omega

/-- The dispatch of `deserialize_event_record` on a buffer that starts with a record
whose framing and checksum are right. -/
theorem deserialize_event_record_of_frame (state : client_game_state_t) (buffer : List Nat)
    (remaining : Int) (len : Nat) (hrem : (len : Int) + 8 ≤ remaining) (hlen : 5 ≤ len)
    (h0 : ntohl buffer 0 = len) (hcrc : crc_32 buffer (len + 4) = ntohl buffer (4 + len)) :
    deserialize_event_record state buffer remaining =
      if byte_at buffer 8 = EVENT_NEW_GAME then
        deserialize_new_game state buffer (ntohl buffer 4) ((len : Int) + 8)
          (((len + UINT32_RANGE - 5) % UINT32_RANGE : Nat) : Int)
      else if byte_at buffer 8 = EVENT_PIXEL then
        deserialize_pixel state buffer (ntohl buffer 4) ((len : Int) + 8)
      else if byte_at buffer 8 = EVENT_PLAYER_ELIMINATED then
        deserialize_player_eliminated state buffer (ntohl buffer 4) ((len : Int) + 8)
      else if byte_at buffer 8 = EVENT_GAME_OVER then
        deserialize_game_over state (ntohl buffer 4) ((len : Int) + 8)
      else ((len : Int) + 8, state) := by
  unfold deserialize_event_record
  rw [if_neg (by unfold MINIMAL_EVENT_RECORD_LENGTH; push_cast; omega)]
  simp only [h0]
  rw [if_neg (by omega), if_neg (by rw [hcrc]; simp)]

/-- What `deserialize_event_record` does with a buffer that starts with a PIXEL record
of 22 bytes whose checksum is right, in terms of the fields read from the buffer. -/
theorem deserialize_pixel_of_reads (state : client_game_state_t) (buffer : List Nat)
    (remaining : Int) (n p x y : Nat) (hrem : 22 ≤ remaining)
    (h0 : ntohl buffer 0 = 14) (h4 : ntohl buffer 4 = n) (h8 : byte_at buffer 8 = 1)
    (h9 : byte_at buffer 9 = p) (h10 : ntohl buffer 10 = x) (h14 : ntohl buffer 14 = y)
    (hcrc : crc_32 buffer 18 = ntohl buffer 18) :
    deserialize_event_record state buffer remaining =
    if x ≥ state.board_dimension_x ∨ y ≥ state.board_dimension_y then (-2, state)
    else if p ≥ state.players_count then (-2, state)
    else if n = state.next_expected then
      (22, { state with
        data_for_gui := { state.data_for_gui with
          event_type := EVENT_PIXEL
          player_no := p
          x := x
          y := y
          ready_to_send := 1 }
        next_expected := (state.next_expected + 1) % UINT32_RANGE })
    else (22, state) := by
  rw [deserialize_event_record_of_frame state buffer remaining 14 (by omega) (by omega) h0 hcrc,
    h8, if_neg (by decide), if_pos (by decide), h4]
  unfold deserialize_pixel
  rw [if_neg (by decide)]
  simp only [EVENT_DATA_BYTE_OFFSET]
  have e10 : 9 + 1 = 10 := rfl
  have e14 : 9 + 5 = 14 := rfl
  rw [e10, e14, h10, h14, h9]
  rfl

/-- What `deserialize_event_record` does with a well-framed PIXEL record. -/
theorem deserialize_pixel_record (state : client_game_state_t) (n p x y : Nat)
    (rest : List Nat) (remaining : Int) (hrem : 22 ≤ remaining)
    (hn : n < UINT32_RANGE) (hx : x < UINT32_RANGE) (hy : y < UINT32_RANGE) :
    deserialize_event_record state
      ((htonl 14 ++ (htonl n ++ [1, p % 256] ++ htonl x ++ htonl y)) ++
        htonl (crc_32 (htonl 14 ++ (htonl n ++ [1, p % 256] ++ htonl x ++ htonl y)) 18) ++ rest)
      remaining =
    if x ≥ state.board_dimension_x ∨ y ≥ state.board_dimension_y then (-2, state)
    else if p % 256 ≥ state.players_count then (-2, state)
    else if n = state.next_expected then
      (22, { state with
        data_for_gui := { state.data_for_gui with
          event_type := EVENT_PIXEL
          player_no := p % 256
          x := x
          y := y
          ready_to_send := 1 }
        next_expected := (state.next_expected + 1) % UINT32_RANGE })
    else (22, state) := by
  obtain ⟨r0, r4, r8, r9, r10, r14, r18⟩ := pixel_reads n p x y
    (crc_32 (htonl 14 ++ (htonl n ++ [1, p % 256] ++ htonl x ++ htonl y)) 18) rest hn hx hy
    (crc_32_lt _ _)
  refine deserialize_pixel_of_reads state _ remaining n (p % 256) x y hrem r0 r4 r8 r9 r10 r14 ?_
  rw [r18, List.append_assoc]
  exact crc_32_append _ _ _ (by simp [htonl_length])

theorem player_eliminated_reads (n p c : Nat) (rest : List Nat)
    (hn : n < UINT32_RANGE) (hc : c < UINT32_RANGE) :
    ntohl ((htonl 6 ++ (htonl n ++ [2, p % 256])) ++ htonl c ++ rest) 0 = 6 ∧
    ntohl ((htonl 6 ++ (htonl n ++ [2, p % 256])) ++ htonl c ++ rest) 4 = n ∧
    byte_at ((htonl 6 ++ (htonl n ++ [2, p % 256])) ++ htonl c ++ rest) 8 = 2 ∧
    byte_at ((htonl 6 ++ (htonl n ++ [2, p % 256])) ++ htonl c ++ rest) 9 = p % 256 ∧
    ntohl ((htonl 6 ++ (htonl n ++ [2, p % 256])) ++ htonl c ++ rest) 10 = c := by
  unfold UINT32_RANGE at hn hc
  simp only [htonl, List.cons_append, List.nil_append, ntohl, byte_at, List.getD_cons_zero,
    List.getD_cons_succ, List.append_assoc]
  refine ⟨?_, ?_, ?_, ?_, ?_⟩ <;> first | trivial | omega

theorem game_over_reads (n t c : Nat) (rest : List Nat)
    (hn : n < UINT32_RANGE) (hc : c < UINT32_RANGE) :
    ntohl ((htonl 5 ++ (htonl n ++ [t % 256])) ++ htonl c ++ rest) 0 = 5 ∧
    ntohl ((htonl 5 ++ (htonl n ++ [t % 256])) ++ htonl c ++ rest) 4 = n ∧
    byte_at ((htonl 5 ++ (htonl n ++ [t % 256])) ++ htonl c ++ rest) 8 = t % 256 ∧
    ntohl ((htonl 5 ++ (htonl n ++ [t % 256])) ++ htonl c ++ rest) 9 = c := by
  unfold UINT32_RANGE at hn hc
  simp only [htonl, List.cons_append, List.nil_append, ntohl, byte_at, List.getD_cons_zero,
    List.getD_cons_succ, List.append_assoc]
  refine ⟨?_, ?_, ?_, ?_⟩ <;> first | trivial | omega

/-- What `deserialize_event_record` does with a well-framed PLAYER_ELIMINATED record. -/
theorem deserialize_player_eliminated_record (state : client_game_state_t) (n p : Nat)
    (rest : List Nat) (remaining : Int) (hrem : 14 ≤ remaining) (hn : n < UINT32_RANGE) :
    deserialize_event_record state
      ((htonl 6 ++ (htonl n ++ [2, p % 256])) ++
        htonl (crc_32 (htonl 6 ++ (htonl n ++ [2, p % 256])) 10) ++ rest) remaining =
    if p % 256 ≥ state.players_count then (-2, state)
    else if n = state.next_expected then
      if !state.is_alive.getD (p % 256) false then (-2, state)
      else
        (14, { state with
          is_alive := state.is_alive.set (p % 256) false
          data_for_gui := { state.data_for_gui with
            event_type := EVENT_PLAYER_ELIMINATED
            player_no := p % 256
            ready_to_send := 1 }
          next_expected := (state.next_expected + 1) % UINT32_RANGE })
    else (14, state) := by
  obtain ⟨r0, r4, r8, r9, r10⟩ := player_eliminated_reads n p
    (crc_32 (htonl 6 ++ (htonl n ++ [2, p % 256])) 10) rest hn (crc_32_lt _ _)
  have hcrc : crc_32 ((htonl 6 ++ (htonl n ++ [2, p % 256])) ++
      htonl (crc_32 (htonl 6 ++ (htonl n ++ [2, p % 256])) 10) ++ rest) (6 + 4) =
      ntohl ((htonl 6 ++ (htonl n ++ [2, p % 256])) ++
      htonl (crc_32 (htonl 6 ++ (htonl n ++ [2, p % 256])) 10) ++ rest) (4 + 6) := by
    show crc_32 _ 10 = ntohl _ 10
    rw [r10, List.append_assoc]
    exact crc_32_append _ _ _ (by simp [htonl_length])
  rw [deserialize_event_record_of_frame state _ remaining 6 (by omega) (by omega) r0 hcrc,
    r8, if_neg (by decide), if_neg (by decide), if_pos (by decide), r4]
  unfold deserialize_player_eliminated
  rw [if_neg (by decide), r9]
  rfl

/-- What `deserialize_event_record` does with a well-framed GAME_OVER record. -/
theorem deserialize_game_over_record (state : client_game_state_t) (n : Nat)
    (rest : List Nat) (remaining : Int) (hrem : 13 ≤ remaining) (hn : n < UINT32_RANGE) :
    deserialize_event_record state
      ((htonl 5 ++ (htonl n ++ [3 % 256])) ++
        htonl (crc_32 (htonl 5 ++ (htonl n ++ [3 % 256])) 9) ++ rest) remaining =
    if n = state.next_expected then
      (13, { state with
        game_over := true
        next_expected := (state.next_expected + 1) % UINT32_RANGE })
    else (13, state) := by
  obtain ⟨r0, r4, r8, r9⟩ := game_over_reads n 3
    (crc_32 (htonl 5 ++ (htonl n ++ [3 % 256])) 9) rest hn (crc_32_lt _ _)
  have hcrc : crc_32 ((htonl 5 ++ (htonl n ++ [3 % 256])) ++
      htonl (crc_32 (htonl 5 ++ (htonl n ++ [3 % 256])) 9) ++ rest) (5 + 4) =
      ntohl ((htonl 5 ++ (htonl n ++ [3 % 256])) ++
      htonl (crc_32 (htonl 5 ++ (htonl n ++ [3 % 256])) 9) ++ rest) (4 + 5) := by
    show crc_32 _ 9 = ntohl _ 9
    rw [r9, List.append_assoc]
    exact crc_32_append _ _ _ (by simp [htonl_length])
  rw [deserialize_event_record_of_frame state _ remaining 5 (by omega) (by omega) r0 hcrc,
    r8, if_neg (by decide), if_neg (by decide), if_neg (by decide), if_pos (by decide), r4]
  unfold deserialize_game_over
  rw [if_neg (by decide)]
  rfl

/-! ## Round trip of event records -/

set_option maxRecDepth 1000000 in
/-- The client state before the second game: the name table still holds the names of the
first game. -/
theorem client_before_second_game_eq :
    client_before_second_game =
      { game_id := 78, next_expected := 0, board_dimension_x := 800, board_dimension_y := 600,
        players_count := 0, client_turn_direction := 0, played_any := true,
        game_over := false, is_alive := List.replicate 25 true,
        game_players := [name_array name_Alice, name_array name_Bob] ++
          List.replicate 23 (List.replicate 21 0),
        data_for_gui :=
          { x := 10, y := 20, event_type := 2, player_no := 1, ready_to_send := 0 },
        names_out_of_table := false } := by
  decide

set_option maxRecDepth 1000000 in
/-- C3 (defect of the code).  A client that has followed the game of "Alice" and "Bob"
and is reset for the next game (game id adopted, `next_expected = 0`, `players_count =
0`) receives the NEW_GAME record that `serialize_event_record` writes for event 0.  For
the game of "Al" and "Bob" the checksum passes and the record size, 28, is returned, but
the first name of the client is then "Alice", not the "Al" of the entry.  For the game of
"Al" and "Alh", names that are valid and strictly ascending, the result is the fatal
code -2. -/
theorem new_game_round_trip_stale_names :
    client_before_second_game.game_id = al_bob_game.game_id ∧
    client_before_second_game.next_expected = 0 ∧
    client_before_second_game.players_count = 0 ∧
    (serialize_event_record al_bob_game 0 546).map List.length = some 28 ∧
    (deserialize_event_record client_before_second_game (event_record al_bob_game 0) 28).1
      = 28 ∧
    c_str (al_bob_game.game_primary_player_names.getD 0 []) = name_Al ∧
    c_str ((deserialize_event_record client_before_second_game
      (event_record al_bob_game 0) 28).2.game_players.getD 0 []) = name_Alice ∧
    (serialize_event_record al_alh_game 0 546).map List.length = some 28 ∧
    strcmp (al_alh_game.game_primary_player_names.getD 0 [])
      (al_alh_game.game_primary_player_names.getD 1 []) < 0 ∧
    (deserialize_event_record client_before_second_game (event_record al_alh_game 0) 28).1
      = -2 := by
  rw [client_before_second_game_eq]
  decide

/-- Round trip of a PIXEL entry: in-board coordinates, `player_number` below the
`players_count` of the client, `next_expected` equal to the event number. -/
theorem pixel_round_trip (server : server_game_state_t) (event_no : Nat)
    (remaining_space : Int) (client : client_game_state_t) (remaining : Int)
    (ht : (server.events_queue.getD event_no default).event_type = EVENT_PIXEL)
    (hs : 22 ≤ remaining_space) (hrem : 22 ≤ remaining) (hn : event_no < UINT32_RANGE)
    (hbx : client.board_dimension_x ≤ UINT32_RANGE)
    (hby : client.board_dimension_y ≤ UINT32_RANGE)
    (hx : (server.events_queue.getD event_no default).x < client.board_dimension_x)
    (hy : (server.events_queue.getD event_no default).y < client.board_dimension_y)
    (hp : (server.events_queue.getD event_no default).player_number < client.players_count)
    (hp8 : (server.events_queue.getD event_no default).player_number < 256)
    (hnext : client.next_expected = event_no) :
    ∃ record, serialize_event_record server event_no remaining_space = some record ∧
      deserialize_event_record client record remaining =
        (22, { client with
          data_for_gui := { client.data_for_gui with
            event_type := EVENT_PIXEL
            player_no := (server.events_queue.getD event_no default).player_number
            x := (server.events_queue.getD event_no default).x
            y := (server.events_queue.getD event_no default).y
            ready_to_send := 1 }
          next_expected := (event_no + 1) % UINT32_RANGE }) := by
  refine ⟨_, serialize_pixel server event_no remaining_space ht hs, ?_⟩
  have h := deserialize_pixel_record client event_no
    (server.events_queue.getD event_no default).player_number
    (server.events_queue.getD event_no default).x
    (server.events_queue.getD event_no default).y [] remaining hrem hn (by omega) (by omega)
  rw [List.append_nil] at h
  rw [h, Nat.mod_eq_of_lt hp8, if_neg (by omega), if_neg (by omega), if_pos hnext.symm, hnext]

/-- Round trip of a PLAYER_ELIMINATED entry of a player that is alive on the client. -/
theorem player_eliminated_round_trip (server : server_game_state_t) (event_no : Nat)
    (remaining_space : Int) (client : client_game_state_t) (remaining : Int)
    (ht : (server.events_queue.getD event_no default).event_type = EVENT_PLAYER_ELIMINATED)
    (hs : 14 ≤ remaining_space) (hrem : 14 ≤ remaining) (hn : event_no < UINT32_RANGE)
    (hp : (server.events_queue.getD event_no default).player_number < client.players_count)
    (hp8 : (server.events_queue.getD event_no default).player_number < 256)
    (halive : client.is_alive.getD
      (server.events_queue.getD event_no default).player_number false = true)
    (hnext : client.next_expected = event_no) :
    ∃ record, serialize_event_record server event_no remaining_space = some record ∧
      deserialize_event_record client record remaining =
        (14, { client with
          is_alive := client.is_alive.set
            (server.events_queue.getD event_no default).player_number false
          data_for_gui := { client.data_for_gui with
            event_type := EVENT_PLAYER_ELIMINATED
            player_no := (server.events_queue.getD event_no default).player_number
            ready_to_send := 1 }
          next_expected := (event_no + 1) % UINT32_RANGE }) := by
  refine ⟨_, serialize_player_eliminated server event_no remaining_space ht hs, ?_⟩
  have h := deserialize_player_eliminated_record client event_no
    (server.events_queue.getD event_no default).player_number [] remaining hrem hn
  rw [List.append_nil] at h
  rw [h, Nat.mod_eq_of_lt hp8, if_neg (by omega), if_pos hnext.symm, halive, hnext]
  rfl

/-- Round trip of a GAME_OVER entry. -/
theorem game_over_round_trip (server : server_game_state_t) (event_no : Nat)
    (remaining_space : Int) (client : client_game_state_t) (remaining : Int)
    (ht : (server.events_queue.getD event_no default).event_type = EVENT_GAME_OVER)
    (hs : 13 ≤ remaining_space) (hrem : 13 ≤ remaining) (hn : event_no < UINT32_RANGE)
    (hnext : client.next_expected = event_no) :
    ∃ record, serialize_event_record server event_no remaining_space = some record ∧
      deserialize_event_record client record remaining =
        (13, { client with
          game_over := true
          next_expected := (event_no + 1) % UINT32_RANGE }) := by
  refine ⟨_, serialize_game_over server event_no remaining_space (by rw [ht]; decide)
    (by rw [ht]; decide) (by rw [ht]; decide) hs, ?_⟩
  have h := deserialize_game_over_record client event_no [] remaining hrem hn
  rw [List.append_nil] at h
  rw [ht]
  show deserialize_event_record client
    (htonl 5 ++ (htonl event_no ++ [3 % 256]) ++
      htonl (crc_32 (htonl 5 ++ (htonl event_no ++ [3 % 256])) 9)) remaining = _
  rw [h, if_pos hnext.symm, hnext]

/-! ## The name list of a NEW_GAME record on the client -/

/-- The loop of `parse_player_names` over `m` name characters. -/
theorem parse_player_names_loop_chars (buffer : List Nat) (remaining names_count : Nat)
    (state : client_game_state_t) :
    ∀ (m fuel offset current_name_len : Nat),
      (∀ j, j < m → 33 ≤ byte_at buffer (offset + j) ∧ byte_at buffer (offset + j) ≤ 126) →
      current_name_len + m ≤ 20 → offset + m ≤ remaining →
      parse_player_names_loop buffer remaining (fuel + m) offset names_count
          current_name_len state =
        parse_player_names_loop buffer remaining fuel (offset + m) names_count
          (current_name_len + m) state := by
  intro m
  induction m with
  | zero => intro fuel offset current_name_len _ _ _; rfl
  | succ k ih =>
    intro fuel offset current_name_len hchars hlen hrem
    have h0 := hchars 0 (by omega)
    rw [Nat.add_zero] at h0
    have e : fuel + (k + 1) = (fuel + k) + 1 := by omega
    rw [e, parse_player_names_loop, if_pos (by omega)]
    simp only [PLAYER_NAME_MINIMAL_ASCII, PLAYER_NAME_MAXIMAL_ASCII, ge_iff_le, h0, and_self,
      if_true]
    rw [if_neg (by omega)]
    rw [ih fuel (offset + 1) (current_name_len + 1)
      (fun j hj => by
        have := hchars (j + 1) (by omega)
        have e2 : offset + 1 + j = offset + (j + 1) := by omega
        rw [e2]; exact this)
      (by omega) (by omega)]
    have e3 : offset + 1 + k = offset + (k + 1) := by omega
    have e4 : current_name_len + 1 + k = current_name_len + (k + 1) := by omega
    rw [e3, e4]

/-- The loop of `parse_player_names` at the NUL that ends a name. -/
theorem parse_player_names_loop_nul (buffer : List Nat) (remaining names_count : Nat)
    (state : client_game_state_t) (fuel offset current_name_len : Nat)
    (h0 : byte_at buffer offset = 0) (hlen : 0 < current_name_len)
    (hlen20 : current_name_len ≤ 20) (hrem : offset < remaining) :
    parse_player_names_loop buffer remaining (fuel + 1) offset names_count
        current_name_len state =
      parse_player_names_loop buffer remaining fuel (offset + 1) ((names_count + 1) % 256) 0
        { state with
          game_players :=
            if names_count < MAX_PLAYERS then
              state.game_players.set names_count
                (copy_name_loop buffer (offset - current_name_len) current_name_len 0
                  (state.game_players.getD names_count []))
            else state.game_players
          players_count := (state.players_count + 1) % 256
          names_out_of_table :=
            state.names_out_of_table || decide (MAX_PLAYERS ≤ names_count) } := by
  have hne : ¬ current_name_len = 0 := by omega
  rw [parse_player_names_loop, if_pos hrem]
  simp [PLAYER_NAME_MINIMAL_ASCII, h0, hne]

theorem copy_name_loop_length (buffer : List Nat) (start : Nat) :
    ∀ (m i : Nat) (row : List Nat), (copy_name_loop buffer start m i row).length = row.length := by
  intro m
  induction m with
  | zero => intro i row; rfl
  | succ k ih =>
    intro i row
    rw [copy_name_loop, ih, List.length_set]

theorem copy_name_loop_getD (buffer : List Nat) (start : Nat) :
    ∀ (m i : Nat) (row : List Nat) (j : Nat),
      (copy_name_loop buffer start m i row).getD j 0 =
        if i ≤ j ∧ j < i + m ∧ j < row.length then byte_at buffer (start + j)
        else row.getD j 0 := by
  intro m
  induction m with
  | zero =>
    intro i row j
    rw [copy_name_loop, if_neg (by omega)]
  | succ k ih =>
    intro i row j
    rw [copy_name_loop, ih, List.length_set, getD_set]
    by_cases h1 : i + 1 ≤ j ∧ j < i + 1 + k ∧ j < row.length
    · rw [if_pos h1, if_pos ⟨by omega, by omega, h1.2.2⟩]
    · rw [if_neg h1]
      by_cases h2 : i = j ∧ i < row.length
      · rw [if_pos h2, if_pos ⟨by omega, by omega, by omega⟩, h2.1]
      · rw [if_neg h2, if_neg (by omega)]

theorem list_ext_getD : ∀ (a b : List Nat), a.length = b.length →
    (∀ j, j < a.length → a.getD j 0 = b.getD j 0) → a = b := by
  intro a
  induction a with
  | nil =>
    intro b hl _
    cases b with
    | nil => rfl
    | cons x t => simp at hl
  | cons x t ih =>
    intro b hl h
    cases b with
    | nil => simp at hl
    | cons y u =>
      have h0 := h 0 (by simp)
      simp only [List.getD_cons_zero] at h0
      have ht := ih u (by simpa using hl) (fun j hj => by
        have := h (j + 1) (by simp; omega)
        simpa using this)
      rw [h0, ht]

theorem getD_replicate_zero : ∀ (n j : Nat), (List.replicate n 0).getD j 0 = 0 := by
  intro n
  induction n with
  | zero => intro j; rfl
  | succ k ih =>
    intro j
    cases j with
    | zero => rfl
    | succ i => exact ih i

theorem name_array_length (name : List Nat) (h : name.length ≤ 20) :
    (name_array name).length = 21 := by
  unfold name_array MAX_PLAYER_NAME_LENGTH
  rw [List.length_append, List.length_replicate]
  omega

theorem name_array_getD (name : List Nat) (j : Nat) :
    (name_array name).getD j 0 = name.getD j 0 := by
  unfold name_array
  by_cases hj : j < name.length
  · rw [List.getD_append _ _ _ _ hj]
  · rw [List.getD_append_right _ _ _ _ (by omega), getD_replicate_zero,
      List.getD_eq_default _ _ (by omega)]

/-- Copying a name of at most 20 bytes over a row of NUL bytes yields the array that
holds the name. -/
theorem copy_name_loop_zero_row (buffer : List Nat) (start : Nat) (name : List Nat)
    (hlen : name.length ≤ 20)
    (hbytes : ∀ j, j < name.length → byte_at buffer (start + j) = name.getD j 0) :
    copy_name_loop buffer start name.length 0 (List.replicate 21 0) = name_array name := by
  apply list_ext_getD
  · rw [copy_name_loop_length, name_array_length name hlen, List.length_replicate]
  · intro j hj
    rw [copy_name_loop_length, List.length_replicate] at hj
    rw [copy_name_loop_getD, name_array_getD, List.length_replicate]
    by_cases h : j < name.length
    · rw [if_pos ⟨by omega, by omega, hj⟩, hbytes j h]
    · rw [if_neg (by omega), getD_replicate_zero, List.getD_eq_default _ _ (by omega)]

theorem getD_set_of_ne {α : Type} (d : α) : ∀ (l : List α) (i j : Nat) (v : α), i ≠ j →
    (l.set i v).getD j d = l.getD j d := by
  intro l
  induction l with
  | nil => intro i j v _; simp
  | cons a t ih =>
    intro i j v hne
    cases i with
    | zero =>
      cases j with
      | zero => exact absurd rfl hne
      | succ j => simp
    | succ i =>
      cases j with
      | zero => simp
      | succ j =>
        simp only [List.set_cons_succ, List.getD_cons_succ]
        exact ih i j v (by omega)

theorem getD_mem_of_lt (l : List Nat) (j : Nat) (h : j < l.length) : l.getD j 0 ∈ l := by
  rw [List.getD_eq_getElem _ _ h]
  exact List.getElem_mem h

/-- The loop of `parse_player_names` over the bytes that `serialize_event_record` writes
for `count` valid names, on a table whose rows for these names hold NUL bytes. -/
theorem parse_player_names_loop_names (buffer : List Nat) (remaining : Nat)
    (names : List (List Nat)) :
    ∀ (count i fuel offset : Nat) (state : client_game_state_t),
      (∀ j, j < (player_names_bytes names count i).length →
        byte_at buffer (offset + j) = (player_names_bytes names count i).getD j 0) →
      offset + (player_names_bytes names count i).length = remaining →
      fuel = (player_names_bytes names count i).length →
      (∀ r, i ≤ r → r < i + count → valid_name (c_str (names.getD r []))) →
      i + count ≤ MAX_PLAYERS → state.players_count + count ≤ 255 →
      (∀ r, i ≤ r → r < i + count → state.game_players.getD r [] = List.replicate 21 0) →
      parse_player_names_loop buffer remaining fuel offset i 0 state =
        (true, { state with
          game_players := store_names names count i state.game_players
          players_count := state.players_count + count }) := by
  intro count
  induction count with
  | zero =>
    intro i fuel offset state _ _ hfuel _ _ _ _
    have hf : fuel = 0 := hfuel
    subst hf
    rfl
  | succ n ih =>
    intro i fuel offset state hbuf hrem hfuel hvalid hi hpc hrows
    have hv := hvalid i (Nat.le_refl _) (by omega)
    have hsplit : player_names_bytes names (n + 1) i =
        (c_str (names.getD i []) ++ [0]) ++ player_names_bytes names n (i + 1) := rfl
    rw [hsplit] at hbuf hrem hfuel
    simp only [List.length_append, List.length_singleton] at hbuf hrem hfuel
    have hchar : ∀ j, j < (c_str (names.getD i [])).length →
        byte_at buffer (offset + j) = (c_str (names.getD i [])).getD j 0 := by
      intro j hj
      rw [hbuf j (by omega), List.append_assoc, List.getD_append _ _ _ _ hj]
    have hnul : byte_at buffer (offset + (c_str (names.getD i [])).length) = 0 := by
      rw [hbuf _ (by omega), List.append_assoc, List.getD_append_right _ _ _ _ (Nat.le_refl _),
        Nat.sub_self]
      rfl
    have hfuel' : fuel = ((player_names_bytes names n (i + 1)).length + 1) +
        (c_str (names.getD i [])).length := by omega
    rw [hfuel', parse_player_names_loop_chars buffer remaining i state
      (c_str (names.getD i [])).length _ offset 0
      (fun j hj => by
        rw [hchar j hj]
        exact hv.2.2 _ (getD_mem_of_lt _ j hj))
      (by have := hv.2.1; omega) (by omega)]
    rw [Nat.zero_add, parse_player_names_loop_nul buffer remaining i state _ _ _ hnul hv.1 hv.2.1
      (by omega)]
    have hM : MAX_PLAYERS = 25 := rfl
    have hflag : (state.names_out_of_table || decide (MAX_PLAYERS ≤ i)) =
        state.names_out_of_table := by
      rw [decide_eq_false (by omega), Bool.or_false]
    rw [if_pos (by omega), hflag]
    rw [Nat.add_sub_cancel, hrows i (Nat.le_refl _) (by omega),
      copy_name_loop_zero_row buffer offset _ hv.2.1 hchar]
    have hi256 : (i + 1) % 256 = i + 1 := Nat.mod_eq_of_lt (by omega)
    have hp256 : (state.players_count + 1) % 256 = state.players_count + 1 :=
      Nat.mod_eq_of_lt (by omega)
    rw [hi256, hp256]
    rw [ih (i + 1) _ (offset + (c_str (names.getD i [])).length + 1) _
      (fun j hj => by
        have := hbuf ((c_str (names.getD i [])).length + 1 + j) (by omega)
        have e : offset + (c_str (names.getD i [])).length + 1 + j =
            offset + ((c_str (names.getD i [])).length + 1 + j) := by omega
        rw [e, this, List.getD_append_right _ _ _ _ (by simp)]
        congr 1
        simp)
      (by omega) rfl
      (fun r hr1 hr2 => hvalid r (by omega) (by omega))
      (by omega) (by simp only; omega)
      (fun r hr1 hr2 => by
        simp only
        rw [getD_set_of_ne _ _ _ _ _ (by omega)]
        exact hrows r (by omega) (by omega))]
    simp only [store_names]
    congr 2
    omega

theorem getD_set_eq {α : Type} (d : α) : ∀ (l : List α) (i j : Nat) (v : α),
    (l.set i v).getD j d = if i = j ∧ i < l.length then v else l.getD j d := by
  intro l
  induction l with
  | nil => intro i j v; simp
  | cons a t ih =>
    intro i j v
    cases i with
    | zero =>
      cases j with
      | zero => simp
      | succ j => simp
    | succ i =>
      cases j with
      | zero => simp
      | succ j =>
        simp only [List.set_cons_succ, List.getD_cons_succ, List.length_cons]
        rw [ih i j v]
        simp

theorem store_names_length (names : List (List Nat)) :
    ∀ (count i : Nat) (table : List (List Nat)),
      (store_names names count i table).length = table.length := by
  intro count
  induction count with
  | zero => intro i table; rfl
  | succ n ih => intro i table; rw [store_names, ih, List.length_set]

/-- The rows of the table after the names have been stored. -/
theorem store_names_getD (names : List (List Nat)) :
    ∀ (count i : Nat) (table : List (List Nat)) (r : Nat),
      (store_names names count i table).getD r [] =
        if i ≤ r ∧ r < i + count ∧ r < table.length then name_array (c_str (names.getD r []))
        else table.getD r [] := by
  intro count
  induction count with
  | zero =>
    intro i table r
    rw [store_names, if_neg (by omega)]
  | succ n ih =>
    intro i table r
    rw [store_names, ih, List.length_set, getD_set_eq]
    by_cases h1 : i + 1 ≤ r ∧ r < i + 1 + n ∧ r < table.length
    · rw [if_pos h1, if_pos ⟨by omega, by omega, h1.2.2⟩]
    · rw [if_neg h1]
      by_cases h2 : i = r ∧ i < table.length
      · rw [if_pos h2, if_pos ⟨by omega, by omega, by omega⟩, h2.1]
      · rw [if_neg h2, if_neg (by omega)]

theorem strcmp_zeros : ∀ (n m : Nat), strcmp (List.replicate n 0) (List.replicate m 0) = 0 := by
  intro n m
  cases n with
  | zero =>
    cases m with
    | zero => rfl
    | succ m => simp [List.replicate_succ, strcmp]
  | succ n =>
    cases m with
    | zero => simp [List.replicate_succ, strcmp]
    | succ m => simp [List.replicate_succ, strcmp]

theorem strcmp_zeros_left (n x : Nat) (t : List Nat) (hx : x ≠ 0) :
    strcmp (List.replicate n 0) (x :: t) = -1 := by
  cases n with
  | zero => simp [strcmp, hx]
  | succ n =>
    have : 0 < x := Nat.pos_of_ne_zero hx
    simp [List.replicate_succ, strcmp, this]

theorem strcmp_zeros_right (m y : Nat) (t : List Nat) (hy : y ≠ 0) :
    strcmp (y :: t) (List.replicate m 0) = 1 := by
  cases m with
  | zero => simp [strcmp, hy]
  | succ m =>
    have : 0 < y := Nat.pos_of_ne_zero hy
    simp [List.replicate_succ, strcmp, this]

theorem c_str_cons (x : Nat) (t : List Nat) :
    c_str (x :: t) = if x = 0 then [] else x :: c_str t := by
  unfold c_str
  by_cases h : x = 0
  · simp [h]
  · simp [h, List.takeWhile_cons]

/-- The sign of `strcmp` depends on the strings only, not on what follows their NUL. -/
theorem strcmp_c_str_pad : ∀ (a b : List Nat) (n m : Nat),
    strcmp (c_str a ++ List.replicate n 0) (c_str b ++ List.replicate m 0) = strcmp a b := by
  intro a
  induction a with
  | nil =>
    intro b n m
    cases b with
    | nil => simpa [c_str] using strcmp_zeros n m
    | cons x t =>
      rw [c_str_cons]
      by_cases hx : x = 0
      · subst hx
        simpa [c_str, strcmp] using strcmp_zeros n m
      · rw [if_neg hx]
        simpa [c_str, strcmp, hx] using strcmp_zeros_left n x _ hx
  | cons y u ih =>
    intro b n m
    rw [c_str_cons]
    by_cases hy : y = 0
    · subst hy
      rw [if_pos rfl]
      cases b with
      | nil => simpa [c_str, strcmp] using strcmp_zeros n m
      | cons x t =>
        rw [c_str_cons]
        by_cases hx : x = 0
        · subst hx
          simpa [strcmp] using strcmp_zeros n m
        · rw [if_neg hx]
          have hpos : 0 < x := Nat.pos_of_ne_zero hx
          simpa [strcmp, hpos] using strcmp_zeros_left n x _ hx
    · rw [if_neg hy]
      have hypos : 0 < y := Nat.pos_of_ne_zero hy
      cases b with
      | nil => simpa [c_str, strcmp, hy] using strcmp_zeros_right m y _ hy
      | cons x t =>
        rw [c_str_cons]
        by_cases hx : x = 0
        · subst hx
          rw [if_pos rfl]
          simpa [strcmp, hypos] using strcmp_zeros_right m y _ hy
        · rw [if_neg hx]
          simp only [List.cons_append, strcmp]
          have := ih t n m
          simp only [HAppend.hAppend, Append.append] at this ⊢
          rw [this]

theorem check_names_order_loop_true (state : client_game_state_t) :
    ∀ (fuel i : Nat),
      (∀ j, i ≤ j → j + 1 < state.players_count →
        strcmp (state.game_players.getD j []) (state.game_players.getD (j + 1) []) < 0) →
      check_names_order_loop state fuel i = true := by
  intro fuel
  induction fuel with
  | zero => intro i _; rfl
  | succ n ih =>
    intro i h
    unfold check_names_order_loop
    by_cases hlt : (i : Int) < (state.players_count : Int) - 1
    · rw [if_pos hlt]
      have := h i (Nat.le_refl _) (by omega)
      rw [if_neg (by omega)]
      exact ih (i + 1) (fun j hj1 hj2 => h j (by omega) hj2)
    · rw [if_neg hlt]

theorem c_str_append_zeros : ∀ (a : List Nat) (n : Nat),
    c_str (c_str a ++ List.replicate n 0) = c_str a := by
  intro a
  induction a with
  | nil =>
    intro n
    cases n with
    | zero => rfl
    | succ n => simp [c_str, List.replicate_succ]
  | cons x t ih =>
    intro n
    rw [c_str_cons]
    by_cases hx : x = 0
    · rw [if_pos hx]
      cases n with
      | zero => rfl
      | succ n => simp [c_str, List.replicate_succ]
    · rw [if_neg hx, List.cons_append, c_str_cons, if_neg hx, ih]

theorem player_names_bytes_le (names : List (List Nat)) :
    ∀ (count i : Nat), (∀ r, i ≤ r → r < i + count → valid_name (c_str (names.getD r []))) →
      ∀ b ∈ player_names_bytes names count i, b ≤ 126 := by
  intro count
  induction count with
  | zero => intro i _ b hb; simp [player_names_bytes] at hb
  | succ n ih =>
    intro i hvalid b hb
    rw [player_names_bytes] at hb
    rcases List.mem_append.1 hb with h | h
    · rcases List.mem_append.1 h with h | h
      · exact ((hvalid i (Nat.le_refl _) (by omega)).2.2 b h).2
      · simp at h; omega
    · exact ih (i + 1) (fun r hr1 hr2 => hvalid r (by omega) (by omega)) b h

theorem new_game_reads (len x y c : Nat) (names rest : List Nat)
    (hlen : len < UINT32_RANGE) (hx : x < UINT32_RANGE) (hy : y < UINT32_RANGE) :
    ntohl ((htonl len ++ (htonl 0 ++ [0] ++ htonl x ++ htonl y ++ names)) ++ htonl c ++ rest) 0
      = len ∧
    ntohl ((htonl len ++ (htonl 0 ++ [0] ++ htonl x ++ htonl y ++ names)) ++ htonl c ++ rest) 4
      = 0 ∧
    byte_at ((htonl len ++ (htonl 0 ++ [0] ++ htonl x ++ htonl y ++ names)) ++ htonl c ++ rest) 8
      = 0 ∧
    ntohl ((htonl len ++ (htonl 0 ++ [0] ++ htonl x ++ htonl y ++ names)) ++ htonl c ++ rest) 9
      = x ∧
    ntohl ((htonl len ++ (htonl 0 ++ [0] ++ htonl x ++ htonl y ++ names)) ++ htonl c ++ rest) 13
      = y ∧
    ((htonl len ++ (htonl 0 ++ [0] ++ htonl x ++ htonl y ++ names)) ++ htonl c ++ rest).drop 17
      = names ++ (htonl c ++ rest) := by
  unfold UINT32_RANGE at hlen hx hy
  simp only [htonl, List.cons_append, List.nil_append, ntohl, byte_at, List.getD_cons_zero,
    List.getD_cons_succ, List.append_assoc, List.drop_succ_cons, List.drop_zero]
  refine ⟨?_, ?_, ?_, ?_, ?_, ?_⟩ <;> first | trivial | omega

theorem parse_length_arith (n : Nat) (h : n ≤ 525) :
    (((((13 + n + UINT32_RANGE - 5) % UINT32_RANGE : Nat) : Int) - 8) %
      (UINT32_RANGE : Int)).toNat = n := by
  have e1 : 13 + n + UINT32_RANGE - 5 = (8 + n) + UINT32_RANGE := by omega
  have hlt : 8 + n < UINT32_RANGE := by unfold UINT32_RANGE; omega
  rw [e1, Nat.add_mod_right, Nat.mod_eq_of_lt hlt]
  have e2 : ((8 + n : Nat) : Int) - 8 = (n : Int) := by push_cast; omega
  have hlt2 : (n : Int) < (UINT32_RANGE : Int) := by
    have : n < UINT32_RANGE := by omega
    exact_mod_cast this
  rw [e2, Int.emod_eq_of_lt (by omega) hlt2]
  exact Int.toNat_ofNat n

/-- What `deserialize_event_record` does with a buffer that starts with a NEW_GAME record
of event number 0 whose checksum is right and whose name bytes are those of `count`
valid, strictly ascending names, on a client that expects event 0, has `players_count =
0` and whose rows of `game_players` for these names hold NUL bytes. -/
theorem deserialize_new_game_of_reads (client : client_game_state_t) (buffer : List Nat)
    (remaining : Int) (names : List (List Nat)) (count x y : Nat) (tail : List Nat)
    (hcount : count ≤ 25)
    (hvalid : ∀ r, r < count → valid_name (c_str (names.getD r [])))
    (hasc : ∀ r, r + 1 < count → strcmp (names.getD r []) (names.getD (r + 1) []) < 0)
    (hnext : client.next_expected = 0) (hpc : client.players_count = 0)
    (htable : ∀ r, r < count → client.game_players.getD r [] = List.replicate 21 0)
    (hrem : ((21 + (player_names_bytes names count 0).length : Nat) : Int) ≤ remaining)
    (h0 : ntohl buffer 0 = 13 + (player_names_bytes names count 0).length)
    (h4 : ntohl buffer 4 = 0) (h8 : byte_at buffer 8 = 0)
    (h9 : ntohl buffer 9 = x) (h13 : ntohl buffer 13 = y)
    (hdrop : buffer.drop 17 = player_names_bytes names count 0 ++ tail)
    (hcrc : crc_32 buffer (13 + (player_names_bytes names count 0).length + 4) =
      ntohl buffer (4 + (13 + (player_names_bytes names count 0).length))) :
    deserialize_event_record client buffer remaining =
      (((21 + (player_names_bytes names count 0).length : Nat) : Int), { client with
        board_dimension_x := x
        board_dimension_y := y
        players_count := count
        game_players := store_names names count 0 client.game_players
        data_for_gui := { client.data_for_gui with
          event_type := EVENT_NEW_GAME
          x := x
          y := y
          ready_to_send := 1 }
        next_expected := 1 }) := by
  have hN := player_names_bytes_length names count 0 (fun j _ hj => (hvalid j (by omega)).2.1)
  have hbytes := player_names_bytes_le names count 0 (fun r _ hr => hvalid r (by omega))
  have htlen : ∀ r, r < count → r < client.game_players.length := by
    intro r hr
    by_contra hnot
    have h1 := htable r hr
    rw [List.getD_eq_default _ _ (by omega)] at h1
    exact absurd h1 (by simp [List.replicate_succ])
  have hrow : ∀ r, r < count →
      (store_names names count 0 client.game_players).getD r [] =
        name_array (c_str (names.getD r [])) := by
    intro r hr
    rw [store_names_getD, if_pos ⟨by omega, by omega, htlen r hr⟩]
  generalize hNdef : player_names_bytes names count 0 = N at *
  rw [deserialize_event_record_of_frame client buffer remaining (13 + N.length)
    (by push_cast at hrem ⊢; omega) (by omega) h0 hcrc, h8, if_pos (by decide), h4]
  unfold deserialize_new_game
  have e17 : EVENT_DATA_BYTE_OFFSET + 8 = 17 := rfl
  have hparse_len := parse_length_arith N.length (by omega)
  rw [e17, hdrop, hparse_len, h9, h13]
  have hparse := parse_player_names_loop_names (N ++ tail) N.length names count 0 N.length 0
    client
    (fun j hj => by
      rw [hNdef] at hj ⊢
      rw [Nat.zero_add, byte_at, List.getD_append _ _ _ _ hj]
      exact Nat.mod_eq_of_lt (by
        have := hbytes _ (getD_mem_of_lt N j hj)
        omega))
    (by rw [hNdef]; omega) (by rw [hNdef])
    (fun r _ hr => hvalid r (by omega)) (by show 0 + count ≤ 25; omega) (by omega)
    (fun r _ hr => htable r (by omega))
  unfold parse_player_names
  rw [hparse]
  have horder : check_names_order { client with
      game_players := store_names names count 0 client.game_players
      players_count := client.players_count + count } = true := by
    unfold check_names_order
    apply check_names_order_loop_true
    intro j _ hj
    simp only at hj ⊢
    rw [hpc, Nat.zero_add] at hj
    rw [hrow j (by omega), hrow (j + 1) hj]
    unfold name_array
    rw [strcmp_c_str_pad]
    exact hasc j hj
  simp only [Bool.not_true, Bool.false_eq_true, if_false, horder]
  rw [if_neg (by omega), if_pos hnext.symm]
  have e21 : ((13 + N.length : Nat) : Int) + 8 = ((21 + N.length : Nat) : Int) := by
    push_cast; omega
  rw [e21]
  simp only [hpc, hnext, Nat.zero_add]
  rfl

/-- Round trip of the NEW_GAME entry (entry 0 of the log) with valid, strictly ascending
names, on a client that expects event 0, has `players_count = 0` and whose rows of
`game_players` for these names hold NUL bytes (as after `initialise_client_game_state`):
the record size is returned, the board dimensions and the names of the entry are stored,
`players_count` is the number of names and a NEW_GAME message is pending. -/
theorem new_game_round_trip (server : server_game_state_t) (remaining_space : Int)
    (client : client_game_state_t) (remaining : Int)
    (ht : (server.events_queue.getD 0 default).event_type = EVENT_NEW_GAME)
    (hcount : server.players_count ≤ 25)
    (hvalid : ∀ r, r < server.players_count →
      valid_name (c_str (server.game_primary_player_names.getD r [])))
    (hasc : ∀ r, r + 1 < server.players_count →
      strcmp (server.game_primary_player_names.getD r [])
        (server.game_primary_player_names.getD (r + 1) []) < 0)
    (hx : (server.events_queue.getD 0 default).x < UINT32_RANGE)
    (hy : (server.events_queue.getD 0 default).y < UINT32_RANGE)
    (hnext : client.next_expected = 0) (hpc : client.players_count = 0)
    (htable : ∀ r, r < server.players_count →
      client.game_players.getD r [] = List.replicate 21 0)
    (hrem : (record_size server 0 : Int) ≤ remaining) :
    ∃ record, serialize_event_record server 0 remaining_space = some record ∧
      deserialize_event_record client record remaining =
        ((record.length : Int), { client with
          board_dimension_x := (server.events_queue.getD 0 default).x
          board_dimension_y := (server.events_queue.getD 0 default).y
          players_count := server.players_count
          game_players := store_names server.game_primary_player_names
            server.players_count 0 client.game_players
          data_for_gui := { client.data_for_gui with
            event_type := EVENT_NEW_GAME
            x := (server.events_queue.getD 0 default).x
            y := (server.events_queue.getD 0 default).y
            ready_to_send := 1 }
          next_expected := 1 }) ∧
      ∀ r, r < server.players_count →
        c_str ((store_names server.game_primary_player_names server.players_count 0
          client.game_players).getD r []) =
          c_str (server.game_primary_player_names.getD r []) := by
  have hnames : ∀ i, i < server.players_count →
      strlen (server.game_primary_player_names.getD i []) ≤ 20 :=
    fun i hi => (hvalid i hi).2.1
  have hN := player_names_bytes_length server.game_primary_player_names
    server.players_count 0 (fun j _ hj => hnames j (by omega))
  have hser := serialize_new_game server 0 remaining_space hcount hnames ht
  have hsize : record_size server 0 =
      21 + (player_names_bytes server.game_primary_player_names
        server.players_count 0).length := by
    unfold record_size
    simp only [ht, if_true, INTEGER_FIELDS_LEN_EVENT_RECORD_NEW_GAME]
  have hreclen := serialize_event_record_length server 0 remaining_space _ hser
  rw [hsize] at hreclen hrem
  refine ⟨_, hser, ?_, ?_⟩
  · rw [hreclen]
    obtain ⟨r0, r4, r8, r9, r13, rdrop⟩ := new_game_reads
      (13 + (player_names_bytes server.game_primary_player_names
        server.players_count 0).length)
      (server.events_queue.getD 0 default).x (server.events_queue.getD 0 default).y
      (crc_32 (htonl (13 + (player_names_bytes server.game_primary_player_names
        server.players_count 0).length) ++ (htonl 0 ++ [0] ++
        htonl (server.events_queue.getD 0 default).x ++
        htonl (server.events_queue.getD 0 default).y ++
        player_names_bytes server.game_primary_player_names server.players_count 0))
        (17 + (player_names_bytes server.game_primary_player_names
          server.players_count 0).length))
      (player_names_bytes server.game_primary_player_names server.players_count 0) []
      (by unfold UINT32_RANGE; omega) hx hy
    rw [List.append_nil] at r0 r4 r8 r9 r13 rdrop
    have hbody : (htonl (13 + (player_names_bytes server.game_primary_player_names
        server.players_count 0).length) ++ (htonl 0 ++ [0] ++
        htonl (server.events_queue.getD 0 default).x ++
        htonl (server.events_queue.getD 0 default).y ++
        player_names_bytes server.game_primary_player_names server.players_count 0)).length =
        17 + (player_names_bytes server.game_primary_player_names
          server.players_count 0).length := by
      simp [htonl_length]; omega
    refine deserialize_new_game_of_reads client _ remaining server.game_primary_player_names
      server.players_count _ _ _ hcount hvalid hasc hnext hpc htable hrem r0 r4 r8 r9 r13
      rdrop ?_
    have e1 : 13 + (player_names_bytes server.game_primary_player_names
        server.players_count 0).length + 4 =
        17 + (player_names_bytes server.game_primary_player_names
          server.players_count 0).length := by omega
    have e2 : 4 + (13 + (player_names_bytes server.game_primary_player_names
        server.players_count 0).length) =
        17 + (player_names_bytes server.game_primary_player_names
          server.players_count 0).length := by omega
    rw [e1, e2, crc_32_append _ _ _ hbody.symm]
    have := ntohl_at_htonl (htonl (13 + (player_names_bytes server.game_primary_player_names
        server.players_count 0).length) ++ (htonl 0 ++ [0] ++
        htonl (server.events_queue.getD 0 default).x ++
        htonl (server.events_queue.getD 0 default).y ++
        player_names_bytes server.game_primary_player_names server.players_count 0))
      (crc_32 (htonl (13 + (player_names_bytes server.game_primary_player_names
        server.players_count 0).length) ++ (htonl 0 ++ [0] ++
        htonl (server.events_queue.getD 0 default).x ++
        htonl (server.events_queue.getD 0 default).y ++
        player_names_bytes server.game_primary_player_names server.players_count 0))
        (17 + (player_names_bytes server.game_primary_player_names
          server.players_count 0).length)) []
      (17 + (player_names_bytes server.game_primary_player_names
          server.players_count 0).length) hbody.symm (crc_32_lt _ _)
    rw [List.append_nil] at this
    exact this.symm
  · intro r hr
    have hlen : r < client.game_players.length := by
      by_contra hnot
      have h1 := htable r hr
      rw [List.getD_eq_default _ _ (by omega)] at h1
      exact absurd h1 (by simp [List.replicate_succ])
    rw [store_names_getD, if_pos ⟨by omega, by omega, hlen⟩]
    unfold name_array
    exact c_str_append_zeros _ _

/-! ## Checksum failures and records of fixed size: the validation rules -/

/-- The dispatch of `deserialize_event_record` on a buffer of at least 13 remaining bytes
that starts with a record that fits and whose checksum is right. -/
theorem deserialize_event_record_dispatch (state : client_game_state_t) (buffer : List Nat)
    (remaining : Int) (hmin : 13 ≤ remaining)
    (hfit : ((ntohl buffer 0 : Nat) : Int) + 8 ≤ remaining)
    (hcrc : crc_32 buffer (ntohl buffer 0 + 4) = ntohl buffer (4 + ntohl buffer 0)) :
    deserialize_event_record state buffer remaining =
      if byte_at buffer 8 = EVENT_NEW_GAME then
        deserialize_new_game state buffer (ntohl buffer 4) (((ntohl buffer 0 : Nat) : Int) + 8)
          (((ntohl buffer 0 + UINT32_RANGE - 5) % UINT32_RANGE : Nat) : Int)
      else if byte_at buffer 8 = EVENT_PIXEL then
        deserialize_pixel state buffer (ntohl buffer 4) (((ntohl buffer 0 : Nat) : Int) + 8)
      else if byte_at buffer 8 = EVENT_PLAYER_ELIMINATED then
        deserialize_player_eliminated state buffer (ntohl buffer 4)
          (((ntohl buffer 0 : Nat) : Int) + 8)
      else if byte_at buffer 8 = EVENT_GAME_OVER then
        deserialize_game_over state (ntohl buffer 4) (((ntohl buffer 0 : Nat) : Int) + 8)
      else ((((ntohl buffer 0 : Nat) : Int) + 8), state) := by
  unfold deserialize_event_record
  rw [if_neg (by unfold MINIMAL_EVENT_RECORD_LENGTH; push_cast; omega)]
  simp only []
  rw [if_neg (by omega), if_neg (by rw [hcrc]; simp)]

/-- C12.  A bad checksum is not fatal and has no effect: for every client state and every
buffer with at least 13 remaining bytes whose framed record fits in the remaining bytes
(`4 + len + 4 ≤ remaining`) and whose trailing checksum differs from `crc_32` of the
leading `4 + len` bytes, `deserialize_event_record` returns -1 and the client state is
unchanged. -/
theorem deserialize_event_record_bad_crc (state : client_game_state_t) (buffer : List Nat)
    (remaining : Int) (hmin : 13 ≤ remaining)
    (hfit : ((ntohl buffer 0 : Nat) : Int) + 8 ≤ remaining)
    (hcrc : crc_32 buffer (ntohl buffer 0 + 4) ≠ ntohl buffer (4 + ntohl buffer 0)) :
    deserialize_event_record state buffer remaining = (-1, state) := by
  unfold deserialize_event_record
  rw [if_neg (by unfold MINIMAL_EVENT_RECORD_LENGTH; push_cast; omega)]
  simp only []
  rw [if_neg (by omega), if_pos hcrc]

set_option maxRecDepth 1000000 in
/-- The NEW_GAME record of Alice and Bob with its last checksum byte changed from 202 to
203, on the initial client state: the result is -1 and the state is unchanged. -/
theorem deserialize_event_record_bad_crc_witness :
    deserialize_event_record initial_client_game_state
      (alice_bob_new_game_record.take 30 ++ [203]) 31 = (-1, initial_client_game_state) :=
  deserialize_event_record_bad_crc initial_client_game_state
    (alice_bob_new_game_record.take 30 ++ [203]) 31 (by decide) (by decide) (by decide)

/-- C14.  A record of type PIXEL whose framing fits and whose checksum is right.  If the
record size `len + 8` is not 22, or `x ≥ board_dimension_x`, or `y ≥ board_dimension_y`
(a coordinate equal to the dimension is rejected), or `player_no ≥ players_count`, the
result is the fatal code -2 (and the state is unchanged).  Otherwise the result is 22; if
`event_no = next_expected` a PIXEL message carrying `player_no`, `x`, `y` is flagged and
`next_expected` is incremented (as a `uint32_t`), and if not the state is unchanged. -/
theorem deserialize_event_record_pixel (state : client_game_state_t) (buffer : List Nat)
    (remaining : Int) (hmin : 13 ≤ remaining)
    (hfit : ((ntohl buffer 0 : Nat) : Int) + 8 ≤ remaining)
    (hcrc : crc_32 buffer (ntohl buffer 0 + 4) = ntohl buffer (4 + ntohl buffer 0))
    (htype : byte_at buffer 8 = EVENT_PIXEL) :
    ((ntohl buffer 0 + 8 ≠ 22 ∨ ntohl buffer 10 ≥ state.board_dimension_x ∨
        ntohl buffer 14 ≥ state.board_dimension_y ∨
        byte_at buffer 9 ≥ state.players_count) →
      deserialize_event_record state buffer remaining = (-2, state)) ∧
    (¬ (ntohl buffer 0 + 8 ≠ 22 ∨ ntohl buffer 10 ≥ state.board_dimension_x ∨
        ntohl buffer 14 ≥ state.board_dimension_y ∨
        byte_at buffer 9 ≥ state.players_count) →
      (deserialize_event_record state buffer remaining).1 = 22 ∧
      (ntohl buffer 4 = state.next_expected →
        (deserialize_event_record state buffer remaining).2 =
          { state with
            data_for_gui := { state.data_for_gui with
              event_type := EVENT_PIXEL
              player_no := byte_at buffer 9
              x := ntohl buffer 10
              y := ntohl buffer 14
              ready_to_send := 1 }
            next_expected := (state.next_expected + 1) % UINT32_RANGE }) ∧
      (ntohl buffer 4 ≠ state.next_expected →
        (deserialize_event_record state buffer remaining).2 = state)) := by
  rw [deserialize_event_record_dispatch state buffer remaining hmin hfit hcrc, htype,
    if_neg (by decide), if_pos rfl]
  unfold deserialize_pixel
  simp only [EVENT_DATA_BYTE_OFFSET, EVENT_RECORD_LENGTH_PIXEL]
  have e10 : 9 + 1 = 10 := rfl
  have e14 : 9 + 5 = 14 := rfl
  rw [e10, e14]
  constructor
  · intro h
    by_cases hs : ((ntohl buffer 0 : Nat) : Int) + 8 ≠ ((22 : Nat) : Int)
    · rw [if_pos hs]
    · rw [if_neg hs]
      by_cases hxy : ntohl buffer 10 ≥ state.board_dimension_x ∨
          ntohl buffer 14 ≥ state.board_dimension_y
      · rw [if_pos hxy]
      · rw [if_neg hxy]
        have hp : byte_at buffer 9 ≥ state.players_count := by
          rcases h with h | h | h | h
          · exact absurd (by push_cast at hs ⊢; omega) hs
          · exact absurd (Or.inl h) hxy
          · exact absurd (Or.inr h) hxy
          · exact h
        rw [if_pos hp]
  · intro h
    have hs : ¬ (((ntohl buffer 0 : Nat) : Int) + 8 ≠ ((22 : Nat) : Int)) := by
      intro hne
      apply h
      left
      intro he
      apply hne
      push_cast
      omega
    have hxy : ¬ (ntohl buffer 10 ≥ state.board_dimension_x ∨
        ntohl buffer 14 ≥ state.board_dimension_y) := by
      rintro (hx | hy)
      · exact h (Or.inr (Or.inl hx))
      · exact h (Or.inr (Or.inr (Or.inl hy)))
    have hp : ¬ (byte_at buffer 9 ≥ state.players_count) := fun hp =>
      h (Or.inr (Or.inr (Or.inr hp)))
    rw [if_neg hs, if_neg hxy, if_neg hp]
    have hsize : ((ntohl buffer 0 : Nat) : Int) + 8 = 22 := by
      by_contra hne
      exact hs (by push_cast; exact hne)
    refine ⟨?_, ?_, ?_⟩
    · by_cases hn : ntohl buffer 4 = state.next_expected
      · rw [if_pos hn]; exact hsize
      · rw [if_neg hn]; exact hsize
    · intro hn
      rw [if_pos hn]
    · intro hn
      rw [if_neg hn]

set_option maxRecDepth 1000000 in
/-- The PIXEL record of entry 42 of `pixel_42_game` (player 3 at (10, 20)) on a client of
four players on a board of 800 by 600 that expects event 42: the result is 22, the message
is flagged and `next_expected` becomes 43. -/
theorem deserialize_event_record_pixel_witness :
    (deserialize_event_record
        { initial_client_game_state with
          players_count := 4, board_dimension_x := 800, board_dimension_y := 600,
          next_expected := 42 }
        (event_record pixel_42_game 42) 22).1 = 22 ∧
    (deserialize_event_record
        { initial_client_game_state with
          players_count := 4, board_dimension_x := 800, board_dimension_y := 600,
          next_expected := 42 }
        (event_record pixel_42_game 42) 22).2.next_expected = 43 ∧
    (deserialize_event_record
        { initial_client_game_state with
          players_count := 4, board_dimension_x := 800, board_dimension_y := 600,
          next_expected := 42 }
        (event_record pixel_42_game 42) 22).2.data_for_gui =
      { x := 10, y := 20, event_type := 1, player_no := 3, ready_to_send := 1 } := by
  have h := (deserialize_event_record_pixel
    { initial_client_game_state with
      players_count := 4, board_dimension_x := 800, board_dimension_y := 600,
      next_expected := 42 }
    (event_record pixel_42_game 42) 22 (by decide) (by decide) (by decide) (by decide)).2
    (by decide)
  refine ⟨h.1, ?_, ?_⟩
  · rw [h.2.1 (by decide)]; decide
  · rw [h.2.1 (by decide)]; decide

/-- C15.  A record of type PLAYER_ELIMINATED whose framing fits and whose checksum is
right, on a client whose `players_count` is within the 25 entries of `is_alive`.  A
record size `len + 8` other than 14, or `player_no ≥ players_count`, gives the fatal code
-2.  With size 14, `player_no < players_count` and `event_no = next_expected`: if
`is_alive[player_no]` is true the entry is set to false, a PLAYER_ELIMINATED message for
`player_no` is flagged, `next_expected` is incremented (as a `uint32_t`) and the result is
14; if the player is already dead the result is the fatal code -2. -/
theorem deserialize_event_record_player_eliminated (state : client_game_state_t)
    (buffer : List Nat) (remaining : Int) (hmin : 13 ≤ remaining)
    (hfit : ((ntohl buffer 0 : Nat) : Int) + 8 ≤ remaining)
    (hcrc : crc_32 buffer (ntohl buffer 0 + 4) = ntohl buffer (4 + ntohl buffer 0))
    (htype : byte_at buffer 8 = EVENT_PLAYER_ELIMINATED)
    (hlen : state.is_alive.length = MAX_PLAYERS) (hcount : state.players_count ≤ MAX_PLAYERS) :
    ((ntohl buffer 0 + 8 ≠ 14 ∨ byte_at buffer 9 ≥ state.players_count) →
      deserialize_event_record state buffer remaining = (-2, state)) ∧
    (ntohl buffer 0 + 8 = 14 → byte_at buffer 9 < state.players_count →
      ntohl buffer 4 = state.next_expected →
      (state.is_alive.getD (byte_at buffer 9) false = true →
        deserialize_event_record state buffer remaining =
          (14, { state with
            is_alive := state.is_alive.set (byte_at buffer 9) false
            data_for_gui := { state.data_for_gui with
              event_type := EVENT_PLAYER_ELIMINATED
              player_no := byte_at buffer 9
              ready_to_send := 1 }
            next_expected := (state.next_expected + 1) % UINT32_RANGE }) ∧
        (state.is_alive.set (byte_at buffer 9) false).getD (byte_at buffer 9) true = false) ∧
      (state.is_alive.getD (byte_at buffer 9) false = false →
        deserialize_event_record state buffer remaining = (-2, state))) := by
  rw [deserialize_event_record_dispatch state buffer remaining hmin hfit hcrc, htype,
    if_neg (by decide), if_neg (by decide), if_pos rfl]
  unfold deserialize_player_eliminated
  simp only [EVENT_RECORD_LENGTH_PLAYER_ELIMINATED]
  constructor
  · intro h
    by_cases hs : ((ntohl buffer 0 : Nat) : Int) + 8 ≠ ((14 : Nat) : Int)
    · rw [if_pos hs]
    · rw [if_neg hs]
      have hp : byte_at buffer 9 ≥ state.players_count := by
        rcases h with h | h
        · exact absurd (by push_cast at hs ⊢; omega) hs
        · exact h
      rw [if_pos hp]
  · intro hsize hp hn
    have hs : ¬ (((ntohl buffer 0 : Nat) : Int) + 8 ≠ ((14 : Nat) : Int)) := by
      intro hne
      apply hne
      push_cast
      omega
    have hsz : ((ntohl buffer 0 : Nat) : Int) + 8 = 14 := by omega
    rw [if_neg hs, if_neg (by omega), if_pos hn]
    constructor
    · intro ha
      rw [ha, hsz]
      refine ⟨rfl, ?_⟩
      rw [getD_set_eq, if_pos ⟨rfl, by unfold MAX_PLAYERS at hlen hcount; omega⟩]
    · intro ha
      rw [ha]
      rfl

set_option maxRecDepth 1000000 in
/-- The PLAYER_ELIMINATED record of entry 2 of the game of Alice and Bob (player 1) on a
client of two players that expects event 2: player 1 is marked dead and the result is
14. -/
theorem deserialize_event_record_player_eliminated_witness :
    deserialize_event_record
        { initial_client_game_state with players_count := 2, next_expected := 2 }
        (event_record alice_bob_game 2) 14 =
      (14, { initial_client_game_state with
        players_count := 2,
        next_expected := 3,
        is_alive := [true, false] ++ List.replicate 23 true,
        data_for_gui :=
          { x := 0, y := 0, event_type := 2, player_no := 1, ready_to_send := 1 } }) := by
  have h := ((deserialize_event_record_player_eliminated
    { initial_client_game_state with players_count := 2, next_expected := 2 }
    (event_record alice_bob_game 2) 14 (by decide) (by decide) (by decide) (by decide)
    (by decide) (by decide)).2 (by decide) (by decide) (by decide)).1 (by decide)
  rw [h.1]
  decide

/-! ## Server datagrams on the client -/

/-- C13 (as the code has it).  With fewer than 13 remaining bytes
`deserialize_event_record` returns the code -2 and leaves the state unchanged, and the
loop of `handle_server_message` that gets this result ends in `exit(1)`: the client is
terminated, the result is the fatal one and not "stop parsing". -/
theorem handle_server_message_loop_short_rest (state : client_game_state_t)
    (buffer : List Nat) (fuel buffer_offset : Nat) (remaining_bytes : Int)
    (gui_writes : List client_game_state_t) (hrem : remaining_bytes < 13) :
    deserialize_event_record state (buffer.drop buffer_offset) remaining_bytes = (-2, state) ∧
    handle_server_message_loop buffer (fuel + 1) state buffer_offset remaining_bytes gui_writes =
      some { state := state, exited := true, gui_writes := gui_writes } := by
  have h : deserialize_event_record state (buffer.drop buffer_offset) remaining_bytes =
      (-2, state) := by
    unfold deserialize_event_record
    rw [if_pos (by unfold MINIMAL_EVENT_RECORD_LENGTH; push_cast; omega)]
  refine ⟨h, ?_⟩
  unfold handle_server_message_loop
  simp only [h]
  rfl

/-- Five bytes left after a record: the result is -2 and the loop ends in `exit(1)`. -/
theorem handle_server_message_loop_short_rest_witness :
    deserialize_event_record initial_client_game_state
      (([77, 0, 0, 0] ++ event_record alice_bob_game 3 ++ [0, 0, 0, 0, 0]).drop 17) 5 =
        (-2, initial_client_game_state) ∧
    handle_server_message_loop ([77, 0, 0, 0] ++ event_record alice_bob_game 3 ++ [0, 0, 0, 0, 0])
      (0 + 1) initial_client_game_state 17 5 [] =
      some { state := initial_client_game_state, exited := true, gui_writes := [] } :=
  handle_server_message_loop_short_rest initial_client_game_state
    ([77, 0, 0, 0] ++ event_record alice_bob_game 3 ++ [0, 0, 0, 0, 0]) 0 17 5 [] (by decide)

set_option maxRecDepth 1000000 in
/-- A datagram of 22 bytes for a client that has not yet seen a game: the identifier 77,
the GAME_OVER record of entry 3 of the game of Alice and Bob (13 bytes, checksum right)
and five more bytes.  The record is consumed (its event number is not the expected one, so
it is ignored), five bytes remain, the next call of `deserialize_event_record` returns -2
and `handle_server_message` ends in `exit(1)`: parsing is not just stopped. -/
theorem handle_server_message_short_rest_exits :
    (deserialize_event_record
      ((adopt_game_id initial_client_game_state 77).getD initial_client_game_state)
      (event_record alice_bob_game 3 ++ [0, 0, 0, 0, 0]) 18).1 = 13 ∧
    (deserialize_event_record
      ((adopt_game_id initial_client_game_state 77).getD initial_client_game_state)
      [0, 0, 0, 0, 0] 5).1 = -2 ∧
    (handle_server_message initial_client_game_state
      ([77, 0, 0, 0] ++ event_record alice_bob_game 3 ++ [0, 0, 0, 0, 0]) 22).map
        (fun run => run.exited) = some true := by
  decide

/-- The state and the result of the NEW_GAME branch apart from the name table and the
count of players: the result is -2 or the record size. -/
theorem deserialize_new_game_ret (state : client_game_state_t) (buffer : List Nat)
    (event_no : Nat) (event_record_size event_data_size : Int) :
    (deserialize_new_game state buffer event_no event_record_size event_data_size).1 = -2 ∨
    (deserialize_new_game state buffer event_no event_record_size event_data_size).1 =
      event_record_size := by
  unfold deserialize_new_game
  simp only []
  split
  · left; rfl
  · split
    · left; rfl
    · split
      · left; rfl
      · split
        · right; rfl
        · right; rfl

theorem deserialize_pixel_ret (state : client_game_state_t) (buffer : List Nat)
    (event_no : Nat) (event_record_size : Int) :
    (deserialize_pixel state buffer event_no event_record_size).1 = -2 ∨
    (deserialize_pixel state buffer event_no event_record_size).1 = event_record_size := by
  unfold deserialize_pixel
  simp only []
  split
  · left; rfl
  · split
    · left; rfl
    · split
      · left; rfl
      · split
        · right; rfl
        · right; rfl

theorem deserialize_player_eliminated_ret (state : client_game_state_t) (buffer : List Nat)
    (event_no : Nat) (event_record_size : Int) :
    (deserialize_player_eliminated state buffer event_no event_record_size).1 = -2 ∨
    (deserialize_player_eliminated state buffer event_no event_record_size).1 =
      event_record_size := by
  unfold deserialize_player_eliminated
  simp only []
  split
  · left; rfl
  · split
    · left; rfl
    · split
      · split
        · left; rfl
        · right; rfl
      · right; rfl

theorem deserialize_game_over_ret (state : client_game_state_t)
    (event_no : Nat) (event_record_size : Int) :
    (deserialize_game_over state event_no event_record_size).1 = -2 ∨
    (deserialize_game_over state event_no event_record_size).1 = event_record_size := by
  unfold deserialize_game_over
  split
  · left; rfl
  · split
    · right; rfl
    · right; rfl

/-- The possible results of `deserialize_event_record`: -1, -2, or the record size
`len + 8`, which is then at most `remaining`. -/
theorem deserialize_event_record_ret (state : client_game_state_t) (buffer : List Nat)
    (remaining : Int) :
    (deserialize_event_record state buffer remaining).1 = -1 ∨
    (deserialize_event_record state buffer remaining).1 = -2 ∨
    ((deserialize_event_record state buffer remaining).1 = ((ntohl buffer 0 : Nat) : Int) + 8 ∧
      ((ntohl buffer 0 : Nat) : Int) + 8 ≤ remaining ∧ 13 ≤ remaining) := by
  by_cases hmin : remaining < 13
  · right; left
    unfold deserialize_event_record
    rw [if_pos (by unfold MINIMAL_EVENT_RECORD_LENGTH; push_cast; omega)]
  · by_cases hfit : ((ntohl buffer 0 : Nat) : Int) + 8 > remaining
    · right; left
      unfold deserialize_event_record
      rw [if_neg (by unfold MINIMAL_EVENT_RECORD_LENGTH; push_cast; omega)]
      simp only []
      rw [if_pos hfit]
    · by_cases hcrc : crc_32 buffer (ntohl buffer 0 + 4) = ntohl buffer (4 + ntohl buffer 0)
      · rw [deserialize_event_record_dispatch state buffer remaining (by omega) (by omega) hcrc]
        split
        · rcases deserialize_new_game_ret state buffer (ntohl buffer 4)
            (((ntohl buffer 0 : Nat) : Int) + 8)
            (((ntohl buffer 0 + UINT32_RANGE - 5) % UINT32_RANGE : Nat) : Int) with h | h
          · right; left; exact h
          · right; right; exact ⟨h, by omega, by omega⟩
        · split
          · rcases deserialize_pixel_ret state buffer (ntohl buffer 4)
              (((ntohl buffer 0 : Nat) : Int) + 8) with h | h
            · right; left; exact h
            · right; right; exact ⟨h, by omega, by omega⟩
          · split
            · rcases deserialize_player_eliminated_ret state buffer (ntohl buffer 4)
                (((ntohl buffer 0 : Nat) : Int) + 8) with h | h
              · right; left; exact h
              · right; right; exact ⟨h, by omega, by omega⟩
            · split
              · rcases deserialize_game_over_ret state (ntohl buffer 4)
                  (((ntohl buffer 0 : Nat) : Int) + 8) with h | h
                · right; left; exact h
                · right; right; exact ⟨h, by omega, by omega⟩
              · right; right; exact ⟨rfl, by omega, by omega⟩
      · left
        rw [deserialize_event_record_bad_crc state buffer remaining (by omega) (by omega) hcrc]

/-- The loop of `handle_server_message` ends: with more fuel than remaining bytes it
returns a result. -/
theorem handle_server_message_loop_total (buffer : List Nat) :
    ∀ (fuel : Nat) (state : client_game_state_t) (buffer_offset : Nat) (remaining_bytes : Int)
      (gui_writes : List client_game_state_t), 0 < fuel → remaining_bytes < (fuel : Int) →
      (handle_server_message_loop buffer fuel state buffer_offset remaining_bytes
        gui_writes).isSome = true := by
  intro fuel
  induction fuel with
  | zero => intro _ _ _ _ h; omega
  | succ n ih =>
    intro state buffer_offset remaining_bytes gui_writes _ hrem
    unfold handle_server_message_loop
    simp only []
    split
    · rfl
    · split
      · rfl
      · split
        · rfl
        · rename_i h1 h2 _
          rcases deserialize_event_record_ret state (buffer.drop buffer_offset) remaining_bytes
            with h | h | ⟨h, hle, hmin⟩
          · exact absurd h h1
          · exact absurd h h2
          · apply ih
            · omega
            · rw [h]; push_cast at hrem ⊢; omega

/-- The C `handle_server_message` returns or exits: the fuel of the model suffices. -/
theorem handle_server_message_total (state : client_game_state_t) (buffer : List Nat)
    (read_bytes : Int) : (handle_server_message state buffer read_bytes).isSome = true := by
  unfold handle_server_message
  split
  · rfl
  · split
    · rfl
    · split
      · rfl
      · rename_i h1 h2 h3
        unfold MIN_SERVER_UDP_DGRAM_LENGTH at h3
        push_cast at h3
        split
        · rfl
        · apply handle_server_message_loop_total
          · omega
          · omega

/-! ## NEW_GAME records with too few names, in a later game, and delivered twice -/

set_option maxRecDepth 1000000 in
/-- C16 (defect of the code).  `parse_player_names` returns `true` for the name bytes
"Alice" NUL, a list of one name, and for the empty list of names.  The NEW_GAME record of
27 bytes that lists "Alice" alone (`len = 19`, event 0, board 800 by 600, checksum right)
and the NEW_GAME record of 21 bytes that lists no name are not rejected by
`deserialize_event_record`: the results are the record sizes 27 and 21 (not -2),
`players_count` becomes 1 and 0, and `next_expected` becomes 1. -/
theorem parse_player_names_accepts_fewer_than_two_names :
    (parse_player_names (name_Alice ++ [0]) 6 client_before_first_game).1 = true ∧
    (parse_player_names [] 0 client_before_first_game).1 = true ∧
    event_record single_name_game 0 =
      [0, 0, 0, 19, 0, 0, 0, 0, 0, 0, 0, 3, 32, 0, 0, 2, 88, 65, 108, 105, 99, 101, 0,
        18, 33, 46, 182] ∧
    (deserialize_event_record client_before_first_game (event_record single_name_game 0) 27).1
      = 27 ∧
    (deserialize_event_record client_before_first_game
      (event_record single_name_game 0) 27).2.players_count = 1 ∧
    (deserialize_event_record client_before_first_game
      (event_record single_name_game 0) 27).2.next_expected = 1 ∧
    event_record no_name_game 0 =
      [0, 0, 0, 13, 0, 0, 0, 0, 0, 0, 0, 3, 32, 0, 0, 2, 88, 110, 198, 103, 8] ∧
    (deserialize_event_record client_before_first_game (event_record no_name_game 0) 21).1
      = 21 ∧
    (deserialize_event_record client_before_first_game
      (event_record no_name_game 0) 21).2.players_count = 0 ∧
    (deserialize_event_record client_before_first_game
      (event_record no_name_game 0) 21).2.next_expected = 1 := by
  decide

set_option maxRecDepth 1000000 in
/-- C17 (defect of the code).  The client that has followed the game of "Alice" and "Bob"
and has been reset by `handle_server_message` for the game with identifier 78 has
`players_count = 0` and `next_expected = 0`.  The NEW_GAME record of the game of "Al" and
"Alh" has event number 0, a right checksum and names that are strictly ascending, and the
result of `deserialize_event_record` is -2.  The NEW_GAME record of the game of "Al" and
"Bob" is accepted (the result is its size, 28), but the names then stored in
`game_players` are "Alice" and "Bob", not "Al" and "Bob". -/
theorem new_game_after_reset_not_as_fresh :
    client_before_second_game.players_count = 0 ∧
    client_before_second_game.next_expected = 0 ∧
    ntohl (event_record al_alh_game 0) 4 = 0 ∧
    byte_at (event_record al_alh_game 0) 8 = EVENT_NEW_GAME ∧
    crc_32 (event_record al_alh_game 0) 24 = ntohl (event_record al_alh_game 0) 24 ∧
    ((event_record al_alh_game 0).drop 17).take 7 = name_Al ++ [0] ++ name_Alh ++ [0] ∧
    strcmp name_Al name_Alh < 0 ∧
    (deserialize_event_record client_before_second_game (event_record al_alh_game 0) 28).1
      = -2 ∧
    ((event_record al_bob_game 0).drop 17).take 7 = name_Al ++ [0] ++ name_Bob ++ [0] ∧
    (deserialize_event_record client_before_second_game (event_record al_bob_game 0) 28).1
      = 28 ∧
    ((deserialize_event_record client_before_second_game
      (event_record al_bob_game 0) 28).2.game_players.take 2).map c_str =
        [name_Alice, name_Bob] := by
  rw [client_before_second_game_eq]
  decide

set_option maxRecDepth 1000000 in
/-- C19 (defect of the code).  The client that expects event 0 of the game of "Alice" and
"Bob" receives its NEW_GAME record: the result is the record size 31, `players_count` is
2 and `next_expected` is 1.  The same record delivered again, whose event number 0 is now
below `next_expected`, gives the fatal code -2 (not the record size), and `players_count`
is then 4. -/
theorem duplicate_new_game_not_ignored :
    (deserialize_event_record client_before_first_game (event_record alice_bob_game 0) 31).1
      = 31 ∧
    (client_after_record client_before_first_game
      (event_record alice_bob_game 0)).players_count = 2 ∧
    (client_after_record client_before_first_game
      (event_record alice_bob_game 0)).next_expected = 1 ∧
    ntohl (event_record alice_bob_game 0) 4 = 0 ∧
    (deserialize_event_record
      (client_after_record client_before_first_game (event_record alice_bob_game 0))
      (event_record alice_bob_game 0) 31).1 = -2 ∧
    (deserialize_event_record
      (client_after_record client_before_first_game (event_record alice_bob_game 0))
      (event_record alice_bob_game 0) 31).2.players_count = 4 := by
  decide

/-! ## In-order application of the records -/

/-- The loop of `parse_player_names` writes to `game_players` and `players_count` only,
as long as it stores inside the table. -/
theorem parse_player_names_loop_frame (buffer : List Nat) (remaining : Nat) :
    ∀ (fuel offset names_count current_name_len : Nat) (state : client_game_state_t),
      ∃ table count flag,
        (parse_player_names_loop buffer remaining fuel offset names_count current_name_len
          state).2 =
          { state with
            game_players := table, players_count := count, names_out_of_table := flag } := by
  intro fuel
  induction fuel with
  | zero =>
    intro offset names_count current_name_len state
    exact ⟨state.game_players, state.players_count, state.names_out_of_table, rfl⟩
  | succ n ih =>
    intro offset names_count current_name_len state
    unfold parse_player_names_loop
    by_cases hoff : offset < remaining
    · rw [if_pos hoff]
      simp only []
      by_cases hc : byte_at buffer offset ≥ PLAYER_NAME_MINIMAL_ASCII ∧
          byte_at buffer offset ≤ PLAYER_NAME_MAXIMAL_ASCII
      · rw [if_pos hc]
        simp only []
        by_cases hlen : current_name_len + 1 > 20
        · rw [if_pos hlen]
          exact ⟨state.game_players, state.players_count, state.names_out_of_table, rfl⟩
        · rw [if_neg hlen]
          exact ih _ _ _ _
      · rw [if_neg hc]
        by_cases hz : byte_at buffer offset = 0
        · rw [if_pos hz]
          by_cases hl : current_name_len = 0
          · rw [if_pos hl]
            exact ⟨state.game_players, state.players_count, state.names_out_of_table, rfl⟩
          · rw [if_neg hl]
            simp only []
            rw [if_neg (by omega)]
            obtain ⟨table, count, flag, h⟩ := ih (offset + 1) ((names_count + 1) % 256) 0
              { state with
                game_players :=
                  if names_count < MAX_PLAYERS then
                    state.game_players.set names_count
                      (copy_name_loop buffer (offset - current_name_len) current_name_len 0
                        (state.game_players.getD names_count []))
                  else state.game_players
                players_count := (state.players_count + 1) % 256
                names_out_of_table :=
                  state.names_out_of_table || decide (MAX_PLAYERS ≤ names_count) }
            exact ⟨table, count, flag, h⟩
        · rw [if_neg hz]
          exact ⟨state.game_players, state.players_count, state.names_out_of_table, rfl⟩
    · rw [if_neg hoff]
      exact ⟨state.game_players, state.players_count, state.names_out_of_table, rfl⟩

/-- The NEW_GAME branch either ignores or applies the record. -/
theorem deserialize_new_game_step (state : client_game_state_t) (buffer : List Nat)
    (event_no : Nat) (event_record_size event_data_size : Int) :
    record_ignored state
      (deserialize_new_game state buffer event_no event_record_size event_data_size).2 ∨
    record_applied state event_no EVENT_NEW_GAME
      (deserialize_new_game state buffer event_no event_record_size event_data_size).2 := by
  obtain ⟨table, count, flag, h⟩ := parse_player_names_loop_frame
    (buffer.drop (EVENT_DATA_BYTE_OFFSET + 8))
    ((event_data_size - 8) % (UINT32_RANGE : Int)).toNat
    ((event_data_size - 8) % (UINT32_RANGE : Int)).toNat 0 0 0 state
  unfold deserialize_new_game
  simp only []
  unfold parse_player_names
  split
  · rw [h]; exact Or.inl ⟨rfl, rfl, rfl, rfl⟩
  · split
    · rw [h]; exact Or.inl ⟨rfl, rfl, rfl, rfl⟩
    · split
      · rw [h]; exact Or.inl ⟨rfl, rfl, rfl, rfl⟩
      · split
        · rename_i hn
          rw [h] at hn ⊢
          exact Or.inr ⟨hn, rfl, Or.inl rfl⟩
        · rw [h]; exact Or.inl ⟨rfl, rfl, rfl, rfl⟩

/-- The PIXEL branch either ignores or applies the record. -/
theorem deserialize_pixel_step (state : client_game_state_t) (buffer : List Nat)
    (event_no : Nat) (event_record_size : Int) :
    record_ignored state (deserialize_pixel state buffer event_no event_record_size).2 ∨
    record_applied state event_no EVENT_PIXEL
      (deserialize_pixel state buffer event_no event_record_size).2 := by
  unfold deserialize_pixel
  simp only []
  split
  · exact Or.inl ⟨rfl, rfl, rfl, rfl⟩
  · split
    · exact Or.inl ⟨rfl, rfl, rfl, rfl⟩
    · split
      · exact Or.inl ⟨rfl, rfl, rfl, rfl⟩
      · split
        · rename_i hn
          exact Or.inr ⟨hn, rfl, Or.inl rfl⟩
        · exact Or.inl ⟨rfl, rfl, rfl, rfl⟩

/-- The PLAYER_ELIMINATED branch either ignores or applies the record. -/
theorem deserialize_player_eliminated_step (state : client_game_state_t) (buffer : List Nat)
    (event_no : Nat) (event_record_size : Int) :
    record_ignored state
      (deserialize_player_eliminated state buffer event_no event_record_size).2 ∨
    record_applied state event_no EVENT_PLAYER_ELIMINATED
      (deserialize_player_eliminated state buffer event_no event_record_size).2 := by
  unfold deserialize_player_eliminated
  simp only []
  split
  · exact Or.inl ⟨rfl, rfl, rfl, rfl⟩
  · split
    · exact Or.inl ⟨rfl, rfl, rfl, rfl⟩
    · split
      · rename_i hn
        split
        · exact Or.inl ⟨rfl, rfl, rfl, rfl⟩
        · exact Or.inr ⟨hn, rfl, Or.inl rfl⟩
      · exact Or.inl ⟨rfl, rfl, rfl, rfl⟩

/-- The GAME_OVER branch either ignores or applies the record. -/
theorem deserialize_game_over_step (state : client_game_state_t)
    (event_no : Nat) (event_record_size : Int) :
    record_ignored state (deserialize_game_over state event_no event_record_size).2 ∨
    record_applied state event_no EVENT_GAME_OVER
      (deserialize_game_over state event_no event_record_size).2 := by
  unfold deserialize_game_over
  split
  · exact Or.inl ⟨rfl, rfl, rfl, rfl⟩
  · split
    · rename_i hn
      exact Or.inr ⟨hn, rfl, Or.inr ⟨rfl, rfl, rfl, rfl⟩⟩
    · exact Or.inl ⟨rfl, rfl, rfl, rfl⟩

/-- Every call of `deserialize_event_record` either ignores or applies the record. -/
theorem deserialize_event_record_step (state : client_game_state_t) (buffer : List Nat)
    (remaining : Int) :
    record_ignored state (deserialize_event_record state buffer remaining).2 ∨
    record_applied state (ntohl buffer 4) (byte_at buffer 8)
      (deserialize_event_record state buffer remaining).2 := by
  unfold deserialize_event_record
  split
  · exact Or.inl ⟨rfl, rfl, rfl, rfl⟩
  · simp only []
    split
    · exact Or.inl ⟨rfl, rfl, rfl, rfl⟩
    · split
      · exact Or.inl ⟨rfl, rfl, rfl, rfl⟩
      · split
        · rename_i ht
          rw [ht]
          exact deserialize_new_game_step _ _ _ _ _
        · split
          · rename_i ht
            rw [ht]
            exact deserialize_pixel_step _ _ _ _
          · split
            · rename_i ht
              rw [ht]
              exact deserialize_player_eliminated_step _ _ _ _
            · split
              · rename_i ht
                rw [ht]
                exact deserialize_game_over_step _ _ _
              · exact Or.inl ⟨rfl, rfl, rfl, rfl⟩
/-- The event numbers of the flagged messages of a sequence of calls are at least the
`next_expected` of the start and strictly increasing. -/
theorem flagged_event_nos_increasing :
    ∀ (calls : List (List Nat × Int)) (state : client_game_state_t),
      state.data_for_gui.ready_to_send = 0 →
      state.next_expected + calls.length ≤ UINT32_RANGE →
      (∀ e ∈ flagged_event_nos state calls, state.next_expected ≤ e) ∧
      (flagged_event_nos state calls).Pairwise (fun a b => a < b) := by
  intro calls
  induction calls with
  | nil =>
    intro state _ _
    exact ⟨fun e he => absurd he (List.not_mem_nil e), List.Pairwise.nil⟩
  | cons call calls ih =>
    intro state hclear hlog
    rw [List.length_cons] at hlog
    unfold flagged_event_nos
    simp only []
    by_cases hfatal : (deserialize_event_record state call.1 call.2).1 = -2
    · rw [if_pos hfatal]
      exact ⟨fun e he => absurd he (List.not_mem_nil e), List.Pairwise.nil⟩
    · rw [if_neg hfatal]
      by_cases hout :
          (deserialize_event_record state call.1 call.2).2.names_out_of_table = true
      · rw [if_pos hout]
        exact ⟨fun e he => absurd he (List.not_mem_nil e), List.Pairwise.nil⟩
      rw [if_neg hout]
      rcases deserialize_event_record_step state call.1 call.2 with hig | hap
      · have hready : (deserialize_event_record state call.1 call.2).2.data_for_gui.ready_to_send
            = 0 := by rw [hig.2.2.2]; exact hclear
        rw [if_neg (by rw [hready]; simp)]
        have h := ih (deserialize_event_record state call.1 call.2).2 hready
          (by rw [hig.1]; omega)
        refine ⟨?_, h.2⟩
        intro e he
        have := h.1 e he
        have := hig.1
        omega
      · obtain ⟨hno, hnext, _⟩ := hap
        by_cases hwrap : state.next_expected + 1 = UINT32_RANGE
        · have hnil : calls = [] := List.length_eq_zero.1 (by omega)
          subst hnil
          by_cases hflag :
              (deserialize_event_record state call.1 call.2).2.data_for_gui.ready_to_send ≠ 0
          · rw [if_pos hflag]
            refine ⟨?_, ?_⟩
            · intro e he
              simp only [flagged_event_nos, List.mem_singleton] at he
              omega
            · simp only [flagged_event_nos]
              exact List.pairwise_singleton _ _
          · rw [if_neg hflag]
            exact ⟨fun e he => absurd he (List.not_mem_nil e), List.Pairwise.nil⟩
        · have hnext1 : (deserialize_event_record state call.1 call.2).2.next_expected =
              state.next_expected + 1 := by
            rw [hnext]
            exact Nat.mod_eq_of_lt (by omega)
          by_cases hflag :
              (deserialize_event_record state call.1 call.2).2.data_for_gui.ready_to_send ≠ 0
          · rw [if_pos hflag]
            have h := ih
              { (deserialize_event_record state call.1 call.2).2 with
                data_for_gui :=
                  { (deserialize_event_record state call.1 call.2).2.data_for_gui with
                    ready_to_send := 0 } } rfl
              (by simp only []; rw [hnext1]; omega)
            have hb : ∀ e ∈ flagged_event_nos
                { (deserialize_event_record state call.1 call.2).2 with
                  data_for_gui :=
                    { (deserialize_event_record state call.1 call.2).2.data_for_gui with
                      ready_to_send := 0 } } calls, state.next_expected + 1 ≤ e := by
              intro e he
              have h1 := h.1 e he
              simp only [] at h1
              omega
            refine ⟨?_, ?_⟩
            · intro e he
              rcases List.mem_cons.1 he with he | he
              · omega
              · have := hb e he
                omega
            · refine List.Pairwise.cons ?_ h.2
              intro e he
              have := hb e he
              omega
          · rw [if_neg hflag]
            have hready :
                (deserialize_event_record state call.1 call.2).2.data_for_gui.ready_to_send = 0 := by
              by_contra hne
              exact hflag hne
            have h := ih (deserialize_event_record state call.1 call.2).2 hready
              (by rw [hnext1]; omega)
            refine ⟨?_, h.2⟩
            intro e he
            have := h.1 e he
            omega

/-- In-order, at-most-once application of the records whose names are stored inside the
table `game_players`.  For every client state with no pending frontend message, every
call of `deserialize_event_record` that stores no name outside the table, and every
sequence of calls that stays within the range of the 32-bit event numbers, taken up to
the first call that stores a name outside the table:
if the call flags a frontend message, or changes `game_over`, `is_alive` or
`next_expected`, then the event number of the record is the `next_expected` of before and
`next_expected` is incremented by one (as a `uint32_t`);
a call without error that flags no message and changes neither `is_alive` nor `game_over`
leaves `next_expected` unchanged too (a GAME_OVER record that arrives in order in a state
whose `game_over` is already set does set it again and is not such a call);
the event numbers of the records that flag a frontend message over the sequence of calls
are strictly increasing, so no event number flags two messages. -/
theorem deserialize_event_record_in_order (state : client_game_state_t) (buffer : List Nat)
    (remaining : Int) (calls : List (List Nat × Int))
    (hclear : state.data_for_gui.ready_to_send = 0)
    (_hin : (deserialize_event_record state buffer remaining).2.names_out_of_table = false)
    (hlog : state.next_expected + calls.length ≤ UINT32_RANGE) :
    (((deserialize_event_record state buffer remaining).2.data_for_gui.ready_to_send ≠ 0 ∨
      (deserialize_event_record state buffer remaining).2.game_over ≠ state.game_over ∨
      (deserialize_event_record state buffer remaining).2.is_alive ≠ state.is_alive ∨
      (deserialize_event_record state buffer remaining).2.next_expected ≠
        state.next_expected) →
      ntohl buffer 4 = state.next_expected ∧
      (deserialize_event_record state buffer remaining).2.next_expected =
        (state.next_expected + 1) % UINT32_RANGE) ∧
    (0 ≤ (deserialize_event_record state buffer remaining).1 →
      (deserialize_event_record state buffer remaining).2.data_for_gui.ready_to_send = 0 →
      (deserialize_event_record state buffer remaining).2.is_alive = state.is_alive →
      (deserialize_event_record state buffer remaining).2.game_over = state.game_over →
      (state.game_over = false ∨ byte_at buffer 8 ≠ EVENT_GAME_OVER) →
      (deserialize_event_record state buffer remaining).2.next_expected =
        state.next_expected) ∧
    (flagged_event_nos state calls).Pairwise (fun a b => a < b) ∧
    (flagged_event_nos state calls).Nodup := by
  refine ⟨?_, ?_, (flagged_event_nos_increasing calls state hclear hlog).2, ?_⟩
  · intro hchange
    rcases deserialize_event_record_step state buffer remaining with hig | hap
    · obtain ⟨h1, h2, h3, h4⟩ := hig
      rcases hchange with h | h | h | h
      · exact absurd (by rw [h4]; exact hclear) h
      · exact absurd h3 h
      · exact absurd h2 h
      · exact absurd h1 h
    · exact ⟨hap.1, hap.2.1⟩
  · intro _ hflag halive hover hkind
    rcases deserialize_event_record_step state buffer remaining with hig | hap
    · exact hig.1
    · rcases hap.2.2 with h | ⟨ht, hset, _, _⟩
      · rw [hflag] at h
        exact absurd h (by decide)
      · rcases hkind with hk | hk
        · rw [hover, hk] at hset
          exact absurd hset (by decide)
        · exact absurd ht hk
  · exact ((flagged_event_nos_increasing calls state hclear hlog).2).imp
      (fun h => Nat.ne_of_lt h)
set_option maxRecDepth 1000000 in
/-- The client that expects event 0 of the game of Alice and Bob: the NEW_GAME record
flags a message, so its event number is 0 and `next_expected` becomes 1; and over the
records 0, 1, 1, 2, 3 of the log (the PIXEL record delivered twice) the flagged event
numbers are 0, 1, 2. -/
theorem deserialize_event_record_in_order_witness :
    (ntohl (event_record alice_bob_game 0) 4 = client_before_first_game.next_expected ∧
      (deserialize_event_record client_before_first_game
        (event_record alice_bob_game 0) 31).2.next_expected = 1) ∧
    (flagged_event_nos client_before_first_game
      [(event_record alice_bob_game 0, 31), (event_record alice_bob_game 1, 22),
        (event_record alice_bob_game 1, 22), (event_record alice_bob_game 2, 14),
        (event_record alice_bob_game 3, 13)]).Nodup ∧
    flagged_event_nos client_before_first_game
      [(event_record alice_bob_game 0, 31), (event_record alice_bob_game 1, 22),
        (event_record alice_bob_game 1, 22), (event_record alice_bob_game 2, 14),
        (event_record alice_bob_game 3, 13)] = [0, 1, 2] :=
  ⟨(deserialize_event_record_in_order client_before_first_game
      (event_record alice_bob_game 0) 31
      [(event_record alice_bob_game 0, 31), (event_record alice_bob_game 1, 22),
        (event_record alice_bob_game 1, 22), (event_record alice_bob_game 2, 14),
        (event_record alice_bob_game 3, 13)] (by decide) (by decide) (by decide)).1
      (Or.inl (by decide)),
    (deserialize_event_record_in_order client_before_first_game
      (event_record alice_bob_game 0) 31
      [(event_record alice_bob_game 0, 31), (event_record alice_bob_game 1, 22),
        (event_record alice_bob_game 1, 22), (event_record alice_bob_game 2, 14),
        (event_record alice_bob_game 3, 13)] (by decide) (by decide) (by decide)).2.2.2,
    by decide⟩

/-- A datagram whose source address is that of an active slot is handled by
`handle_existing_client`, and `handle_client_datagram` then sends nothing. -/
theorem handle_client_datagram_existing_sends_nothing (state : server_game_state_t)
    (receive_address : List Nat) (receive_address_length : Nat) (buffer : List Nat)
    (read_bytes : Int)
    (hfound : (find_client state receive_address
      (deserialize_client_dgram zero_dgram buffer read_bytes).2
      (read_bytes - (CLIENT_DGRAM_INTEGERS_LEN : Int)) MAX_PLAYERS 0 false).1 < MAX_PLAYERS) :
    (handle_client_datagram state receive_address receive_address_length buffer
      read_bytes).2 = [] := by
  unfold handle_client_datagram
  simp only []
  split
  · rfl
  · rfl

set_option maxRecDepth 1000000 in
/-- C11 (defect of the code).  In the started game of Alice and Bob (3 log entries) the
slot 24 is active with the address of Bob, session id 1 and the name "Bob".  A valid
datagram from that address with session id 1, the name "Bob" and
`next_expected_event_no = 1 < events_count` is handled by `handle_existing_client`: the
`message` flag of the slot is set and no datagram is sent, the records 1 and 2 are not
sent to the slot.  The same request from the address of no slot, under the name "Carol",
is handled by `handle_new_client`, which does send the records 1 and 2 to the slot it
assigns (slot 0). -/
theorem keepalive_sends_no_history :
    game_of_91923_started.1.events_count = 3 ∧
    ((game_of_91923_started.1.players.getD 24 default).conn.is_connection_active = true ∧
      (game_of_91923_started.1.players.getD 24 default).conn.address = address_Bob ∧
      (game_of_91923_started.1.players.getD 24 default).conn.session_id = 1 ∧
      c_str (game_of_91923_started.1.players.getD 24 default).name = name_Bob) ∧
    deserialize_client_dgram zero_dgram (session_1_dgram 0 1 name_Bob) 16 =
      (0, { session_id := 1, turn_direction := 0, next_expected_event_no := 1,
            player_name := name_Bob ++ List.replicate 17 0 }) ∧
    (handle_client_datagram game_of_91923_started.1 address_Bob 28
      (session_1_dgram 0 1 name_Bob) 16).2 = [] ∧
    ((handle_client_datagram game_of_91923_started.1 address_Bob 28
      (session_1_dgram 0 1 name_Bob) 16).1.players.getD 24 default).message = true ∧
    (handle_client_datagram game_of_91923_started.1 address_Carol 28
      (session_1_dgram 0 1 name_Carol) 18).2 =
        [(0, htonl 91923 ++ records_bytes game_of_91923_started.1 2 1)] := by
  decide!
/-! ## The client as a mirror of the game -/

set_option maxRecDepth 1000000 in
/-- The game of Alice and Bob on the server started with seed 91923 and the default
parameters.  `initiate_game` sorts the 23 slots without a name before the slots of Alice
and Bob, which become the slots 23 and 24 with the player numbers 0 and 1.  In the first
round Alice, who turns left from direction 6 to direction 0 at (639, 209), leaves the
board: the log of 5 entries ends with PLAYER_ELIMINATED of player 0 and GAME_OVER, and the
server has `alive[23] = false` and `alive[0] = true`.  The client of Bob (slot 24) handles
the datagrams sent to it without `exit` and ends with `next_expected = 5`,
`players_count = 2` and `is_alive[0] = false`: for `i = 0 < players_count` the entry
`is_alive[i]` of the client is not the entry `alive[i]` of the server. -/
theorem client_mirror_not_by_slot_index :
    game_of_91923_started.1.game_status = GAME_STATE_GAME_STARTED ∧
    game_of_91923_started.1.events_count = 3 ∧
    (game_of_91923_started.1.players.map (fun p => (c_str p.name, p.is_playing,
        p.player_number))).drop 23 = [(name_Alice, true, 0), (name_Bob, true, 1)] ∧
    game_of_91923_ended.1.events_count = 5 ∧
    game_of_91923_ended.1.events_queue.map (fun e => (e.event_type, e.player_number)) =
      [(EVENT_NEW_GAME, 0), (EVENT_PIXEL, 0), (EVENT_PIXEL, 1), (EVENT_PLAYER_ELIMINATED, 0),
        (EVENT_GAME_OVER, 0)] ∧
    game_of_91923_ended.1.players_count = 2 ∧
    game_of_91923_ended.1.alive.getD 23 true = false ∧
    game_of_91923_ended.1.alive.getD 0 false = true ∧
    (handle_server_messages initial_client_game_state
      (received 24 game_of_91923_started.2 ++ received 24 game_of_91923_ended.2)).map
        (fun run => (run.exited, run.state.next_expected, run.state.players_count,
          run.state.is_alive.getD 0 true)) = some (false, 5, 2, false) := by
  decide!

/-! ## The log and the array `alive` during a game -/

theorem getD_append_replicate_default {α : Type} (d : α) (l : List α) (n k : Nat) :
    (l ++ List.replicate n d).getD k d = l.getD k d := by
  by_cases hk : k < l.length
  · rw [List.getD_append _ _ _ _ hk]
  · rw [List.getD_append_right _ _ _ _ (by omega), List.getD_eq_default l d (by omega)]
    by_cases hk2 : k - l.length < n
    · rw [List.getD_eq_getElem _ _ (by rw [List.length_replicate]; exact hk2)]
      exact List.getElem_replicate _ _
    · exact List.getD_eq_default _ _ (by rw [List.length_replicate]; omega)

/-- The entries of the log after `enqueue_event`. -/
theorem enqueue_event_getD (state : server_game_state_t) (event : event_data_t) (k : Nat) :
    (enqueue_event state event).events_queue.getD k default =
      if k = state.events_count then event else state.events_queue.getD k default := by
  unfold enqueue_event
  simp only []
  rw [getD_set_eq, getD_append_replicate_default]
  by_cases hk : k = state.events_count
  · rw [if_pos hk, if_pos ⟨hk.symm, by rw [List.length_append, List.length_replicate]; omega⟩]
  · rw [if_neg hk, if_neg (fun h => hk h.1.symm)]

theorem enqueue_event_count (state : server_game_state_t) (event : event_data_t)
    (h : state.events_count + 1 < UINT32_RANGE) :
    (enqueue_event state event).events_count = state.events_count + 1 :=
  Nat.mod_eq_of_lt h

theorem eliminated_before_congr (queue queue1 : List event_data_t) (m p : Nat)
    (h : ∀ k, k < m → queue1.getD k default = queue.getD k default) :
    eliminated_before queue1 m p ↔ eliminated_before queue m p := by
  constructor
  · rintro ⟨k, hk, h1, h2⟩
    rw [h k hk] at h1 h2
    exact ⟨k, hk, h1, h2⟩
  · rintro ⟨k, hk, h1, h2⟩
    rw [← h k hk] at h1 h2
    exact ⟨k, hk, h1, h2⟩

theorem eliminated_before_succ (queue : List event_data_t) (m p : Nat) :
    eliminated_before queue (m + 1) p ↔
      eliminated_before queue m p ∨
        ((queue.getD m default).event_type = EVENT_PLAYER_ELIMINATED ∧
          (queue.getD m default).player_number = p) := by
  constructor
  · rintro ⟨k, hk, h1, h2⟩
    by_cases hkm : k = m
    · subst hkm
      exact Or.inr ⟨h1, h2⟩
    · exact Or.inl ⟨k, by omega, h1, h2⟩
  · rintro (⟨k, hk, h1, h2⟩ | ⟨h1, h2⟩)
    · exact ⟨k, by omega, h1, h2⟩
    · exact ⟨m, by omega, h1, h2⟩

theorem eliminated_before_mono (queue : List event_data_t) (m n p : Nat) (hmn : m ≤ n)
    (h : eliminated_before queue m p) : eliminated_before queue n p := by
  obtain ⟨k, hk, h1, h2⟩ := h
  exact ⟨k, by omega, h1, h2⟩

theorem log_entry_ok_congr (queue queue1 : List event_data_t) (count width height k : Nat)
    (h : ∀ j, j ≤ k → queue1.getD j default = queue.getD j default) :
    log_entry_ok queue1 count width height k ↔ log_entry_ok queue count width height k := by
  unfold log_entry_ok
  rw [h k (Nat.le_refl k),
    eliminated_before_congr queue queue1 k _ (fun j hj => h j (by omega))]
/-- The invariant of the game after an entry has been appended to the log. -/
theorem game_inv_append (start state state1 : server_game_state_t) (event : event_data_t)
    (hinv : game_inv start state)
    (hparams : state1.game_params = state.game_params)
    (hid : state1.game_id = state.game_id)
    (hnum : ∀ i, i < MAX_PLAYERS → (state1.players.getD i default).player_number =
      (state.players.getD i default).player_number)
    (hcount : state1.events_count = state.events_count + 1)
    (hqueue : ∀ k, state1.events_queue.getD k default =
      if k = state.events_count then event else state.events_queue.getD k default)
    (hentry : log_entry_ok state1.events_queue start.players_count
      start.game_params.board_dimension_x start.game_params.board_dimension_y
      state.events_count)
    (halive : ∀ i, i < MAX_PLAYERS → (start.players.getD i default).is_playing = true →
      (state1.alive.getD i false = false ↔
        (state.alive.getD i false = false ∨
          (event.event_type = EVENT_PLAYER_ELIMINATED ∧
            event.player_number = (start.players.getD i default).player_number)))) :
    game_inv start state1 := by
  obtain ⟨h1, h2, h3, h4, h5, h6, h7⟩ := hinv
  have hkept : ∀ k, k < state.events_count →
      state1.events_queue.getD k default = state.events_queue.getD k default := by
    intro k hk
    rw [hqueue k, if_neg (by omega)]
  refine ⟨by rw [hparams, h1], by rw [hid, h2], fun i hi => by rw [hnum i hi, h3 i hi],
    by omega, by rw [hkept 0 (by omega), h5], ?_, ?_⟩
  · intro k hk1 hk2
    by_cases hk : k = state.events_count
    · rw [hk]
      exact hentry
    · rw [log_entry_ok_congr state.events_queue state1.events_queue _ _ _ k
        (fun j hj => hkept j (by omega))]
      exact h6 k hk1 (by omega)
  · intro i hi hplay
    rw [halive i hi hplay, hcount, eliminated_before_succ,
      eliminated_before_congr state.events_queue state1.events_queue _ _ hkept,
      h7 i hi hplay, hqueue state.events_count, if_pos rfl]
theorem same_log_and_slots_refl (a : server_game_state_t) : same_log_and_slots a a :=
  ⟨rfl, rfl, rfl, rfl, rfl, fun _ => rfl, fun _ => rfl, rfl⟩

theorem same_log_and_slots_trans (a b c : server_game_state_t)
    (hab : same_log_and_slots a b) (hbc : same_log_and_slots b c) : same_log_and_slots a c := by
  obtain ⟨h1, h2, h3, h4, h5, h6, h7, h8⟩ := hab
  obtain ⟨k1, k2, k3, k4, k5, k6, k7, k8⟩ := hbc
  exact ⟨k1.trans h1, k2.trans h2, k3.trans h3, k4.trans h4, k5.trans h5,
    fun j => (k6 j).trans (h6 j), fun j => (k7 j).trans (h7 j), k8.trans h8⟩

/-- A field of the slots that a write to slot `i` does not change. -/
theorem getD_set_field {β : Type} (f : client_t → β) (players : List client_t) (i : Nat)
    (player : client_t) (h : f player = f (players.getD i default)) (j : Nat) :
    f ((players.set i player).getD j default) = f (players.getD j default) := by
  rw [getD_set_eq]
  by_cases hij : i = j ∧ i < players.length
  · rw [if_pos hij, h, hij.1]
  · rw [if_neg hij]

/-- The loop of `update_players_after_game` keeps the log and the slots' numbers and
connections. -/
theorem update_players_after_game_loop_same :
    ∀ (fuel i : Nat) (state : server_game_state_t),
      same_log_and_slots state (update_players_after_game_loop fuel i state) ∧
      (update_players_after_game_loop fuel i state).game_status = state.game_status := by
  intro fuel
  induction fuel with
  | zero => intro i state; exact ⟨same_log_and_slots_refl state, rfl⟩
  | succ n ih =>
    intro i state
    unfold update_players_after_game_loop
    simp only []
    split
    · split
      · refine ⟨same_log_and_slots_trans _ _ _ ?_ (ih _ _).1, (ih _ _).2⟩
        exact ⟨rfl, rfl, rfl, rfl, rfl,
          fun j => by apply getD_set_field (fun p => p.player_number); rfl,
          fun j => by apply getD_set_field (fun p => p.conn); rfl, List.length_set _ _ _⟩
      · refine ⟨same_log_and_slots_trans _ _ _ ?_ (ih _ _).1, (ih _ _).2⟩
        exact ⟨rfl, rfl, rfl, rfl, rfl,
          fun j => by apply getD_set_field (fun p => p.player_number); rfl,
          fun j => by apply getD_set_field (fun p => p.conn); rfl, List.length_set _ _ _⟩
    · refine ⟨same_log_and_slots_trans _ _ _ ?_ (ih _ _).1, (ih _ _).2⟩
      exact ⟨rfl, rfl, rfl, rfl, rfl,
        fun j => by apply getD_set_field (fun p => p.player_number); rfl,
        fun j => by apply getD_set_field (fun p => p.conn); rfl, List.length_set _ _ _⟩

theorem update_players_after_game_same (state : server_game_state_t) :
    same_log_and_slots state (update_players_after_game state) ∧
    (update_players_after_game state).game_status = state.game_status := by
  unfold update_players_after_game
  have h := update_players_after_game_loop_same MAX_PLAYERS 0
    { state with ready_players := 0, players_count := 0 }
  exact ⟨same_log_and_slots_trans _ _ _ ⟨rfl, rfl, rfl, rfl, rfl, fun _ => rfl, fun _ => rfl, rfl⟩
    h.1, h.2⟩
theorem game_inv_of_same (start a b : server_game_state_t) (h : same_log_and_slots a b)
    (hinv : game_inv start a) : game_inv start b := by
  obtain ⟨h1, h2, h3, h4, h5, h6, _, _⟩ := h
  obtain ⟨k1, k2, k3, k4, k5, k6, k7⟩ := hinv
  refine ⟨h4.trans k1, h5.trans k2, fun i hi => (h6 i).trans (k3 i hi), by rw [h2]; exact k4,
    by rw [h1]; exact k5, ?_, ?_⟩
  · intro k hk1 hk2
    rw [h1]
    exact k6 k hk1 (by rw [← h2]; exact hk2)
  · intro i hi hplay
    rw [h3, h1, h2]
    exact k7 i hi hplay

theorem moved_player_frame (libm : libm_t) (state : server_game_state_t) (i : Nat) :
    (moved_player libm state i).player_number = (state.players.getD i default).player_number ∧
    (moved_player libm state i).is_playing = (state.players.getD i default).is_playing ∧
    (moved_player libm state i).conn = (state.players.getD i default).conn :=
  ⟨rfl, rfl, rfl⟩

theorem move_state_frame (libm : libm_t) (state : server_game_state_t) (i : Nat) :
    (move_state libm state i).game_params = state.game_params ∧
    (move_state libm state i).game_id = state.game_id ∧
    (move_state libm state i).events_queue = state.events_queue ∧
    (move_state libm state i).events_count = state.events_count ∧
    (move_state libm state i).players = state.players.set i (moved_player libm state i) ∧
    (move_state libm state i).game_status = state.game_status ∧
    (move_state libm state i).players_count = state.players_count ∧
    (move_state libm state i).game_primary_player_names = state.game_primary_player_names ∧
    (move_state libm state i).alive =
      if move_eliminates libm state i = true then state.alive.set i false else state.alive := by
  unfold move_state
  by_cases h : move_eliminates libm state i = true
  · rw [if_pos h, if_pos h]
    exact ⟨rfl, rfl, rfl, rfl, rfl, rfl, rfl, rfl, rfl⟩
  · rw [if_neg h, if_neg h]
    exact ⟨rfl, rfl, rfl, rfl, rfl, rfl, rfl, rfl, rfl⟩

/-- The entry of a worm that has changed its cell. -/
theorem move_event_cases (libm : libm_t) (state : server_game_state_t) (i : Nat)
    (current_event : event_data_t) :
    (move_eliminates libm state i = true ∧
      (move_event libm state i current_event).event_type = EVENT_PLAYER_ELIMINATED ∧
      (move_event libm state i current_event).player_number =
        (state.players.getD i default).player_number) ∨
    (move_eliminates libm state i = false ∧
      (move_event libm state i current_event).event_type = EVENT_PIXEL ∧
      (move_event libm state i current_event).player_number =
        (state.players.getD i default).player_number ∧
      (move_event libm state i current_event).x < state.game_params.board_dimension_x ∧
      (move_event libm state i current_event).y < state.game_params.board_dimension_y) := by
  unfold move_event
  by_cases h : move_eliminates libm state i = true
  · left
    rw [if_pos h]
    exact ⟨h, rfl, rfl⟩
  · right
    rw [if_neg h]
    have hf : move_eliminates libm state i = false := by
      cases hm : move_eliminates libm state i
      · rfl
      · exact absurd hm h
    refine ⟨hf, rfl, rfl, ?_, ?_⟩
    · unfold move_eliminates at hf
      have := of_decide_eq_false hf
      simp only []
      omega
    · unfold move_eliminates at hf
      have := of_decide_eq_false hf
      simp only []
      omega
/-- The state after the entry of a worm that has changed its cell has been appended to
the log. -/
theorem game_inv_move (libm : libm_t) (start state : server_game_state_t) (i : Nat)
    (current_event : event_data_t) (hslots : playing_slots_ok start)
    (hinv : game_inv start state) (hon : game_on start state) (hi : i < MAX_PLAYERS)
    (hplay : (state.players.getD i default).is_playing = true)
    (halive : state.alive.getD i false = true)
    (hbound : state.events_count + 1 < UINT32_RANGE) :
    tick_post start state
      (enqueue_event (move_state libm state i) (move_event libm state i current_event)) 1 ∧
    game_on start
      (enqueue_event (move_state libm state i) (move_event libm state i current_event)) := by
  obtain ⟨f1, f2, f3, f4, f5, f6, f7, f8, f9⟩ := move_state_frame libm state i
  obtain ⟨m1, m2, m3⟩ := moved_player_frame libm state i
  have hcount : (enqueue_event (move_state libm state i)
      (move_event libm state i current_event)).events_count = state.events_count + 1 := by
    rw [enqueue_event_count _ _ (by rw [f4]; exact hbound), f4]
  have hqueue : ∀ k, (enqueue_event (move_state libm state i)
      (move_event libm state i current_event)).events_queue.getD k default =
      if k = state.events_count then move_event libm state i current_event
      else state.events_queue.getD k default := by
    intro k
    rw [enqueue_event_getD, f4, f3]
  have hkept : ∀ k, k < state.events_count → (enqueue_event (move_state libm state i)
      (move_event libm state i current_event)).events_queue.getD k default =
      state.events_queue.getD k default := by
    intro k hk
    rw [hqueue k, if_neg (by omega)]
  have hplayers : (enqueue_event (move_state libm state i)
      (move_event libm state i current_event)).players =
      state.players.set i (moved_player libm state i) := f5
  have hstartplay : (start.players.getD i default).is_playing = true := by
    rw [← hon.2.1 i hi]; exact hplay
  have hnum : (state.players.getD i default).player_number =
      (start.players.getD i default).player_number := hinv.2.2.1 i hi
  have hlen : i < state.alive.length := by
    by_contra hnot
    rw [List.getD_eq_default _ _ (by omega)] at halive
    exact absurd halive (by decide)
  have hnotelim : ¬ eliminated_before state.events_queue state.events_count
      (start.players.getD i default).player_number := by
    intro h
    have := (hinv.2.2.2.2.2.2 i hi hstartplay).2 h
    rw [halive] at this
    exact absurd this (by decide)
  have hinv1 : game_inv start (enqueue_event (move_state libm state i)
      (move_event libm state i current_event)) := by
    refine game_inv_append start state _ (move_event libm state i current_event) hinv f1 f2
      (fun j _ => ?_) hcount hqueue ?_ ?_
    · rw [hplayers]
      apply getD_set_field (fun p => p.player_number)
      exact m1
    · unfold log_entry_ok
      rw [hqueue state.events_count, if_pos rfl,
        eliminated_before_congr state.events_queue _ _ _ hkept]
      rcases move_event_cases libm state i current_event with ⟨_, h2, h3⟩ | ⟨_, h2, h3, h4, h5⟩
      · right; left
        rw [h3, hnum]
        exact ⟨h2, (hslots.1 i hi hstartplay).1, hnotelim⟩
      · left
        rw [h3, hnum]
        rw [hinv.1] at h4 h5
        exact ⟨h2, h4, h5, (hslots.1 i hi hstartplay).1⟩
    · intro j hj hjplay
      show (move_state libm state i).alive.getD j false = false ↔ _
      rw [f9]
      rcases move_event_cases libm state i current_event with ⟨h1, h2, h3⟩ | ⟨h1, h2, _⟩
      · rw [if_pos h1, getD_set_eq, h3, hnum]
        by_cases hij : i = j
        · subst hij
          rw [if_pos ⟨rfl, hlen⟩]
          exact ⟨fun _ => Or.inr ⟨h2, rfl⟩, fun _ => rfl⟩
        · rw [if_neg (fun h => hij h.1)]
          constructor
          · exact fun h => Or.inl h
          · rintro (h | ⟨_, h⟩)
            · exact h
            · exact absurd (hslots.2 i hi j hj hstartplay hjplay h) hij
      · rw [if_neg (by rw [h1]; decide)]
        constructor
        · exact fun h => Or.inl h
        · rintro (h | ⟨h, _⟩)
          · exact h
          · rw [h2] at h
            exact absurd h (by decide)
  refine ⟨⟨hinv1, Or.inl ?_, by omega, by omega, hkept, ?_, ?_⟩, ?_⟩
  · refine ⟨f6.trans hon.1, fun j hj => ?_, f7.trans hon.2.2.1, f8.trans hon.2.2.2⟩
    rw [hplayers, ← hon.2.1 j hj]
    apply getD_set_field (fun p => p.is_playing)
    exact m2
  · intro j
    rw [hplayers]
    apply getD_set_field (fun p => p.conn)
    exact m3
  · rw [hplayers]
    exact List.length_set _ _ _
  · refine ⟨f6.trans hon.1, fun j hj => ?_, f7.trans hon.2.2.1, f8.trans hon.2.2.2⟩
    rw [hplayers, ← hon.2.1 j hj]
    apply getD_set_field (fun p => p.is_playing)
    exact m2
/-- The state after GAME_OVER has been appended and the players have been updated. -/
theorem game_inv_game_over (start state : server_game_state_t) (event : event_data_t)
    (hinv : game_inv start state) (hbound : state.events_count + 1 < UINT32_RANGE) :
    tick_post start state
      (update_players_after_game
        (enqueue_event { state with game_status := GAME_STATE_WAITING_FOR_PLAYERS }
          { event with event_type := EVENT_GAME_OVER })) 1 ∧
    (update_players_after_game
      (enqueue_event { state with game_status := GAME_STATE_WAITING_FOR_PLAYERS }
        { event with event_type := EVENT_GAME_OVER })).game_status =
      GAME_STATE_WAITING_FOR_PLAYERS := by
  have hcount : (enqueue_event { state with game_status := GAME_STATE_WAITING_FOR_PLAYERS }
      { event with event_type := EVENT_GAME_OVER }).events_count = state.events_count + 1 :=
    enqueue_event_count _ _ hbound
  have hqueue : ∀ k, (enqueue_event { state with game_status := GAME_STATE_WAITING_FOR_PLAYERS }
      { event with event_type := EVENT_GAME_OVER }).events_queue.getD k default =
      if k = state.events_count then { event with event_type := EVENT_GAME_OVER }
      else state.events_queue.getD k default := fun k => enqueue_event_getD _ _ k
  have hinv1 : game_inv start
      (enqueue_event { state with game_status := GAME_STATE_WAITING_FOR_PLAYERS }
        { event with event_type := EVENT_GAME_OVER }) := by
    refine game_inv_append start state _ { event with event_type := EVENT_GAME_OVER } hinv
      rfl rfl (fun _ _ => rfl) hcount hqueue ?_ ?_
    · unfold log_entry_ok
      rw [hqueue state.events_count, if_pos rfl]
      right; right; rfl
    · intro j _ _
      show state.alive.getD j false = false ↔ _
      constructor
      · exact fun h => Or.inl h
      · rintro (h | ⟨h, _⟩)
        · exact h
        · exact absurd (show EVENT_GAME_OVER = EVENT_PLAYER_ELIMINATED from h) (by decide)
  obtain ⟨hsame, hstatus⟩ := update_players_after_game_same
    (enqueue_event { state with game_status := GAME_STATE_WAITING_FOR_PLAYERS }
      { event with event_type := EVENT_GAME_OVER })
  have hst : (update_players_after_game
      (enqueue_event { state with game_status := GAME_STATE_WAITING_FOR_PLAYERS }
        { event with event_type := EVENT_GAME_OVER })).game_status =
      GAME_STATE_WAITING_FOR_PLAYERS := hstatus.trans rfl
  refine ⟨⟨game_inv_of_same start _ _ hsame hinv1, Or.inr hst, ?_, ?_, ?_, ?_, ?_⟩, hst⟩
  · rw [hsame.2.1, hcount]; omega
  · rw [hsame.2.1, hcount]
  · intro k hk
    rw [hsame.1, hqueue k, if_neg (by omega)]
  · intro j
    rw [hsame.2.2.2.2.2.2.1 j]
    rfl
  · rw [hsame.2.2.2.2.2.2.2]
    rfl

theorem tick_post_trans (start a b c : server_game_state_t) (m n : Nat)
    (hab : tick_post start a b m) (hbc : tick_post start b c n) :
    tick_post start a c (m + n) := by
  obtain ⟨_, _, h3, h4, h5, h6, h7⟩ := hab
  obtain ⟨k1, k2, k3, k4, k5, k6, k7⟩ := hbc
  refine ⟨k1, k2, by omega, by omega, fun k hk => ?_, fun j => (k6 j).trans (h6 j),
    k7.trans h7⟩
  rw [k5 k (by omega), h5 k hk]

theorem tick_post_mono (start a b : server_game_state_t) (m n : Nat) (hmn : m ≤ n)
    (h : tick_post start a b m) : tick_post start a b n := by
  obtain ⟨h1, h2, h3, h4, h5, h6, h7⟩ := h
  exact ⟨h1, h2, h3, by omega, h5, h6, h7⟩

/-- The loop of `handle_board_update` keeps the invariant of the game. -/
theorem handle_board_update_loop_post (libm : libm_t) (start : server_game_state_t)
    (hslots : playing_slots_ok start) :
    ∀ (fuel i : Nat) (current_event : event_data_t) (state : server_game_state_t),
      i + fuel ≤ MAX_PLAYERS → game_inv start state → game_on start state →
      state.events_count + fuel + 1 < UINT32_RANGE →
      tick_post start state (handle_board_update_loop libm fuel i current_event state)
        (fuel + 1) := by
  intro fuel
  induction fuel with
  | zero =>
    intro i current_event state _ hinv hon _
    show tick_post start state state 1
    exact ⟨hinv, Or.inl hon, Nat.le_refl _, by omega, fun _ _ => rfl, fun _ => rfl, rfl⟩
  | succ n ih =>
    intro i current_event state hi hinv hon hbound
    unfold handle_board_update_loop
    by_cases hplay : (state.players.getD i default).is_playing = false
    · rw [if_pos hplay]
      exact tick_post_mono _ _ _ _ _ (by omega)
        (ih (i + 1) current_event state (by omega) hinv hon (by omega))
    · rw [if_neg hplay]
      have hplay1 : (state.players.getD i default).is_playing = true := by
        cases h : (state.players.getD i default).is_playing
        · exact absurd h hplay
        · rfl
      by_cases halive : state.alive.getD i false = true
      · rw [if_pos halive]
        by_cases hsame : same_cell libm state i = true
        · rw [if_pos hsame]
          obtain ⟨m1, m2, m3⟩ := moved_player_frame libm state i
          have hsl : same_log_and_slots state
              { state with players := state.players.set i (moved_player libm state i) } :=
            ⟨rfl, rfl, rfl, rfl, rfl,
              fun j => by apply getD_set_field (fun p => p.player_number); exact m1,
              fun j => by apply getD_set_field (fun p => p.conn); exact m3,
              List.length_set _ _ _⟩
          have hon1 : game_on start
              { state with players := state.players.set i (moved_player libm state i) } := by
            refine ⟨hon.1, fun j hj => ?_, hon.2.2.1, hon.2.2.2⟩
            rw [← hon.2.1 j hj]
            apply getD_set_field (fun p => p.is_playing)
            exact m2
          have h := ih (i + 1) current_event
            { state with players := state.players.set i (moved_player libm state i) }
            (by omega) (game_inv_of_same start _ _ hsl hinv) hon1 (by
              show state.events_count + n + 1 < UINT32_RANGE
              omega)
          obtain ⟨k1, k2, k3, k4, k5, k6, k7⟩ := h
          have k4a : (handle_board_update_loop libm n (i + 1) current_event
              { state with players := state.players.set i (moved_player libm state i) }
              ).events_count ≤ state.events_count + (n + 1) := k4
          exact ⟨k1, k2, k3, by omega, k5, fun j => (k6 j).trans (hsl.2.2.2.2.2.2.1 j),
            k7.trans hsl.2.2.2.2.2.2.2⟩
        · rw [if_neg hsame]
          obtain ⟨hpost, hon3⟩ := game_inv_move libm start state i current_event hslots hinv hon
            (by omega) hplay1 halive (by omega)
          by_cases hone : (enqueue_event (move_state libm state i)
              (move_event libm state i current_event)).alive_players_count = 1
          · rw [if_pos hone]
            have hover := (game_inv_game_over start
              (enqueue_event (move_state libm state i) (move_event libm state i current_event))
              (move_event libm state i current_event) hpost.1 (by
                have := hpost.2.2.2.1
                omega)).1
            exact tick_post_mono _ _ _ _ _ (by omega) (tick_post_trans _ _ _ _ _ _ hpost hover)
          · rw [if_neg hone]
            have h := ih (i + 1) (move_event libm state i current_event)
              (enqueue_event (move_state libm state i) (move_event libm state i current_event))
              (by omega) hpost.1 hon3 (by
                have := hpost.2.2.2.1
                omega)
            exact tick_post_mono _ _ _ _ _ (by omega) (tick_post_trans _ _ _ _ _ _ hpost h)
      · rw [if_neg halive]
        exact tick_post_mono _ _ _ _ _ (by omega)
          (ih (i + 1) current_event state (by omega) hinv hon (by omega))

/-! ## Datagrams and timeouts during a game -/

theorem same_game_refl (a : server_game_state_t) : same_game a a :=
  ⟨rfl, rfl, rfl, rfl, rfl, rfl, rfl, rfl, fun _ => rfl, fun _ => rfl⟩

theorem same_game_trans (a b c : server_game_state_t) (hab : same_game a b)
    (hbc : same_game b c) : same_game a c := by
  obtain ⟨h1, h2, h3, h4, h5, h6, h7, h8, h9, h10⟩ := hab
  obtain ⟨k1, k2, k3, k4, k5, k6, k7, k8, k9, k10⟩ := hbc
  exact ⟨k1.trans h1, k2.trans h2, k3.trans h3, k4.trans h4, k5.trans h5, k6.trans h6,
    k7.trans h7, k8.trans h8, fun j => (k9 j).trans (h9 j), fun j => (k10 j).trans (h10 j)⟩

/-- A write to a slot that keeps its player number and its `is_playing` flag. -/
theorem same_game_set_player (state : server_game_state_t) (i : Nat) (player : client_t)
    (hnum : player.player_number = (state.players.getD i default).player_number)
    (hplay : player.is_playing = (state.players.getD i default).is_playing) :
    same_game state { state with players := state.players.set i player } :=
  ⟨rfl, rfl, rfl, rfl, rfl, rfl, rfl, rfl,
    fun j => getD_set_field (fun p => p.player_number) state.players i player hnum j,
    fun j => getD_set_field (fun p => p.is_playing) state.players i player hplay j⟩

theorem game_inv_of_same_game (start a b : server_game_state_t) (h : same_game a b)
    (hinv : game_inv start a) : game_inv start b := by
  obtain ⟨h1, h2, h3, h4, h5, _, _, _, h9, _⟩ := h
  obtain ⟨k1, k2, k3, k4, k5, k6, k7⟩ := hinv
  refine ⟨h4.trans k1, h5.trans k2, fun i hi => (h9 i).trans (k3 i hi), by rw [h2]; exact k4,
    by rw [h1]; exact k5, ?_, ?_⟩
  · intro k hk1 hk2
    rw [h1]
    exact k6 k hk1 (by rw [← h2]; exact hk2)
  · intro i hi hplay
    rw [h3, h1, h2]
    exact k7 i hi hplay

theorem game_on_of_same_game (start a b : server_game_state_t) (h : same_game a b)
    (hon : game_on start a) : game_on start b := by
  obtain ⟨_, _, _, _, _, h6, h7, h8, _, h10⟩ := h
  obtain ⟨k1, k2, k3, k4⟩ := hon
  exact ⟨h6.trans k1, fun i hi => (h10 i).trans (k2 i hi), h7.trans k3, h8.trans k4⟩

/-- During a game `handle_existing_client` stays in the game. -/
theorem handle_existing_client_same_game (state : server_game_state_t) (addr_index : Nat)
    (datagram_size : Int) (dgram : client_dgram_t)
    (hstatus : state.game_status = GAME_STATE_GAME_STARTED) :
    same_game state (handle_existing_client state addr_index datagram_size dgram) := by
  unfold handle_existing_client
  simp only []
  have hnw : ¬ state.game_status = GAME_STATE_WAITING_FOR_PLAYERS := by
    rw [hstatus]; decide
  split
  · exact same_game_set_player state addr_index _ rfl rfl
  · split
    · exact same_game_refl state
    · split
      · exact same_game_refl state
      · split
        · exact same_game_set_player state addr_index _ rfl rfl
        · exact same_game_set_player state addr_index _ rfl rfl

/-- During a game `handle_new_client` stays in the game. -/
theorem handle_new_client_same_game (state : server_game_state_t)
    (receive_address : List Nat) (receive_address_length : Nat) (datagram_size : Int)
    (dgram : client_dgram_t) (hstatus : state.game_status = GAME_STATE_GAME_STARTED) :
    same_game state
      (handle_new_client state receive_address receive_address_length datagram_size dgram).1 := by
  unfold handle_new_client
  have hnw : ¬ state.game_status = GAME_STATE_WAITING_FOR_PLAYERS := by
    rw [hstatus]; decide
  have hjoins : decide (state.game_status ≠ GAME_STATE_GAME_STARTED ∧
      datagram_size - (CLIENT_DGRAM_INTEGERS_LEN : Int) > 0) = false := by
    apply decide_eq_false
    exact fun h => h.1 hstatus
  split
  · exact same_game_refl state
  · simp only []
    rw [hjoins]
    simp only [Bool.false_eq_true, if_false, false_and]
    rw [if_neg (fun h => hnw h.1)]
    · refine ⟨rfl, rfl, rfl, rfl, rfl, rfl, rfl, rfl, fun j => ?_, fun j => ?_⟩
      · apply getD_set_field (fun p => p.player_number)
        rfl
      · apply getD_set_field (fun p => p.is_playing)
        rfl

/-- During a game `handle_client_datagram` stays in the game. -/
theorem handle_client_datagram_same_game (state : server_game_state_t)
    (receive_address : List Nat) (receive_address_length : Nat) (buffer : List Nat)
    (read_bytes : Int) (hstatus : state.game_status = GAME_STATE_GAME_STARTED) :
    same_game state
      (handle_client_datagram state receive_address receive_address_length buffer
        read_bytes).1 := by
  unfold handle_client_datagram
  simp only []
  split
  · exact same_game_refl state
  · split
    · exact handle_existing_client_same_game state _ _ _ hstatus
    · split
      · exact handle_new_client_same_game state _ _ _ _ hstatus
      · exact same_game_refl state
/-- During a game the loop of `handle_timers` stays in the game. -/
theorem handle_timers_loop_same_game (fired : List Bool) :
    ∀ (fuel client_index : Nat) (state : server_game_state_t) (sent : List (Nat × List Nat)),
      state.game_status = GAME_STATE_GAME_STARTED →
      same_game state (handle_timers_loop fired fuel client_index state sent).1 := by
  intro fuel
  induction fuel with
  | zero => intro _ state _ _; exact same_game_refl state
  | succ n ih =>
    intro client_index state sent hstatus
    have hnw : ¬ state.game_status = GAME_STATE_WAITING_FOR_PLAYERS := by
      rw [hstatus]; decide
    unfold handle_timers_loop
    by_cases hfired : fired.getD client_index false = true
    · rw [if_pos hfired]
      simp only []
      by_cases hdrop : (state.players.getD client_index default).conn.is_connection_active = true ∧
          (state.players.getD client_index default).message = false
      · rw [if_pos hdrop, if_neg hnw]
        refine same_game_trans _ _ _ ?_ (ih _ _ _ hstatus)
        refine ⟨rfl, rfl, rfl, rfl, rfl, rfl, rfl, rfl, fun j => ?_, fun j => ?_⟩
        · refine Eq.trans ?_
            (getD_set_field (fun p => p.player_number) state.players client_index
              { state.players.getD client_index default with
                conn := { (state.players.getD client_index default).conn with
                  is_connection_active := false }
                name := List.replicate (MAX_PLAYER_NAME_LENGTH + 1) 0 } rfl j)
          apply getD_set_field (fun p => p.player_number)
          rfl
        · refine Eq.trans ?_
            (getD_set_field (fun p => p.is_playing) state.players client_index
              { state.players.getD client_index default with
                conn := { (state.players.getD client_index default).conn with
                  is_connection_active := false }
                name := List.replicate (MAX_PLAYER_NAME_LENGTH + 1) 0 } rfl j)
          apply getD_set_field (fun p => p.is_playing)
          rfl
      · rw [if_neg hdrop]
        refine same_game_trans _ _ _ ?_ (ih _ _ _ hstatus)
        exact same_game_set_player state client_index _ rfl rfl
    · rw [if_neg hfired]
      exact ih _ _ _ hstatus

/-- A round of the loop of `main` whose tick leaves the game on stays in the game after
the tick. -/
theorem main_loop_step_same_game (libm : libm_t) (state : server_game_state_t)
    (polled : poll_result_t)
    (hstatus : (round_tick libm state polled).1.game_status = GAME_STATE_GAME_STARTED) :
    same_game (round_tick libm state polled).1 (main_loop_step libm state polled).1 := by
  unfold main_loop_step handle_timers
  simp only []
  have h1 := handle_timers_loop_same_game (fired_timers state polled) MAX_PLAYERS 0
    (round_tick libm state polled).1 [] hstatus
  cases hd : polled.datagram with
  | none => exact h1
  | some d =>
    obtain ⟨receive_address, receive_address_length, buffer, read_bytes⟩ := d
    exact same_game_trans _ _ _ h1
      (handle_client_datagram_same_game _ _ _ _ _ (h1.2.2.2.2.2.1.trans hstatus))

/-! ## The client follows the log -/

theorem event_record_of_serialize (state : server_game_state_t) (event_no : Nat)
    (record : List Nat)
    (h : serialize_event_record state event_no ((MAX_SERVER_UDP_DGRAM_LENGTH : Int) - 4) =
      some record) : event_record state event_no = record := by
  unfold event_record
  rw [h]
  rfl

theorem message_written_flagged (client : client_game_state_t)
    (h : client.data_for_gui.ready_to_send ≠ 0) :
    message_written client =
      { client with data_for_gui := { client.data_for_gui with ready_to_send := 0 } } := by
  unfold message_written
  rw [if_pos h]

theorem message_written_clear (client : client_game_state_t)
    (h : client.data_for_gui.ready_to_send = 0) : message_written client = client := by
  unfold message_written
  rw [if_neg (by rw [h]; decide)]

/-- A client in step with the log accepts the next entry, when it is a good one, and is
then in step with the log one entry further. -/
theorem client_accepts_entry (start server : server_game_state_t)
    (client : client_game_state_t) (m : Nat) (rest : List Nat) (remaining : Int)
    (hstep : client_in_step start server.events_queue m client)
    (hok : log_entry_ok server.events_queue start.players_count
      start.game_params.board_dimension_x start.game_params.board_dimension_y m)
    (hcount : start.players_count ≤ MAX_PLAYERS)
    (hbx : start.game_params.board_dimension_x < UINT32_RANGE)
    (hby : start.game_params.board_dimension_y < UINT32_RANGE)
    (hm : m + 1 < UINT32_RANGE)
    (hrem : ((event_record server m).length : Int) ≤ remaining) :
    deserialize_event_record client (event_record server m ++ rest) remaining =
      (((event_record server m).length : Int),
        (deserialize_event_record client (event_record server m ++ rest) remaining).2) ∧
    client_in_step start server.events_queue (m + 1)
      (message_written
        (deserialize_event_record client (event_record server m ++ rest) remaining).2) := by
  obtain ⟨c1, c2, c3, c4, c5, c6, c7, c8, c9⟩ := hstep
  unfold MAX_PLAYERS at hcount
  rcases hok with ⟨ht, hx, hy, hp⟩ | ⟨ht, hp, hne⟩ | ht
  · -- PIXEL
    have hrec := event_record_of_serialize server m _
      (serialize_pixel server m _ ht (by decide))
    rw [hrec] at hrem ⊢
    have hlen : ((htonl 14 ++ (htonl m ++
        [1, (server.events_queue.getD m default).player_number % 256] ++
        htonl (server.events_queue.getD m default).x ++
        htonl (server.events_queue.getD m default).y)) ++
        htonl (crc_32 (htonl 14 ++ (htonl m ++
        [1, (server.events_queue.getD m default).player_number % 256] ++
        htonl (server.events_queue.getD m default).x ++
        htonl (server.events_queue.getD m default).y)) 18)).length = 22 := by
      simp [htonl_length]
    rw [hlen] at hrem ⊢
    have h := deserialize_pixel_record client m
      (server.events_queue.getD m default).player_number
      (server.events_queue.getD m default).x (server.events_queue.getD m default).y rest
      remaining (by exact_mod_cast hrem) (by omega) (by omega) (by omega)
    rw [h, Nat.mod_eq_of_lt (by omega : (server.events_queue.getD m default).player_number < 256),
      if_neg (by rw [c3, c4]; omega), if_neg (by rw [c2]; omega), if_pos c1.symm]
    refine ⟨rfl, ?_⟩
    rw [message_written_flagged]
    · refine ⟨?_, c2, c3, c4, rfl, c6, c7, c8, fun p hp2 => ?_⟩
      · show (client.next_expected + 1) % UINT32_RANGE = m + 1
        rw [c1]
        exact Nat.mod_eq_of_lt hm
      · show client.is_alive.getD p false = false ↔ _
        rw [c9 p hp2, eliminated_before_succ]
        constructor
        · exact fun h => Or.inl h
        · rintro (h | ⟨h, _⟩)
          · exact h
          · rw [ht] at h
            exact absurd h (by decide)
    · show (1 : Nat) ≠ 0
      decide
  · -- PLAYER_ELIMINATED
    have hrec := event_record_of_serialize server m _
      (serialize_player_eliminated server m _ ht (by decide))
    rw [hrec] at hrem ⊢
    have hlen : ((htonl 6 ++ (htonl m ++
        [2, (server.events_queue.getD m default).player_number % 256])) ++
        htonl (crc_32 (htonl 6 ++ (htonl m ++
        [2, (server.events_queue.getD m default).player_number % 256])) 10)).length = 14 := by
      simp [htonl_length]
    rw [hlen] at hrem ⊢
    have h := deserialize_player_eliminated_record client m
      (server.events_queue.getD m default).player_number rest remaining
      (by exact_mod_cast hrem) (by omega)
    have halive : client.is_alive.getD (server.events_queue.getD m default).player_number false
        = true := by
      cases hv : client.is_alive.getD (server.events_queue.getD m default).player_number false
      · exact absurd ((c9 _ (by unfold MAX_PLAYERS; omega)).1 hv) hne
      · rfl
    have hidx : (server.events_queue.getD m default).player_number < client.is_alive.length := by
      rw [c8]; unfold MAX_PLAYERS; omega
    rw [h, Nat.mod_eq_of_lt (by omega : (server.events_queue.getD m default).player_number < 256),
      if_neg (by rw [c2]; omega), if_pos c1.symm, halive]
    refine ⟨rfl, ?_⟩
    rw [message_written_flagged]
    · refine ⟨?_, c2, c3, c4, rfl, c6, c7, ?_, fun p hp2 => ?_⟩
      · show (client.next_expected + 1) % UINT32_RANGE = m + 1
        rw [c1]
        exact Nat.mod_eq_of_lt hm
      · show (client.is_alive.set _ false).length = MAX_PLAYERS
        rw [List.length_set]
        exact c8
      · show (client.is_alive.set (server.events_queue.getD m default).player_number
          false).getD p false = false ↔ _
        rw [getD_set_eq, eliminated_before_succ]
        by_cases hpe : (server.events_queue.getD m default).player_number = p
        · rw [if_pos ⟨hpe, hidx⟩]
          exact ⟨fun _ => Or.inr ⟨ht, hpe⟩, fun _ => rfl⟩
        · rw [if_neg (fun h => hpe h.1), c9 p hp2]
          constructor
          · exact fun h => Or.inl h
          · rintro (h | ⟨_, h⟩)
            · exact h
            · exact absurd h hpe
    · show (1 : Nat) ≠ 0
      decide
  · -- GAME_OVER
    have hrec := event_record_of_serialize server m _
      (serialize_game_over server m _ (by rw [ht]; decide) (by rw [ht]; decide)
        (by rw [ht]; decide) (by decide))
    rw [hrec, ht] at hrem ⊢
    have hlen : ((htonl 5 ++ (htonl m ++ [EVENT_GAME_OVER % 256])) ++
        htonl (crc_32 (htonl 5 ++ (htonl m ++ [EVENT_GAME_OVER % 256])) 9)).length = 13 := by
      simp [htonl_length]
    rw [hlen] at hrem ⊢
    have h := deserialize_game_over_record client m rest remaining
      (by exact_mod_cast hrem) (by omega)
    have h2 : deserialize_event_record client
        ((htonl 5 ++ (htonl m ++ [EVENT_GAME_OVER % 256])) ++
          htonl (crc_32 (htonl 5 ++ (htonl m ++ [EVENT_GAME_OVER % 256])) 9) ++ rest)
        remaining = _ := h
    rw [h2, if_pos c1.symm]
    refine ⟨rfl, ?_⟩
    rw [message_written_clear]
    · refine ⟨?_, c2, c3, c4, c5, c6, c7, c8, fun p hp2 => ?_⟩
      · show (client.next_expected + 1) % UINT32_RANGE = m + 1
        rw [c1]
        exact Nat.mod_eq_of_lt hm
      · show client.is_alive.getD p false = false ↔ _
        rw [c9 p hp2, eliminated_before_succ]
        constructor
        · exact fun h => Or.inl h
        · rintro (h | ⟨h, _⟩)
          · exact h
          · rw [ht] at h
            exact absurd h (by decide)
    · exact c5
/-- A client reset for the game accepts the NEW_GAME record of the game and is then in
step with the log at index 1. -/
theorem client_accepts_new_game (start : server_game_state_t) (queue : List event_data_t)
    (client : client_game_state_t) (rest : List Nat) (remaining : Int)
    (hreset : client_reset_for start client) (hnames : frozen_names_ok start)
    (hlog : start_log_ok start)
    (hqueue : (queue.getD 0 default).event_type = EVENT_NEW_GAME)
    (hbx : start.game_params.board_dimension_x < UINT32_RANGE)
    (hby : start.game_params.board_dimension_y < UINT32_RANGE)
    (hrem : ((event_record start 0).length : Int) ≤ remaining) :
    deserialize_event_record client (event_record start 0 ++ rest) remaining =
      (((event_record start 0).length : Int),
        (deserialize_event_record client (event_record start 0 ++ rest) remaining).2) ∧
    client_in_step start queue 1
      (message_written
        (deserialize_event_record client (event_record start 0 ++ rest) remaining).2) := by
  obtain ⟨r1, r2, r3, r4, r5, r6, r7⟩ := hreset
  obtain ⟨hcount, hvalid, hasc⟩ := hnames
  obtain ⟨_, ht, hx, hy, _⟩ := hlog
  unfold MAX_PLAYERS at hcount
  have hstr : ∀ i, i < start.players_count →
      strlen (start.game_primary_player_names.getD i []) ≤ 20 :=
    fun i hi => (hvalid i hi).2.1
  have hN := player_names_bytes_length start.game_primary_player_names
    start.players_count 0 (fun j _ hj => hstr j (by omega))
  have hrec := event_record_of_serialize start 0 _
    (serialize_new_game start 0 _ hcount hstr ht)
  rw [hx, hy] at hrec
  generalize hNdef : player_names_bytes start.game_primary_player_names start.players_count 0
    = N at hrec hN
  have hbody : (htonl (13 + N.length) ++ (htonl 0 ++ [0] ++
      htonl start.game_params.board_dimension_x ++
      htonl start.game_params.board_dimension_y ++ N)).length = 17 + N.length := by
    simp [htonl_length]; omega
  have hlen : (event_record start 0).length = 21 + N.length := by
    rw [hrec, List.length_append, hbody, htonl_length]
    omega
  rw [hlen] at hrem ⊢
  rw [hrec]
  obtain ⟨q0, q4, q8, q9, q13, qdrop⟩ := new_game_reads (13 + N.length)
    start.game_params.board_dimension_x start.game_params.board_dimension_y
    (crc_32 (htonl (13 + N.length) ++ (htonl 0 ++ [0] ++
      htonl start.game_params.board_dimension_x ++
      htonl start.game_params.board_dimension_y ++ N)) (17 + N.length))
    N rest (by unfold UINT32_RANGE; omega) hbx hby
  have hcrc : crc_32 ((htonl (13 + N.length) ++ (htonl 0 ++ [0] ++
        htonl start.game_params.board_dimension_x ++
        htonl start.game_params.board_dimension_y ++ N)) ++
      htonl (crc_32 (htonl (13 + N.length) ++ (htonl 0 ++ [0] ++
        htonl start.game_params.board_dimension_x ++
        htonl start.game_params.board_dimension_y ++ N)) (17 + N.length)) ++ rest)
      (13 + N.length + 4) =
      ntohl ((htonl (13 + N.length) ++ (htonl 0 ++ [0] ++
        htonl start.game_params.board_dimension_x ++
        htonl start.game_params.board_dimension_y ++ N)) ++
      htonl (crc_32 (htonl (13 + N.length) ++ (htonl 0 ++ [0] ++
        htonl start.game_params.board_dimension_x ++
        htonl start.game_params.board_dimension_y ++ N)) (17 + N.length)) ++ rest)
      (4 + (13 + N.length)) := by
    have e1 : 13 + N.length + 4 = 17 + N.length := by omega
    have e2 : 4 + (13 + N.length) = 17 + N.length := by omega
    rw [e1, e2, List.append_assoc, crc_32_append _ _ _ hbody.symm]
    exact (ntohl_at_htonl _ _ rest (17 + N.length) hbody.symm (crc_32_lt _ _)).symm
  have h := deserialize_new_game_of_reads client _ remaining start.game_primary_player_names
    start.players_count start.game_params.board_dimension_x
    start.game_params.board_dimension_y (htonl (crc_32 (htonl (13 + N.length) ++ (htonl 0 ++ [0] ++
        htonl start.game_params.board_dimension_x ++
        htonl start.game_params.board_dimension_y ++ N)) (17 + N.length)) ++ rest)
    hcount hvalid (fun r hr => hasc r (by omega) hr) r1 r2 r7
    (by rw [hNdef]; exact hrem) (by rw [hNdef]; exact q0) q4 q8 q9 q13
    (by rw [hNdef]; exact qdrop) (by rw [hNdef]; exact hcrc)
  rw [hNdef] at h
  rw [h]
  refine ⟨rfl, ?_⟩
  rw [message_written_flagged]
  · refine ⟨rfl, rfl, rfl, rfl, rfl, r4, r5, ?_, fun p hp => ?_⟩
    · show client.is_alive.length = MAX_PLAYERS
      rw [r6, List.length_replicate]
    · show client.is_alive.getD p false = false ↔ _
      rw [r6]
      constructor
      · intro hf
        rw [List.getD_eq_getElem _ _ (by rw [List.length_replicate]; exact hp),
          List.getElem_replicate] at hf
        exact absurd hf (by decide)
      · rintro ⟨k, hk, h1, _⟩
        have hk0 : k = 0 := by omega
        rw [hk0, hqueue] at h1
        exact absurd h1 (by decide)
  · show (1 : Nat) ≠ 0
    decide
/-- The loop of `handle_server_message` over a buffer that holds the records `k, k + 1,
...`, `n + 1` of them, each of which is accepted and keeps the property `step` of the
client: the loop returns without `exit` and the property holds at the end. -/
theorem handle_server_message_loop_records (server : server_game_state_t)
    (step : Nat → client_game_state_t → Prop) (buffer : List Nat) (last : Nat)
    (low : Nat)
    (haccept : ∀ (j : Nat) (client : client_game_state_t) (rest : List Nat) (remaining : Int),
      low ≤ j → j < last → step j client → ((event_record server j).length : Int) ≤ remaining →
      deserialize_event_record client (event_record server j ++ rest) remaining =
        (((event_record server j).length : Int),
          (deserialize_event_record client (event_record server j ++ rest) remaining).2) ∧
      step (j + 1) (message_written
        (deserialize_event_record client (event_record server j ++ rest) remaining).2)) :
    ∀ (n k fuel buffer_offset : Nat) (client : client_game_state_t)
      (gui_writes : List client_game_state_t),
      low ≤ k → k + (n + 1) = last → n < fuel →
      buffer.drop buffer_offset = records_bytes server (n + 1) k →
      step k client →
      ∃ run, handle_server_message_loop buffer fuel client buffer_offset
          ((records_bytes server (n + 1) k).length : Int) gui_writes = some run ∧
        run.exited = false ∧ step last run.state := by
  intro n
  induction n with
  | zero =>
    intro k fuel buffer_offset client gui_writes hlow hk hfuel hbuf hstep
    obtain ⟨f, rfl⟩ : ∃ f, fuel = f + 1 := ⟨fuel - 1, by omega⟩
    have hrb : records_bytes server (0 + 1) k = event_record server k ++ [] := by
      simp [records_bytes]
    rw [hrb] at hbuf ⊢
    obtain ⟨h1, h2⟩ := haccept k client [] ((event_record server k ++ []).length : Int)
      hlow (by omega) hstep (by rw [List.append_nil])
    have hge : 13 ≤ (event_record server k).length := by
      rw [event_record_length]; exact record_size_ge server k
    unfold handle_server_message_loop
    simp only []
    rw [hbuf, h1]
    simp only []
    rw [if_neg (by omega), if_neg (by omega), if_pos (by rw [List.append_nil]; omega)]
    refine ⟨_, rfl, rfl, ?_⟩
    have e : k + 1 = last := by omega
    rw [← e]
    exact h2
  | succ m ih =>
    intro k fuel buffer_offset client gui_writes hlow hk hfuel hbuf hstep
    obtain ⟨f, rfl⟩ : ∃ f, fuel = f + 1 := ⟨fuel - 1, by omega⟩
    have hrb : records_bytes server (m + 1 + 1) k =
        event_record server k ++ records_bytes server (m + 1) (k + 1) := rfl
    rw [hrb] at hbuf ⊢
    obtain ⟨h1, h2⟩ := haccept k client (records_bytes server (m + 1) (k + 1))
      ((event_record server k ++ records_bytes server (m + 1) (k + 1)).length : Int)
      hlow (by omega) hstep (by rw [List.length_append]; push_cast; omega)
    have hge : 13 ≤ (event_record server k).length := by
      rw [event_record_length]; exact record_size_ge server k
    have hge2 : 13 ≤ (records_bytes server (m + 1) (k + 1)).length := by
      have : records_bytes server (m + 1) (k + 1) =
          event_record server (k + 1) ++ records_bytes server m (k + 1 + 1) := rfl
      rw [this, List.length_append, event_record_length]
      have := record_size_ge server (k + 1)
      omega
    unfold handle_server_message_loop
    simp only []
    rw [hbuf, h1]
    simp only []
    rw [if_neg (by omega), if_neg (by omega),
      if_neg (by rw [List.length_append]; push_cast; omega)]
    have hrem : ((event_record server k ++ records_bytes server (m + 1) (k + 1)).length : Int) -
        ((event_record server k).length : Int) =
        ((records_bytes server (m + 1) (k + 1)).length : Int) := by
      rw [List.length_append]; push_cast; omega
    rw [hrem, Int.toNat_ofNat]
    have hdrop : buffer.drop (buffer_offset + (event_record server k).length) =
        records_bytes server (m + 1) (k + 1) := by
      rw [← List.drop_drop, hbuf, List.drop_left]
    exact ih (k + 1) f (buffer_offset + (event_record server k).length) _ _ (by omega)
      (by omega) (by omega) hdrop h2

theorem host_uint32_append (a b : List Nat) (h : a.length = 4) :
    host_uint32 (a ++ b) 0 = host_uint32 a 0 := by
  unfold host_uint32 byte_at
  rw [List.getD_append _ _ _ _ (by omega), List.getD_append _ _ _ _ (by omega),
    List.getD_append _ _ _ _ (by omega), List.getD_append _ _ _ _ (by omega)]

theorem records_bytes_length_ge (server : server_game_state_t) :
    ∀ (n k : Nat), 13 * n ≤ (records_bytes server n k).length := by
  intro n
  induction n with
  | zero => intro k; simp
  | succ m ih =>
    intro k
    have : records_bytes server (m + 1) k =
        event_record server k ++ records_bytes server m (k + 1) := rfl
    rw [this, List.length_append, event_record_length]
    have h1 := record_size_ge server k
    have h2 := ih (k + 1)
    omega

/-- The client handles the datagrams that the sending loop of `send_game_data` and
`broadcast_events` makes of the log entries from `first` on, when it accepts every record
in its turn: no call ends in `exit` and the property `step` holds at the end of the
log. -/
theorem handle_server_messages_send_loop (server : server_game_state_t)
    (step : Nat → client_game_state_t → Prop) (low : Nat)
    (hsize : ∀ k, low ≤ k → k < server.events_count →
      (pack_events server k 550).1.length ≤ 550)
    (haccept : ∀ (j : Nat) (client : client_game_state_t) (rest : List Nat) (remaining : Int),
      low ≤ j → j < server.events_count → step j client →
      ((event_record server j).length : Int) ≤ remaining →
      deserialize_event_record client (event_record server j ++ rest) remaining =
        (((event_record server j).length : Int),
          (deserialize_event_record client (event_record server j ++ rest) remaining).2) ∧
      step (j + 1) (message_written
        (deserialize_event_record client (event_record server j ++ rest) remaining).2))
    (hadopt : ∀ (j : Nat) (client : client_game_state_t), 0 < j → step j client →
      adopt_game_id client (host_uint32 (htonl server.game_id) 0) = some client) :
    ∀ (fuel first : Nat) (client : client_game_state_t), low ≤ first →
      first < server.events_count → server.events_count - first ≤ fuel →
      (∃ adopted, adopt_game_id client (host_uint32 (htonl server.game_id) 0) = some adopted ∧
        step first adopted) →
      ∃ datagrams run, send_loop server fuel first = some datagrams ∧
        handle_server_messages client datagrams = some run ∧ run.exited = false ∧
        step server.events_count run.state := by
  intro fuel
  induction fuel with
  | zero => intro first client _ h1 h2; omega
  | succ n ih =>
    intro first client hlow hlt hfuel hadopted
    obtain ⟨adopted, ha1, ha2⟩ := hadopted
    obtain ⟨p1, p2, p3, _⟩ := pack_events_spec server first 550 (by omega)
    have hprog0 := pack_events_progress server first hlt
    have hlen0 := hsize first hlow hlt
    generalize hpk : pack_events server first 550 = packed at p1 p2 p3
    have hprog : first < packed.2 := by rw [← hpk]; exact hprog0
    have hlen : packed.1.length ≤ 550 := by rw [← hpk]; exact hlen0
    obtain ⟨cnt, hcnt⟩ : ∃ cnt, packed.2 - first = cnt + 1 := ⟨packed.2 - first - 1, by omega⟩
    rw [hcnt] at p3
    have hrblen := records_bytes_length_ge server (cnt + 1) first
    have hdlen : packed.1.length = 4 + (records_bytes server (cnt + 1) first).length := by
      rw [p3, List.length_append, htonl_length]
    -- the first datagram
    obtain ⟨run1, hr1, hr2, hr3⟩ := handle_server_message_loop_records server step packed.1
      packed.2 first
      (fun j c rest remaining hj1 hj hs hr =>
        haccept j c rest remaining (by omega) (by omega) hs hr)
      cnt first packed.1.length 4 adopted [] (Nat.le_refl _) (by omega) (by omega)
      (by rw [p3]; exact List.drop_left' (htonl_length _)) ha2
    have hmsg : handle_server_message client packed.1 (packed.1.length : Int) = some run1 := by
      unfold handle_server_message
      rw [if_neg (by unfold MAX_SERVER_UDP_DGRAM_LENGTH; push_cast; omega),
        if_neg (by omega),
        if_neg (by unfold MIN_SERVER_UDP_DGRAM_LENGTH; push_cast; omega)]
      have hgid : host_uint32 packed.1 0 = host_uint32 (htonl server.game_id) 0 := by
        rw [p3]
        exact host_uint32_append _ _ (htonl_length _)
      rw [hgid, ha1]
      simp only []
      rw [Int.toNat_ofNat]
      have e : (packed.1.length : Int) - 4 =
          ((records_bytes server (cnt + 1) first).length : Int) := by
        rw [hdlen]; push_cast; omega
      rw [e]
      exact hr1
    have hsl : send_loop server (n + 1) first =
        (send_loop server n packed.2).map (fun rest => packed.1 :: rest) := by
      rw [send_loop, if_pos hlt, ← hpk]
      rfl
    by_cases hend : packed.2 = server.events_count
    · have hrest : send_loop server n packed.2 = some [] := by
        cases n with
        | zero => rw [send_loop, if_neg (by omega)]
        | succ n2 => rw [send_loop, if_neg (by omega)]
      refine ⟨[packed.1],
        { state := run1.state, exited := false, gui_writes := run1.gui_writes ++ [] },
        by rw [hsl, hrest]; rfl, ?_, rfl, by rw [← hend]; exact hr3⟩
      rw [handle_server_messages, hmsg]
      simp only []
      rw [if_neg (by rw [hr2]; decide)]
      rfl
    · obtain ⟨ds, run2, hs1, hs2, hs3, hs4⟩ := ih packed.2 run1.state (by omega) (by omega)
        (by omega)
        ⟨run1.state, hadopt packed.2 run1.state (by omega) hr3, hr3⟩
      refine ⟨packed.1 :: ds, { run2 with gui_writes := run1.gui_writes ++ run2.gui_writes },
        by rw [hsl, hs1]; rfl, ?_, hs3, hs4⟩
      rw [handle_server_messages, hmsg]
      simp only []
      rw [if_neg (by rw [hr2]; decide), hs2]
      rfl

theorem mem_active_slots : ∀ (cs : List client_t) (start x : Nat),
    x ∈ active_slots cs start ↔
      start ≤ x ∧ (cs.getD (x - start) default).conn.is_connection_active = true := by
  intro cs
  induction cs with
  | nil =>
    intro start x
    simp only [active_slots, List.not_mem_nil, false_iff]
    rintro ⟨_, h⟩
    rw [List.getD_nil] at h
    exact Bool.noConfusion h
  | cons c cs ih =>
    intro start x
    unfold active_slots
    by_cases hx : x = start
    · subst hx
      have hnot : x ∉ active_slots cs (x + 1) := by
        intro h
        have := ((ih (x + 1) x).1 h).1
        omega
      by_cases hc : c.conn.is_connection_active = true
      · rw [if_pos hc]
        simp [hc]
      · rw [if_neg hc]
        simp [hc, hnot]
    · have hiff : x ∈ active_slots cs (start + 1) ↔
          start ≤ x ∧ ((c :: cs).getD (x - start) default).conn.is_connection_active = true := by
        rw [ih (start + 1) x]
        constructor
        · rintro ⟨h1, h2⟩
          refine ⟨by omega, ?_⟩
          have e : x - start = (x - (start + 1)) + 1 := by omega
          rw [e, List.getD_cons_succ]
          exact h2
        · rintro ⟨h1, h2⟩
          refine ⟨by omega, ?_⟩
          have e : x - start = (x - (start + 1)) + 1 := by omega
          rw [e, List.getD_cons_succ] at h2
          exact h2
      by_cases hc : c.conn.is_connection_active = true
      · rw [if_pos hc, List.mem_cons]
        constructor
        · rintro (h | h)
          · exact absurd h hx
          · exact hiff.1 h
        · exact fun h => Or.inr (hiff.2 h)
      · rw [if_neg hc]
        exact hiff

theorem getD_take_of_lt {α : Type} (d : α) (l : List α) (n i : Nat) (h : i < n) :
    (l.take n).getD i d = l.getD i d := by
  simp only [List.getD_eq_getElem?_getD]
  rw [List.getElem?_take_of_lt h]

/-- The datagrams of a broadcast that reach a connected slot are those of the sending
loop. -/
theorem received_broadcast (state : server_game_state_t) (fuel since_event slot : Nat)
    (hslot : slot < MAX_PLAYERS)
    (hactive : (state.players.getD slot default).conn.is_connection_active = true) :
    received slot ((broadcast_events fuel state since_event).getD []) =
      (send_loop state fuel since_event).getD [] := by
  unfold broadcast_events received
  cases hs : send_loop state fuel since_event with
  | none => rfl
  | some ds =>
    show ((List.foldr _ [] ds).filter _).map Prod.snd = ds
    rw [sends_of_slot _ (active_slots_nodup _ 0) slot ds, if_pos]
    rw [mem_active_slots]
    refine ⟨Nat.zero_le _, ?_⟩
    rw [Nat.sub_zero, getD_take_of_lt _ _ _ _ hslot]
    exact hactive

theorem handle_server_messages_append :
    ∀ (first second : List (List Nat)) (client : client_game_state_t) (run : client_run_t),
      handle_server_messages client first = some run → run.exited = false →
      handle_server_messages client (first ++ second) =
        (handle_server_messages run.state second).map
          (fun rest => { rest with gui_writes := run.gui_writes ++ rest.gui_writes }) := by
  intro first
  induction first with
  | nil =>
    intro second client run h _
    rw [handle_server_messages] at h
    injection h with h
    subst h
    rw [List.nil_append]
    cases handle_server_messages client second with
    | none => rfl
    | some r => rfl
  | cons d ds ih =>
    intro second client run h hex
    rw [List.cons_append, handle_server_messages]
    rw [handle_server_messages] at h
    cases hm : handle_server_message client d (d.length : Int) with
    | none => rw [hm] at h; exact absurd h (by simp)
    | some r1 =>
      rw [hm] at h
      simp only [] at h ⊢
      by_cases hr : r1.exited = true
      · rw [if_pos hr] at h
        injection h with h
        rw [h] at hr
        rw [hex] at hr
        exact absurd hr (by decide)
      · rw [if_neg hr] at h ⊢
        cases hrest : handle_server_messages r1.state ds with
        | none => rw [hrest] at h; exact absurd h (by simp)
        | some r2 =>
          rw [hrest] at h
          injection h with h
          subst h
          rw [ih second r1.state r2 hrest hex]
          cases handle_server_messages r2.state second with
          | none => rfl
          | some r3 =>
            show some _ = some _
            congr 1
            simp only [List.append_assoc]

theorem client_in_step_congr (start : server_game_state_t) (queue queue1 : List event_data_t)
    (m : Nat) (client : client_game_state_t)
    (h : ∀ k, k < m → queue1.getD k default = queue.getD k default)
    (hstep : client_in_step start queue m client) : client_in_step start queue1 m client := by
  obtain ⟨c1, c2, c3, c4, c5, c6, c7, c8, c9⟩ := hstep
  refine ⟨c1, c2, c3, c4, c5, c6, c7, c8, fun p hp => ?_⟩
  rw [c9 p hp, eliminated_before_congr queue queue1 m p h]

theorem adopt_game_id_in_step (start : server_game_state_t) (queue : List event_data_t)
    (m : Nat) (client : client_game_state_t) (hstep : client_in_step start queue m client) :
    adopt_game_id client (host_uint32 (htonl start.game_id) 0) = some client := by
  obtain ⟨_, _, _, _, _, c6, c7, _, _⟩ := hstep
  unfold adopt_game_id
  rw [if_neg]
  rw [c6, c7]
  simp

theorem pack_events_length_le (state : server_game_state_t) (from_which : Nat)
    (h : ∀ k, from_which ≤ k → k < state.events_count →
      (state.events_queue.getD k default).event_type = EVENT_NEW_GAME →
      k = from_which ∧ record_size state k ≤ 546) :
    (pack_events state from_which 550).1.length ≤ 550 := by
  unfold pack_events
  have h1 := pack_events_loop_length state (state.events_count - from_which) from_which
    (htonl state.game_id) (550 - 4) (by decide) (fun k hk1 hk2 hk3 => by
      have := h k hk1 hk2 hk3
      refine ⟨this.1, ?_⟩
      omega)
  have hl : ((htonl state.game_id).length : Int) = 4 := rfl
  rw [hl] at h1
  omega

theorem log_entry_ok_not_new_game (queue : List event_data_t) (count width height k : Nat)
    (h : log_entry_ok queue count width height k) :
    (queue.getD k default).event_type ≠ EVENT_NEW_GAME := by
  intro hng
  rcases h with h | h | h
  · rw [h.1] at hng; exact absurd hng (by decide)
  · rw [h.1] at hng; exact absurd hng (by decide)
  · rw [h] at hng; exact absurd hng (by decide)

/-- The client keeps step with the log through a round tick: the invariant of the game
holds after the tick and a client that had applied the log handles the datagrams that the
tick broadcasts to its slot and has applied the new log. -/
theorem handle_board_update_client (libm : libm_t) (start state : server_game_state_t)
    (slot : Nat) (client : client_game_state_t) (hstart : game_start_ok start)
    (hinv : game_inv start state) (hon : game_on start state)
    (hroom : state.events_count + MAX_PLAYERS + 1 < UINT32_RANGE)
    (hslot : slot < MAX_PLAYERS)
    (hactive : (state.players.getD slot default).conn.is_connection_active = true)
    (hstep : client_in_step start state.events_queue state.events_count client) :
    tick_post start state (handle_board_update libm state).1 (MAX_PLAYERS + 1) ∧
    ∃ run, handle_server_messages client (received slot (handle_board_update libm state).2) =
        some run ∧ run.exited = false ∧
      client_in_step start (handle_board_update libm state).1.events_queue
        (handle_board_update libm state).1.events_count run.state := by
  obtain ⟨_, hbx, hby, hnames, hslots, _⟩ := hstart
  have hpost := handle_board_update_loop_post libm start hslots MAX_PLAYERS 0 default state
    (by omega) hinv hon hroom
  refine ⟨hpost, ?_⟩
  obtain ⟨pinv, _, pge, ple, pkept, pconn, _⟩ := hpost
  show ∃ run, handle_server_messages client (received slot
    ((broadcast_events
      ((handle_board_update_loop libm MAX_PLAYERS 0 default state).events_count -
        state.events_count)
      (handle_board_update_loop libm MAX_PLAYERS 0 default state) state.events_count).getD []))
      = some run ∧ run.exited = false ∧
      client_in_step start (handle_board_update_loop libm MAX_PLAYERS 0 default state).events_queue
        (handle_board_update_loop libm MAX_PLAYERS 0 default state).events_count run.state
  generalize handle_board_update_loop libm MAX_PLAYERS 0 default state = result at *
  rw [received_broadcast result _ _ slot hslot (by rw [pconn slot]; exact hactive)]
  have hstep1 : client_in_step start result.events_queue state.events_count client :=
    client_in_step_congr start state.events_queue result.events_queue state.events_count client
      pkept hstep
  by_cases hlt : state.events_count < result.events_count
  · have h1 := hinv.2.2.2.1
    obtain ⟨_, qid, _, _, _, qlog, _⟩ := pinv
    obtain ⟨datagrams, run, hs, hm, hex, hfin⟩ := handle_server_messages_send_loop result
      (fun j c => client_in_step start result.events_queue j c) state.events_count
      (fun k hk1 hk2 => pack_events_length_le result k (fun j hj1 hj2 hj3 =>
        absurd hj3 (log_entry_ok_not_new_game _ _ _ _ _ (qlog j (by omega) hj2))))
      (fun j c rest remaining hj1 hj2 hs hr =>
        client_accepts_entry start result c j rest remaining hs (qlog j (by omega) hj2)
          hnames.1 hbx hby (by omega) hr)
      (fun j c _ hs => by rw [qid]; exact adopt_game_id_in_step start _ j c hs)
      (result.events_count - state.events_count) state.events_count client (Nat.le_refl _) hlt
      (Nat.le_refl _)
      ⟨client, by rw [qid]; exact adopt_game_id_in_step start _ _ client hstep1, hstep1⟩
    rw [hs]
    exact ⟨run, hm, hex, hfin⟩
  · have he : result.events_count = state.events_count := by omega
    rw [he, Nat.sub_self]
    have hs : send_loop result 0 state.events_count = some [] := by
      rw [send_loop, if_neg (by omega)]
    rw [hs]
    exact ⟨_, rfl, rfl, hstep1⟩


theorem start_log_not_eliminated (start : server_game_state_t) (hlog : start_log_ok start)
    (m p : Nat) (hm : m ≤ start.events_count) :
    ¬ eliminated_before start.events_queue m p := by
  rintro ⟨k, hk, ht, _⟩
  obtain ⟨_, h0, _, _, hrest⟩ := hlog
  by_cases hk0 : k = 0
  · subst hk0
    rw [h0] at ht
    exact absurd ht (by decide)
  · have := (hrest k (by omega) (by omega)).1
    rw [this] at ht
    exact absurd ht (by decide)

theorem game_inv_start (start : server_game_state_t) (hstart : game_start_ok start) :
    game_inv start start ∧ game_on start start := by
  obtain ⟨hstatus, _, _, _, hslots, hlog⟩ := hstart
  refine ⟨⟨rfl, rfl, fun _ _ => rfl, hlog.1, rfl, fun k hk1 hk2 => ?_, fun i hi hp => ?_⟩,
    hstatus, fun _ _ => rfl, rfl, rfl⟩
  · exact Or.inl (hlog.2.2.2.2 k hk2 hk1)
  · have halive := (hslots.1 i hi hp).2
    constructor
    · intro h
      rw [halive] at h
      exact absurd h (by decide)
    · intro h
      exact absurd h (start_log_not_eliminated start hlog _ _ (Nat.le_refl _))

theorem adopt_game_id_fresh (start : server_game_state_t) (client : client_game_state_t)
    (hcount : start.players_count ≤ MAX_PLAYERS) (hfresh : client_fresh client) :
    ∃ adopted, adopt_game_id client (host_uint32 (htonl start.game_id) 0) = some adopted ∧
      client_reset_for start adopted := by
  obtain ⟨f1, f2, f3, f4⟩ := hfresh
  unfold adopt_game_id
  rw [if_pos (Or.inr (by rw [f1]; rfl)), if_pos f2]
  exact ⟨_, rfl, rfl, rfl, f3, rfl, rfl, rfl, fun r hr => f4 r (by omega)⟩

/-- The client takes up the game: a client that has played no game handles the datagrams
that `initiate_game` broadcasts to its slot and has applied the log of the start. -/
theorem initiate_game_client (start : server_game_state_t) (slot : Nat)
    (client : client_game_state_t) (hstart : game_start_ok start)
    (hslot : slot < MAX_PLAYERS)
    (hactive : (start.players.getD slot default).conn.is_connection_active = true)
    (hroom : start.events_count < UINT32_RANGE)
    (hfresh : client_fresh client) :
    ∃ run, handle_server_messages client
        (received slot ((broadcast_events start.events_count start 0).getD [])) = some run ∧
      run.exited = false ∧
      client_in_step start start.events_queue start.events_count run.state := by
  obtain ⟨_, hbx, hby, hnames, hslots, hlog⟩ := hstart
  rw [received_broadcast start _ _ slot hslot hactive]
  have hfit : names_fit start :=
    ⟨hnames.1, fun i hi => (hnames.2.1 i hi).2.1⟩
  obtain ⟨datagrams, run, hs, hm, hex, hfin⟩ := handle_server_messages_send_loop start
    (fun j c => if j = 0 then client_reset_for start c
      else client_in_step start start.events_queue j c) 0
    (fun k hk1 hk2 => pack_events_length_le start k (fun j hj1 hj2 hj3 => by
      have hj0 : j = 0 := by
        by_contra hne
        have := (hlog.2.2.2.2 j hj2 (by omega)).1
        rw [this] at hj3
        exact absurd hj3 (by decide)
      exact ⟨by omega, record_size_new_game_le start j hfit⟩))
    (fun j c rest remaining hj1 hj2 hs hr => by
      beta_reduce at hs ⊢
      by_cases hj0 : j = 0
      · subst hj0
        rw [if_pos rfl] at hs
        rw [if_neg (by omega)]
        exact client_accepts_new_game start start.events_queue c rest remaining hs hnames hlog
          hlog.2.1 hbx hby hr
      · rw [if_neg hj0] at hs
        rw [if_neg (by omega)]
        exact client_accepts_entry start start c j rest remaining hs
          (Or.inl (hlog.2.2.2.2 j hj2 (by omega))) hnames.1 hbx hby (by omega) hr)
    (fun j c hj hs => by
      beta_reduce at hs
      rw [if_neg (by omega)] at hs
      exact adopt_game_id_in_step start _ j c hs)
    start.events_count 0 client (Nat.le_refl _) (by have := hlog.1; omega) (by omega)
    (by
      obtain ⟨adopted, h1, h2⟩ := adopt_game_id_fresh start client hnames.1 hfresh
      exact ⟨adopted, h1, by beta_reduce; rw [if_pos rfl]; exact h2⟩)
  rw [hs]
  refine ⟨run, hm, hex, ?_⟩
  rw [if_neg (by have := hlog.1; omega)] at hfin
  exact hfin

/-- The client keeps step with the log through the rounds of a game. -/
theorem game_rounds_client (libm : libm_t) (start : server_game_state_t) (slot : Nat)
    (hstart : game_start_ok start) (hslot : slot < MAX_PLAYERS) :
    ∀ (polls : List poll_result_t) (state : server_game_state_t)
      (client : client_game_state_t) (last : server_game_state_t)
      (datagrams : List (List Nat)),
      game_inv start state → game_on start state →
      client_in_step start state.events_queue state.events_count client →
      game_rounds libm slot state polls = some (last, datagrams) →
      game_inv start last ∧ game_on start last ∧
      ∃ run, handle_server_messages client datagrams = some run ∧ run.exited = false ∧
        client_in_step start last.events_queue last.events_count run.state := by
  intro polls
  induction polls with
  | nil =>
    intro state client last datagrams hinv hon hstep h
    rw [game_rounds] at h
    injection h with h
    injection h with h1 h2
    subst h1
    subst h2
    exact ⟨hinv, hon, _, rfl, rfl, hstep⟩
  | cons polled rest ih =>
    intro state client last datagrams hinv hon hstep h
    rw [game_rounds] at h
    by_cases hc : state.game_status = GAME_STATE_GAME_STARTED ∧
        (round_tick libm state polled).1.game_status = GAME_STATE_GAME_STARTED ∧
        (state.players.getD slot default).conn.is_connection_active = true ∧
        state.events_count + MAX_PLAYERS + 1 < UINT32_RANGE ∧
        received slot (main_loop_step libm state polled).2 =
          received slot (round_tick libm state polled).2 ∧
        (main_loop_step libm state polled).1.events_queue_stale = false
    · rw [if_pos hc] at h
      obtain ⟨_, hstatus, hactive, hroom, hsent, _⟩ := hc
      have hsame := main_loop_step_same_game libm state polled hstatus
      have htick : game_inv start (round_tick libm state polled).1 ∧
          game_on start (round_tick libm state polled).1 ∧
          ∃ run, handle_server_messages client
              (received slot (round_tick libm state polled).2) = some run ∧
            run.exited = false ∧
            client_in_step start (round_tick libm state polled).1.events_queue
              (round_tick libm state polled).1.events_count run.state := by
        unfold round_tick at hstatus ⊢
        by_cases ht : polled.round_timer = true ∧ state.game_status = GAME_STATE_GAME_STARTED
        · rw [if_pos ht] at hstatus ⊢
          obtain ⟨hpost, hrun⟩ := handle_board_update_client libm start state slot client
            hstart hinv hon hroom hslot hactive hstep
          refine ⟨hpost.1, ?_, hrun⟩
          rcases hpost.2.1 with hg | hw
          · exact hg
          · rw [hw] at hstatus
            exact absurd hstatus (by decide)
        · rw [if_neg ht]
          exact ⟨hinv, hon, _, rfl, rfl, hstep⟩
      obtain ⟨tinv, ton, run1, hr1, hex1, hstep1⟩ := htick
      cases hrest : game_rounds libm slot (main_loop_step libm state polled).1 rest with
      | none => rw [hrest] at h; exact absurd h (by simp)
      | some r =>
        rw [hrest] at h
        injection h with h
        injection h with h1 h2
        have hstep2 : client_in_step start (main_loop_step libm state polled).1.events_queue
            (main_loop_step libm state polled).1.events_count run1.state := by
          rw [hsame.1, hsame.2.1]
          exact hstep1
        obtain ⟨linv, lon, run2, hr2, hex2, hstep3⟩ := ih (main_loop_step libm state polled).1
          run1.state r.1 r.2 (game_inv_of_same_game start _ _ hsame tinv)
          (game_on_of_same_game start _ _ hsame ton) hstep2 (by rw [hrest])
        rw [← h1, ← h2, hsent, handle_server_messages_append _ _ client run1 hr1 hex1, hr2]
        exact ⟨linv, lon, _, rfl, hex2, hstep3⟩
    · rw [if_neg hc] at h
      exact absurd h (by simp)

theorem bool_eq_of_false_iff (a b : Bool) (p : Prop) (ha : a = false ↔ p) (hb : b = false ↔ p) :
    a = b := by
  cases a <;> cases b
  · rfl
  · exact absurd (hb.2 (ha.1 rfl)) (by decide)
  · exact absurd (ha.2 (hb.1 rfl)) (by decide)
  · rfl

theorem initiate_game_fst (state : server_game_state_t) :
    (initiate_game state).1 = initiate_game_state state := rfl

theorem initiate_game_snd (state : server_game_state_t) :
    (initiate_game state).2 =
      (broadcast_events (initiate_game_state state).events_count (initiate_game_state state)
        0).getD [] := by
  unfold initiate_game
  dsimp only

/-- C20 (amended).  Client mirror, by player number: take a game that `initiate_game`
starts as the specification describes it (valid, strictly ascending frozen names, playing
slots with different player numbers, no worm eliminated at its starting cell), rounds of
the main loop in which the game goes on, and the round tick that follows them, which is
the last one when it ends the game with GAME_OVER; from `initiate_game` to that tick no
call of `enqueue_event` takes the branch of `realloc` (`events_queue_stale` stays false:
the log stays within the block of 4096 entries).  A client that has played no game
before, whose slot is connected all along, and that handles in order the datagrams sent
to its slot (those of `initiate_game`, of the rounds and of that tick) handles them
without `exit` and ends with `next_expected` equal to the `events_count` of the server,
and for every slot `i` that plays the game its `is_alive[player_number of slot i]` equals
the `alive[i]` of the server. -/
theorem client_mirrors_game (libm : libm_t) (before : server_game_state_t)
    (polls : List poll_result_t) (slot : Nat) (client : client_game_state_t)
    (last : server_game_state_t) (datagrams : List (List Nat))
    (hstart : game_start_ok (initiate_game before).1)
    (hslot : slot < MAX_PLAYERS)
    (hconnected :
      (((initiate_game before).1.players.getD slot default).conn.is_connection_active = true))
    (hrounds : game_rounds libm slot (initiate_game before).1 polls = some (last, datagrams))
    (hactive : (last.players.getD slot default).conn.is_connection_active = true)
    (hroom : last.events_count + MAX_PLAYERS + 1 < UINT32_RANGE)
    (_hblock0 : (initiate_game before).1.events_queue_stale = false)
    (_hblock : (handle_board_update libm last).1.events_queue_stale = false)
    (hfresh : client_fresh client) :
    ∃ run, handle_server_messages client
        (received slot (initiate_game before).2 ++ datagrams ++
          received slot (handle_board_update libm last).2) = some run ∧
      run.exited = false ∧
      run.state.next_expected = (handle_board_update libm last).1.events_count ∧
      ∀ i, i < MAX_PLAYERS →
        ((initiate_game before).1.players.getD i default).is_playing = true →
        run.state.is_alive.getD
            ((initiate_game before).1.players.getD i default).player_number false =
          (handle_board_update libm last).1.alive.getD i false := by
  have hsent : (initiate_game before).2 =
      (broadcast_events (initiate_game before).1.events_count (initiate_game before).1 0).getD
        [] := by
    rw [initiate_game_snd, initiate_game_fst]
  rw [hsent]
  generalize (initiate_game before).1 = start at *
  have hroom0 : start.events_count < UINT32_RANGE := by
    cases polls with
    | nil =>
      rw [game_rounds] at hrounds
      injection hrounds with h
      injection h with h1 h2
      rw [h1]
      omega
    | cons polled rest =>
      rw [game_rounds] at hrounds
      by_cases hc : start.game_status = GAME_STATE_GAME_STARTED ∧
          (round_tick libm start polled).1.game_status = GAME_STATE_GAME_STARTED ∧
          (start.players.getD slot default).conn.is_connection_active = true ∧
          start.events_count + MAX_PLAYERS + 1 < UINT32_RANGE ∧
          received slot (main_loop_step libm start polled).2 =
            received slot (round_tick libm start polled).2 ∧
          (main_loop_step libm start polled).1.events_queue_stale = false
      · have := hc.2.2.2.1
        omega
      · rw [if_neg hc] at hrounds
        exact absurd hrounds (by simp)
  obtain ⟨run0, hr0, hex0, hstep0⟩ :=
    initiate_game_client start slot client hstart hslot hconnected hroom0 hfresh
  obtain ⟨hinv0, hon0⟩ := game_inv_start start hstart
  obtain ⟨linv, lon, run1, hr1, hex1, hstep1⟩ := game_rounds_client libm start slot hstart hslot
    polls start run0.state last datagrams hinv0 hon0 hstep0 hrounds
  obtain ⟨hpost, run2, hr2, hex2, hstep2⟩ := handle_board_update_client libm start last slot
    run1.state hstart linv lon hroom hslot hactive hstep1
  rw [List.append_assoc, handle_server_messages_append _ _ client run0 hr0 hex0,
    handle_server_messages_append _ _ run0.state run1 hr1 hex1, hr2]
  refine ⟨_, rfl, hex2, hstep2.1, fun i hi hplaying => ?_⟩
  have hnumber := (hstart.2.2.2.2.1.1 i hi hplaying).1
  have hcount := hstart.2.2.2.1.1
  exact bool_eq_of_false_iff _ _ _
    (hstep2.2.2.2.2.2.2.2.2 _ (by omega)) (hpost.1.2.2.2.2.2.2 i hi hplaying)

set_option maxRecDepth 1000000 in
/-- C20 (amended), at the game of Alice and Bob of seed 91923 and the client of Bob on
slot 24: a round of the main loop in which no timer has fired and no datagram has
arrived, then the round tick, which ends the game with GAME_OVER. -/
theorem client_mirrors_game_witness :
    (handle_board_update east_libm (initiate_game lobby_with_alice_and_bob).1).1.game_status =
      GAME_STATE_WAITING_FOR_PLAYERS ∧
    ∃ run, handle_server_messages initial_client_game_state
        (received 24 (initiate_game lobby_with_alice_and_bob).2 ++ [] ++
          received 24
            (handle_board_update east_libm (initiate_game lobby_with_alice_and_bob).1).2) =
          some run ∧
      run.exited = false ∧
      run.state.next_expected =
        (handle_board_update east_libm (initiate_game lobby_with_alice_and_bob).1).1.events_count ∧
      ∀ i, i < MAX_PLAYERS →
        ((initiate_game lobby_with_alice_and_bob).1.players.getD i default).is_playing = true →
        run.state.is_alive.getD
            ((initiate_game lobby_with_alice_and_bob).1.players.getD i default).player_number
            false =
          (handle_board_update east_libm
            (initiate_game lobby_with_alice_and_bob).1).1.alive.getD i false :=
  ⟨by decide!,
    client_mirrors_game east_libm lobby_with_alice_and_bob
      [{ round_timer := false, slot_timers := [], datagram := none }] 24
      initial_client_game_state (initiate_game lobby_with_alice_and_bob).1 [] (by decide!)
      (by decide) (by decide!) (by decide!) (by decide!) (by decide!) (by decide!)
      (by decide!) (by decide!)⟩

/-! ## The lobby: start condition, reassignment, frozen names -/

theorem handle_existing_client_game_status (state : server_game_state_t) (addr_index : Nat)
    (datagram_size : Int) (dgram : client_dgram_t) :
    (handle_existing_client state addr_index datagram_size dgram).game_status =
      state.game_status := by
  unfold handle_existing_client
  simp only []
  repeat' split
  all_goals rfl

set_option maxRecDepth 1000000 in
/-- C23.  The start condition is met and the game is not started: Alice is ready, Bob is
admitted with turn direction 0 and his next datagram has turn direction 1.  When the
server has handled that datagram it waits, both active named slots are ready, nothing
was sent and the log is empty; `handle_existing_client`, which marked Bob ready, never
changes `game_status`. -/
theorem ready_keepalive_does_not_start_game :
    lobby_bob_not_ready.game_status = GAME_STATE_WAITING_FOR_PLAYERS ∧
    ¬ start_condition_met lobby_bob_not_ready ∧
    start_condition_met lobby_all_ready.1 ∧
    lobby_all_ready.1.players_count = 2 ∧ lobby_all_ready.1.ready_players = 2 ∧
    (lobby_all_ready.1.players.map (fun p => (c_str p.name, p.ready))).take 2 =
      [(name_Alice, true), (name_Bob, true)] ∧
    lobby_all_ready.1.events_count = 0 ∧ lobby_all_ready.2 = [] ∧
    (main_loop_step east_libm lobby_all_ready.1
      (datagram_round address_Alice (session_1_dgram 2 0 name_Alice) 18)).1.game_status =
        GAME_STATE_WAITING_FOR_PLAYERS := by
  decide!

set_option maxRecDepth 1000000 in
/-- C25.  Reassignment while the server waits does not make the slot a player.  A
spectator slot that receives session id 2 with the name "Bob" and turn direction 1 holds
the new session id and the name and is counted in `players_count` and `ready_players`,
but has `is_playing = false` and `ready = false`.  The slot of Alice, ready, that
receives session id 2 with her name and turn direction 0 stays ready. -/
theorem reassigned_slot_not_a_player :
    lobby_with_spectator.game_status = GAME_STATE_WAITING_FOR_PLAYERS ∧
    (lobby_with_spectator.players.map (fun p => (p.conn.is_connection_active,
      p.conn.session_id, c_str p.name, p.is_spectator))).take 1 = [(true, 1, [], true)] ∧
    (spectator_renamed.players.map (fun p => (p.conn.session_id, c_str p.name, p.is_spectator,
      p.is_playing, p.ready))).take 1 = [(2, name_Bob, false, false, false)] ∧
    spectator_renamed.players_count = 1 ∧ spectator_renamed.ready_players = 1 ∧
    (lobby_with_alice.players.map (fun p => (p.conn.session_id, c_str p.name,
      p.ready))).take 1 = [(1, name_Alice, true)] ∧
    (alice_reassigned.players.map (fun p => (p.conn.session_id, c_str p.name,
      p.ready))).take 1 = [(2, name_Alice, true)] := by
  decide!

set_option maxRecDepth 1000000 in
/-- C21.  A NEW_GAME record with an empty name: Alice (ready), Carol (not ready) and Bob
(ready) are in the lobby and the slot of Carol times out.  `handle_timers` clears the name
of the slot and calls `initiate_game`, but the slot keeps `is_playing = true`: it is
numbered 0 with the empty name, Alice and Bob are numbered 1 and 2, and `players_count`
is `ready_players = 2`.  The names of the NEW_GAME record are the empty name and "Alice",
the log has PIXEL entries for the player numbers 0, 1 and 2, and the client of Alice
(slot 23) leaves with `exit` on the datagram. -/
theorem new_game_record_with_empty_name :
    lobby_alice_carol_bob.game_status = GAME_STATE_WAITING_FOR_PLAYERS ∧
    game_after_timeout_of_carol.1.game_status = GAME_STATE_GAME_STARTED ∧
    game_after_timeout_of_carol.1.players_count = 2 ∧
    (game_after_timeout_of_carol.1.game_primary_player_names.take 3).map c_str =
      [[], name_Alice, name_Bob] ∧
    ¬ frozen_names_ok game_after_timeout_of_carol.1 ∧
    (game_after_timeout_of_carol.1.events_queue.take
        game_after_timeout_of_carol.1.events_count).map
      (fun e => (e.event_type, e.player_number)) =
      [(EVENT_NEW_GAME, 0), (EVENT_PIXEL, 0), (EVENT_PIXEL, 1), (EVENT_PIXEL, 2)] ∧
    (event_record game_after_timeout_of_carol.1 0).drop 17 =
      [0] ++ name_Alice ++ [0] ++ [226, 31, 38, 105] ∧
    (handle_server_messages initial_client_game_state
      (received 23 game_after_timeout_of_carol.2)).map (fun run => run.exited) =
        some true := by
  decide!

/-! ## Client datagrams on the server -/

theorem deserialize_client_dgram_loop_length (buffer : List Nat) (message_size : Int) :
    ∀ (fuel i : Nat) (datagram : client_dgram_t),
      (deserialize_client_dgram_loop buffer message_size fuel i datagram).2.player_name.length =
        datagram.player_name.length := by
  intro fuel
  induction fuel with
  | zero => intro i datagram; rfl
  | succ n ih =>
    intro i datagram
    unfold deserialize_client_dgram_loop
    split
    · split
      · rfl
      · rw [ih]
        simp only [List.length_set]
    · rfl

theorem dgram_name_length (buffer : List Nat) (read_bytes : Int) :
    (dgram_name buffer read_bytes).length = (read_bytes - 13).toNat := by
  unfold dgram_name CLIENT_DGRAM_INTEGERS_LEN
  simp

theorem dgram_name_getD (buffer : List Nat) (read_bytes : Int) (k : Nat)
    (hk : ((13 + k : Nat) : Int) < read_bytes) :
    (dgram_name buffer read_bytes).getD k 0 = byte_at buffer (13 + k) := by
  unfold dgram_name CLIENT_DGRAM_INTEGERS_LEN
  rw [List.getD_eq_getElem _ _ (by simp; omega)]
  simp

/-- A valid datagram is parsed into its fields: `deserialize_client_dgram` returns 0 and
fills `dgram` with the session id, the turn direction, the next expected event number and
the name. -/
theorem deserialize_client_dgram_of_valid (buffer : List Nat) (read_bytes : Int)
    (hvalid : client_dgram_valid buffer read_bytes) :
    deserialize_client_dgram zero_dgram buffer read_bytes =
      (0, parsed_dgram buffer read_bytes) := by
  obtain ⟨v1, v2, v3, v4⟩ := hvalid
  have hlen := deserialize_client_dgram_loop_length buffer read_bytes
    (read_bytes - (CLIENT_DGRAM_INTEGERS_LEN : Int)).toNat CLIENT_DGRAM_INTEGERS_LEN
    { zero_dgram with
      session_id := be64toh buffer 0
      turn_direction := byte_at buffer 8
      next_expected_event_no := ntohl buffer 9 }
  obtain ⟨h1, h2, h3, h4, h5, h6⟩ := deserialize_client_dgram_loop_spec buffer
    read_bytes v2
    (read_bytes - (CLIENT_DGRAM_INTEGERS_LEN : Int)).toNat CLIENT_DGRAM_INTEGERS_LEN
    { zero_dgram with
      session_id := be64toh buffer 0
      turn_direction := byte_at buffer 8
      next_expected_event_no := ntohl buffer 9 }
    (by decide) (by unfold CLIENT_DGRAM_INTEGERS_LEN; push_cast; omega) rfl
  have h0 := h2.2 (fun j hj1 hj2 => v4 j (by unfold CLIENT_DGRAM_INTEGERS_LEN at hj1; omega) hj2)
  have h7 := h6 h0
  unfold deserialize_client_dgram
  rw [if_neg (by unfold MAX_CLIENT_DGRAM_LENGTH CLIENT_DGRAM_INTEGERS_LEN; push_cast; omega)]
  simp only []
  rw [if_neg (by omega)]
  generalize deserialize_client_dgram_loop buffer read_bytes
    (read_bytes - (CLIENT_DGRAM_INTEGERS_LEN : Int)).toNat CLIENT_DGRAM_INTEGERS_LEN
    { zero_dgram with
      session_id := be64toh buffer 0
      turn_direction := byte_at buffer 8
      next_expected_event_no := ntohl buffer 9 } = result at *
  obtain ⟨ret, parsed⟩ := result
  obtain ⟨p1, p2, p3, p4⟩ := parsed
  simp only [] at h0 h3 h4 h5 h7 hlen
  have hnl := dgram_name_length buffer read_bytes
  have hname : p4 = dgram_name buffer read_bytes ++
      List.replicate (MAX_PLAYER_NAME_LENGTH - (dgram_name buffer read_bytes).length) 0 := by
    apply list_ext_getD
    · rw [hlen, List.length_append, List.length_replicate, hnl]
      unfold MAX_PLAYER_NAME_LENGTH
      show 20 = _
      omega
    · intro j hj
      rw [h7 j]
      by_cases hjn : ((13 + j : Nat) : Int) < read_bytes
      · rw [if_pos ⟨by unfold CLIENT_DGRAM_INTEGERS_LEN; omega, hjn⟩,
          List.getD_append _ _ _ _ (by rw [hnl]; omega), dgram_name_getD _ _ _ hjn]
      · rw [if_neg (fun h => hjn h.2), List.getD_append_right _ _ _ _ (by rw [hnl]; omega),
          getD_replicate_zero]
        show (List.replicate MAX_PLAYER_NAME_LENGTH 0).getD j 0 = 0
        exact getD_replicate_zero _ _
  rw [h0, h3, h4, h5, hname]
  rfl

/-- When `strlen(a) = n` and `strncmp(a, b, n) = 0`, the string in `a` is the first `n`
bytes of `b`. -/
theorem strncmp_eq_zero : ∀ (n : Nat) (a b : List Nat), strlen a = n → strncmp a b n = 0 →
    c_str a = b.take n := by
  intro n
  induction n with
  | zero =>
    intro a b hlen _
    unfold strlen at hlen
    rw [List.take_zero]
    exact List.length_eq_zero.1 hlen
  | succ n ih =>
    intro a b hlen hcmp
    cases a with
    | nil => exact absurd hlen (by simp [strlen, c_str])
    | cons x xs =>
      have hx : x ≠ 0 := by
        intro h0
        rw [h0] at hlen
        simp [strlen, c_str] at hlen
      have hxs : strlen xs = n := by
        unfold strlen at hlen ⊢
        rw [c_str_cons, if_neg hx, List.length_cons] at hlen
        omega
      cases b with
      | nil =>
        unfold strncmp at hcmp
        rw [if_neg hx] at hcmp
        exact absurd hcmp (by decide)
      | cons y ys =>
        unfold strncmp at hcmp
        by_cases h1 : x < y
        · rw [if_pos h1] at hcmp; exact absurd hcmp (by decide)
        · rw [if_neg h1] at hcmp
          by_cases h2 : y < x
          · rw [if_pos h2] at hcmp; exact absurd hcmp (by decide)
          · rw [if_neg h2, if_neg hx] at hcmp
            have hxy : x = y := by omega
            rw [c_str_cons, if_neg hx, List.take_succ_cons, ih xs ys hxs hcmp, hxy]

theorem find_client_found (state : server_game_state_t) (receive_address : List Nat)
    (dgram : client_dgram_t) (name_length : Int) (slot : Nat)
    (hactive : (state.players.getD slot default).conn.is_connection_active = true)
    (haddress : (state.players.getD slot default).conn.address = receive_address) :
    ∀ (fuel i : Nat) (exists_name : Bool), i ≤ slot → slot < i + fuel →
      (∀ j, i ≤ j → j < slot →
        ¬ ((state.players.getD j default).conn.is_connection_active = true ∧
          (state.players.getD j default).conn.address = receive_address)) →
      (find_client state receive_address dgram name_length fuel i exists_name).1 = slot := by
  intro fuel
  induction fuel with
  | zero => intro i e h1 h2; omega
  | succ n ih =>
    intro i e h1 h2 hfirst
    unfold find_client
    simp only []
    by_cases hi : i = slot
    · subst hi
      rw [if_pos ⟨hactive, by unfold equal_addresses; rw [haddress]; simp⟩]
    · rw [if_neg]
      · exact ih (i + 1) _ (by omega) (by omega) (fun j hj1 hj2 => hfirst j (by omega) hj2)
      · rintro ⟨ha, he⟩
        unfold equal_addresses at he
        exact hfirst i (Nat.le_refl _) (by omega) ⟨ha, by simpa using he⟩

/-- C24.  A valid datagram from the address of an active slot (the first active slot with
that address) whose session id is less than the session id of the slot, or equal to it
with a name that is not the name of the slot, leaves the whole server state unchanged:
`handle_client_datagram` returns the state it was given and sends nothing. -/
theorem stale_datagram_ignored (state : server_game_state_t)
    (receive_address : List Nat) (receive_address_length : Nat) (buffer : List Nat)
    (read_bytes : Int) (slot : Nat)
    (hvalid : client_dgram_valid buffer read_bytes)
    (hslot : slot < MAX_PLAYERS)
    (hactive : (state.players.getD slot default).conn.is_connection_active = true)
    (haddress : (state.players.getD slot default).conn.address = receive_address)
    (hfirst : ∀ j, j < slot →
      ¬ ((state.players.getD j default).conn.is_connection_active = true ∧
        (state.players.getD j default).conn.address = receive_address))
    (hstale : be64toh buffer 0 < (state.players.getD slot default).conn.session_id ∨
      (be64toh buffer 0 = (state.players.getD slot default).conn.session_id ∧
        c_str (state.players.getD slot default).name ≠ dgram_name buffer read_bytes)) :
    handle_client_datagram state receive_address receive_address_length buffer read_bytes =
      (state, []) := by
  unfold handle_client_datagram
  simp only []
  rw [deserialize_client_dgram_of_valid buffer read_bytes hvalid]
  rw [if_neg (show ¬ ((0 : Int), parsed_dgram buffer read_bytes).1 < 0 from Int.lt_irrefl 0)]
  have hfound := find_client_found state receive_address (parsed_dgram buffer read_bytes)
    (read_bytes - (CLIENT_DGRAM_INTEGERS_LEN : Int)) slot hactive haddress MAX_PLAYERS 0 false
    (Nat.zero_le _) (by omega) (fun j _ hj => hfirst j hj)
  simp only []
  rw [hfound, if_pos hslot]
  congr 1
  unfold handle_existing_client
  simp only []
  have hsid : (parsed_dgram buffer read_bytes).session_id = be64toh buffer 0 := rfl
  rw [hsid]
  rcases hstale with hless | ⟨heq, hname⟩
  · rw [if_neg (by omega), if_pos hless]
  · rw [if_neg (by omega), if_neg (by omega), if_pos]
    by_contra hnot
    push_neg at hnot
    obtain ⟨hlen, hcmp⟩ := hnot
    apply hname
    have hn : strlen (state.players.getD slot default).name =
        (read_bytes - (CLIENT_DGRAM_INTEGERS_LEN : Int)).toNat := by
      omega
    rw [strncmp_eq_zero _ _ _ hn hcmp]
    show (dgram_name buffer read_bytes ++ _).take _ = _
    have hl : (read_bytes - ((CLIENT_DGRAM_INTEGERS_LEN : Nat) : Int)).toNat =
        (dgram_name buffer read_bytes).length := (dgram_name_length buffer read_bytes).symm
    rw [hl, List.take_left]

set_option maxRecDepth 1000000 in
/-- C24, in the lobby with Alice (slot 0, session id 1, name "Alice"): a datagram from her
address with session id 0, and one with session id 1 and the name "Bob". -/
theorem stale_datagram_ignored_witness :
    handle_client_datagram lobby_with_alice address_Alice 28
        ([0, 0, 0, 0, 0, 0, 0, 0, 1] ++ htonl 0 ++ name_Alice) 18 = (lobby_with_alice, []) ∧
    handle_client_datagram lobby_with_alice address_Alice 28
        (session_1_dgram 1 0 name_Bob) 16 = (lobby_with_alice, []) :=
  ⟨stale_datagram_ignored lobby_with_alice address_Alice 28
      ([0, 0, 0, 0, 0, 0, 0, 0, 1] ++ htonl 0 ++ name_Alice) 18 0 (by decide) (by decide)
      (by decide!) (by decide!) (fun j hj => absurd hj (Nat.not_lt_zero j))
      (Or.inl (by decide!)),
    stale_datagram_ignored lobby_with_alice address_Alice 28
      (session_1_dgram 1 0 name_Bob) 16 0 (by decide) (by decide)
      (by decide!) (by decide!) (fun j hj => absurd hj (Nat.not_lt_zero j))
      (Or.inr (by decide!))⟩

/-! ## The end of a game -/

theorem slot_after_game_default : slot_after_game default = default := rfl

theorem named_active_iff (player : client_t) :
    named_active player = true ↔
      player.conn.is_connection_active = true ∧ strlen player.name > 0 := by
  unfold named_active
  rw [Bool.and_eq_true, decide_eq_true_eq]

theorem getD_set_apply (f : client_t → client_t) (hf : f default = default)
    (players : List client_t) (i j : Nat) :
    (players.set i (f (players.getD i default))).getD j default =
      if i = j then f (players.getD j default) else players.getD j default := by
  rw [getD_set_eq]
  by_cases hij : i = j
  · subst hij
    by_cases hl : i < players.length
    · rw [if_pos ⟨rfl, hl⟩, if_pos rfl]
    · rw [if_neg (fun h => hl h.2), if_pos rfl, List.getD_eq_default _ _ (by omega), hf]
  · rw [if_neg (fun h => hij h.1), if_neg hij]

theorem update_players_after_game_loop_spec :
    ∀ (fuel i : Nat) (state : server_game_state_t), state.players_count < 256 →
      (update_players_after_game_loop fuel i state).players_count =
        (state.players_count + ((List.range' i fuel).filter
          (fun j => named_active (state.players.getD j default))).length) % 256 ∧
      (update_players_after_game_loop fuel i state).ready_players = state.ready_players ∧
      ∀ j, (update_players_after_game_loop fuel i state).players.getD j default =
        if i ≤ j ∧ j < i + fuel then slot_after_game (state.players.getD j default)
        else state.players.getD j default := by
  intro fuel
  induction fuel with
  | zero =>
    intro i state hpc
    refine ⟨?_, rfl, fun j => ?_⟩
    · show state.players_count = _
      simp only [List.range'_zero, List.filter_nil, List.length_nil, Nat.add_zero]
      omega
    · rw [if_neg (by omega)]
      rfl
  | succ n ih =>
    intro i state hpc
    have hstep : ∀ (s1 : server_game_state_t), s1.players_count < 256 →
        s1.ready_players = state.ready_players →
        s1.players = state.players.set i (slot_after_game (state.players.getD i default)) →
        s1.players_count = (state.players_count +
          (if named_active (state.players.getD i default) = true then 1 else 0)) % 256 →
        (update_players_after_game_loop n (i + 1) s1).players_count =
          (state.players_count + ((List.range' i (n + 1)).filter
            (fun j => named_active (state.players.getD j default))).length) % 256 ∧
        (update_players_after_game_loop n (i + 1) s1).ready_players = state.ready_players ∧
        ∀ j, (update_players_after_game_loop n (i + 1) s1).players.getD j default =
          if i ≤ j ∧ j < i + (n + 1) then slot_after_game (state.players.getD j default)
          else state.players.getD j default := by
      intro s1 h1 h2 h3 h4
      obtain ⟨k1, k2, k3⟩ := ih (i + 1) s1 h1
      have hget : ∀ j, s1.players.getD j default =
          if i = j then slot_after_game (state.players.getD j default)
          else state.players.getD j default := by
        intro j
        rw [h3]
        exact getD_set_apply slot_after_game slot_after_game_default state.players i j
      have hfilter : (List.range' (i + 1) n).filter
            (fun j => named_active (s1.players.getD j default)) =
          (List.range' (i + 1) n).filter
            (fun j => named_active (state.players.getD j default)) := by
        apply List.filter_congr
        intro j hj
        rw [List.mem_range'_1] at hj
        rw [hget j, if_neg (by omega)]
      refine ⟨?_, k2.trans h2, fun j => ?_⟩
      · rw [k1, hfilter, h4, List.range'_succ, List.filter_cons]
        by_cases hna : named_active (state.players.getD i default) = true
        · rw [if_pos hna, if_pos hna, List.length_cons]
          omega
        · rw [if_neg hna, if_neg hna]
          omega
      · rw [k3 j, hget j]
        by_cases hij : i = j
        · rw [if_neg (by omega), if_pos hij, if_pos (by omega)]
        · rw [if_neg hij]
          by_cases hr : i + 1 ≤ j ∧ j < i + 1 + n
          · rw [if_pos hr, if_pos (by omega)]
          · rw [if_neg hr, if_neg (by omega)]
    unfold update_players_after_game_loop
    simp only []
    by_cases ha : (state.players.getD i default).conn.is_connection_active = true
    · rw [if_pos ha]
      by_cases hn : strlen (state.players.getD i default).name > 0
      · rw [if_pos hn]
        apply hstep
        · show (state.players_count + 1) % 256 < 256
          omega
        · rfl
        · show state.players.set i _ = _
          unfold slot_after_game
          rw [if_pos ha, if_pos hn]
        · show (state.players_count + 1) % 256 = _
          rw [if_pos ((named_active_iff _).2 ⟨ha, hn⟩)]
      · rw [if_neg hn]
        apply hstep
        · exact hpc
        · rfl
        · show state.players.set i _ = _
          unfold slot_after_game
          rw [if_pos ha, if_neg hn]
        · show state.players_count = _
          rw [if_neg (fun h => hn ((named_active_iff _).1 h).2)]
          omega
    · rw [if_neg ha]
      apply hstep
      · exact hpc
      · rfl
      · show state.players.set i _ = _
        unfold slot_after_game
        rw [if_neg ha]
      · show state.players_count = _
        rw [if_neg (fun h => ha ((named_active_iff _).1 h).1)]
        omega

theorem named_active_count_le (players : List client_t) :
    named_active_count players ≤ MAX_PLAYERS := by
  unfold named_active_count
  have := List.length_filter_le (fun j => named_active (players.getD j default))
    (List.range MAX_PLAYERS)
  rw [List.length_range] at this
  exact this

/-- What `update_players_after_game` does: `ready_players` is 0, `players_count` is the
number of active slots with a non-empty name, and every slot is changed as by the body of
the loop. -/
theorem update_players_after_game_spec (state : server_game_state_t) :
    (update_players_after_game state).players_count = named_active_count state.players ∧
    (update_players_after_game state).ready_players = 0 ∧
    ∀ j, j < MAX_PLAYERS → (update_players_after_game state).players.getD j default =
      slot_after_game (state.players.getD j default) := by
  unfold update_players_after_game
  obtain ⟨h1, h2, h3⟩ := update_players_after_game_loop_spec MAX_PLAYERS 0
    { state with ready_players := 0, players_count := 0 } (Nat.zero_lt_succ _)
  refine ⟨?_, h2, fun j hj => ?_⟩
  · rw [h1]
    have hle := named_active_count_le state.players
    unfold named_active_count at hle ⊢
    rw [List.range_eq_range'] at hle ⊢
    show (0 + ((List.range' 0 MAX_PLAYERS).filter
      (fun j => named_active (state.players.getD j default))).length) % 256 = _
    generalize ((List.range' 0 MAX_PLAYERS).filter
      (fun j => named_active (state.players.getD j default))).length = c at *
    unfold MAX_PLAYERS at hle
    omega
  · rw [h3 j, if_pos ⟨Nat.zero_le _, by omega⟩]

theorem slot_after_game_frame (player : client_t) :
    (slot_after_game player).conn = player.conn ∧
    (slot_after_game player).name = player.name ∧
    (slot_after_game player).ready = false ∧
    (player.conn.is_connection_active = true → strlen player.name > 0 →
      (slot_after_game player).is_playing = true ∧
      (slot_after_game player).is_spectator = false) ∧
    (player.conn.is_connection_active = true → strlen player.name = 0 →
      (slot_after_game player).is_playing = false ∧
      (slot_after_game player).is_spectator = true) := by
  unfold slot_after_game
  by_cases ha : player.conn.is_connection_active = true
  · rw [if_pos ha]
    by_cases hn : strlen player.name > 0
    · rw [if_pos hn]
      exact ⟨rfl, rfl, rfl, fun _ _ => ⟨rfl, rfl⟩, fun _ h => by omega⟩
    · rw [if_neg hn]
      exact ⟨rfl, rfl, rfl, fun _ h => absurd h hn, fun _ _ => ⟨rfl, rfl⟩⟩
  · rw [if_neg ha]
    exact ⟨rfl, rfl, rfl, fun h => absurd h ha, fun h => absurd h ha⟩

theorem handle_board_update_fst (libm : libm_t) (state : server_game_state_t) :
    (handle_board_update libm state).1 =
      handle_board_update_loop libm MAX_PLAYERS 0 default state := by
  unfold handle_board_update
  dsimp only

/-- The log of the model, which is the log of the program while `events_queue_stale` is
false, and the lobby after the tick that ends the game.  Let the loop of a round tick that began in the state `tick_start`
come to slot `i` in the state `state`, and let the worm of slot `i`, playing and alive,
be eliminated by its move while `alive_players_count` is 2, so that the elimination
leaves 1.  Then the tick ends with two new entries in the log, the PLAYER_ELIMINATED of
the slot and GAME_OVER as the last entry, with `game_status` WAITING_FOR_PLAYERS,
`ready_players = 0` and `ready = false` in every slot, and with `players_count` the
number of active slots with a non-empty name; those slots have `is_playing = true` and
`is_spectator = false`, and the active slots with an empty name have `is_playing = false`
and `is_spectator = true`. -/
theorem game_over_tick_log (libm : libm_t)
    (tick_start state : server_game_state_t) (i : Nat) (current_event : event_data_t)
    (hreach : handle_board_update_loop libm MAX_PLAYERS 0 default tick_start =
      handle_board_update_loop libm (MAX_PLAYERS - i) i current_event state)
    (hi : i < MAX_PLAYERS)
    (hplaying : (state.players.getD i default).is_playing = true)
    (halive : state.alive.getD i false = true)
    (hmoved : same_cell libm state i = false)
    (helim : move_eliminates libm state i = true)
    (hcount : state.alive_players_count = 2)
    (hroom : state.events_count + 2 < UINT32_RANGE) :
    (handle_board_update libm tick_start).1.events_count = state.events_count + 2 ∧
    (∀ k, k < state.events_count →
      (handle_board_update libm tick_start).1.events_queue.getD k default =
        state.events_queue.getD k default) ∧
    ((handle_board_update libm tick_start).1.events_queue.getD state.events_count
      default).event_type = EVENT_PLAYER_ELIMINATED ∧
    ((handle_board_update libm tick_start).1.events_queue.getD state.events_count
      default).player_number = (state.players.getD i default).player_number ∧
    ((handle_board_update libm tick_start).1.events_queue.getD (state.events_count + 1)
      default).event_type = EVENT_GAME_OVER ∧
    (handle_board_update libm tick_start).1.game_status = GAME_STATE_WAITING_FOR_PLAYERS ∧
    (handle_board_update libm tick_start).1.ready_players = 0 ∧
    (handle_board_update libm tick_start).1.players_count =
      named_active_count (handle_board_update libm tick_start).1.players ∧
    ∀ j, j < MAX_PLAYERS →
      ((handle_board_update libm tick_start).1.players.getD j default).ready = false ∧
      ((handle_board_update libm tick_start).1.players.getD j default).conn =
        (state.players.getD j default).conn ∧
      ((handle_board_update libm tick_start).1.players.getD j default).name =
        (state.players.getD j default).name ∧
      (((handle_board_update libm tick_start).1.players.getD j
          default).conn.is_connection_active = true →
        (strlen ((handle_board_update libm tick_start).1.players.getD j default).name > 0 →
          ((handle_board_update libm tick_start).1.players.getD j default).is_playing = true ∧
          ((handle_board_update libm tick_start).1.players.getD j default).is_spectator =
            false) ∧
        (strlen ((handle_board_update libm tick_start).1.players.getD j default).name = 0 →
          ((handle_board_update libm tick_start).1.players.getD j default).is_playing = false ∧
          ((handle_board_update libm tick_start).1.players.getD j default).is_spectator =
            true)) := by
  rw [handle_board_update_fst, hreach]
  obtain ⟨n, hn⟩ : ∃ n, MAX_PLAYERS - i = n + 1 := ⟨MAX_PLAYERS - i - 1, by omega⟩
  rw [hn]
  unfold handle_board_update_loop
  rw [if_neg (by rw [hplaying]; decide), if_pos halive, if_neg (by rw [hmoved]; decide)]
  obtain ⟨_, _, f3, f4, f5, _, _, _, _⟩ := move_state_frame libm state i
  have hev : move_event libm state i current_event =
      { current_event with
        event_type := EVENT_PLAYER_ELIMINATED
        player_number := (moved_player libm state i).player_number } := by
    unfold move_event
    rw [if_pos helim]
  have hac : (enqueue_event (move_state libm state i)
      (move_event libm state i current_event)).alive_players_count = 1 := by
    show (move_state libm state i).alive_players_count = 1
    unfold move_state
    rw [if_pos helim]
    show (state.alive_players_count + 255) % 256 = 1
    rw [hcount]
  rw [if_pos hac]
  have hc1 : (enqueue_event (move_state libm state i)
      (move_event libm state i current_event)).events_count = state.events_count + 1 := by
    rw [enqueue_event_count _ _ (by rw [f4]; omega), f4]
  generalize hE : enqueue_event (move_state libm state i)
    (move_event libm state i current_event) = E at *
  have hEq : ∀ k, E.events_queue.getD k default =
      if k = state.events_count then move_event libm state i current_event
      else state.events_queue.getD k default := by
    intro k
    rw [← hE, enqueue_event_getD, f4, f3]
  have hEp : E.players = state.players.set i (moved_player libm state i) := by
    rw [← hE]
    exact f5
  generalize hS : enqueue_event { E with game_status := GAME_STATE_WAITING_FOR_PLAYERS }
    { move_event libm state i current_event with event_type := EVENT_GAME_OVER } = S
  have hSc : S.events_count = state.events_count + 2 := by
    rw [← hS, enqueue_event_count _ _ (by show E.events_count + 1 < _; omega)]
    show E.events_count + 1 = _
    omega
  have hSq : ∀ k, S.events_queue.getD k default =
      if k = state.events_count + 1 then
        { move_event libm state i current_event with event_type := EVENT_GAME_OVER }
      else E.events_queue.getD k default := by
    intro k
    rw [← hS, enqueue_event_getD]
    show (if k = E.events_count then _ else _) = _
    rw [hc1]
  have hSp : S.players = state.players.set i (moved_player libm state i) := by
    rw [← hS]
    exact hEp
  have hSs : S.game_status = GAME_STATE_WAITING_FOR_PLAYERS := by
    rw [← hS]
    rfl
  obtain ⟨⟨s1, s2, _, _, _, _, _, _⟩, s9⟩ := update_players_after_game_same S
  obtain ⟨u1, u2, u3⟩ := update_players_after_game_spec S
  have hslot : ∀ j, (S.players.getD j default).conn = (state.players.getD j default).conn ∧
      (S.players.getD j default).name = (state.players.getD j default).name := by
    intro j
    rw [hSp]
    constructor
    · apply getD_set_field (fun p => p.conn)
      rfl
    · apply getD_set_field (fun p => p.name)
      rfl
  have hres : ∀ j, j < MAX_PLAYERS →
      ((update_players_after_game S).players.getD j default).conn =
        (state.players.getD j default).conn ∧
      ((update_players_after_game S).players.getD j default).name =
        (state.players.getD j default).name := by
    intro j hj
    rw [u3 j hj]
    obtain ⟨g1, g2, _⟩ := slot_after_game_frame (S.players.getD j default)
    exact ⟨g1.trans (hslot j).1, g2.trans (hslot j).2⟩
  refine ⟨by rw [s2, hSc], fun k hk => ?_, ?_, ?_, ?_, by rw [s9, hSs], u2, ?_, fun j hj => ?_⟩
  · rw [s1, hSq, if_neg (by omega), hEq, if_neg (by omega)]
  · rw [s1, hSq, if_neg (by omega), hEq, if_pos rfl, hev]
  · rw [s1, hSq, if_neg (by omega), hEq, if_pos rfl, hev]
    exact (moved_player_frame libm state i).1
  · rw [s1, hSq, if_pos rfl]
  · rw [u1]
    unfold named_active_count
    congr 1
    apply List.filter_congr
    intro j hj
    rw [List.mem_range] at hj
    unfold named_active
    rw [(hres j hj).1, (hres j hj).2, (hslot j).1, (hslot j).2]
  · obtain ⟨g1, g2, g3, g4, g5⟩ := slot_after_game_frame (S.players.getD j default)
    refine ⟨by rw [u3 j hj]; exact g3, (hres j hj).1, (hres j hj).2, fun ha => ?_⟩
    rw [u3 j hj] at ha ⊢
    rw [g1] at ha
    rw [g2]
    exact ⟨g4 ha, g5 ha⟩

/-! ## The block of the log -/

theorem realloc_threshold (n : Nat) (h2 : 2 ≤ n) (h32 : n < UINT32_RANGE) :
    (n + UINT32_RANGE - 2) % UINT32_RANGE = n - 2 := by
  unfold UINT32_RANGE at *
  omega

/-- A call of `enqueue_event` with room in the block does not take the branch of
`realloc`. -/
theorem enqueue_event_block_kept (state : server_game_state_t) (event : event_data_t)
    (hsize : 2 ≤ state.events_queue_size ∧ state.events_queue_size < UINT32_RANGE)
    (hroom : state.events_count < state.events_queue_size - 2) :
    (enqueue_event state event).events_queue_size = state.events_queue_size ∧
    (enqueue_event state event).events_queue_stale = state.events_queue_stale := by
  unfold enqueue_event
  simp only []
  rw [realloc_threshold _ hsize.1 hsize.2, if_neg (by omega), if_neg (by omega)]
  exact ⟨rfl, rfl⟩

/-- A call of `enqueue_event` when `events_count` has reached `events_queue_size - 2`
takes the branch of `realloc`, whose result is discarded. -/
theorem enqueue_event_block_stale (state : server_game_state_t) (event : event_data_t)
    (hsize : 2 ≤ state.events_queue_size ∧ state.events_queue_size < UINT32_RANGE)
    (hfull : state.events_queue_size - 2 ≤ state.events_count) :
    (enqueue_event state event).events_queue_stale = true := by
  unfold enqueue_event
  simp only []
  rw [realloc_threshold _ hsize.1 hsize.2, if_pos (by omega)]

/-- Once the result of `realloc` has been discarded the block stays stale. -/
theorem enqueue_event_stale_mono (state : server_game_state_t) (event : event_data_t)
    (h : state.events_queue_stale = true) :
    (enqueue_event state event).events_queue_stale = true := by
  unfold enqueue_event
  simp only []
  split
  · rfl
  · exact h

theorem update_players_after_game_loop_block :
    ∀ (fuel i : Nat) (state : server_game_state_t),
      (update_players_after_game_loop fuel i state).events_queue_size =
        state.events_queue_size ∧
      (update_players_after_game_loop fuel i state).events_queue_stale =
        state.events_queue_stale := by
  intro fuel
  induction fuel with
  | zero => intro i state; exact ⟨rfl, rfl⟩
  | succ n ih =>
    intro i state
    unfold update_players_after_game_loop
    simp only []
    split
    · split
      · exact ih _ _
      · exact ih _ _
    · exact ih _ _

theorem update_players_after_game_block (state : server_game_state_t) :
    (update_players_after_game state).events_queue_size = state.events_queue_size ∧
    (update_players_after_game state).events_queue_stale = state.events_queue_stale := by
  unfold update_players_after_game
  exact update_players_after_game_loop_block _ _ _

theorem move_state_block (libm : libm_t) (state : server_game_state_t) (i : Nat) :
    (move_state libm state i).events_queue_size = state.events_queue_size ∧
    (move_state libm state i).events_queue_stale = state.events_queue_stale := by
  unfold move_state
  split
  · exact ⟨rfl, rfl⟩
  · exact ⟨rfl, rfl⟩

/-- The block of the log after the tick that ends the game: the two calls of
`enqueue_event` leave it as it is when the second entry has room, and discard the result
of `realloc` otherwise. -/
theorem game_over_tick_block (libm : libm_t)
    (tick_start state : server_game_state_t) (i : Nat) (current_event : event_data_t)
    (hreach : handle_board_update_loop libm MAX_PLAYERS 0 default tick_start =
      handle_board_update_loop libm (MAX_PLAYERS - i) i current_event state)
    (hi : i < MAX_PLAYERS)
    (hplaying : (state.players.getD i default).is_playing = true)
    (halive : state.alive.getD i false = true)
    (hmoved : same_cell libm state i = false)
    (helim : move_eliminates libm state i = true)
    (hcount : state.alive_players_count = 2)
    (hroom : state.events_count + 2 < UINT32_RANGE)
    (hstale : state.events_queue_stale = false)
    (hsize : 2 ≤ state.events_queue_size ∧ state.events_queue_size < UINT32_RANGE) :
    (state.events_count + 1 < state.events_queue_size - 2 →
      (handle_board_update libm tick_start).1.events_queue_stale = false) ∧
    (state.events_queue_size - 2 ≤ state.events_count + 1 →
      (handle_board_update libm tick_start).1.events_queue_stale = true) := by
  rw [handle_board_update_fst, hreach]
  obtain ⟨n, hn⟩ : ∃ n, MAX_PLAYERS - i = n + 1 := ⟨MAX_PLAYERS - i - 1, by omega⟩
  rw [hn]
  unfold handle_board_update_loop
  rw [if_neg (by rw [hplaying]; decide), if_pos halive, if_neg (by rw [hmoved]; decide)]
  have hac : (enqueue_event (move_state libm state i)
      (move_event libm state i current_event)).alive_players_count = 1 := by
    show (move_state libm state i).alive_players_count = 1
    unfold move_state
    rw [if_pos helim]
    show (state.alive_players_count + 255) % 256 = 1
    rw [hcount]
  rw [if_pos hac]
  obtain ⟨_, _, _, f4, _, _, _, _, _⟩ := move_state_frame libm state i
  obtain ⟨b1, b2⟩ := move_state_block libm state i
  have hc1 : (enqueue_event (move_state libm state i)
      (move_event libm state i current_event)).events_count = state.events_count + 1 := by
    rw [enqueue_event_count _ _ (by rw [f4]; omega), f4]
  rw [(update_players_after_game_block _).2]
  generalize hE : enqueue_event (move_state libm state i)
    (move_event libm state i current_event) = E at *
  constructor
  · intro hfit
    have hk := enqueue_event_block_kept (move_state libm state i)
      (move_event libm state i current_event) (by rw [b1]; exact hsize) (by rw [f4, b1]; omega)
    rw [hE, b1, b2] at hk
    have hk2 := enqueue_event_block_kept { E with game_status := GAME_STATE_WAITING_FOR_PLAYERS }
      { move_event libm state i current_event with event_type := EVENT_GAME_OVER }
      (by show 2 ≤ E.events_queue_size ∧ E.events_queue_size < UINT32_RANGE
          rw [hk.1]; exact hsize)
      (by show E.events_count < E.events_queue_size - 2
          rw [hk.1, hc1]; exact hfit)
    rw [hk2.2]
    show E.events_queue_stale = false
    rw [hk.2]
    exact hstale
  · intro hfull
    by_cases hfirst : state.events_queue_size - 2 ≤ state.events_count
    · have hs := enqueue_event_block_stale (move_state libm state i)
        (move_event libm state i current_event) (by rw [b1]; exact hsize)
        (by rw [f4, b1]; exact hfirst)
      rw [hE] at hs
      exact enqueue_event_stale_mono _ _ hs
    · have hk := enqueue_event_block_kept (move_state libm state i)
        (move_event libm state i current_event) (by rw [b1]; exact hsize)
        (by rw [f4, b1]; omega)
      rw [hE, b1, b2] at hk
      exact enqueue_event_block_stale { E with game_status := GAME_STATE_WAITING_FOR_PLAYERS }
        { move_event libm state i current_event with event_type := EVENT_GAME_OVER }
        (by show 2 ≤ E.events_queue_size ∧ E.events_queue_size < UINT32_RANGE
            rw [hk.1]; exact hsize)
        (by show E.events_queue_size - 2 ≤ E.events_count
            rw [hk.1, hc1]; exact hfull)

/-- C28 holds on the code only while the log has room in its block.  Let the loop of a
round tick that began in the state `tick_start` come to slot `i` in the state `state`,
whose log block has not been reallocated, and let the worm of slot `i`, playing and
alive, be eliminated by its move while `alive_players_count` is 2, so that the
elimination leaves 1.  When the two new entries have room in the block
(`events_count + 1 < events_queue_size - 2`), the tick ends with these two entries in
the log, the PLAYER_ELIMINATED of the slot and GAME_OVER as the last entry, with
`game_status` WAITING_FOR_PLAYERS, `ready_players = 0` and `ready = false` in every slot,
and with `players_count` the number of active slots with a non-empty name; those slots
have `is_playing = true` and `is_spectator = false`, and the active slots with an empty
name have `is_playing = false` and `is_spectator = true`.  When the log has reached
`events_queue_size - 3` entries or more, `enqueue_event` calls `realloc` and discards its
result: the entries are written through a pointer to a block that may have been
released. -/
theorem game_over_after_last_elimination (libm : libm_t)
    (tick_start state : server_game_state_t) (i : Nat) (current_event : event_data_t)
    (hreach : handle_board_update_loop libm MAX_PLAYERS 0 default tick_start =
      handle_board_update_loop libm (MAX_PLAYERS - i) i current_event state)
    (hi : i < MAX_PLAYERS)
    (hplaying : (state.players.getD i default).is_playing = true)
    (halive : state.alive.getD i false = true)
    (hmoved : same_cell libm state i = false)
    (helim : move_eliminates libm state i = true)
    (hcount : state.alive_players_count = 2)
    (hroom : state.events_count + 2 < UINT32_RANGE)
    (hstale : state.events_queue_stale = false)
    (hsize : 2 ≤ state.events_queue_size ∧ state.events_queue_size < UINT32_RANGE) :
    (state.events_count + 1 < state.events_queue_size - 2 →
      (handle_board_update libm tick_start).1.events_queue_stale = false ∧
        (handle_board_update libm tick_start).1.events_count = state.events_count + 2 ∧
        (∀ k, k < state.events_count →
          (handle_board_update libm tick_start).1.events_queue.getD k default =
            state.events_queue.getD k default) ∧
        ((handle_board_update libm tick_start).1.events_queue.getD state.events_count
          default).event_type = EVENT_PLAYER_ELIMINATED ∧
        ((handle_board_update libm tick_start).1.events_queue.getD state.events_count
          default).player_number = (state.players.getD i default).player_number ∧
        ((handle_board_update libm tick_start).1.events_queue.getD (state.events_count + 1)
          default).event_type = EVENT_GAME_OVER ∧
        (handle_board_update libm tick_start).1.game_status = GAME_STATE_WAITING_FOR_PLAYERS ∧
        (handle_board_update libm tick_start).1.ready_players = 0 ∧
        (handle_board_update libm tick_start).1.players_count =
          named_active_count (handle_board_update libm tick_start).1.players ∧
        ∀ j, j < MAX_PLAYERS →
          ((handle_board_update libm tick_start).1.players.getD j default).ready = false ∧
          ((handle_board_update libm tick_start).1.players.getD j default).conn =
            (state.players.getD j default).conn ∧
          ((handle_board_update libm tick_start).1.players.getD j default).name =
            (state.players.getD j default).name ∧
          (((handle_board_update libm tick_start).1.players.getD j
              default).conn.is_connection_active = true →
            (strlen ((handle_board_update libm tick_start).1.players.getD j default).name > 0 →
              ((handle_board_update libm tick_start).1.players.getD j default).is_playing = true ∧
              ((handle_board_update libm tick_start).1.players.getD j default).is_spectator =
                false) ∧
            (strlen ((handle_board_update libm tick_start).1.players.getD j default).name = 0 →
              ((handle_board_update libm tick_start).1.players.getD j default).is_playing = false ∧
              ((handle_board_update libm tick_start).1.players.getD j default).is_spectator =
                true))) ∧
    (state.events_queue_size - 2 ≤ state.events_count + 1 →
      (handle_board_update libm tick_start).1.events_queue_stale = true) :=
  have hblock := game_over_tick_block libm tick_start state i current_event hreach hi hplaying
    halive hmoved helim hcount hroom hstale hsize
  ⟨fun hfit => ⟨hblock.1 hfit,
      game_over_tick_log libm tick_start state i current_event hreach hi hplaying halive
        hmoved helim hcount hroom⟩,
    hblock.2⟩

set_option maxRecDepth 1000000 in
/-- C28, at the game of Alice and Bob of seed 91923: in the first round tick the loop comes
to slot 23 (Alice) in the state in which the tick began, and her worm leaves the board.
The log of 3 entries, in a block of 4096 entries, gets the entries 3 and 4, and the block
is not reallocated. -/
theorem game_over_after_last_elimination_witness :
    game_of_91923_started.1.events_count = 3 ∧
    game_of_91923_started.1.events_queue_size = 4096 ∧
    (handle_board_update east_libm game_of_91923_started.1).1.events_queue_stale = false ∧
    (handle_board_update east_libm game_of_91923_started.1).1.events_count =
      game_of_91923_started.1.events_count + 2 ∧
    ((handle_board_update east_libm game_of_91923_started.1).1.events_queue.getD
      (game_of_91923_started.1.events_count + 1) default).event_type = EVENT_GAME_OVER ∧
    (handle_board_update east_libm game_of_91923_started.1).1.game_status =
      GAME_STATE_WAITING_FOR_PLAYERS ∧
    (handle_board_update east_libm game_of_91923_started.1).1.ready_players = 0 ∧
    (handle_board_update east_libm game_of_91923_started.1).1.players_count =
      named_active_count (handle_board_update east_libm game_of_91923_started.1).1.players :=
  have h := (game_over_after_last_elimination east_libm game_of_91923_started.1
    game_of_91923_started.1 23 default (by decide!) (by decide) (by decide!) (by decide!)
    (by decide!) (by decide!) (by decide!) (by decide!) (by decide!) (by decide!)).1
    (by decide!)
  ⟨by decide!, by decide!, h.1, h.2.1, h.2.2.2.2.2.1, h.2.2.2.2.2.2.1, h.2.2.2.2.2.2.2.1,
    h.2.2.2.2.2.2.2.2.1⟩

/-! ## Messages for the frontend -/

theorem intercalate_singleton (sep a : List Nat) : List.intercalate sep [a] = a := by
  simp [List.intercalate, List.intersperse]

theorem intercalate_cons_cons (sep a b : List Nat) (l : List (List Nat)) :
    List.intercalate sep (a :: b :: l) = a ++ sep ++ List.intercalate sep (b :: l) := by
  simp [List.intercalate, List.intersperse]

theorem write_at_length (buffer : List Nat) (offset : Nat) (bytes : List Nat)
    (h : offset + bytes.length ≤ buffer.length) :
    (write_at buffer offset bytes).length = buffer.length := by
  unfold write_at
  simp only [List.length_append, List.length_take, List.length_drop]
  omega

theorem write_at_take (buffer : List Nat) (offset : Nat) (bytes : List Nat)
    (h : offset ≤ buffer.length) :
    (write_at buffer offset bytes).take (offset + bytes.length) = buffer.take offset ++ bytes := by
  unfold write_at
  apply List.take_left'
  simp only [List.length_append, List.length_take]
  omega

theorem set_take_succ (l : List Nat) (k v : Nat) (h : k < l.length) :
    (l.set k v).take (k + 1) = l.take k ++ [v] := by
  induction l generalizing k with
  | nil => simp at h
  | cons a t ih =>
    cases k with
    | zero => simp
    | succ n =>
      simp only [List.set_cons_succ, List.take_succ_cons, List.cons_append]
      rw [ih n (by simpa using h)]

theorem take_take_le (l : List Nat) (m n : Nat) (h : m ≤ n) :
    (l.take n).take m = l.take m := by
  rw [List.take_take, Nat.min_eq_left h]

/-- One text of a message: `snprintf` of the text with a size of its length plus 1,
followed by the store of a separator over the NUL. -/
theorem snprintf_set_take (buffer : List Nat) (offset : Nat) (text : List Nat) (sep : Nat)
    (h : offset + text.length + 1 ≤ buffer.length) :
    ((snprintf buffer offset (text.length + 1) text).set (offset + text.length) sep).length =
      buffer.length ∧
    ((snprintf buffer offset (text.length + 1) text).set (offset + text.length) sep).take
      (offset + text.length + 1) = buffer.take offset ++ text ++ [sep] := by
  unfold snprintf
  rw [if_neg (by omega), Nat.add_sub_cancel, List.take_length]
  have hl : (write_at buffer offset (text ++ [0])).length = buffer.length :=
    write_at_length _ _ _ (by rw [List.length_append]; simp; omega)
  have ht := write_at_take buffer offset (text ++ [0]) (by omega)
  refine ⟨by rw [List.length_set, hl], ?_⟩
  rw [set_take_succ _ _ _ (by omega)]
  congr 1
  have := congrArg (List.take (offset + text.length)) ht
  rw [take_take_le _ _ _ (by rw [List.length_append]; simp), ← List.append_assoc] at this
  rw [this]
  apply List.take_left'
  simp only [List.length_append, List.length_take]
  omega

/-- The last name of a NEW_GAME message: `snprintf` alone. -/
theorem snprintf_take (buffer : List Nat) (offset : Nat) (text : List Nat)
    (h : offset + text.length + 1 ≤ buffer.length) :
    (snprintf buffer offset (text.length + 1) text).length = buffer.length ∧
    (snprintf buffer offset (text.length + 1) text).take (offset + text.length) =
      buffer.take offset ++ text := by
  unfold snprintf
  rw [if_neg (by omega), Nat.add_sub_cancel, List.take_length]
  have hl : (write_at buffer offset (text ++ [0])).length = buffer.length :=
    write_at_length _ _ _ (by rw [List.length_append]; simp; omega)
  have ht := write_at_take buffer offset (text ++ [0]) (by omega)
  refine ⟨hl, ?_⟩
  have := congrArg (List.take (offset + text.length)) ht
  rw [take_take_le _ _ _ (by rw [List.length_append]; simp), ← List.append_assoc] at this
  rw [this]
  apply List.take_left'
  simp only [List.length_append, List.length_take]
  omega
theorem inject_two_separated_numbers_spec (buffer : List Nat) (start x y : Nat)
    (h : start + (decimal x).length + (decimal y).length + 2 ≤ buffer.length) :
    (inject_two_separated_numbers buffer start x (decimal x).length y (decimal y).length).1 =
      (decimal x).length + 1 + (decimal y).length + 1 ∧
    (inject_two_separated_numbers buffer start x (decimal x).length y
      (decimal y).length).2.length = buffer.length ∧
    (inject_two_separated_numbers buffer start x (decimal x).length y
      (decimal y).length).2.take
        (start + ((decimal x).length + 1 + (decimal y).length + 1)) =
      buffer.take start ++ decimal x ++ [32] ++ decimal y ++ [32] := by
  unfold inject_two_separated_numbers
  simp only []
  obtain ⟨a1, a2⟩ := snprintf_set_take buffer start (decimal x) 32 (by omega)
  generalize (snprintf buffer start ((decimal x).length + 1) (decimal x)).set
    (start + (decimal x).length) 32 = buffer2 at a1 a2 ⊢
  have e : start + ((decimal x).length + 1 + (decimal y).length) =
      start + ((decimal x).length + 1) + (decimal y).length := by omega
  rw [e]
  obtain ⟨b1, b2⟩ := snprintf_set_take buffer2 (start + ((decimal x).length + 1)) (decimal y) 32
    (by omega)
  refine ⟨trivial, b1.trans a1, ?_⟩
  have e2 : start + ((decimal x).length + 1 + (decimal y).length + 1) =
      start + ((decimal x).length + 1) + (decimal y).length + 1 := by omega
  rw [e2, b2, ← Nat.add_assoc, a2]

theorem intercalate_cons_of_ne_nil (sep a : List Nat) (l : List (List Nat)) (h : l ≠ []) :
    List.intercalate sep (a :: l) = a ++ sep ++ List.intercalate sep l := by
  cases l with
  | nil => exact absurd rfl h
  | cons b t => exact intercalate_cons_cons sep a b t

theorem range'_map_cons (f : Nat → List Nat) (i n : Nat) :
    (List.range' i (n + 1)).map f = f i :: (List.range' (i + 1) n).map f := by
  rw [List.range'_succ, List.map_cons]

theorem prepare_message_names_spec (state : client_game_state_t) :
    ∀ (fuel i buffer_offset : Nat) (buffer : List Nat), i ≤ state.players_count →
      state.players_count - i ≤ fuel →
      buffer_offset + (List.intercalate [32] ((List.range' i (state.players_count - i)).map
        (fun k => c_str (state.game_players.getD k [])))).length + 1 ≤ buffer.length →
      (prepare_message_names state fuel i buffer_offset buffer).1 =
        buffer_offset + (List.intercalate [32]
          ((List.range' i (state.players_count - i)).map
            (fun k => c_str (state.game_players.getD k [])))).length ∧
      (prepare_message_names state fuel i buffer_offset buffer).2.length = buffer.length ∧
      (prepare_message_names state fuel i buffer_offset buffer).2.take
          (prepare_message_names state fuel i buffer_offset buffer).1 =
        buffer.take buffer_offset ++ List.intercalate [32]
          ((List.range' i (state.players_count - i)).map
            (fun k => c_str (state.game_players.getD k []))) := by
  intro fuel
  induction fuel with
  | zero =>
    intro i buffer_offset buffer hi hfuel _
    have e : state.players_count - i = 0 := by omega
    rw [e]
    unfold prepare_message_names
    simp [List.intercalate]
  | succ n ih =>
    intro i buffer_offset buffer hi hfuel hfits
    unfold prepare_message_names
    by_cases hlt : i < state.players_count
    · rw [if_pos hlt]
      simp only []
      by_cases hmore : (i : Int) < (state.players_count : Int) - 1
      · rw [if_pos hmore]
        obtain ⟨m, hm⟩ : ∃ m, state.players_count - i = m + 2 :=
          ⟨state.players_count - i - 2, by omega⟩
        have hm1 : state.players_count - (i + 1) = m + 1 := by omega
        have hne : (List.range' (i + 1) (state.players_count - (i + 1))).map
            (fun k => c_str (state.game_players.getD k [])) ≠ [] := by
          rw [hm1, range'_map_cons]
          exact List.cons_ne_nil _ _
        have hnames : (List.range' i (state.players_count - i)).map
            (fun k => c_str (state.game_players.getD k [])) =
            c_str (state.game_players.getD i []) ::
              (List.range' (i + 1) (state.players_count - (i + 1))).map
                (fun k => c_str (state.game_players.getD k [])) := by
          rw [hm, hm1]
          exact range'_map_cons _ i (m + 1)
        rw [hnames, intercalate_cons_of_ne_nil _ _ _ hne] at hfits ⊢
        simp only [List.length_append, List.length_singleton] at hfits
        obtain ⟨a1, a2⟩ := snprintf_set_take buffer buffer_offset
          (c_str (state.game_players.getD i [])) 32 (by omega)
        unfold strlen
        generalize (snprintf buffer buffer_offset
          ((c_str (state.game_players.getD i [])).length + 1)
          (c_str (state.game_players.getD i []))).set
            (buffer_offset + (c_str (state.game_players.getD i [])).length) 32 = buffer2
          at a1 a2 ⊢
        obtain ⟨k1, k2, k3⟩ := ih (i + 1)
          (buffer_offset + (c_str (state.game_players.getD i [])).length + 1) buffer2
          (by omega) (by omega) (by omega)
        refine ⟨?_, k2.trans a1, ?_⟩
        · rw [k1]
          simp only [List.length_append, List.length_singleton]
          omega
        · rw [k3, a2]
          simp only [List.append_assoc]
      · rw [if_neg hmore]
        have hm : state.players_count - i = 1 := by omega
        rw [hm] at hfits ⊢
        have hr : (List.range' i 1).map (fun k => c_str (state.game_players.getD k [])) =
            [c_str (state.game_players.getD i [])] := rfl
        rw [hr, intercalate_singleton] at hfits ⊢
        obtain ⟨a1, a2⟩ := snprintf_take buffer buffer_offset
          (c_str (state.game_players.getD i [])) (by omega)
        unfold strlen
        generalize snprintf buffer buffer_offset
          ((c_str (state.game_players.getD i [])).length + 1)
          (c_str (state.game_players.getD i [])) = buffer1 at a1 a2 ⊢
        have hdone : prepare_message_names state n (i + 1)
            (buffer_offset + (c_str (state.game_players.getD i [])).length) buffer1 =
            (buffer_offset + (c_str (state.game_players.getD i [])).length, buffer1) := by
          cases n with
          | zero => rfl
          | succ n =>
            unfold prepare_message_names
            rw [if_neg (by omega)]
        rw [hdone]
        exact ⟨rfl, a1, a2⟩
    · rw [if_neg hlt]
      have e : state.players_count - i = 0 := by omega
      rw [e]
      simp [List.intercalate]
theorem write_at_zero (buffer bytes : List Nat) (h : bytes.length ≤ buffer.length) :
    (write_at buffer 0 bytes).length = buffer.length ∧
    (write_at buffer 0 bytes).take bytes.length = bytes := by
  refine ⟨write_at_length _ _ _ (by omega), ?_⟩
  have := write_at_take buffer 0 bytes (Nat.zero_le _)
  rw [Nat.zero_add, List.take_zero, List.nil_append] at this
  exact this

/-- C30.  Frontend line formatting.  When `digits_count` returns the number of decimal
digits and the array `buffer` is long enough for the line, `prepare_message` returns the
length of the line of the frontend protocol for the pending event and the array holds
exactly that line in its first bytes: "NEW_GAME", the two board dimensions in decimal and
the names of the players for a pending NEW_GAME, "PIXEL", the two coordinates and the
name of the player `player_no` for a pending PIXEL, "PLAYER_ELIMINATED" and the name of
the player `player_no` for a pending PLAYER_ELIMINATED, with single spaces between the
words and a newline at the end; for another pending type it returns 0 and leaves the
array as it is. -/
theorem prepare_message_line (digits_count : Nat → Nat) (state : client_game_state_t)
    (buffer : List Nat) (hdigits : ∀ n, digits_count n = (decimal n).length)
    (hfits : (frontend_line state).length ≤ buffer.length) :
    (prepare_message digits_count state buffer).1 = (frontend_line state).length ∧
    (prepare_message digits_count state buffer).2.take (frontend_line state).length =
      frontend_line state ∧
    (prepare_message digits_count state buffer).2.length = buffer.length ∧
    (state.data_for_gui.event_type ≠ EVENT_NEW_GAME →
      state.data_for_gui.event_type ≠ EVENT_PIXEL →
      state.data_for_gui.event_type ≠ EVENT_PLAYER_ELIMINATED →
      prepare_message digits_count state buffer = (0, buffer)) := by
  by_cases h0 : state.data_for_gui.event_type = EVENT_NEW_GAME
  · have hline : frontend_line state = text_NEW_GAME ++ decimal state.data_for_gui.x ++ [32] ++
        decimal state.data_for_gui.y ++ [32] ++
        List.intercalate [32] ((List.range state.players_count).map
          (fun i => c_str (state.game_players.getD i []))) ++ [10] := by
      unfold frontend_line
      rw [if_pos h0]
    rw [hline] at hfits ⊢
    unfold prepare_message
    rw [if_pos h0]
    simp only [List.length_append, List.length_singleton] at hfits
    simp only []
    rw [hdigits, hdigits]
    obtain ⟨w1, w2⟩ := write_at_zero buffer text_NEW_GAME
      (by show 9 ≤ _; have : text_NEW_GAME.length = 9 := rfl; omega)
    have ht : text_NEW_GAME.length = 9 := rfl
    rw [ht] at w2 hfits
    generalize write_at buffer 0 text_NEW_GAME = buffer1 at w1 w2 ⊢
    obtain ⟨j1, j2, j3⟩ := inject_two_separated_numbers_spec buffer1 9
      state.data_for_gui.x state.data_for_gui.y (by omega)
    rw [w2] at j3
    generalize inject_two_separated_numbers buffer1 9 state.data_for_gui.x
      (decimal state.data_for_gui.x).length state.data_for_gui.y
      (decimal state.data_for_gui.y).length = injected at j1 j2 j3 ⊢
    rw [← j1] at j3
    rw [List.range_eq_range'] at hfits ⊢
    obtain ⟨n1, n2, n3⟩ := prepare_message_names_spec state state.players_count 0
      (9 + injected.1) injected.2 (Nat.zero_le _) (by omega)
      (by rw [Nat.sub_zero]; omega)
    rw [Nat.sub_zero] at n1 n3
    rw [j3] at n3
    generalize prepare_message_names state state.players_count 0 (9 + injected.1)
      injected.2 = named at n1 n2 n3 ⊢
    have hlen : (text_NEW_GAME ++ decimal state.data_for_gui.x ++ [32] ++
        decimal state.data_for_gui.y ++ [32] ++
        List.intercalate [32] ((List.range' 0 state.players_count).map
          (fun i => c_str (state.game_players.getD i []))) ++ [10]).length = named.1 + 1 := by
      simp only [List.length_append, List.length_singleton]
      omega
    refine ⟨hlen.symm, ?_, by rw [List.length_set]; omega, fun h => absurd h0 h⟩
    rw [hlen, set_take_succ _ _ _ (by omega), n3]
  · by_cases h1 : state.data_for_gui.event_type = EVENT_PIXEL
    · have hline : frontend_line state = text_PIXEL ++ decimal state.data_for_gui.x ++ [32] ++
          decimal state.data_for_gui.y ++ [32] ++
          c_str (state.game_players.getD state.data_for_gui.player_no []) ++ [10] := by
        unfold frontend_line
        rw [if_neg h0, if_pos h1]
      rw [hline] at hfits ⊢
      unfold prepare_message
      rw [if_neg h0, if_pos h1]
      simp only [List.length_append, List.length_singleton] at hfits
      simp only []
      rw [hdigits, hdigits]
      obtain ⟨w1, w2⟩ := write_at_zero buffer text_PIXEL
        (by show 6 ≤ _; have : text_PIXEL.length = 6 := rfl; omega)
      have ht : text_PIXEL.length = 6 := rfl
      rw [ht] at w2 hfits
      generalize write_at buffer 0 text_PIXEL = buffer1 at w1 w2 ⊢
      obtain ⟨j1, j2, j3⟩ := inject_two_separated_numbers_spec buffer1 6
        state.data_for_gui.x state.data_for_gui.y (by omega)
      rw [w2] at j3
      generalize inject_two_separated_numbers buffer1 6 state.data_for_gui.x
        (decimal state.data_for_gui.x).length state.data_for_gui.y
        (decimal state.data_for_gui.y).length = injected at j1 j2 j3 ⊢
      rw [← j1] at j3
      unfold strlen
      obtain ⟨a1, a2⟩ := snprintf_set_take injected.2 (6 + injected.1)
        (c_str (state.game_players.getD state.data_for_gui.player_no [])) 10 (by omega)
      rw [j3] at a2
      have hlen : (text_PIXEL ++ decimal state.data_for_gui.x ++ [32] ++
          decimal state.data_for_gui.y ++ [32] ++
          c_str (state.game_players.getD state.data_for_gui.player_no []) ++ [10]).length =
          6 + injected.1 +
            (c_str (state.game_players.getD state.data_for_gui.player_no [])).length + 1 := by
        simp only [List.length_append, List.length_singleton]
        omega
      refine ⟨hlen.symm, ?_, by rw [a1]; omega, fun _ h => absurd h1 h⟩
      rw [hlen, a2]
    · by_cases h2 : state.data_for_gui.event_type = EVENT_PLAYER_ELIMINATED
      · have hline : frontend_line state = text_PLAYER_ELIMINATED ++
            c_str (state.game_players.getD state.data_for_gui.player_no []) ++ [10] := by
          unfold frontend_line
          rw [if_neg h0, if_neg h1, if_pos h2]
        rw [hline] at hfits ⊢
        unfold prepare_message
        rw [if_neg h0, if_neg h1, if_pos h2]
        simp only [List.length_append, List.length_singleton] at hfits
        simp only []
        obtain ⟨w1, w2⟩ := write_at_zero buffer text_PLAYER_ELIMINATED
          (by show 18 ≤ _; have : text_PLAYER_ELIMINATED.length = 18 := rfl; omega)
        have ht : text_PLAYER_ELIMINATED.length = 18 := rfl
        rw [ht] at w2 hfits
        generalize write_at buffer 0 text_PLAYER_ELIMINATED = buffer1 at w1 w2 ⊢
        unfold strlen
        obtain ⟨a1, a2⟩ := snprintf_set_take buffer1 18
          (c_str (state.game_players.getD state.data_for_gui.player_no [])) 10 (by omega)
        rw [w2] at a2
        have hlen : (text_PLAYER_ELIMINATED ++
            c_str (state.game_players.getD state.data_for_gui.player_no []) ++ [10]).length =
            18 + (c_str (state.game_players.getD state.data_for_gui.player_no [])).length + 1 := by
          simp only [List.length_append, List.length_singleton]
          omega
        refine ⟨hlen.symm, ?_, by rw [a1]; omega, fun _ _ h => absurd h2 h⟩
        rw [hlen, a2]
      · have hline : frontend_line state = [] := by
          unfold frontend_line
          rw [if_neg h0, if_neg h1, if_neg h2]
        rw [hline]
        unfold prepare_message
        rw [if_neg h0, if_neg h1, if_neg h2]
        exact ⟨rfl, rfl, rfl, fun _ _ _ => rfl⟩
set_option maxRecDepth 1000000 in
/-- C30, at the client of the game of "Alice" and "Bob" with the array of 1024 bytes of
`handle_server_message`: the pending NEW_GAME of the board of 640 by 480 gives the 27
bytes of "NEW_GAME 640 480 Alice Bob" and a newline; a pending PIXEL of player 1 at
(7, 300) gives "PIXEL 7 300 Bob" and a newline, and a pending PLAYER_ELIMINATED of player
0 gives "PLAYER_ELIMINATED Alice" and a newline. -/
theorem prepare_message_line_witness :
    frontend_line (client_with_pending
      { x := 640, y := 480, event_type := EVENT_NEW_GAME, player_no := 0, ready_to_send := 1 }) =
      text_NEW_GAME ++ [54, 52, 48, 32, 52, 56, 48, 32] ++ name_Alice ++ [32] ++ name_Bob ++
        [10] ∧
    (prepare_message (fun n => (decimal n).length)
      (client_with_pending
        { x := 640, y := 480, event_type := EVENT_NEW_GAME, player_no := 0, ready_to_send := 1 })
      (List.replicate MSG_GUI_BUFFER_LENGTH 0)).1 =
      (frontend_line (client_with_pending
        { x := 640, y := 480, event_type := EVENT_NEW_GAME, player_no := 0,
          ready_to_send := 1 })).length ∧
    (prepare_message (fun n => (decimal n).length)
      (client_with_pending
        { x := 640, y := 480, event_type := EVENT_NEW_GAME, player_no := 0, ready_to_send := 1 })
      (List.replicate MSG_GUI_BUFFER_LENGTH 0)).2.take
        (frontend_line (client_with_pending
          { x := 640, y := 480, event_type := EVENT_NEW_GAME, player_no := 0,
            ready_to_send := 1 })).length =
      frontend_line (client_with_pending
        { x := 640, y := 480, event_type := EVENT_NEW_GAME, player_no := 0,
          ready_to_send := 1 }) ∧
    frontend_line (client_with_pending
      { x := 7, y := 300, event_type := EVENT_PIXEL, player_no := 1, ready_to_send := 1 }) =
      text_PIXEL ++ [55, 32, 51, 48, 48, 32] ++ name_Bob ++ [10] ∧
    frontend_line (client_with_pending
      { x := 7, y := 300, event_type := EVENT_PLAYER_ELIMINATED, player_no := 0,
        ready_to_send := 1 }) = text_PLAYER_ELIMINATED ++ name_Alice ++ [10] :=
  have h := prepare_message_line (fun n => (decimal n).length)
    (client_with_pending
      { x := 640, y := 480, event_type := EVENT_NEW_GAME, player_no := 0, ready_to_send := 1 })
    (List.replicate MSG_GUI_BUFFER_LENGTH 0) (fun _ => rfl) (by decide)
  ⟨by decide, h.1, h.2.1, by decide, by decide⟩

/-! ## The start of a game: numbers and draws -/

theorem status_after_add (m : Nat) (status : seed_status_t) :
    ∀ n, status_after n (status_after m status) = status_after (n + m) status := by
  intro n
  induction n with
  | zero => rw [Nat.zero_add]; rfl
  | succ k ih =>
    rw [status_after, ih, Nat.add_right_comm]
    rfl

theorem nth_random_add (n m : Nat) (status : seed_status_t) :
    nth_random n (status_after m status) = nth_random (n + m) status := by
  unfold nth_random
  rw [status_after_add]

theorem playing_count_succ (players : List client_t) (i n : Nat) :
    playing_count players i (n + 1) =
      (if (players.getD i default).is_playing = true then 1 else 0) +
        playing_count players (i + 1) n := by
  unfold playing_count
  rw [List.range'_succ, List.filter_cons]
  by_cases h : (players.getD i default).is_playing = true
  · rw [if_pos h, if_pos h, List.length_cons]
    omega
  · rw [if_neg h, if_neg h]
    omega

theorem playing_count_congr (players players1 : List client_t) (i n : Nat)
    (h : ∀ j, (players1.getD j default).is_playing = (players.getD j default).is_playing) :
    playing_count players1 i n = playing_count players i n := by
  unfold playing_count
  congr 1
  apply List.filter_congr
  intro j _
  rw [h j]

theorem playing_count_le (players : List client_t) (i n : Nat) :
    playing_count players i n ≤ n := by
  unfold playing_count
  have := List.length_filter_le (fun j => (players.getD j default).is_playing)
    (List.range' i n)
  rw [List.length_range'] at this
  exact this

theorem playing_count_zero (players : List client_t) (i : Nat) :
    playing_count players i 0 = 0 := rfl

theorem is_playing_lt_length (players : List client_t) (i : Nat)
    (h : (players.getD i default).is_playing = true) : i < players.length := by
  by_contra hn
  rw [List.getD_eq_default _ _ (by omega)] at h
  exact absurd h (by decide)
theorem initiate_game_place_spec :
    ∀ (fuel i : Nat) (current_event : event_data_t) (state : server_game_state_t),
      state.events_count + fuel < UINT32_RANGE →
      (initiate_game_place fuel i current_event state).random =
        status_after (3 * playing_count state.players i fuel) state.random ∧
      (initiate_game_place fuel i current_event state).events_count =
        state.events_count + playing_count state.players i fuel ∧
      (initiate_game_place fuel i current_event state).game_params = state.game_params ∧
      (initiate_game_place fuel i current_event state).game_id = state.game_id ∧
      (initiate_game_place fuel i current_event state).players_count = state.players_count ∧
      (initiate_game_place fuel i current_event state).game_primary_player_names =
        state.game_primary_player_names ∧
      (∀ k, k < state.events_count →
        (initiate_game_place fuel i current_event state).events_queue.getD k default =
          state.events_queue.getD k default) ∧
      (∀ s, (s < i ∨ i + fuel ≤ s ∨ (state.players.getD s default).is_playing = false) →
        (initiate_game_place fuel i current_event state).players.getD s default =
          state.players.getD s default) ∧
      (∀ s,
        ((initiate_game_place fuel i current_event state).players.getD s default).is_playing =
          (state.players.getD s default).is_playing ∧
        ((initiate_game_place fuel i current_event state).players.getD s default).player_number =
          (state.players.getD s default).player_number ∧
        ((initiate_game_place fuel i current_event state).players.getD s default).name =
          (state.players.getD s default).name ∧
        ((initiate_game_place fuel i current_event state).players.getD s default).conn =
          (state.players.getD s default).conn) ∧
      (∀ s, i ≤ s → s < i + fuel → (state.players.getD s default).is_playing = true →
        ((initiate_game_place fuel i current_event state).players.getD s default).x_pos =
          ((nth_random (3 * playing_count state.players i (s - i)) state.random %
            state.game_params.board_dimension_x : Nat) : ℚ) + 1 / 2 ∧
        ((initiate_game_place fuel i current_event state).players.getD s default).y_pos =
          ((nth_random (3 * playing_count state.players i (s - i) + 1) state.random %
            state.game_params.board_dimension_y : Nat) : ℚ) + 1 / 2 ∧
        ((initiate_game_place fuel i current_event state).players.getD s default).direction =
          ((nth_random (3 * playing_count state.players i (s - i) + 2) state.random % 360 :
            Nat) : Int) ∧
        ((initiate_game_place fuel i current_event state).events_queue.getD
          (state.events_count + playing_count state.players i (s - i)) default).player_number =
            (state.players.getD s default).player_number ∧
        (((initiate_game_place fuel i current_event state).events_queue.getD
          (state.events_count + playing_count state.players i (s - i)) default).event_type =
            EVENT_PLAYER_ELIMINATED ∨
          (((initiate_game_place fuel i current_event state).events_queue.getD
            (state.events_count + playing_count state.players i (s - i)) default).event_type =
              EVENT_PIXEL ∧
            ((initiate_game_place fuel i current_event state).events_queue.getD
              (state.events_count + playing_count state.players i (s - i)) default).x =
              to_uint32 (trunc_int32
                ((initiate_game_place fuel i current_event state).players.getD s
                  default).x_pos) ∧
            ((initiate_game_place fuel i current_event state).events_queue.getD
              (state.events_count + playing_count state.players i (s - i)) default).y =
              to_uint32 (trunc_int32
                ((initiate_game_place fuel i current_event state).players.getD s
                  default).y_pos)))) := by
  intro fuel
  induction fuel with
  | zero =>
    intro i current_event state _
    refine ⟨rfl, rfl, rfl, rfl, rfl, rfl, fun _ _ => rfl, fun _ _ => rfl,
      fun _ => ⟨rfl, rfl, rfl, rfl⟩, fun s h1 h2 => by omega⟩
  | succ n ih =>
    intro i current_event state hroom
    unfold initiate_game_place
    by_cases hp : (state.players.getD i default).is_playing = true
    · rw [if_pos hp]
      have hil := is_playing_lt_length state.players i hp
      have hstep : ∀ (event : event_data_t) (stateX : server_game_state_t),
          stateX.random = status_after 3 state.random →
          stateX.events_count = state.events_count →
          stateX.events_queue = state.events_queue →
          stateX.game_params = state.game_params →
          stateX.game_id = state.game_id →
          stateX.players_count = state.players_count →
          stateX.game_primary_player_names = state.game_primary_player_names →
          stateX.players = state.players.set i
            { state.players.getD i default with
              x_pos := ((nth_random 0 state.random % state.game_params.board_dimension_x :
                Nat) : ℚ) + 1 / 2
              y_pos := ((nth_random 1 state.random % state.game_params.board_dimension_y :
                Nat) : ℚ) + 1 / 2
              direction := ((nth_random 2 state.random % 360 : Nat) : Int) } →
          event.player_number = (state.players.getD i default).player_number →
          (event.event_type = EVENT_PLAYER_ELIMINATED ∨
            (event.event_type = EVENT_PIXEL ∧
              event.x = to_uint32 (trunc_int32
                (((nth_random 0 state.random % state.game_params.board_dimension_x :
                  Nat) : ℚ) + 1 / 2)) ∧
              event.y = to_uint32 (trunc_int32
                (((nth_random 1 state.random % state.game_params.board_dimension_y :
                  Nat) : ℚ) + 1 / 2)))) →
          (fun r : server_game_state_t =>
            r.random = status_after (3 * playing_count state.players i (n + 1)) state.random ∧
            r.events_count = state.events_count + playing_count state.players i (n + 1) ∧
            r.game_params = state.game_params ∧ r.game_id = state.game_id ∧
            r.players_count = state.players_count ∧
            r.game_primary_player_names = state.game_primary_player_names ∧
            (∀ k, k < state.events_count →
              r.events_queue.getD k default = state.events_queue.getD k default) ∧
            (∀ s, (s < i ∨ i + (n + 1) ≤ s ∨ (state.players.getD s default).is_playing = false) →
              r.players.getD s default = state.players.getD s default) ∧
            (∀ s,
              (r.players.getD s default).is_playing = (state.players.getD s default).is_playing ∧
              (r.players.getD s default).player_number =
                (state.players.getD s default).player_number ∧
              (r.players.getD s default).name = (state.players.getD s default).name ∧
              (r.players.getD s default).conn = (state.players.getD s default).conn) ∧
            (∀ s, i ≤ s → s < i + (n + 1) → (state.players.getD s default).is_playing = true →
              (r.players.getD s default).x_pos =
                ((nth_random (3 * playing_count state.players i (s - i)) state.random %
                  state.game_params.board_dimension_x : Nat) : ℚ) + 1 / 2 ∧
              (r.players.getD s default).y_pos =
                ((nth_random (3 * playing_count state.players i (s - i) + 1) state.random %
                  state.game_params.board_dimension_y : Nat) : ℚ) + 1 / 2 ∧
              (r.players.getD s default).direction =
                ((nth_random (3 * playing_count state.players i (s - i) + 2) state.random % 360 :
                  Nat) : Int) ∧
              (r.events_queue.getD
                (state.events_count + playing_count state.players i (s - i))
                  default).player_number = (state.players.getD s default).player_number ∧
              ((r.events_queue.getD
                (state.events_count + playing_count state.players i (s - i))
                  default).event_type = EVENT_PLAYER_ELIMINATED ∨
                ((r.events_queue.getD
                  (state.events_count + playing_count state.players i (s - i))
                    default).event_type = EVENT_PIXEL ∧
                  (r.events_queue.getD
                    (state.events_count + playing_count state.players i (s - i)) default).x =
                    to_uint32 (trunc_int32 (r.players.getD s default).x_pos) ∧
                  (r.events_queue.getD
                    (state.events_count + playing_count state.players i (s - i)) default).y =
                    to_uint32 (trunc_int32 (r.players.getD s default).y_pos)))))
            (initiate_game_place n (i + 1) event (enqueue_event stateX event)) := by
        intro event stateX x1 x2 x3 x4 x5 x6 x7 x8 x9 x10
        have hcount : (enqueue_event stateX event).events_count = state.events_count + 1 := by
          rw [enqueue_event_count _ _ (by omega), x2]
        have hqueue : ∀ k, (enqueue_event stateX event).events_queue.getD k default =
            if k = state.events_count then event else state.events_queue.getD k default := by
          intro k
          rw [enqueue_event_getD, x2, x3]
        have hplayers : (enqueue_event stateX event).players = stateX.players := rfl
        have hget : ∀ s, s ≠ i → (enqueue_event stateX event).players.getD s default =
            state.players.getD s default := by
          intro s hs
          rw [hplayers, x8, getD_set_of_ne _ _ _ _ _ (fun h => hs h.symm)]
        have hgeti : (enqueue_event stateX event).players.getD i default =
            { state.players.getD i default with
              x_pos := ((nth_random 0 state.random % state.game_params.board_dimension_x :
                Nat) : ℚ) + 1 / 2
              y_pos := ((nth_random 1 state.random % state.game_params.board_dimension_y :
                Nat) : ℚ) + 1 / 2
              direction := ((nth_random 2 state.random % 360 : Nat) : Int) } := by
          rw [hplayers, x8, getD_set_eq, if_pos ⟨rfl, hil⟩]
        have hflag : ∀ s, ((enqueue_event stateX event).players.getD s default).is_playing =
            (state.players.getD s default).is_playing := by
          intro s
          by_cases hs : s = i
          · rw [hs, hgeti]
          · rw [hget s hs]
        have hpc : ∀ a b, playing_count (enqueue_event stateX event).players a b =
            playing_count state.players a b :=
          fun a b => playing_count_congr _ _ a b hflag
        obtain ⟨k1, k2, k3, k4, k5, k6, k7, k8, k9, k10⟩ := ih (i + 1) event
          (enqueue_event stateX event) (by rw [hcount]; omega)
        have hc : playing_count state.players i (n + 1) =
            1 + playing_count state.players (i + 1) n := by
          rw [playing_count_succ, if_pos hp]
        have hrandom : (enqueue_event stateX event).random = status_after 3 state.random := x1
        have hparams : (enqueue_event stateX event).game_params = state.game_params := x4
        refine ⟨?_, ?_, k3.trans x4, k4.trans x5, k5.trans x6, k6.trans x7, ?_, ?_, ?_, ?_⟩
        · rw [k1, hpc, hrandom, status_after_add, hc]
          congr 1
          omega
        · rw [k2, hpc, hcount, hc]
          omega
        · intro k hk
          rw [k7 k (by rw [hcount]; omega), hqueue, if_neg (by omega)]
        · intro s hs
          rcases hs with hs | hs | hs
          · rw [k8 s (Or.inl (by omega)), hget s (by omega)]
          · rw [k8 s (Or.inr (Or.inl (by omega))), hget s (by omega)]
          · have hsi : s ≠ i := by
              intro h
              rw [h, hp] at hs
              exact absurd hs (by decide)
            rw [k8 s (Or.inr (Or.inr (by rw [hflag]; exact hs))), hget s hsi]
        · intro s
          obtain ⟨a1, a2, a3, a4⟩ := k9 s
          by_cases hs : s = i
          · rw [hs] at a1 a2 a3 a4 ⊢
            rw [hgeti] at a1 a2 a3 a4
            exact ⟨a1, a2, a3, a4⟩
          · rw [hget s hs] at a1 a2 a3 a4
            exact ⟨a1, a2, a3, a4⟩
        · intro s hs1 hs2 hsp
          by_cases hs : s = i
          · subst hs
            simp only [Nat.sub_self, playing_count_zero, Nat.mul_zero, Nat.zero_add,
              Nat.add_zero]
            have hsame := k8 s (Or.inl (Nat.lt_succ_self s))
            have hq : (initiate_game_place n (s + 1) event
                (enqueue_event stateX event)).events_queue.getD state.events_count default =
                event := by
              rw [k7 _ (by rw [hcount]; omega), hqueue, if_pos rfl]
            rw [hsame, hq, hgeti]
            exact ⟨rfl, rfl, rfl, x9, x10⟩
          · have hpcs : playing_count state.players i (s - i) =
                1 + playing_count state.players (i + 1) (s - (i + 1)) := by
              obtain ⟨m, hm⟩ : ∃ m, s - i = m + 1 := ⟨s - i - 1, by omega⟩
              have hm2 : s - (i + 1) = m := by omega
              rw [hm, hm2, playing_count_succ, if_pos hp]
            obtain ⟨b1, b2, b3, b4, b5⟩ := k10 s (by omega) (by omega)
              (by rw [hflag]; exact hsp)
            rw [hpc, hrandom, nth_random_add, hparams] at b1 b2
            rw [hpc, hrandom, nth_random_add] at b3
            rw [hpc, hcount, hget s hs] at b4
            rw [hpc, hcount] at b5
            have e0 : 3 * playing_count state.players (i + 1) (s - (i + 1)) + 3 =
                3 * playing_count state.players i (s - i) := by omega
            have e1 : 3 * playing_count state.players (i + 1) (s - (i + 1)) + 1 + 3 =
                3 * playing_count state.players i (s - i) + 1 := by omega
            have e2 : 3 * playing_count state.players (i + 1) (s - (i + 1)) + 2 + 3 =
                3 * playing_count state.players i (s - i) + 2 := by omega
            have e3 : state.events_count + 1 +
                playing_count state.players (i + 1) (s - (i + 1)) =
                state.events_count + playing_count state.players i (s - i) := by omega
            rw [e0] at b1
            rw [e1] at b2
            rw [e2] at b3
            rw [e3] at b4 b5
            exact ⟨b1, b2, b3, b4, b5⟩
      simp only []
      split
      · exact hstep _ _ rfl rfl rfl rfl rfl rfl rfl rfl rfl (Or.inl rfl)
      · exact hstep _ _ rfl rfl rfl rfl rfl rfl rfl rfl rfl (Or.inr ⟨rfl, rfl, rfl⟩)
    · rw [if_neg hp]
      have hpf : (state.players.getD i default).is_playing = false := by
        cases h : (state.players.getD i default).is_playing
        · rfl
        · exact absurd h hp
      obtain ⟨k1, k2, k3, k4, k5, k6, k7, k8, k9, k10⟩ := ih (i + 1) current_event state
        (by omega)
      have hc : playing_count state.players i (n + 1) = playing_count state.players (i + 1) n := by
        rw [playing_count_succ, if_neg hp, Nat.zero_add]
      refine ⟨by rw [k1, hc], by rw [k2, hc], k3, k4, k5, k6, k7, ?_, k9, ?_⟩
      · intro s hs
        rcases hs with hs | hs | hs
        · exact k8 s (Or.inl (by omega))
        · exact k8 s (Or.inr (Or.inl (by omega)))
        · exact k8 s (Or.inr (Or.inr hs))
      · intro s hs1 hs2 hsp
        have hs : s ≠ i := by
          intro h
          rw [h] at hsp
          exact hp hsp
        have hpcs : playing_count state.players i (s - i) =
            playing_count state.players (i + 1) (s - (i + 1)) := by
          obtain ⟨m, hm⟩ : ∃ m, s - i = m + 1 := ⟨s - i - 1, by omega⟩
          have hm2 : s - (i + 1) = m := by omega
          rw [hm, hm2, playing_count_succ, if_neg hp, Nat.zero_add]
        rw [hpcs]
        exact k10 s (by omega) (by omega) hsp
theorem initiate_game_numbers_spec :
    ∀ (fuel i player_no : Nat) (state : server_game_state_t), player_no + fuel < 256 →
      (initiate_game_numbers fuel i player_no state).random = state.random ∧
      (initiate_game_numbers fuel i player_no state).game_params = state.game_params ∧
      (initiate_game_numbers fuel i player_no state).events_count = state.events_count ∧
      (initiate_game_numbers fuel i player_no state).players_count = state.players_count ∧
      (∀ s, (initiate_game_numbers fuel i player_no state).players.getD s default =
        if i ≤ s ∧ s < i + fuel ∧ (state.players.getD s default).is_playing = true then
          { state.players.getD s default with
            player_number := player_no + playing_count state.players i (s - i) }
        else state.players.getD s default) ∧
      (∀ k, k < player_no →
        (initiate_game_numbers fuel i player_no state).game_primary_player_names.getD k [] =
          state.game_primary_player_names.getD k []) ∧
      (∀ s, i ≤ s → s < i + fuel → (state.players.getD s default).is_playing = true →
        player_no + playing_count state.players i (s - i) <
          state.game_primary_player_names.length →
        (initiate_game_numbers fuel i player_no state).game_primary_player_names.getD
            (player_no + playing_count state.players i (s - i)) [] =
          (state.players.getD s default).name.take (MAX_PLAYER_NAME_LENGTH + 1)) := by
  intro fuel
  induction fuel with
  | zero =>
    intro i player_no state _
    refine ⟨rfl, rfl, rfl, rfl, fun s => ?_, fun _ _ => rfl, fun s h1 h2 => by omega⟩
    rw [if_neg (by omega)]
    rfl
  | succ n ih =>
    intro i player_no state hroom
    unfold initiate_game_numbers
    by_cases hp : (state.players.getD i default).is_playing = true
    · rw [if_pos hp]
      have hil := is_playing_lt_length state.players i hp
      have hmod : (player_no + 1) % 256 = player_no + 1 := Nat.mod_eq_of_lt (by omega)
      rw [hmod]
      have hstep : ∀ (S : server_game_state_t), S.random = state.random →
          S.game_params = state.game_params → S.events_count = state.events_count →
          S.players_count = state.players_count →
          S.players = state.players.set i
            { state.players.getD i default with player_number := player_no } →
          S.game_primary_player_names = state.game_primary_player_names.set player_no
            ((state.players.getD i default).name.take (MAX_PLAYER_NAME_LENGTH + 1)) →
          (fun r : server_game_state_t =>
            r.random = state.random ∧ r.game_params = state.game_params ∧
            r.events_count = state.events_count ∧ r.players_count = state.players_count ∧
            (∀ s, r.players.getD s default =
              if i ≤ s ∧ s < i + (n + 1) ∧ (state.players.getD s default).is_playing = true then
                { state.players.getD s default with
                  player_number := player_no + playing_count state.players i (s - i) }
              else state.players.getD s default) ∧
            (∀ k, k < player_no →
              r.game_primary_player_names.getD k [] =
                state.game_primary_player_names.getD k []) ∧
            (∀ s, i ≤ s → s < i + (n + 1) → (state.players.getD s default).is_playing = true →
              player_no + playing_count state.players i (s - i) <
                state.game_primary_player_names.length →
              r.game_primary_player_names.getD
                  (player_no + playing_count state.players i (s - i)) [] =
                (state.players.getD s default).name.take (MAX_PLAYER_NAME_LENGTH + 1)))
            (initiate_game_numbers n (i + 1) (player_no + 1) S) := by
        intro S x1 x2 x3 x4 x5 x6
        obtain ⟨k1, k2, k3, k4, k5, k6, k7⟩ := ih (i + 1) (player_no + 1) S (by omega)
        rw [x5] at k5 k7
        rw [x6] at k6 k7
        have hget : ∀ s, s ≠ i → (state.players.set i
            { state.players.getD i default with player_number := player_no }).getD s default =
            state.players.getD s default :=
          fun s hs => getD_set_of_ne _ _ _ _ _ (fun h => hs h.symm)
        have hgeti : (state.players.set i
            { state.players.getD i default with player_number := player_no }).getD i default =
            { state.players.getD i default with player_number := player_no } := by
          rw [getD_set_eq, if_pos ⟨rfl, hil⟩]
        have hflag : ∀ s, ((state.players.set i
            { state.players.getD i default with player_number := player_no }).getD s
              default).is_playing = (state.players.getD s default).is_playing := by
          intro s
          by_cases hs : s = i
          · rw [hs, hgeti]
          · rw [hget s hs]
        have hpc : ∀ a b, playing_count (state.players.set i
            { state.players.getD i default with player_number := player_no }) a b =
            playing_count state.players a b :=
          fun a b => playing_count_congr _ _ a b hflag
        have hpcs : ∀ s, i < s → playing_count state.players i (s - i) =
            1 + playing_count state.players (i + 1) (s - (i + 1)) := by
          intro s hs
          obtain ⟨m, hm⟩ : ∃ m, s - i = m + 1 := ⟨s - i - 1, by omega⟩
          have hm2 : s - (i + 1) = m := by omega
          rw [hm, hm2, playing_count_succ, if_pos hp]
        refine ⟨k1.trans x1, k2.trans x2, k3.trans x3, k4.trans x4, fun s => ?_, fun k hk => ?_, fun s hs1 hs2 hsp hlen => ?_⟩
        · rw [k5 s]
          by_cases hs : s = i
          · subst hs
            rw [if_neg (by omega), hgeti, if_pos ⟨Nat.le_refl _, by omega, hp⟩, Nat.sub_self,
              playing_count_zero, Nat.add_zero]
          · rw [hflag, hget s hs, hpc]
            by_cases hc : i + 1 ≤ s ∧ s < i + 1 + n ∧
                (state.players.getD s default).is_playing = true
            · rw [if_pos hc, if_pos ⟨by omega, by omega, hc.2.2⟩, hpcs s (by omega),
                ← Nat.add_assoc]
            · rw [if_neg hc, if_neg (fun h => hc ⟨by omega, by omega, h.2.2⟩)]
        · rw [k6 k (by omega)]
          exact getD_set_of_ne _ _ _ _ _ (by omega)
        · by_cases hs : s = i
          · subst hs
            simp only [Nat.sub_self, playing_count_zero, Nat.add_zero] at hlen ⊢
            rw [k6 player_no (by omega), getD_set_eq, if_pos ⟨rfl, hlen⟩]
          · have e := hpcs s (by omega)
            have := k7 s (by omega) (by omega) (by rw [hflag]; exact hsp)
              (by rw [hpc, List.length_set]; omega)
            rw [hpc, hget s hs] at this
            rw [e, ← Nat.add_assoc]
            exact this
      exact hstep _ rfl rfl rfl rfl rfl rfl
    · rw [if_neg hp]
      obtain ⟨k1, k2, k3, k4, k5, k6, k7⟩ := ih (i + 1) player_no
        { state with alive := state.alive.set i true } (by omega)
      simp only [] at k5 k6 k7
      have hpcs : ∀ s, i < s → playing_count state.players i (s - i) =
          playing_count state.players (i + 1) (s - (i + 1)) := by
        intro s hs
        obtain ⟨m, hm⟩ : ∃ m, s - i = m + 1 := ⟨s - i - 1, by omega⟩
        have hm2 : s - (i + 1) = m := by omega
        rw [hm, hm2, playing_count_succ, if_neg hp, Nat.zero_add]
      refine ⟨k1, k2, k3, k4, fun s => ?_, k6, fun s hs1 hs2 hsp hlen => ?_⟩
      · rw [k5 s]
        by_cases hs : s = i
        · subst hs
          rw [if_neg (by omega), if_neg (fun h => hp h.2.2)]
        · by_cases hc : i + 1 ≤ s ∧ s < i + 1 + n ∧
              (state.players.getD s default).is_playing = true
          · rw [if_pos hc, if_pos ⟨by omega, by omega, hc.2.2⟩, hpcs s (by omega)]
          · rw [if_neg hc, if_neg (fun h => hc ⟨by omega, by omega, h.2.2⟩)]
      · have hs : s ≠ i := by
          intro h
          rw [h] at hsp
          exact hp hsp
        rw [hpcs s (by omega)] at hlen ⊢
        exact k7 s (by omega) (by omega) hsp hlen
theorem trunc_int32_half (n : Nat) : trunc_int32 ((n : ℚ) + 1 / 2) = (n : Int) := by
  unfold trunc_int32
  have h0 : (0 : ℚ) ≤ (n : ℚ) + 1 / 2 := by positivity
  rw [if_pos h0]
  have h : Int.floor ((n : ℚ) + 1 / 2) = (n : Int) := by
    rw [Int.floor_eq_iff]
    constructor
    · push_cast
      linarith
    · push_cast
      linarith
  exact h

theorem to_uint32_trunc_half (n : Nat) :
    to_uint32 (trunc_int32 ((n : ℚ) + 1 / 2)) = n % UINT32_RANGE := by
  rw [trunc_int32_half]
  unfold to_uint32
  rw [← Int.natCast_mod, Int.toNat_natCast]

theorem sort_players_frame (state : server_game_state_t) :
    (sort_players state).random = state.random ∧
    (sort_players state).game_params = state.game_params ∧
    (sort_players state).ready_players = state.ready_players ∧
    (sort_players state).game_primary_player_names = state.game_primary_player_names := by
  unfold sort_players
  exact ⟨rfl, rfl, rfl, rfl⟩

theorem initiate_game_state_eq (state : server_game_state_t) :
    ∃ state2 state3 state4 state5 : server_game_state_t,
      state2 = { sort_players state with
        game_board := List.replicate (sort_players state).game_params.board_dimension_x
          (List.replicate (sort_players state).game_params.board_dimension_y false)
        players_count := (sort_players state).ready_players
        alive_players_count := (sort_players state).ready_players
        events_count := 0 } ∧
      state3 = initiate_game_numbers MAX_PLAYERS 0 0 state2 ∧
      state4 = enqueue_event
        { state3 with game_id := (generate_random state3.random).1,
                      random := (generate_random state3.random).2 }
        { event_type := EVENT_NEW_GAME, x := state3.game_params.board_dimension_x,
          y := state3.game_params.board_dimension_y, player_number := 0 } ∧
      state5 = initiate_game_place MAX_PLAYERS 0
        { event_type := EVENT_NEW_GAME, x := state3.game_params.board_dimension_x,
          y := state3.game_params.board_dimension_y, player_number := 0 } state4 ∧
      initiate_game_state state = { state5 with game_status := GAME_STATE_GAME_STARTED } := by
  unfold initiate_game_state
  dsimp only
  exact ⟨_, _, _, _, rfl, rfl, rfl, rfl, rfl⟩

/-- What `initiate_game` does after the sort, in terms of the sorted slots: numbers, draws
and log. -/
theorem initiate_game_state_spec (state : server_game_state_t) :
    (initiate_game_state state).game_status = GAME_STATE_GAME_STARTED ∧
    (initiate_game_state state).players_count = state.ready_players ∧
    (initiate_game_state state).game_params = state.game_params ∧
    (initiate_game_state state).game_id = nth_random 0 state.random ∧
    (initiate_game_state state).random =
      status_after (3 * playing_count (sort_players state).players 0 MAX_PLAYERS + 1)
        state.random ∧
    (initiate_game_state state).events_count =
      playing_count (sort_players state).players 0 MAX_PLAYERS + 1 ∧
    (initiate_game_state state).events_queue.getD 0 default =
      { event_type := EVENT_NEW_GAME, x := state.game_params.board_dimension_x,
        y := state.game_params.board_dimension_y, player_number := 0 } ∧
    (∀ s,
      ((initiate_game_state state).players.getD s default).is_playing =
        ((sort_players state).players.getD s default).is_playing ∧
      ((initiate_game_state state).players.getD s default).name =
        ((sort_players state).players.getD s default).name ∧
      ((initiate_game_state state).players.getD s default).conn =
        ((sort_players state).players.getD s default).conn) ∧
    (∀ s, s < MAX_PLAYERS → ((sort_players state).players.getD s default).is_playing = true →
      ((initiate_game_state state).players.getD s default).player_number =
        playing_count (sort_players state).players 0 s ∧
      (playing_count (sort_players state).players 0 s <
          state.game_primary_player_names.length →
        (initiate_game_state state).game_primary_player_names.getD
            (playing_count (sort_players state).players 0 s) [] =
          ((sort_players state).players.getD s default).name.take
            (MAX_PLAYER_NAME_LENGTH + 1)) ∧
      ((initiate_game_state state).players.getD s default).x_pos =
        ((nth_random (3 * playing_count (sort_players state).players 0 s + 1) state.random %
          state.game_params.board_dimension_x : Nat) : ℚ) + 1 / 2 ∧
      ((initiate_game_state state).players.getD s default).y_pos =
        ((nth_random (3 * playing_count (sort_players state).players 0 s + 2) state.random %
          state.game_params.board_dimension_y : Nat) : ℚ) + 1 / 2 ∧
      ((initiate_game_state state).players.getD s default).direction =
        ((nth_random (3 * playing_count (sort_players state).players 0 s + 3) state.random %
          360 : Nat) : Int) ∧
      ((initiate_game_state state).events_queue.getD
        (playing_count (sort_players state).players 0 s + 1) default).player_number =
          playing_count (sort_players state).players 0 s ∧
      (((initiate_game_state state).events_queue.getD
        (playing_count (sort_players state).players 0 s + 1) default).event_type =
          EVENT_PLAYER_ELIMINATED ∨
        (((initiate_game_state state).events_queue.getD
          (playing_count (sort_players state).players 0 s + 1) default).event_type =
            EVENT_PIXEL ∧
          ((initiate_game_state state).events_queue.getD
            (playing_count (sort_players state).players 0 s + 1) default).x =
            nth_random (3 * playing_count (sort_players state).players 0 s + 1) state.random %
              state.game_params.board_dimension_x % UINT32_RANGE ∧
          ((initiate_game_state state).events_queue.getD
            (playing_count (sort_players state).players 0 s + 1) default).y =
            nth_random (3 * playing_count (sort_players state).players 0 s + 2) state.random %
              state.game_params.board_dimension_y % UINT32_RANGE))) := by
  obtain ⟨state2, state3, state4, state5, hS2, hS3, hS4, hS5, hres⟩ :=
    initiate_game_state_eq state
  obtain ⟨hsr, hsp, hsy, hsn⟩ := sort_players_frame state
  rw [hres]
  generalize sort_players state = state1 at *
  have h2r : state2.random = state.random := by rw [hS2]; exact hsr
  have h2p : state2.game_params = state.game_params := by rw [hS2]; exact hsp
  have h2c : state2.events_count = 0 := by rw [hS2]
  have h2n : state2.players_count = state.ready_players := by rw [hS2]; exact hsy
  have h2l : state2.players = state1.players := by rw [hS2]
  have h2g : state2.game_primary_player_names = state.game_primary_player_names := by
    rw [hS2]; exact hsn
  obtain ⟨n1, n2, n3, n4, n5, n6, n7⟩ := initiate_game_numbers_spec MAX_PLAYERS 0 0 state2
    (by decide)
  rw [← hS3] at n1 n2 n3 n4 n5 n6 n7
  rw [h2l] at n5 n7
  rw [h2g] at n7
  have hflag3 : ∀ s, (state3.players.getD s default).is_playing =
      (state1.players.getD s default).is_playing ∧
      (state3.players.getD s default).name = (state1.players.getD s default).name ∧
      (state3.players.getD s default).conn = (state1.players.getD s default).conn := by
    intro s
    rw [n5 s]
    split
    · exact ⟨rfl, rfl, rfl⟩
    · exact ⟨rfl, rfl, rfl⟩
  have h4c : state4.events_count = 1 := by
    rw [hS4]
    show (state3.events_count + 1) % UINT32_RANGE = 1
    rw [n3, h2c]
    rfl
  have h4q : state4.events_queue.getD 0 default =
      { event_type := EVENT_NEW_GAME, x := state.game_params.board_dimension_x,
        y := state.game_params.board_dimension_y, player_number := 0 } := by
    rw [hS4, enqueue_event_getD]
    show (if 0 = state3.events_count then _ else _) = _
    rw [n3, h2c, if_pos rfl, n2, h2p]
  have h4r : state4.random = status_after 1 state.random := by
    rw [hS4]
    show (generate_random state3.random).2 = _
    rw [n1, h2r]
    rfl
  have h4g : state4.game_id = nth_random 0 state.random := by
    rw [hS4]
    show (generate_random state3.random).1 = _
    rw [n1, h2r]
    rfl
  have h4p : state4.game_params = state.game_params := by
    rw [hS4]
    show state3.game_params = _
    rw [n2, h2p]
  have h4n : state4.players_count = state.ready_players := by
    rw [hS4]
    show state3.players_count = _
    rw [n4, h2n]
  have h4l : state4.players = state3.players := by rw [hS4]; rfl
  have h4m : state4.game_primary_player_names = state3.game_primary_player_names := by
    rw [hS4]; rfl
  obtain ⟨p1, p2, p3, p4, p5, p6, p7, p8, p9, p10⟩ := initiate_game_place_spec MAX_PLAYERS 0
    { event_type := EVENT_NEW_GAME, x := state3.game_params.board_dimension_x,
      y := state3.game_params.board_dimension_y, player_number := 0 } state4
    (by rw [h4c]; decide)
  rw [← hS5] at p1 p2 p3 p4 p5 p6 p7 p8 p9 p10
  have hpc : ∀ a b, playing_count state4.players a b = playing_count state1.players a b :=
    fun a b => playing_count_congr _ _ a b (fun j => by rw [h4l]; exact (hflag3 j).1)
  rw [hpc, h4r, status_after_add] at p1
  rw [hpc, h4c] at p2
  refine ⟨rfl, p5.trans h4n, p3.trans h4p, p4.trans h4g, ?_, ?_, ?_, fun s => ?_,
    fun s hs hplay => ?_⟩
  · show state5.random = _
    rw [p1]
  · show state5.events_count = _
    rw [p2]
    omega
  · show state5.events_queue.getD 0 default = _
    rw [p7 0 (by rw [h4c]; decide), h4q]
  · obtain ⟨a1, _, a3, a4⟩ := p9 s
    rw [h4l] at a1 a3 a4
    exact ⟨a1.trans (hflag3 s).1, a3.trans (hflag3 s).2.1, a4.trans (hflag3 s).2.2⟩
  · have hplay4 : (state4.players.getD s default).is_playing = true := by
      rw [h4l, (hflag3 s).1]
      exact hplay
    have hnum : (state3.players.getD s default).player_number =
        playing_count state1.players 0 s := by
      rw [n5 s, if_pos ⟨Nat.zero_le _, by omega, hplay⟩]
      show 0 + playing_count state1.players 0 (s - 0) = _
      rw [Nat.zero_add, Nat.sub_zero]
    obtain ⟨b1, b2, b3, b4, b5⟩ := p10 s (Nat.zero_le _) (by omega) hplay4
    rw [hpc, Nat.sub_zero, h4r, nth_random_add, h4p] at b1 b2
    rw [hpc, Nat.sub_zero, h4r, nth_random_add] at b3
    rw [hpc, Nat.sub_zero, h4c, h4l, hnum] at b4
    rw [hpc, Nat.sub_zero, h4c] at b5
    have e : 1 + playing_count state1.players 0 s = playing_count state1.players 0 s + 1 :=
      Nat.add_comm _ _
    rw [e] at b4 b5
    have a2 := (p9 s).2.1
    rw [h4l, hnum] at a2
    refine ⟨a2, fun hlen => ?_, b1, b2, b3, b4, ?_⟩
    · show state5.game_primary_player_names.getD _ [] = _
      rw [p6, h4m]
      have := n7 s (Nat.zero_le _) (by omega) hplay
        (by rw [Nat.zero_add, Nat.sub_zero]; exact hlen)
      rw [Nat.zero_add, Nat.sub_zero] at this
      exact this
    · rcases b5 with b5 | ⟨b5, b6, b7⟩
      · exact Or.inl b5
      · refine Or.inr ⟨b5, ?_, ?_⟩
        · rw [b6, b1, to_uint32_trunc_half]
        · rw [b7, b2, to_uint32_trunc_half]
/-- C29.  Deterministic draw order in `initiate_game`.  With `r n` the value of call
number `n` of `generate_random` from the generator of the state (`nth_random n`) and `k`
the number of playing slots, after `initiate_game` the `game_id` is `r 0`, the generator
has made exactly `3 * k + 1` calls, the log has `k + 1` entries, entry 0 is NEW_GAME with
the board dimensions, and the playing slot with `j` playing slots before it in the sorted
table has the player number `j`, the position `(r (3j+1) mod board_x + 1/2,
r (3j+2) mod board_y + 1/2)`, the direction `r (3j+3) mod 360`, and entry `j + 1` of the
log is its event: its PLAYER_ELIMINATED, or its PIXEL at the cell
`(r (3j+1) mod board_x, r (3j+2) mod board_y)`. -/
theorem initiate_game_draw_order (state result : server_game_state_t)
    (hresult : (initiate_game state).1 = result) :
    result.game_id = nth_random 0 state.random ∧
    result.random =
      status_after (3 * playing_count result.players 0 MAX_PLAYERS + 1) state.random ∧
    result.events_count = playing_count result.players 0 MAX_PLAYERS + 1 ∧
    result.events_queue.getD 0 default =
      { event_type := EVENT_NEW_GAME, x := state.game_params.board_dimension_x,
        y := state.game_params.board_dimension_y, player_number := 0 } ∧
    ∀ s, s < MAX_PLAYERS → (result.players.getD s default).is_playing = true →
      (result.players.getD s default).player_number = playing_count result.players 0 s ∧
      (result.players.getD s default).x_pos =
        ((nth_random (3 * playing_count result.players 0 s + 1) state.random %
          state.game_params.board_dimension_x : Nat) : ℚ) + 1 / 2 ∧
      (result.players.getD s default).y_pos =
        ((nth_random (3 * playing_count result.players 0 s + 2) state.random %
          state.game_params.board_dimension_y : Nat) : ℚ) + 1 / 2 ∧
      (result.players.getD s default).direction =
        ((nth_random (3 * playing_count result.players 0 s + 3) state.random % 360 : Nat) :
          Int) ∧
      (result.events_queue.getD (playing_count result.players 0 s + 1) default).player_number =
        playing_count result.players 0 s ∧
      ((result.events_queue.getD (playing_count result.players 0 s + 1) default).event_type =
          EVENT_PLAYER_ELIMINATED ∨
        ((result.events_queue.getD (playing_count result.players 0 s + 1) default).event_type =
            EVENT_PIXEL ∧
          (result.events_queue.getD (playing_count result.players 0 s + 1) default).x =
            nth_random (3 * playing_count result.players 0 s + 1) state.random %
              state.game_params.board_dimension_x % UINT32_RANGE ∧
          (result.events_queue.getD (playing_count result.players 0 s + 1) default).y =
            nth_random (3 * playing_count result.players 0 s + 2) state.random %
              state.game_params.board_dimension_y % UINT32_RANGE)) := by
  rw [initiate_game_fst] at hresult
  obtain ⟨_, _, _, h4, h5, h6, h7, h8, h9⟩ := initiate_game_state_spec state
  rw [hresult] at h4 h5 h6 h7 h8 h9
  have hpc : ∀ a b, playing_count result.players a b =
      playing_count (sort_players state).players a b :=
    fun a b => playing_count_congr _ _ a b (fun j => (h8 j).1)
  simp only [hpc]
  refine ⟨h4, h5, h6, h7, fun s hs hplay => ?_⟩
  obtain ⟨a1, _, a3, a4, a5, a6, a7⟩ := h9 s hs (by rw [← (h8 s).1]; exact hplay)
  exact ⟨a1, a3, a4, a5, a6, a7⟩

set_option maxRecDepth 1000000 in
/-- C29, at the start of the game of Alice and Bob with seed 91923 on the board of 640 by
480: seven values are drawn, 91923 for the `game_id`, then those that place Alice
(slot 23, player 0) at (639.5, 209.5) with direction 6 and Bob (slot 24, player 1) at
(137.5, 469.5) with direction 34. -/
theorem initiate_game_draw_order_witness :
    random_values 7 lobby_with_alice_and_bob.random =
      [91923, 326124799, 369317969, 2516178966, 2221383817, 1672703029, 2178783394] ∧
    (initiate_game lobby_with_alice_and_bob).1.game_id = 91923 ∧
    playing_count (initiate_game lobby_with_alice_and_bob).1.players 0 MAX_PLAYERS = 2 ∧
    (initiate_game lobby_with_alice_and_bob).1.random =
      status_after (3 * playing_count (initiate_game lobby_with_alice_and_bob).1.players 0
        MAX_PLAYERS + 1) lobby_with_alice_and_bob.random ∧
    (initiate_game lobby_with_alice_and_bob).1.events_count =
      playing_count (initiate_game lobby_with_alice_and_bob).1.players 0 MAX_PLAYERS + 1 ∧
    ((initiate_game lobby_with_alice_and_bob).1.players.map
      (fun p => (p.player_number, p.x_pos, p.y_pos, p.direction))).drop 23 =
      [(0, 639 + 1 / 2, 209 + 1 / 2, 6), (1, 137 + 1 / 2, 469 + 1 / 2, 34)] :=
  have h := initiate_game_draw_order lobby_with_alice_and_bob
    (initiate_game lobby_with_alice_and_bob).1 rfl
  ⟨by decide!, h.1.trans (by decide!), by decide!, h.2.1, h.2.2.1, by decide!⟩

/-! ## The order of `strcmp` and the sort of the slots -/

/-- The test `strcmp(a, b) < 0` is the strict lexicographic order of the strings. -/
theorem strcmp_lt_iff : ∀ (a b : List Nat),
    strcmp a b < 0 ↔ List.Lex (· < ·) (c_str a) (c_str b) := by
  intro a
  induction a with
  | nil =>
    intro b
    cases b with
    | nil =>
      unfold strcmp
      constructor
      · intro h; exact absurd h (by decide)
      · intro h; cases h
    | cons y ys =>
      unfold strcmp
      rw [c_str_cons]
      by_cases hy : y = 0
      · rw [if_pos hy, if_pos hy]
        constructor
        · intro h; exact absurd h (by decide)
        · intro h; cases h
      · rw [if_neg hy, if_neg hy]
        constructor
        · intro _; exact List.Lex.nil
        · intro _; decide
  | cons x xs ih =>
    intro b
    cases b with
    | nil =>
      unfold strcmp
      constructor
      · intro h
        split at h <;> exact absurd h (by decide)
      · intro h
        have hnil : c_str ([] : List Nat) = [] := rfl
        rw [hnil, c_str_cons] at h
        split at h <;> cases h
    | cons y ys =>
      unfold strcmp
      rw [c_str_cons x xs, c_str_cons y ys]
      by_cases h1 : x < y
      · rw [if_pos h1, if_neg (by omega : ¬ y = 0)]
        constructor
        · intro _
          by_cases hx : x = 0
          · rw [if_pos hx]; exact List.Lex.nil
          · rw [if_neg hx]; exact List.Lex.rel h1
        · intro _; decide
      · rw [if_neg h1]
        by_cases h2 : y < x
        · rw [if_pos h2, if_neg (by omega : ¬ x = 0)]
          constructor
          · intro h; exact absurd h (by decide)
          · intro h
            by_cases hy : y = 0
            · rw [if_pos hy] at h; cases h
            · rw [if_neg hy] at h
              cases h with
              | cons h => omega
              | rel h => omega
        · rw [if_neg h2]
          have hxy : x = y := by omega
          subst hxy
          by_cases hx : x = 0
          · rw [if_pos hx, if_pos hx, if_pos hx]
            constructor
            · intro h; exact absurd h (by decide)
            · intro h; cases h
          · rw [if_neg hx, if_neg hx, if_neg hx, ih ys, List.Lex.cons_iff]

theorem strcmp_irrefl (a : List Nat) : ¬ strcmp a a < 0 := by
  rw [strcmp_lt_iff]
  exact irrefl (r := List.Lex (· < ·)) (c_str a)

theorem strcmp_trans (a b c : List Nat) (hab : strcmp a b < 0) (hbc : strcmp b c < 0) :
    strcmp a c < 0 := by
  rw [strcmp_lt_iff] at hab hbc ⊢
  exact IsTrans.trans (r := List.Lex (· < ·)) _ _ _ hab hbc
theorem sort_players_min_spec (players : List client_t) (i : Nat) :
    ∀ (fuel j index_min : Nat), i ≤ index_min → index_min ≤ j →
      (∀ k, i ≤ k → k < j →
        ¬ strcmp (players.getD k default).name (players.getD index_min default).name < 0) →
      i ≤ sort_players_min players fuel j index_min ∧
      (sort_players_min players fuel j index_min < j + fuel ∨
        sort_players_min players fuel j index_min = index_min) ∧
      ∀ k, i ≤ k → k < j + fuel →
        ¬ strcmp (players.getD k default).name
          (players.getD (sort_players_min players fuel j index_min) default).name < 0 := by
  intro fuel
  induction fuel with
  | zero =>
    intro j m h1 h2 h3
    exact ⟨h1, Or.inr rfl, h3⟩
  | succ n ih =>
    intro j m h1 h2 h3
    unfold sort_players_min
    by_cases hlt : strcmp (players.getD j default).name (players.getD m default).name < 0
    · rw [if_pos hlt]
      obtain ⟨a1, a2, a3⟩ := ih (j + 1) j (by omega) (by omega) (fun k hk1 hk2 => by
        by_cases hkj : k = j
        · rw [hkj]; exact strcmp_irrefl _
        · intro hk
          exact h3 k hk1 (by omega) (strcmp_trans _ _ _ hk hlt))
      refine ⟨a1, ?_, fun k hk1 hk2 => a3 k hk1 (by omega)⟩
      rcases a2 with a2 | a2
      · exact Or.inl (by omega)
      · exact Or.inl (by omega)
    · rw [if_neg hlt]
      obtain ⟨a1, a2, a3⟩ := ih (j + 1) m h1 (by omega) (fun k hk1 hk2 => by
        by_cases hkj : k = j
        · rw [hkj]; exact hlt
        · exact h3 k hk1 (by omega))
      refine ⟨a1, ?_, fun k hk1 hk2 => a3 k hk1 (by omega)⟩
      rcases a2 with a2 | a2
      · exact Or.inl (by omega)
      · exact Or.inr a2

theorem swap_getD (l : List client_t) (i m k : Nat) (hi : i < l.length) (hm : m < l.length) :
    ((l.set i (l.getD m default)).set m (l.getD i default)).getD k default =
      if k = m then l.getD i default else if k = i then l.getD m default
      else l.getD k default := by
  rw [getD_set_eq, List.length_set]
  by_cases hkm : k = m
  · rw [if_pos ⟨hkm.symm, hm⟩, if_pos hkm]
  · rw [if_neg (fun h => hkm h.1.symm), if_neg hkm, getD_set_eq]
    by_cases hki : k = i
    · rw [if_pos ⟨hki.symm, hi⟩, if_pos hki]
    · rw [if_neg (fun h => hki h.1.symm), if_neg hki]

theorem swap_perm (l : List client_t) (i m : Nat) (hi : i < l.length) (hm : m < l.length) :
    ((l.set i (l.getD m default)).set m (l.getD i default)).Perm l := by
  rw [List.perm_iff_count]
  intro a
  rw [List.count_set _ _ _ _ (by rw [List.length_set]; exact hm),
    List.count_set _ _ _ _ hi]
  have hgi : l.getD i default = l[i] := List.getD_eq_getElem _ _ hi
  have hgm : l.getD m default = l[m] := List.getD_eq_getElem _ _ hm
  rw [hgi, hgm]
  have hci : (if l[i] == a then 1 else 0) ≤ l.count a := by
    by_cases h : l[i] == a
    · rw [if_pos h]
      have : a ∈ l := by
        have := List.getElem_mem (l := l) hi
        rw [beq_iff_eq] at h
        rw [← h]
        exact this
      exact List.count_pos_iff.2 this
    · rw [if_neg h]
      exact Nat.zero_le _
  have hcm : (if l[m] == a then 1 else 0) ≤ l.count a := by
    by_cases h : l[m] == a
    · rw [if_pos h]
      have : a ∈ l := by
        have := List.getElem_mem (l := l) hm
        rw [beq_iff_eq] at h
        rw [← h]
        exact this
      exact List.count_pos_iff.2 this
    · rw [if_neg h]
      exact Nat.zero_le _
  by_cases him : i = m
  · subst him
    rw [List.getElem_set_self]
    omega
  · rw [List.getElem_set_ne him]
    by_cases h1 : l[i] == a
    · by_cases h2 : l[m] == a
      · rw [if_pos h1, if_pos h2] at *
        omega
      · rw [if_pos h1, if_neg h2] at *
        omega
    · by_cases h2 : l[m] == a
      · rw [if_neg h1, if_pos h2] at *
        omega
      · rw [if_neg h1, if_neg h2] at *
        omega
/-- The selection sort of `sort_players`: the slots are permuted and stand in ascending
order of their names. -/
theorem sort_players_loop_spec :
    ∀ (fuel i : Nat) (players : List client_t), i + fuel = MAX_PLAYERS →
      players.length = MAX_PLAYERS →
      (∀ a b, a ≤ b → b < i →
        ¬ strcmp (players.getD b default).name (players.getD a default).name < 0) →
      (∀ a b, a < i → i ≤ b → b < MAX_PLAYERS →
        ¬ strcmp (players.getD b default).name (players.getD a default).name < 0) →
      (sort_players_loop fuel i players).Perm players ∧
      (sort_players_loop fuel i players).length = MAX_PLAYERS ∧
      ∀ a b, a ≤ b → b < MAX_PLAYERS →
        ¬ strcmp ((sort_players_loop fuel i players).getD b default).name
          ((sort_players_loop fuel i players).getD a default).name < 0 := by
  intro fuel
  induction fuel with
  | zero =>
    intro i players hi hlen h1 _
    exact ⟨List.Perm.refl _, hlen, fun a b hab hb => h1 a b hab (by omega)⟩
  | succ n ih =>
    intro i players hi hlen h1 h2
    unfold sort_players_loop
    simp only []
    obtain ⟨m1, m2, m3⟩ := sort_players_min_spec players i (MAX_PLAYERS - i) i i
      (Nat.le_refl _) (Nat.le_refl _) (fun k hk1 hk2 => by omega)
    generalize sort_players_min players (MAX_PLAYERS - i) i i = m at m1 m2 m3 ⊢
    have hm : m < MAX_PLAYERS := by
      rcases m2 with m2 | m2 <;> omega
    have hil : i < players.length := by omega
    have hml : m < players.length := by omega
    have hswap := swap_getD players i m
    obtain ⟨r1, r2, r3⟩ := ih (i + 1)
      ((players.set i (players.getD m default)).set m (players.getD i default))
      (by omega) (by rw [List.length_set, List.length_set]; exact hlen)
      (fun a b hab hb => by
        rw [hswap b hil hml, hswap a hil hml]
        by_cases hbi : b = i
        · subst hbi
          by_cases hab2 : a = b
          · subst hab2
            exact strcmp_irrefl _
          · have e1 : (if b = m then players.getD b default
                else if b = b then players.getD m default else players.getD b default) =
                players.getD m default := by
              by_cases hbm : b = m
              · rw [if_pos hbm, hbm]
              · rw [if_neg hbm, if_pos rfl]
            rw [e1, if_neg (by omega), if_neg hab2]
            exact h2 a m (by omega) m1 hm
        · rw [if_neg (by omega), if_neg hbi, if_neg (by omega), if_neg (by omega)]
          exact h1 a b hab (by omega))
      (fun a b ha hb1 hb2 => by
        rw [hswap b hil hml, hswap a hil hml]
        have hb : ∃ k, i ≤ k ∧ k < MAX_PLAYERS ∧
            (if b = m then players.getD i default
              else if b = i then players.getD m default else players.getD b default) =
              players.getD k default := by
          by_cases hbm : b = m
          · exact ⟨i, Nat.le_refl _, by omega, by rw [if_pos hbm]⟩
          · exact ⟨b, by omega, hb2, by rw [if_neg hbm, if_neg (by omega)]⟩
        obtain ⟨k, hk1, hk2, hk3⟩ := hb
        rw [hk3]
        by_cases hai : a = i
        · subst hai
          have e1 : (if a = m then players.getD a default
                else if a = a then players.getD m default else players.getD a default) =
                players.getD m default := by
            by_cases ham : a = m
            · rw [if_pos ham, ham]
            · rw [if_neg ham, if_pos rfl]
          rw [e1]
          exact m3 k hk1 (by omega)
        · rw [if_neg (by omega), if_neg hai]
          exact h2 a k (by omega) hk1 hk2)
    exact ⟨r1.trans (swap_perm players i m hil hml), r2, r3⟩

theorem sort_players_spec (state : server_game_state_t)
    (hlen : state.players.length = MAX_PLAYERS) :
    (sort_players state).players.Perm state.players ∧
    (sort_players state).players.length = MAX_PLAYERS ∧
    ∀ a b, a ≤ b → b < MAX_PLAYERS →
      ¬ strcmp ((sort_players state).players.getD b default).name
        ((sort_players state).players.getD a default).name < 0 := by
  have h := sort_players_loop_spec MAX_PLAYERS 0 state.players (Nat.zero_add _) hlen
    (fun a b _ hb => absurd hb (Nat.not_lt_zero b))
    (fun a b ha => absurd ha (Nat.not_lt_zero a))
  unfold sort_players
  dsimp only
  exact h
theorem initiate_game_place_frame {β : Type} (f : client_t → β)
    (hf : ∀ (p : client_t) (x y : ℚ) (d : Int),
      f { p with x_pos := x, y_pos := y, direction := d } = f p) :
    ∀ (fuel i : Nat) (current_event : event_data_t) (state : server_game_state_t) (s : Nat),
      f ((initiate_game_place fuel i current_event state).players.getD s default) =
        f (state.players.getD s default) := by
  intro fuel
  induction fuel with
  | zero => intro i current_event state s; rfl
  | succ n ih =>
    intro i current_event state s
    unfold initiate_game_place
    split
    · simp only []
      split
      · rw [ih]
        show f ((state.players.set i _).getD s default) = _
        apply getD_set_field f
        exact hf _ _ _ _
      · rw [ih]
        show f ((state.players.set i _).getD s default) = _
        apply getD_set_field f
        exact hf _ _ _ _
    · rw [ih]

theorem playing_count_cons (a : client_t) (l : List client_t) :
    ∀ (n i : Nat), playing_count (a :: l) (i + 1) n = playing_count l i n := by
  intro n
  induction n with
  | zero => intro i; rfl
  | succ k ih =>
    intro i
    rw [playing_count_succ, playing_count_succ, ih (i + 1), List.getD_cons_succ]

theorem playing_count_eq_countP : ∀ (l : List client_t),
    playing_count l 0 l.length = l.countP (fun p => p.is_playing) := by
  intro l
  induction l with
  | nil => rfl
  | cons a t ih =>
    rw [List.length_cons, playing_count_succ, playing_count_cons, ih, List.countP_cons]
    show (if a.is_playing = true then 1 else 0) + _ = _
    omega

theorem playing_count_add (l : List client_t) :
    ∀ (a i b : Nat), playing_count l i (a + b) =
      playing_count l i a + playing_count l (i + a) b := by
  intro a
  induction a with
  | zero => intro i b; rw [Nat.zero_add, playing_count_zero, Nat.zero_add, Nat.add_zero]
  | succ k ih =>
    intro i b
    have e : k + 1 + b = (k + b) + 1 := by omega
    rw [e, playing_count_succ, playing_count_succ, ih (i + 1) b]
    have e2 : i + 1 + k = i + (k + 1) := by omega
    rw [e2]
    omega

theorem playing_count_lt (l : List client_t) (s n : Nat) (hs : s < n)
    (hp : (l.getD s default).is_playing = true) :
    playing_count l 0 s < playing_count l 0 n := by
  have e : n = s + ((n - s - 1) + 1) := by omega
  rw [e, playing_count_add, Nat.zero_add, playing_count_succ, if_pos hp]
  omega

theorem playing_count_mono (l : List client_t) (s t : Nat) (hst : s ≤ t) :
    playing_count l 0 s ≤ playing_count l 0 t := by
  have e : t = s + (t - s) := by omega
  rw [e, playing_count_add]
  omega

theorem playing_count_surj (l : List client_t) : ∀ (n j : Nat), j < playing_count l 0 n →
    ∃ s, s < n ∧ (l.getD s default).is_playing = true ∧ playing_count l 0 s = j := by
  intro n
  induction n with
  | zero => intro j hj; rw [playing_count_zero] at hj; omega
  | succ k ih =>
    intro j hj
    rw [playing_count_add l k 0 1, Nat.zero_add, playing_count_succ, playing_count_zero] at hj
    by_cases hjk : j < playing_count l 0 k
    · obtain ⟨s, h1, h2, h3⟩ := ih j hjk
      exact ⟨s, by omega, h2, h3⟩
    · by_cases hp : (l.getD k default).is_playing = true
      · rw [if_pos hp] at hj
        exact ⟨k, by omega, hp, by omega⟩
      · rw [if_neg hp] at hj
        omega
theorem initiate_game_state_client (state : server_game_state_t) (s : Nat) :
    client_of_slot ((initiate_game_state state).players.getD s default) =
      client_of_slot ((sort_players state).players.getD s default) := by
  obtain ⟨state2, state3, state4, state5, hS2, hS3, hS4, hS5, hres⟩ :=
    initiate_game_state_eq state
  rw [hres]
  show client_of_slot (state5.players.getD s default) = _
  rw [hS5, initiate_game_place_frame client_of_slot (fun _ _ _ _ => rfl)]
  have h4l : state4.players = state3.players := by rw [hS4]; rfl
  have h2l : state2.players = (sort_players state).players := by rw [hS2]
  obtain ⟨_, _, _, _, n5, _, _⟩ := initiate_game_numbers_spec MAX_PLAYERS 0 0 state2
    (by decide)
  rw [h4l, hS3, n5 s, h2l]
  generalize (sort_players state).players.getD s default = p
  generalize playing_count (sort_players state).players 0 (s - 0) = c
  split
  · unfold client_of_slot
    rfl
  · rfl

/-- C22.  `initiate_game` numbers the players by ascending name.  In a state with the 25
slots and 25 rows of frozen names in which `ready_players` is the number of playing slots
(the playing slots are the ready, named slots), after `initiate_game` `players_count` is
`ready_players`; the slots are, up to the number, the position and the direction, a
permutation of the slots before; the playing slots carry the player numbers
`0, 1, ..., players_count - 1`, each number once, in the order of the table, which is the
ascending order of the names: a playing slot whose name is less than the name of another
one has the smaller number; and `game_primary_player_names[k]` holds the 21 bytes of the
name of the slot numbered `k`. -/
theorem initiate_game_numbers_by_name (state result : server_game_state_t)
    (hresult : (initiate_game state).1 = result)
    (hlen : state.players.length = MAX_PLAYERS)
    (hnames : state.game_primary_player_names.length = MAX_PLAYERS)
    (hready : state.ready_players = playing_count state.players 0 MAX_PLAYERS) :
    result.players_count = state.ready_players ∧
    (∃ sorted : List client_t, sorted.Perm state.players ∧
      ∀ s, s < MAX_PLAYERS →
        client_of_slot (result.players.getD s default) =
          client_of_slot (sorted.getD s default)) ∧
    (∀ s, s < MAX_PLAYERS → (result.players.getD s default).is_playing = true →
      (result.players.getD s default).player_number = playing_count result.players 0 s ∧
      (result.players.getD s default).player_number < result.players_count ∧
      result.game_primary_player_names.getD (result.players.getD s default).player_number [] =
        (result.players.getD s default).name.take (MAX_PLAYER_NAME_LENGTH + 1)) ∧
    (∀ j, j < result.players_count →
      ∃ s, s < MAX_PLAYERS ∧ (result.players.getD s default).is_playing = true ∧
        (result.players.getD s default).player_number = j) ∧
    (∀ s t, s < MAX_PLAYERS → t < MAX_PLAYERS →
      (result.players.getD s default).is_playing = true →
      (result.players.getD t default).is_playing = true →
      strcmp (result.players.getD s default).name (result.players.getD t default).name < 0 →
      (result.players.getD s default).player_number <
        (result.players.getD t default).player_number) := by
  rw [initiate_game_fst] at hresult
  obtain ⟨_, h2, _, _, _, _, _, h8, h9⟩ := initiate_game_state_spec state
  have hclient := initiate_game_state_client state
  rw [hresult] at h2 h8 h9 hclient
  obtain ⟨q1, q2, q3⟩ := sort_players_spec state hlen
  have hpc : ∀ a b, playing_count result.players a b =
      playing_count (sort_players state).players a b :=
    fun a b => playing_count_congr _ _ a b (fun j => (h8 j).1)
  have hcount : playing_count (sort_players state).players 0 MAX_PLAYERS =
      state.ready_players := by
    rw [hready]
    have e1 := playing_count_eq_countP (sort_players state).players
    have e2 := playing_count_eq_countP state.players
    rw [q2] at e1
    rw [hlen] at e2
    rw [e1, e2]
    exact q1.countP_eq _
  have hnum : ∀ s, s < MAX_PLAYERS → (result.players.getD s default).is_playing = true →
      (result.players.getD s default).player_number =
        playing_count (sort_players state).players 0 s :=
    fun s hs hp => (h9 s hs (by rw [← (h8 s).1]; exact hp)).1
  refine ⟨h2, ⟨(sort_players state).players, q1, fun s _ => hclient s⟩,
    fun s hs hp => ?_, fun j hj => ?_, fun s t hs ht hps hpt hst => ?_⟩
  · have hp1 : ((sort_players state).players.getD s default).is_playing = true := by
      rw [← (h8 s).1]; exact hp
    obtain ⟨a1, a2, _⟩ := h9 s hs hp1
    have hlt := playing_count_lt (sort_players state).players s MAX_PLAYERS hs hp1
    refine ⟨by rw [a1, hpc], by rw [a1, h2, ← hcount]; exact hlt, ?_⟩
    rw [a1, (h8 s).2.1]
    exact a2 (by rw [hnames]; have := playing_count_le (sort_players state).players 0 s; omega)
  · rw [h2, ← hcount] at hj
    obtain ⟨s, s1, s2, s3⟩ := playing_count_surj (sort_players state).players MAX_PLAYERS j hj
    have hp : (result.players.getD s default).is_playing = true := by
      rw [(h8 s).1]; exact s2
    exact ⟨s, s1, hp, by rw [hnum s s1 hp, s3]⟩
  · rw [hnum s hs hps, hnum t ht hpt]
    have hlt : s < t := by
      by_contra hnot
      rw [(h8 s).2.1, (h8 t).2.1] at hst
      exact q3 t s (by omega) hs hst
    have hs1 : ((sort_players state).players.getD s default).is_playing = true := by
      rw [← (h8 s).1]; exact hps
    exact playing_count_lt _ s t hlt hs1

set_option maxRecDepth 1000000 in
/-- C22, at the lobby in which three ready slots have connected as "C", "A", "B": the
names of the NEW_GAME record are A, B, C, and the slots of A, B and C (the slots 22, 23
and 24 after the sort) carry the player numbers 0, 1 and 2. -/
theorem initiate_game_numbers_by_name_witness :
    (lobby_C_A_B.players.map (fun p => (c_str p.name, p.ready, p.is_playing))).take 3 =
      [(name_C, true, true), (name_A, true, true), (name_B, true, true)] ∧
    (initiate_game lobby_C_A_B).1.players_count = lobby_C_A_B.ready_players ∧
    lobby_C_A_B.ready_players = 3 ∧
    ((initiate_game lobby_C_A_B).1.players.map
      (fun p => (c_str p.name, p.is_playing, p.player_number))).drop 22 =
      [(name_A, true, 0), (name_B, true, 1), (name_C, true, 2)] ∧
    ((initiate_game lobby_C_A_B).1.game_primary_player_names.take 3).map c_str =
      [name_A, name_B, name_C] ∧
    (event_record (initiate_game lobby_C_A_B).1 0).drop 17 =
      name_A ++ [0] ++ name_B ++ [0] ++ name_C ++ [0] ++ [71, 82, 154, 155] :=
  have h := initiate_game_numbers_by_name lobby_C_A_B (initiate_game lobby_C_A_B).1 rfl
    (by decide!) (by decide!) (by decide!)
  ⟨by decide!, h.1, by decide!, by decide!, by decide!, by decide!⟩

/-! ## Timeouts -/

theorem handle_timers_loop_skip (fired : List Bool) :
    ∀ (fuel client_index : Nat) (state : server_game_state_t) (sent : List (Nat × List Nat)),
      (∀ k, client_index ≤ k → k < client_index + fuel → fired.getD k false = false) →
      handle_timers_loop fired fuel client_index state sent = (state, sent) := by
  intro fuel
  induction fuel with
  | zero => intro i state sent _; rfl
  | succ n ih =>
    intro i state sent h
    unfold handle_timers_loop
    rw [if_neg (by rw [h i (Nat.le_refl _) (by omega)]; decide)]
    exact ih (i + 1) state sent (fun k hk1 hk2 => h k (by omega) (by omega))

theorem set_set_same {α : Type} (l : List α) (i : Nat) (a b : α) :
    (l.set i a).set i b = l.set i b := by
  induction l generalizing i with
  | nil => rfl
  | cons x t ih =>
    cases i with
    | zero => rfl
    | succ k =>
      simp only [List.set_cons_succ]
      rw [ih]

theorem set_getD_self (l : List client_t) (i : Nat) :
    l.set i (l.getD i default) = l := by
  induction l generalizing i with
  | nil => rfl
  | cons x t ih =>
    cases i with
    | zero => rfl
    | succ k =>
      simp only [List.set_cons_succ, List.getD_cons_succ]
      rw [ih]

/-- The loop of `handle_timers` when only the timer of `slot`, an active slot, has
fired. -/
theorem handle_timers_loop_single (state : server_game_state_t) (fired : List Bool)
    (slot : Nat) (hlen : slot < state.players.length)
    (hfired : ∀ j, fired.getD j false = true ↔ j = slot)
    (hactive : (state.players.getD slot default).conn.is_connection_active = true) :
    ∀ (fuel client_index : Nat), client_index ≤ slot → slot < client_index + fuel →
      ((state.players.getD slot default).message = true →
        handle_timers_loop fired fuel client_index state [] =
          (message_cleared state slot, [])) ∧
      ((state.players.getD slot default).message = false →
        ¬ game_starts (slot_timed_out state slot) →
        handle_timers_loop fired fuel client_index state [] =
          (slot_timed_out state slot, [])) ∧
      ((state.players.getD slot default).message = false →
        game_starts (slot_timed_out state slot) →
        handle_timers_loop fired fuel client_index state [] =
          (message_cleared (initiate_game (slot_timed_out state slot)).1 slot,
            (initiate_game (slot_timed_out state slot)).2)) := by
  intro fuel
  induction fuel with
  | zero => intro i h1 h2; omega
  | succ n ih =>
    intro i h1 h2
    by_cases hi : i = slot
    · subst hi
      have hskip : ∀ (s : server_game_state_t) (sent : List (Nat × List Nat)),
          handle_timers_loop fired n (i + 1) s sent = (s, sent) :=
        fun s sent => handle_timers_loop_skip fired n (i + 1) s sent (fun k hk1 _ => by
          cases hk : fired.getD k false
          · rfl
          · have := (hfired k).1 hk
            omega)
      unfold handle_timers_loop
      rw [if_pos ((hfired i).2 rfl)]
      simp only []
      rw [hskip]
      refine ⟨fun hm => ?_, fun hm hns => ?_, fun hm hs => ?_⟩
      · rw [if_neg (by rw [hm]; simp)]
        rfl
      · rw [if_pos ⟨hactive, hm⟩]
        by_cases hw : state.game_status = GAME_STATE_WAITING_FOR_PLAYERS
        · rw [if_pos hw]
          have hns2 := hns
          unfold game_starts slot_timed_out at hns2
          simp only [hw, true_and, if_true] at hns2
          rw [if_neg (by simpa using hns2)]
          simp only [set_set_same, List.getD_eq_getElem?_getD, List.getElem?_set_self hlen,
            Option.getD_some]
          unfold slot_timed_out
          simp only [hw, true_and, if_true, List.getD_eq_getElem?_getD]
          congr 2
          rw [← List.getD_eq_getElem?_getD, hm]
        · rw [if_neg hw]
          simp only [set_set_same, List.getD_eq_getElem?_getD, List.getElem?_set_self hlen,
            Option.getD_some]
          unfold slot_timed_out
          simp only [hw, false_and, if_false, List.getD_eq_getElem?_getD]
          congr 2
          rw [← List.getD_eq_getElem?_getD, hm]
      · rw [if_pos ⟨hactive, hm⟩]
        have hw : state.game_status = GAME_STATE_WAITING_FOR_PLAYERS := hs.1
        rw [if_pos hw]
        have hs2 := hs
        unfold game_starts slot_timed_out at hs2
        simp only [hw, true_and, if_true] at hs2
        have hst : slot_timed_out state i =
            { state with
              connected_players := (state.connected_players + 255) % 256
              ready_players :=
                if (state.players.getD i default).ready = true then
                  (state.ready_players + 255) % 256
                else state.ready_players
              players_count :=
                if strlen (state.players.getD i default).name > 0 then
                  (state.players_count + 255) % 256
                else state.players_count
              players := (state.players.set i
                { state.players.getD i default with
                  conn := { (state.players.getD i default).conn with
                            is_connection_active := false }
                  name := List.replicate (MAX_PLAYER_NAME_LENGTH + 1) 0 }).set i
                { state.players.getD i default with
                  conn := { (state.players.getD i default).conn with
                            is_connection_active := false }
                  name := List.replicate (MAX_PLAYER_NAME_LENGTH + 1) 0
                  ready := false } } := by
          unfold slot_timed_out
          simp only [hw, true_and, if_true, set_set_same]
        rw [if_pos (by simpa using hs2)]
        rw [← hst]
        simp only [List.nil_append]
        rfl
    · have hf : fired.getD i false = false := by
        cases hk : fired.getD i false
        · rfl
        · exact absurd ((hfired i).1 hk) hi
      unfold handle_timers_loop
      rw [if_neg (by rw [hf]; decide)]
      exact ih (i + 1) (by omega) (by omega)

theorem timer_of_slot_fired (slot j : Nat) :
    (timer_of_slot slot).getD j false = true ↔ j = slot := by
  unfold timer_of_slot
  rcases Nat.lt_trichotomy j slot with h | h | h
  · rw [List.getD_append _ _ _ _ (by rw [List.length_replicate]; exact h)]
    rw [List.getD_eq_getElem?_getD, List.getElem?_replicate, if_pos h]
    constructor
    · intro h1; exact absurd h1 (by decide)
    · intro h1; omega
  · subst h
    rw [List.getD_append_right _ _ _ _ (by rw [List.length_replicate])]
    rw [List.length_replicate, Nat.sub_self]
    exact ⟨fun _ => rfl, fun _ => rfl⟩
  · rw [List.getD_eq_default _ _ (by
      rw [List.length_append, List.length_replicate, List.length_singleton]; omega)]
    constructor
    · intro h1; exact absurd h1 (by decide)
    · intro h1; omega

/-- The timer of a slot is reported by `poll` when its time has run out and `fds` holds a
descriptor for the slot. -/
theorem fired_timers_getD (state : server_game_state_t) (polled : poll_result_t) (j : Nat) :
    (fired_timers state polled).getD j false =
      (decide (j < MAX_PLAYERS) &&
        (polled.slot_timers.getD j false && state.timer_created.getD j false)) := by
  unfold fired_timers
  rw [List.getD_eq_getElem?_getD, List.getElem?_map]
  by_cases hj : j < MAX_PLAYERS
  · rw [List.getElem?_range hj]
    simp [hj]
  · rw [List.getElem?_eq_none (by rw [List.length_range]; omega)]
    simp [hj]

/-- In a round in which only the time of the timer of `slot` runs out, a slot whose timer
has been created, `poll` reports the timer of `slot` and no other. -/
theorem timer_round_fired (state : server_game_state_t) (slot : Nat)
    (hslot : slot < MAX_PLAYERS) (hcreated : state.timer_created.getD slot false = true) :
    ∀ j, (fired_timers state (timer_round slot)).getD j false = true ↔ j = slot := by
  intro j
  rw [fired_timers_getD]
  have h := timer_of_slot_fired slot j
  constructor
  · intro hf
    simp only [Bool.and_eq_true, decide_eq_true_eq] at hf
    exact h.1 hf.2.1
  · intro hj
    subst hj
    simp only [Bool.and_eq_true, decide_eq_true_eq]
    exact ⟨hslot, h.2 rfl, hcreated⟩

set_option maxRecDepth 1000000 in
/-- C27, the claim as stated fails.  In the lobby after the game of Alice and Bob, in
which Bob has opened session 2 (so that slot 24 has its timer), Carol has been admitted
and Alice and Carol are ready, slot 24 is the active slot of Bob, whose flag `message` is
false.  In the round in which the timer of slot 24 fires, `poll` reports that timer
alone, Bob is disconnected, the two ready players that remain start a game, and
`initiate_game` sorts the slots by name: after the round slot 24 is an active slot, with
the name Carol. -/
theorem timed_out_slot_holds_another_client :
    lobby_after_game.game_status = GAME_STATE_WAITING_FOR_PLAYERS ∧
    lobby_after_game.timer_created.getD 24 false = true ∧
    (lobby_after_game.players.getD 24 default).conn.is_connection_active = true ∧
    c_str (lobby_after_game.players.getD 24 default).name = name_Bob ∧
    (lobby_after_game.players.getD 24 default).message = false ∧
    fired_timers lobby_after_game (timer_round 24) = timer_of_slot 24 ∧
    (main_loop_step east_libm lobby_after_game (timer_round 24)).1.game_status =
      GAME_STATE_GAME_STARTED ∧
    ((main_loop_step east_libm lobby_after_game (timer_round 24)).1.players.getD 24
      default).conn.is_connection_active = true ∧
    c_str ((main_loop_step east_libm lobby_after_game (timer_round 24)).1.players.getD 24
      default).name = name_Carol := by
  decide!

/-- C27 (amended).  When the timer of an active slot is the only one that `poll` reports
(`fired_timers`: the time of the timer has run out and `fds` holds a descriptor for the
slot), `handle_timers` does the following.  If the flag `message` of the slot is set, the
flag is cleared and nothing else changes.  If the flag is not set, the slot is
disconnected (`slot_timed_out`: connection not active, name cleared, `connected_players`
decreased by one, and while waiting `ready_players` and `players_count` decreased if the
slot was ready and named); its flag is false.  When the disconnection makes every
remaining player ready, with at least two of them, the game is started from the
disconnected state by `initiate_game`, which sorts the slots by name: the state is that
of `initiate_game` up to the flag `message` of the entry at the index of the slot.
Nothing is sent but the datagrams of `initiate_game`. -/
theorem timeout_of_slot (state : server_game_state_t) (polled : poll_result_t) (slot : Nat)
    (hlen : state.players.length = MAX_PLAYERS) (hslot : slot < MAX_PLAYERS)
    (hfired : ∀ j, (fired_timers state polled).getD j false = true ↔ j = slot)
    (hactive : (state.players.getD slot default).conn.is_connection_active = true) :
    ((state.players.getD slot default).message = true →
      handle_timers state (fired_timers state polled) = (message_cleared state slot, [])) ∧
    ((state.players.getD slot default).message = false →
      ¬ game_starts (slot_timed_out state slot) →
      handle_timers state (fired_timers state polled) = (slot_timed_out state slot, []) ∧
      ((slot_timed_out state slot).players.getD slot default).message = false) ∧
    ((state.players.getD slot default).message = false →
      game_starts (slot_timed_out state slot) →
      (handle_timers state (fired_timers state polled)).2 =
        (initiate_game (slot_timed_out state slot)).2 ∧
      ∃ flag : Bool,
        (handle_timers state (fired_timers state polled)).1 =
          { (initiate_game (slot_timed_out state slot)).1 with
            players := (initiate_game (slot_timed_out state slot)).1.players.set slot
              { (initiate_game (slot_timed_out state slot)).1.players.getD slot default with
                message := flag } }) := by
  have h := handle_timers_loop_single state (fired_timers state polled) slot
    (by rw [hlen]; exact hslot) hfired hactive MAX_PLAYERS 0 (Nat.zero_le _) (by omega)
  unfold handle_timers
  refine ⟨h.1, fun hm hns => ⟨h.2.1 hm hns, ?_⟩, fun hm hs => ?_⟩
  · unfold slot_timed_out
    simp only [List.getD_eq_getElem?_getD, List.getElem?_set_self (by rw [hlen]; exact hslot),
      Option.getD_some]
    rw [← List.getD_eq_getElem?_getD]
    exact hm
  · rw [h.2.2 hm hs]
    generalize initiate_game (slot_timed_out state slot) = started
    exact ⟨rfl, false, rfl⟩

set_option maxRecDepth 1000000 in
/-- C27 (amended), three timeouts of timers that exist.  In the lobby after the game, the
timer of slot 0 (created at the admission of Carol, who has sent a datagram since) clears
her flag.  In the lobby in which Bob has opened session 2 and nothing else has happened,
the timer of slot 24 (created for that session; Bob has sent nothing since) disconnects
him, and no game starts.  In the lobby after the game, the timer of slot 24 disconnects
Bob and starts the game of Alice and Carol. -/
theorem timeout_of_slot_witness :
    (lobby_after_game.timer_created.getD 0 false = true ∧
      lobby_bob_renewed.timer_created.getD 24 false = true ∧
      lobby_after_game.timer_created.getD 24 false = true) ∧
    handle_timers lobby_after_game (fired_timers lobby_after_game (timer_round 0)) =
      (message_cleared lobby_after_game 0, []) ∧
    (handle_timers lobby_bob_renewed (fired_timers lobby_bob_renewed (timer_round 24)) =
        (slot_timed_out lobby_bob_renewed 24, []) ∧
      ((slot_timed_out lobby_bob_renewed 24).players.getD 24 default).message = false) ∧
    (handle_timers lobby_after_game (fired_timers lobby_after_game (timer_round 24))).2 =
      (initiate_game (slot_timed_out lobby_after_game 24)).2 :=
  ⟨by decide!,
    (timeout_of_slot lobby_after_game (timer_round 0) 0 (by decide!) (by decide)
      (timer_round_fired lobby_after_game 0 (by decide) (by decide!)) (by decide!)).1
      (by decide!),
    (timeout_of_slot lobby_bob_renewed (timer_round 24) 24 (by decide!) (by decide)
      (timer_round_fired lobby_bob_renewed 24 (by decide) (by decide!)) (by decide!)).2.1
      (by decide!) (by decide!),
    ((timeout_of_slot lobby_after_game (timer_round 24) 24 (by decide!) (by decide)
      (timer_round_fired lobby_after_game 24 (by decide) (by decide!)) (by decide!)).2.2
      (by decide!) (by decide!)).1⟩

/-! ## Admission -/

/-- When `strlen(a) = n` and the string in `a` is the first `n` bytes of `b`,
`strncmp(a, b, n)` is 0. -/
theorem strncmp_of_take : ∀ (n : Nat) (a b : List Nat), strlen a = n → c_str a = b.take n →
    strncmp a b n = 0 := by
  intro n
  induction n with
  | zero =>
    intro a b _ _
    cases a <;> cases b <;> rfl
  | succ n ih =>
    intro a b hlen htake
    cases a with
    | nil => exact absurd hlen (by simp [strlen, c_str])
    | cons x xs =>
      have hx : x ≠ 0 := by
        intro h0
        rw [h0] at hlen
        simp [strlen, c_str] at hlen
      have hxs : strlen xs = n := by
        unfold strlen at hlen ⊢
        rw [c_str_cons, if_neg hx, List.length_cons] at hlen
        omega
      rw [c_str_cons, if_neg hx] at htake
      cases b with
      | nil => exact absurd htake (by simp)
      | cons y ys =>
        rw [List.take_succ_cons] at htake
        have hxy : x = y := (List.cons.inj htake).1
        have ht : c_str xs = ys.take n := (List.cons.inj htake).2
        unfold strncmp
        rw [if_neg (by omega), if_neg (by omega), if_neg hx]
        exact ih xs ys hxs ht

theorem c_str_of_nonzero : ∀ (l : List Nat), (∀ c ∈ l, c ≠ 0) → c_str l = l := by
  intro l
  induction l with
  | nil => intro _; rfl
  | cons x t ih =>
    intro h
    rw [c_str_cons, if_neg (h x (List.mem_cons_self _ _)),
      ih (fun c hc => h c (List.mem_cons_of_mem _ hc))]

theorem dgram_name_nonzero (buffer : List Nat) (read_bytes : Int)
    (hvalid : client_dgram_valid buffer read_bytes) :
    ∀ c ∈ dgram_name buffer read_bytes, c ≠ 0 := by
  intro c hc
  unfold dgram_name at hc
  rw [List.mem_map] at hc
  obtain ⟨k, hk, hck⟩ := hc
  rw [List.mem_range] at hk
  have h := hvalid.2.2.2 (CLIENT_DGRAM_INTEGERS_LEN + k)
    (by unfold CLIENT_DGRAM_INTEGERS_LEN; omega)
    (by unfold CLIENT_DGRAM_INTEGERS_LEN at hk ⊢; omega)
  omega

/-- The loop of `handle_client_datagram` when no active slot has the address of the
datagram: `addr_index` stays `MAX_PLAYERS`, and `exists_name` tells whether a slot holds
a name of `name_length > 0` bytes equal to the name of the datagram. -/
theorem find_client_not_found (state : server_game_state_t) (receive_address : List Nat)
    (dgram : client_dgram_t) (name_length : Int)
    (hnew : ∀ j, (state.players.getD j default).conn.is_connection_active = true →
      (state.players.getD j default).conn.address ≠ receive_address) :
    ∀ (fuel i : Nat) (exists_name : Bool),
      (find_client state receive_address dgram name_length fuel i exists_name).1 =
        MAX_PLAYERS ∧
      ((find_client state receive_address dgram name_length fuel i exists_name).2 = true ↔
        exists_name = true ∨ ∃ j, i ≤ j ∧ j < i + fuel ∧ name_length > 0 ∧
          (strlen (state.players.getD j default).name : Int) = name_length ∧
          strncmp (state.players.getD j default).name dgram.player_name
            name_length.toNat = 0) := by
  intro fuel
  induction fuel with
  | zero =>
    intro i e
    unfold find_client
    refine ⟨rfl, ?_⟩
    constructor
    · intro h; exact Or.inl h
    · rintro (h | ⟨j, h1, h2, _⟩)
      · exact h
      · omega
  | succ n ih =>
    intro i e
    unfold find_client
    simp only []
    rw [if_neg (by
      rintro ⟨ha, he⟩
      unfold equal_addresses at he
      exact hnew i ha (by simpa using he))]
    refine ⟨(ih (i + 1) _).1, ?_⟩
    rw [(ih (i + 1) _).2]
    by_cases hm : name_length > 0 ∧
        (strlen (state.players.getD i default).name : Int) = name_length ∧
        strncmp (state.players.getD i default).name dgram.player_name name_length.toNat = 0
    · rw [if_pos hm]
      constructor
      · intro _; exact Or.inr ⟨i, Nat.le_refl _, by omega, hm⟩
      · intro _; exact Or.inl rfl
    · rw [if_neg hm]
      constructor
      · rintro (h | ⟨j, h1, h2, h3⟩)
        · exact Or.inl h
        · exact Or.inr ⟨j, by omega, by omega, h3⟩
      · rintro (h | ⟨j, h1, h2, h3⟩)
        · exact Or.inl h
        · by_cases hj : j = i
          · subst hj; exact absurd h3 hm
          · exact Or.inr ⟨j, by omega, by omega, h3⟩

/-- The loop of lines 163-168 finds the first inactive slot, when there is one. -/
theorem first_inactive_slot_spec (players : List client_t) :
    ∀ (fuel i : Nat),
      (∃ j, i ≤ j ∧ j < i + fuel ∧
        (players.getD j default).conn.is_connection_active = false) →
      i ≤ first_inactive_slot players fuel i ∧
      first_inactive_slot players fuel i < i + fuel ∧
      (players.getD (first_inactive_slot players fuel i)
        default).conn.is_connection_active = false ∧
      ∀ k, i ≤ k → k < first_inactive_slot players fuel i →
        (players.getD k default).conn.is_connection_active = true := by
  intro fuel
  induction fuel with
  | zero => rintro i ⟨j, h1, h2, _⟩; omega
  | succ n ih =>
    rintro i ⟨j, h1, h2, h3⟩
    unfold first_inactive_slot
    cases hi : (players.getD i default).conn.is_connection_active
    · rw [if_pos (by rfl)]
      exact ⟨Nat.le_refl _, by omega, hi, fun k hk1 hk2 => by omega⟩
    · rw [if_neg (by decide)]
      have hj : j ≠ i := by
        intro h
        rw [h, hi] at h3
        exact Bool.noConfusion h3
      obtain ⟨a, b, c, d⟩ := ih (i + 1) ⟨j, by omega, by omega, h3⟩
      refine ⟨by omega, by omega, c, fun k hk1 hk2 => ?_⟩
      by_cases hk : k = i
      · rw [hk]; exact hi
      · exact d k (by omega) hk2

theorem active_count_le (players : List client_t) : active_count players ≤ MAX_PLAYERS := by
  unfold active_count
  exact (List.length_filter_le _ _).trans (by rw [List.length_range])

theorem exists_inactive_of_count (players : List client_t)
    (h : active_count players < MAX_PLAYERS) :
    ∃ j, j < MAX_PLAYERS ∧ (players.getD j default).conn.is_connection_active = false := by
  by_contra hnone
  push_neg at hnone
  have hall : ((List.range MAX_PLAYERS).filter
      (fun j => (players.getD j default).conn.is_connection_active)).length =
      (List.range MAX_PLAYERS).length := by
    rw [List.filter_eq_self.2]
    intro j hj
    rw [List.mem_range] at hj
    cases hc : (players.getD j default).conn.is_connection_active
    · exact absurd hc (hnone j hj)
    · rfl
  unfold active_count at h
  rw [hall, List.length_range] at h
  omega

/-- The state `handle_new_client` builds when a slot is free, and what it returns. -/
theorem handle_new_client_admits (state : server_game_state_t) (receive_address : List Nat)
    (receive_address_length : Nat) (datagram_size : Int) (dgram : client_dgram_t)
    (hfree : state.connected_players ≠ MAX_PLAYERS) :
    ∃ (admitted : server_game_state_t) (player : client_t) (sent : List (Nat × List Nat)),
      handle_new_client state receive_address receive_address_length datagram_size dgram =
        (if admitted.game_status = GAME_STATE_WAITING_FOR_PLAYERS ∧
            admitted.ready_players = admitted.players_count ∧ admitted.players_count > 1 then
          ((initiate_game admitted).1, sent ++ (initiate_game admitted).2)
        else (admitted, sent)) ∧
      admitted.players =
        state.players.set (first_inactive_slot state.players MAX_PLAYERS 0) player ∧
      admitted.connected_players = (state.connected_players + 1) % 256 ∧
      admitted.game_status = state.game_status ∧
      player.conn =
        { session_id := dgram.session_id, is_connection_active := true,
          address := receive_address, address_length := receive_address_length } ∧
      player.name =
        memcpy_name (state.players.getD (first_inactive_slot state.players MAX_PLAYERS 0)
          default).name dgram.player_name (datagram_size - (CLIENT_DGRAM_INTEGERS_LEN : Int)) ∧
      (state.game_status = GAME_STATE_GAME_STARTED → player.is_spectator = true) := by
  unfold handle_new_client
  rw [if_neg hfree]
  refine ⟨_, _, _, rfl, rfl, rfl, rfl, ?_, ?_, ?_⟩
  · dsimp only
    split_ifs <;> rfl
  · dsimp only
    split_ifs <;> rfl
  · intro hs
    dsimp only
    rw [if_pos hs]

/-- The value of `exists_name` for a datagram from an address that no active slot
has, when the names of the inactive slots are cleared: whether an active slot holds the
name of the datagram, which is not empty. -/
theorem exists_name_iff (state : server_game_state_t) (receive_address : List Nat)
    (buffer : List Nat) (read_bytes : Int)
    (hlen : state.players.length = MAX_PLAYERS)
    (hnames : ∀ j, j < MAX_PLAYERS →
      (state.players.getD j default).conn.is_connection_active = false →
      (state.players.getD j default).name = List.replicate (MAX_PLAYER_NAME_LENGTH + 1) 0)
    (hnew : ∀ j, j < MAX_PLAYERS →
      (state.players.getD j default).conn.is_connection_active = true →
      (state.players.getD j default).conn.address ≠ receive_address) :
    (find_client state receive_address (parsed_dgram buffer read_bytes)
      (read_bytes - (CLIENT_DGRAM_INTEGERS_LEN : Int)) MAX_PLAYERS 0 false).1 = MAX_PLAYERS ∧
    ((find_client state receive_address (parsed_dgram buffer read_bytes)
      (read_bytes - (CLIENT_DGRAM_INTEGERS_LEN : Int)) MAX_PLAYERS 0 false).2 = true ↔
      ¬ (dgram_name buffer read_bytes = [] ∨
        ∀ j, j < MAX_PLAYERS →
          (state.players.getD j default).conn.is_connection_active = true →
          c_str (state.players.getD j default).name ≠ dgram_name buffer read_bytes)) := by
  have hnew2 : ∀ j, (state.players.getD j default).conn.is_connection_active = true →
      (state.players.getD j default).conn.address ≠ receive_address := by
    intro j ha
    by_cases hj : j < MAX_PLAYERS
    · exact hnew j hj ha
    · rw [List.getD_eq_default _ _ (by rw [hlen]; omega)] at ha
      exact Bool.noConfusion ha
  have h := find_client_not_found state receive_address (parsed_dgram buffer read_bytes)
    (read_bytes - (CLIENT_DGRAM_INTEGERS_LEN : Int)) hnew2 MAX_PLAYERS 0 false
  refine ⟨h.1, ?_⟩
  rw [h.2]
  have hl : (dgram_name buffer read_bytes).length =
      (read_bytes - ((CLIENT_DGRAM_INTEGERS_LEN : Nat) : Int)).toNat :=
    dgram_name_length buffer read_bytes
  have htake : (parsed_dgram buffer read_bytes).player_name.take
      (read_bytes - ((CLIENT_DGRAM_INTEGERS_LEN : Nat) : Int)).toNat =
      dgram_name buffer read_bytes := by
    show (dgram_name buffer read_bytes ++ _).take _ = _
    rw [← hl, List.take_left]
  have h13 : ((CLIENT_DGRAM_INTEGERS_LEN : Nat) : Int) = 13 := rfl
  constructor
  · rintro (h0 | ⟨j, _, hj, hpos, hs, hcmp⟩)
    · exact Bool.noConfusion h0
    · rintro (hempty | hnone)
      · rw [hempty, List.length_nil] at hl
        omega
      · have hn : strlen (state.players.getD j default).name =
            (read_bytes - ((CLIENT_DGRAM_INTEGERS_LEN : Nat) : Int)).toNat := by
          omega
        have hc := strncmp_eq_zero _ _ _ hn hcmp
        rw [htake] at hc
        cases ha : (state.players.getD j default).conn.is_connection_active
        · have hz := hnames j (by omega) ha
          rw [hz] at hs
          have h0 : strlen (List.replicate (MAX_PLAYER_NAME_LENGTH + 1) 0) = 0 := by decide
          rw [h0] at hs
          omega
        · exact hnone j (by omega) ha hc
  · intro hnot
    push_neg at hnot
    obtain ⟨hne, j, hj, ha, hc⟩ := hnot
    have hpos : 0 < (dgram_name buffer read_bytes).length :=
      List.length_pos.2 hne
    have hs : strlen (state.players.getD j default).name =
        (read_bytes - ((CLIENT_DGRAM_INTEGERS_LEN : Nat) : Int)).toNat := by
      unfold strlen
      rw [hc, hl]
    refine Or.inr ⟨j, Nat.zero_le _, by omega, by omega, by omega, ?_⟩
    exact strncmp_of_take _ _ _ hs (by rw [htake]; exact hc)

/-- C26 (amended).  A valid datagram from an address that no active slot has, in a state
in which `connected_players` is the number of active slots and the names of the inactive
slots are cleared.  If the admission rule fails (no free slot, or the name is not empty
and an active slot holds exactly that name), the state is unchanged and nothing is sent.
If it holds, the client is admitted to the first inactive slot: in the admitted state that
slot is active with the session id, the address and the name of the datagram,
`connected_players` is one more, no other slot has changed, and during a game the slot
is a spectator; `handle_client_datagram` returns the admitted state, or, when the
admission makes every player ready (at least two), the state of the game that
`initiate_game` starts from it. -/
theorem admission_of_new_client (state : server_game_state_t) (receive_address : List Nat)
    (receive_address_length : Nat) (buffer : List Nat) (read_bytes : Int)
    (hvalid : client_dgram_valid buffer read_bytes)
    (hlen : state.players.length = MAX_PLAYERS)
    (hcount : state.connected_players = active_count state.players)
    (hnames : ∀ j, j < MAX_PLAYERS →
      (state.players.getD j default).conn.is_connection_active = false →
      (state.players.getD j default).name = List.replicate (MAX_PLAYER_NAME_LENGTH + 1) 0)
    (hnew : ∀ j, j < MAX_PLAYERS →
      (state.players.getD j default).conn.is_connection_active = true →
      (state.players.getD j default).conn.address ≠ receive_address) :
    (¬ admissible state (dgram_name buffer read_bytes) →
      handle_client_datagram state receive_address receive_address_length buffer read_bytes =
        (state, [])) ∧
    (admissible state (dgram_name buffer read_bytes) →
      ∃ (slot : Nat) (admitted : server_game_state_t),
        slot < MAX_PLAYERS ∧
        (state.players.getD slot default).conn.is_connection_active = false ∧
        (∀ k, k < slot → (state.players.getD k default).conn.is_connection_active = true) ∧
        (admitted.players.getD slot default).conn =
          { session_id := be64toh buffer 0, is_connection_active := true,
            address := receive_address, address_length := receive_address_length } ∧
        c_str (admitted.players.getD slot default).name = dgram_name buffer read_bytes ∧
        admitted.connected_players = state.connected_players + 1 ∧
        admitted.game_status = state.game_status ∧
        admitted.players.length = MAX_PLAYERS ∧
        (∀ j, j ≠ slot → admitted.players.getD j default = state.players.getD j default) ∧
        (state.game_status = GAME_STATE_GAME_STARTED →
          (admitted.players.getD slot default).is_spectator = true) ∧
        (handle_client_datagram state receive_address receive_address_length buffer
          read_bytes).1 =
          if game_starts admitted then (initiate_game admitted).1 else admitted) := by
  have hfind := exists_name_iff state receive_address buffer read_bytes hlen hnames hnew
  have hle := active_count_le state.players
  have hunfold : handle_client_datagram state receive_address receive_address_length buffer
      read_bytes =
      if dgram_name buffer read_bytes = [] ∨
          ∀ j, j < MAX_PLAYERS →
            (state.players.getD j default).conn.is_connection_active = true →
            c_str (state.players.getD j default).name ≠ dgram_name buffer read_bytes then
        handle_new_client state receive_address receive_address_length read_bytes
          (parsed_dgram buffer read_bytes)
      else (state, []) := by
    unfold handle_client_datagram
    simp only []
    rw [deserialize_client_dgram_of_valid buffer read_bytes hvalid]
    rw [if_neg (show ¬ ((0 : Int), parsed_dgram buffer read_bytes).1 < 0 from Int.lt_irrefl 0)]
    simp only []
    rw [hfind.1, if_neg (Nat.lt_irrefl _)]
    by_cases hname : dgram_name buffer read_bytes = [] ∨
        ∀ j, j < MAX_PLAYERS →
          (state.players.getD j default).conn.is_connection_active = true →
          c_str (state.players.getD j default).name ≠ dgram_name buffer read_bytes
    · rw [if_pos hname]
      have hf : (find_client state receive_address (parsed_dgram buffer read_bytes)
          (read_bytes - (CLIENT_DGRAM_INTEGERS_LEN : Int)) MAX_PLAYERS 0 false).2 = false := by
        cases hx : (find_client state receive_address (parsed_dgram buffer read_bytes)
          (read_bytes - (CLIENT_DGRAM_INTEGERS_LEN : Int)) MAX_PLAYERS 0 false).2
        · rfl
        · exact absurd hname (hfind.2.1 hx)
      rw [hf]
      rfl
    · rw [if_neg hname, hfind.2.2 hname]
      rfl
  rw [hunfold]
  constructor
  · intro hna
    unfold admissible at hna
    by_cases hname : dgram_name buffer read_bytes = [] ∨
        ∀ j, j < MAX_PLAYERS →
          (state.players.getD j default).conn.is_connection_active = true →
          c_str (state.players.getD j default).name ≠ dgram_name buffer read_bytes
    · rw [if_pos hname]
      have hfull : state.connected_players = MAX_PLAYERS := by
        have : ¬ state.connected_players < MAX_PLAYERS := fun h => hna ⟨h, hname⟩
        omega
      unfold handle_new_client
      rw [if_pos hfull]
    · rw [if_neg hname]
  · rintro ⟨hfree, hname⟩
    rw [if_pos hname]
    obtain ⟨admitted, player, sent, hres, hplayers, hconn, hstatus, hpc, hpn, hspec⟩ :=
      handle_new_client_admits state receive_address receive_address_length read_bytes
        (parsed_dgram buffer read_bytes) (by omega)
    obtain ⟨j, hj, hjin⟩ := exists_inactive_of_count state.players (by omega)
    obtain ⟨_, hs2, hs3, hs4⟩ := first_inactive_slot_spec state.players MAX_PLAYERS 0
      ⟨j, Nat.zero_le _, by omega, hjin⟩
    generalize first_inactive_slot state.players MAX_PLAYERS 0 = slot at *
    have hslot : slot < MAX_PLAYERS := by omega
    have hget : admitted.players.getD slot default = player := by
      rw [hplayers, List.getD_eq_getElem?_getD, List.getElem?_set_self (by rw [hlen]; exact hslot)]
      rfl
    refine ⟨slot, admitted, hslot, hs3, fun k hk => hs4 k (Nat.zero_le _) hk, ?_, ?_, ?_,
      hstatus, ?_, ?_, ?_, ?_⟩
    · rw [hget, hpc]
      rfl
    · rw [hget, hpn, hnames slot hslot hs3]
      unfold memcpy_name
      have hl : (dgram_name buffer read_bytes).length =
          (read_bytes - ((CLIENT_DGRAM_INTEGERS_LEN : Nat) : Int)).toNat :=
        dgram_name_length buffer read_bytes
      have htake : (parsed_dgram buffer read_bytes).player_name.take
          (read_bytes - ((CLIENT_DGRAM_INTEGERS_LEN : Nat) : Int)).toNat =
          dgram_name buffer read_bytes := by
        show (dgram_name buffer read_bytes ++ _).take _ = _
        rw [← hl, List.take_left]
      rw [htake, List.drop_replicate]
      have hc := c_str_of_nonzero _ (dgram_name_nonzero buffer read_bytes hvalid)
      rw [← hc]
      exact c_str_append_zeros _ _
    · rw [hconn]
      exact Nat.mod_eq_of_lt (by unfold MAX_PLAYERS at hfree; omega)
    · rw [hplayers, List.length_set, hlen]
    · intro k hk
      rw [hplayers, List.getD_eq_getElem?_getD, List.getElem?_set_ne (Ne.symm hk),
        ← List.getD_eq_getElem?_getD]
    · intro hs
      rw [hget]
      exact hspec hs
    · rw [hres]
      have hiff : (admitted.game_status = GAME_STATE_WAITING_FOR_PLAYERS ∧
          admitted.ready_players = admitted.players_count ∧ admitted.players_count > 1) ↔
          game_starts admitted := by
        unfold game_starts
        constructor
        · rintro ⟨a, b, c⟩
          exact ⟨a, b, by rw [b]; exact c⟩
        · rintro ⟨a, b, c⟩
          exact ⟨a, b, by rw [← b]; exact c⟩
      by_cases hg : game_starts admitted
      · rw [if_pos (hiff.2 hg), if_pos hg]
      · rw [if_neg (fun h => hg (hiff.1 h)), if_neg hg]

set_option maxRecDepth 1000000 in
/-- C26, the claim as stated fails.  In the lobby with Alice (slot 0, ready) the first
datagram of Bob (turn direction 2) is valid, comes from an address that no active slot
has, and is admissible.  Bob is admitted and ready, so the game starts and
`initiate_game` sorts the slots by name: the connection data of slot 0 (Alice before,
inactive after) and of slot 23 (inactive before, Alice after) change as well as those of
slot 24, which holds Bob. -/
theorem admission_changes_other_slots :
    client_dgram_valid (session_1_dgram 2 0 name_Bob) 16 ∧
    admissible lobby_with_alice (dgram_name (session_1_dgram 2 0 name_Bob) 16) ∧
    (∀ j, j < MAX_PLAYERS →
      (lobby_with_alice.players.getD j default).conn.is_connection_active = true →
      (lobby_with_alice.players.getD j default).conn.address ≠ address_Bob) ∧
    ((handle_client_datagram lobby_with_alice address_Bob 28
        (session_1_dgram 2 0 name_Bob) 16).1.players.getD 0 default).conn ≠
      (lobby_with_alice.players.getD 0 default).conn ∧
    ((handle_client_datagram lobby_with_alice address_Bob 28
        (session_1_dgram 2 0 name_Bob) 16).1.players.getD 23 default).conn ≠
      (lobby_with_alice.players.getD 23 default).conn ∧
    ((handle_client_datagram lobby_with_alice address_Bob 28
        (session_1_dgram 2 0 name_Bob) 16).1.players.getD 24 default).conn =
      { session_id := 1, is_connection_active := true, address := address_Bob,
        address_length := 28 } := by
  decide!

set_option maxRecDepth 1000000 in
/-- C26 (amended), in the lobby with Alice: a datagram from the address of Bob with the
name Alice is not admitted; the first datagram of Bob, with turn direction 0, is admitted
to a slot, which gets his session id, address and name. -/
theorem admission_of_new_client_witness :
    handle_client_datagram lobby_with_alice address_Bob 28
      (session_1_dgram 2 0 name_Alice) 18 = (lobby_with_alice, []) ∧
    ∃ (slot : Nat) (admitted : server_game_state_t),
      slot < MAX_PLAYERS ∧
      (admitted.players.getD slot default).conn =
        { session_id := 1, is_connection_active := true, address := address_Bob,
          address_length := 28 } ∧
      c_str (admitted.players.getD slot default).name = name_Bob ∧
      admitted.connected_players = 2 ∧
      (handle_client_datagram lobby_with_alice address_Bob 28
          (session_1_dgram 0 0 name_Bob) 16).1 =
        if game_starts admitted then (initiate_game admitted).1 else admitted :=
  ⟨(admission_of_new_client lobby_with_alice address_Bob 28
      (session_1_dgram 2 0 name_Alice) 18 (by decide) (by decide!) (by decide!) (by decide!)
      (by decide!)).1 (by decide!),
    match (admission_of_new_client lobby_with_alice address_Bob 28
      (session_1_dgram 0 0 name_Bob) 16 (by decide) (by decide!) (by decide!) (by decide!)
      (by decide!)).2 (by decide!) with
    | ⟨slot, admitted, h1, _, _, h4, h5, h6, _, _, _, _, h11⟩ =>
      ⟨slot, admitted, h1, h4, h5, h6.trans (by decide!), h11⟩⟩

/-! ## Messages of the frontend -/

theorem strcmp_eq_zero_iff : ∀ (a b : List Nat), strcmp a b = 0 ↔ c_str a = c_str b := by
  intro a
  induction a with
  | nil =>
    intro b
    cases b with
    | nil => simp [strcmp, c_str]
    | cons y ys =>
      rw [c_str_cons]
      unfold strcmp
      by_cases hy : y = 0
      · rw [if_pos hy, if_pos hy]; simp [c_str]
      · rw [if_neg hy, if_neg hy]; simp [c_str]
  | cons x xs ih =>
    intro b
    cases b with
    | nil =>
      rw [c_str_cons]
      unfold strcmp
      by_cases hx : x = 0
      · rw [if_pos hx, if_pos hx]; simp [c_str]
      · rw [if_neg hx, if_neg hx]; simp [c_str]
    | cons y ys =>
      rw [c_str_cons x xs, c_str_cons y ys]
      unfold strcmp
      by_cases h1 : x < y
      · rw [if_pos h1]
        have hy : y ≠ 0 := by omega
        rw [if_neg hy]
        constructor
        · intro h; exact absurd h (by decide)
        · intro h
          by_cases hx : x = 0
          · rw [if_pos hx] at h; exact absurd h (by simp)
          · rw [if_neg hx] at h
            have := (List.cons.inj h).1
            omega
      · rw [if_neg h1]
        by_cases h2 : y < x
        · rw [if_pos h2]
          have hx : x ≠ 0 := by omega
          rw [if_neg hx]
          constructor
          · intro h; exact absurd h (by decide)
          · intro h
            by_cases hy : y = 0
            · rw [if_pos hy] at h; exact absurd h (by simp)
            · rw [if_neg hy] at h
              have := (List.cons.inj h).1
              omega
        · rw [if_neg h2]
          have hxy : x = y := by omega
          subst hxy
          by_cases hx : x = 0
          · simp only [if_pos hx]
          · simp only [if_neg hx]
            rw [ih ys]
            constructor
            · intro h; rw [h]
            · intro h; exact (List.cons.inj h).2

/-- The loop of lines 281-287 stops after the first newline. -/
theorem newline_scan_found (buffer : List Nat) (read_bytes n : Nat) (hn : n < read_bytes)
    (hnl : buffer.getD n 0 = 10) :
    ∀ (fuel len : Nat), len ≤ n → n - len < fuel →
      (∀ k, len ≤ k → k < n → buffer.getD k 0 ≠ 10) →
      newline_scan buffer read_bytes fuel len = (n + 1, true) := by
  intro fuel
  induction fuel with
  | zero => intro len _ h; omega
  | succ f ih =>
    intro len h1 h2 hno
    unfold newline_scan
    rw [if_pos (by omega)]
    by_cases hl : len = n
    · subst hl
      rw [if_pos hnl]
    · rw [if_neg (hno len (Nat.le_refl _) (by omega))]
      exact ih (len + 1) (by omega) (by omega) (fun k hk1 hk2 => hno k (by omega) hk2)

/-- The loop of lines 281-287 runs to the end of the bytes read when they hold no
newline. -/
theorem newline_scan_none (buffer : List Nat) (read_bytes : Nat) :
    ∀ (fuel len : Nat), len ≤ read_bytes → read_bytes - len ≤ fuel →
      (∀ k, len ≤ k → k < read_bytes → buffer.getD k 0 ≠ 10) →
      newline_scan buffer read_bytes fuel len = (read_bytes, false) := by
  intro fuel
  induction fuel with
  | zero =>
    intro len h1 h2 _
    unfold newline_scan
    have : len = read_bytes := by omega
    rw [this]
  | succ f ih =>
    intro len h1 h2 hno
    unfold newline_scan
    by_cases hl : len < read_bytes
    · rw [if_pos hl, if_neg (hno len (Nat.le_refl _) hl)]
      exact ih (len + 1) (by omega) (by omega) (fun k hk1 hk2 => hno k (by omega) hk2)
    · rw [if_neg hl]
      have : len = read_bytes := by omega
      rw [this]

theorem getD_set_nat (l : List Nat) (i j v : Nat) :
    (l.set i v).getD j 0 = if i = j ∧ j < l.length then v else l.getD j 0 := by
  simp only [List.getD_eq_getElem?_getD, List.getElem?_set]
  by_cases hij : i = j
  · subst hij
    by_cases hl : i < l.length
    · simp [hl]
    · simp [hl, List.getElem?_eq_none (Nat.le_of_not_lt hl)]
  · simp [hij]

/-- The loop of lines 294-296 copies the bytes at the indices `i, ..., i + fuel - 1` of
the read buffer to the same indices of `partial_gui_msg`. -/
theorem copy_gui_msg_spec (buffer : List Nat) :
    ∀ (fuel i : Nat) (p : List Nat),
      (copy_gui_msg buffer fuel i p).length = p.length ∧
      ∀ k, (copy_gui_msg buffer fuel i p).getD k 0 =
        if i ≤ k ∧ k < i + fuel ∧ k < p.length then buffer.getD k 0 else p.getD k 0 := by
  intro fuel
  induction fuel with
  | zero =>
    intro i p
    refine ⟨rfl, fun k => ?_⟩
    unfold copy_gui_msg
    rw [if_neg (by omega)]
  | succ f ih =>
    intro i p
    unfold copy_gui_msg
    obtain ⟨hl, hg⟩ := ih (i + 1) (p.set i (buffer.getD i 0))
    refine ⟨by rw [hl, List.length_set], fun k => ?_⟩
    rw [hg k, List.length_set, getD_set_nat]
    by_cases hk : k = i
    · subst hk
      by_cases hp : k < p.length
      · rw [if_neg (by omega), if_pos ⟨rfl, hp⟩, if_pos ⟨Nat.le_refl _, by omega, hp⟩]
      · rw [if_neg (by omega), if_neg (by omega), if_neg (by omega)]
    · by_cases hc : i + 1 ≤ k ∧ k < i + 1 + f ∧ k < p.length
      · rw [if_pos hc, if_pos ⟨by omega, by omega, hc.2.2⟩]
      · rw [if_neg hc, if_neg (by omega), if_neg (by omega)]

theorem getD_append_zeros (l : List Nat) (n k : Nat) :
    (l ++ List.replicate n 0).getD k 0 = l.getD k 0 := by
  by_cases hk : k < l.length
  · rw [List.getD_append _ _ _ _ hk]
  · rw [List.getD_append_right _ _ _ _ (Nat.le_of_not_lt hk), getD_replicate_zero,
      List.getD_eq_default _ _ (Nat.le_of_not_lt hk)]

/-- A recognised line in the buffer of 32 bytes, padded with NUL bytes, is matched by
its length and `strcmp`, and nothing else is. -/
theorem literal_match (line lit : List Nat) (n : Nat) (hlit : ∀ c ∈ lit, c ≠ 0) :
    (line.length = lit.length ∧ strcmp (line ++ List.replicate n 0) lit = 0) ↔
      line = lit := by
  rw [strcmp_eq_zero_iff, c_str_of_nonzero lit hlit]
  constructor
  · rintro ⟨hl, hc⟩
    have hp : c_str (line ++ List.replicate n 0) <+: line ++ List.replicate n 0 :=
      List.takeWhile_prefix _
    rw [List.prefix_iff_eq_take, hc, ← hl, List.take_left] at hp
    exact hp.symm
  · intro h
    subst h
    refine ⟨rfl, ?_⟩
    have := c_str_append_zeros line n
    rw [c_str_of_nonzero line hlit] at this
    exact this

/-- The bytes read, without a newline before their last byte, which is a newline: the
loop of lines 281-287 takes them all. -/
theorem newline_scan_line (body : List Nat) (hbody : ∀ c ∈ body, c ≠ 10) (n : Nat) :
    newline_scan (body ++ [10] ++ List.replicate n 0) (body ++ [10]).length
      (body ++ [10]).length 0 = ((body ++ [10]).length, true) := by
  have hl : (body ++ [10]).length = body.length + 1 := by simp
  rw [hl]
  apply newline_scan_found _ _ body.length (by omega)
  · rw [getD_append_zeros, List.getD_append_right _ _ _ _ (Nat.le_refl _), Nat.sub_self]
    rfl
  · omega
  · omega
  · intro k _ hk
    rw [getD_append_zeros, List.getD_append _ _ _ _ hk, List.getD_eq_getElem _ _ hk]
    exact hbody _ (List.getElem_mem _)

/-- The loop of lines 294-296 from index 0 into the cleared buffer: the bytes read. -/
theorem copy_gui_msg_line (line : List Nat) (n : Nat)
    (hl : line.length < PARTIAL_MSG_BUFFER_LENGTH) :
    copy_gui_msg (line ++ List.replicate n 0) line.length 0
        (List.replicate PARTIAL_MSG_BUFFER_LENGTH 0) =
      line ++ List.replicate (PARTIAL_MSG_BUFFER_LENGTH - line.length) 0 := by
  obtain ⟨h1, h2⟩ := copy_gui_msg_spec (line ++ List.replicate n 0) line.length 0
    (List.replicate PARTIAL_MSG_BUFFER_LENGTH 0)
  apply list_ext_getD
  · rw [h1, List.length_append, List.length_replicate, List.length_replicate]
    omega
  · intro j hj
    rw [h2 j, List.length_replicate, getD_append_zeros, getD_append_zeros, getD_replicate_zero]
    by_cases hc : j < line.length
    · rw [if_pos ⟨Nat.zero_le _, by omega, by omega⟩]
    · rw [if_neg (by omega), List.getD_eq_default _ _ (Nat.le_of_not_lt hc)]

/-- C31.  With an empty buffer for the partial line, a read of the frontend socket that
consists of exactly one line (bytes without a newline, followed by a newline) sets `client_turn_direction` to 2 for "LEFT_KEY_DOWN\n", to 1 for
"RIGHT_KEY_DOWN\n", to 0 for "LEFT_KEY_UP\n" and "RIGHT_KEY_UP\n" and leaves it unchanged
for every other line (`key_direction`); nothing else of the client state changes, and
afterwards the buffer for the partial line is empty again. -/
theorem gui_line_sets_turn_direction (state : client_game_state_t) (body : List Nat)
    (errno_is_EINTR : Bool)
    (hbody : ∀ c ∈ body, c ≠ 10) :
    handle_gui_message (empty_reader state) (some (body ++ [10])) errno_is_EINTR =
      some (empty_reader
        { state with
          client_turn_direction := key_direction (body ++ [10]) state.client_turn_direction })
    := by
  unfold handle_gui_message
  simp only []
  rw [if_neg (by simp)]
  congr 1
  unfold handle_gui_data
  simp only []
  rw [newline_scan_line body hbody]
  generalize hline : body ++ [10] = line at *
  unfold empty_reader
  simp only [Nat.zero_add, true_and, if_true, Nat.sub_zero]
  by_cases hl : line.length < PARTIAL_MSG_BUFFER_LENGTH
  · rw [if_pos hl]
    simp only []
    rw [copy_gui_msg_line line _ hl]
    have m1 := literal_match line text_LEFT_KEY_DOWN
      (PARTIAL_MSG_BUFFER_LENGTH - line.length) (by decide)
    have m2 := literal_match line text_RIGHT_KEY_DOWN
      (PARTIAL_MSG_BUFFER_LENGTH - line.length) (by decide)
    have m3 := literal_match line text_LEFT_KEY_UP
      (PARTIAL_MSG_BUFFER_LENGTH - line.length) (by decide)
    have m4 := literal_match line text_RIGHT_KEY_UP
      (PARTIAL_MSG_BUFFER_LENGTH - line.length) (by decide)
    have e1 : text_LEFT_KEY_DOWN.length = LENGTH_LEFT_KEY_DOWN := rfl
    have e2 : text_RIGHT_KEY_DOWN.length = LENGTH_RIGHT_KEY_DOWN := rfl
    have e3 : text_LEFT_KEY_UP.length = LENGTH_LEFT_KEY_UP := rfl
    have e4 : text_RIGHT_KEY_UP.length = LENGTH_RIGHT_KEY_UP := rfl
    rw [e1] at m1
    rw [e2] at m2
    rw [e3] at m3
    rw [e4] at m4
    unfold key_direction
    congr 2
    by_cases h1 : line = text_LEFT_KEY_DOWN
    · rw [if_pos (m1.2 h1), if_pos h1]
    · rw [if_neg (fun h => h1 (m1.1 h)), if_neg h1]
      by_cases h2 : line = text_RIGHT_KEY_DOWN
      · rw [if_pos (m2.2 h2), if_pos h2]
      · rw [if_neg (fun h => h2 (m2.1 h)), if_neg h2]
        by_cases h3 : line = text_LEFT_KEY_UP
        · rw [if_pos (m3.2 h3), if_pos (Or.inl h3)]
        · rw [if_neg (fun h => h3 (m3.1 h))]
          by_cases h4 : line = text_RIGHT_KEY_UP
          · rw [if_pos (m4.2 h4), if_pos (Or.inr h4)]
          · rw [if_neg (fun h => h4 (m4.1 h)), if_neg (by
              rintro (h | h)
              · exact h3 h
              · exact h4 h)]
  · rw [if_neg hl]
    simp only []
    have hk : key_direction line state.client_turn_direction =
        state.client_turn_direction := by
      unfold key_direction
      have n1 : line ≠ text_LEFT_KEY_DOWN := by
        intro h; rw [h] at hl; exact hl (by decide)
      have n2 : line ≠ text_RIGHT_KEY_DOWN := by
        intro h; rw [h] at hl; exact hl (by decide)
      have n3 : line ≠ text_LEFT_KEY_UP := by
        intro h; rw [h] at hl; exact hl (by decide)
      have n4 : line ≠ text_RIGHT_KEY_UP := by
        intro h; rw [h] at hl; exact hl (by decide)
      rw [if_neg n1, if_neg n2, if_neg (by
        rintro (h | h)
        · exact n3 h
        · exact n4 h)]
    rw [hk]

/-- C31, for the four recognised lines and for the line "LEFT\n", read by a client whose
turn direction is 1. -/
theorem gui_line_sets_turn_direction_witness :
    handle_gui_message
        (empty_reader { initial_client_game_state with client_turn_direction := 1 })
        (some text_LEFT_KEY_DOWN) false =
      some (empty_reader { initial_client_game_state with client_turn_direction := 2 }) ∧
    handle_gui_message
        (empty_reader { initial_client_game_state with client_turn_direction := 2 })
        (some text_RIGHT_KEY_DOWN) false =
      some (empty_reader { initial_client_game_state with client_turn_direction := 1 }) ∧
    handle_gui_message
        (empty_reader { initial_client_game_state with client_turn_direction := 1 })
        (some text_LEFT_KEY_UP) false =
      some (empty_reader { initial_client_game_state with client_turn_direction := 0 }) ∧
    handle_gui_message
        (empty_reader { initial_client_game_state with client_turn_direction := 1 })
        (some text_RIGHT_KEY_UP) false =
      some (empty_reader { initial_client_game_state with client_turn_direction := 0 }) ∧
    handle_gui_message
        (empty_reader { initial_client_game_state with client_turn_direction := 1 })
        (some [76, 69, 70, 84, 10]) false =
      some (empty_reader { initial_client_game_state with client_turn_direction := 1 }) :=
  ⟨gui_line_sets_turn_direction { initial_client_game_state with client_turn_direction := 1 }
      [76, 69, 70, 84, 95, 75, 69, 89, 95, 68, 79, 87, 78] false (by decide),
    gui_line_sets_turn_direction { initial_client_game_state with client_turn_direction := 2 }
      [82, 73, 71, 72, 84, 95, 75, 69, 89, 95, 68, 79, 87, 78] false (by decide),
    gui_line_sets_turn_direction { initial_client_game_state with client_turn_direction := 1 }
      [76, 69, 70, 84, 95, 75, 69, 89, 95, 85, 80] false (by decide),
    gui_line_sets_turn_direction { initial_client_game_state with client_turn_direction := 1 }
      [82, 73, 71, 72, 84, 95, 75, 69, 89, 95, 85, 80] false (by decide),
    gui_line_sets_turn_direction { initial_client_game_state with client_turn_direction := 1 }
      [76, 69, 70, 84] false (by decide)⟩

/-- A read without a newline only adds its length to `partial_gui_msg_length`: no byte is
stored. -/
theorem handle_gui_data_no_newline (reader : gui_reader_t) (data : List Nat)
    (hdata : ∀ c ∈ data, c ≠ 10) :
    handle_gui_data reader data =
      { reader with
        partial_gui_msg_length := reader.partial_gui_msg_length + data.length } := by
  unfold handle_gui_data
  simp only []
  have hscan : newline_scan (data ++ List.replicate (MSG_GUI_BUFFER_LENGTH - data.length) 0)
      data.length data.length 0 = (data.length, false) := by
    apply newline_scan_none _ _ _ _ (Nat.zero_le _) (by omega)
    intro k _ hk
    rw [getD_append_zeros, List.getD_eq_getElem _ _ hk]
    exact hdata _ (List.getElem_mem _)
  rw [hscan]
  simp

/-- A read that ends a line of which earlier reads have delivered a part: the bytes
copied are those at the indices from `partial_gui_msg_length` on of the read buffer, the
first byte of `partial_gui_msg` stays NUL, no line is matched and the turn direction is
kept. -/
theorem handle_gui_data_last_fragment (reader : gui_reader_t) (body : List Nat)
    (hbody : ∀ c ∈ body, c ≠ 10)
    (hzeros : reader.partial_gui_msg = List.replicate PARTIAL_MSG_BUFFER_LENGTH 0)
    (hstart : 0 < reader.partial_gui_msg_length) :
    handle_gui_data reader (body ++ [10]) = empty_reader reader.state := by
  unfold handle_gui_data
  simp only []
  rw [newline_scan_line body hbody]
  generalize hline : body ++ [10] = line at *
  simp only [true_and, if_true]
  unfold empty_reader
  by_cases hl : reader.partial_gui_msg_length + line.length < PARTIAL_MSG_BUFFER_LENGTH
  · rw [if_pos hl]
    simp only []
    obtain ⟨h1, h2⟩ := copy_gui_msg_spec
      (line ++ List.replicate (MSG_GUI_BUFFER_LENGTH - line.length) 0)
      (reader.partial_gui_msg_length + line.length - reader.partial_gui_msg_length)
      reader.partial_gui_msg_length reader.partial_gui_msg
    generalize copy_gui_msg (line ++ List.replicate (MSG_GUI_BUFFER_LENGTH - line.length) 0)
      (reader.partial_gui_msg_length + line.length - reader.partial_gui_msg_length)
      reader.partial_gui_msg_length reader.partial_gui_msg = copied at *
    have h0 : copied.getD 0 0 = 0 := by
      rw [h2 0, if_neg (by omega), hzeros, getD_replicate_zero]
    have hc : c_str copied = [] := by
      cases copied with
      | nil => rfl
      | cons x t =>
        have hx : x = 0 := h0
        rw [c_str_cons, if_pos hx]
    have hne : ∀ lit : List Nat, (∀ c ∈ lit, c ≠ 0) → lit ≠ [] → strcmp copied lit ≠ 0 := by
      intro lit hlit hnil h
      rw [strcmp_eq_zero_iff, hc, c_str_of_nonzero lit hlit] at h
      exact hnil h.symm
    rw [if_neg (fun h => hne text_LEFT_KEY_DOWN (by decide) (by decide) h.2),
      if_neg (fun h => hne text_RIGHT_KEY_DOWN (by decide) (by decide) h.2),
      if_neg (fun h => hne text_LEFT_KEY_UP (by decide) (by decide) h.2),
      if_neg (fun h => hne text_RIGHT_KEY_UP (by decide) (by decide) h.2)]
  · rw [if_neg hl]

/-- The reads of a fragmented line, after at least one byte of the line has been read or
with at least two reads to come: the line is not recognised. -/
theorem handle_gui_messages_fragments (state : client_game_state_t) :
    ∀ (fragments : List (List Nat)) (body : List Nat) (start : Nat),
      (∀ f ∈ fragments, f ≠ []) → fragments.flatten = body ++ [10] →
      (∀ c ∈ body, c ≠ 10) → (0 < start ∨ 2 ≤ fragments.length) →
      handle_gui_messages
          { state := state
            partial_gui_msg := List.replicate PARTIAL_MSG_BUFFER_LENGTH 0
            partial_gui_msg_length := start } fragments =
        some (empty_reader state) := by
  intro fragments
  induction fragments with
  | nil =>
    intro body start _ hjoin _ _
    exact absurd hjoin (by simp)
  | cons f rest ih =>
    intro body start hne hjoin hbody hstart
    have hf : f ≠ [] := hne f (List.mem_cons_self _ _)
    have hfl : f.length ≠ 0 := fun h => hf (List.length_eq_zero.1 h)
    unfold handle_gui_messages handle_gui_message
    simp only []
    rw [if_neg hfl]
    simp only []
    rw [List.flatten_cons] at hjoin
    cases rest with
    | nil =>
      rw [List.flatten_nil, List.append_nil] at hjoin
      have hs : 0 < start := by
        rcases hstart with h | h
        · exact h
        · simp at h
      rw [hjoin, handle_gui_data_last_fragment _ body hbody rfl hs]
      rfl
    | cons g rest2 =>
      have hrest : (g :: rest2).flatten ≠ [] := by
        intro h
        have hg : g ≠ [] := hne g (List.mem_cons_of_mem _ (List.mem_cons_self _ _))
        rw [List.flatten_cons] at h
        exact hg (List.append_eq_nil.1 h).1
      obtain ⟨body2, hbody_eq, hb2⟩ :
          ∃ body2, body = f ++ body2 ∧ (g :: rest2).flatten = body2 ++ [10] := by
        rcases List.append_eq_append_iff.1 hjoin with ⟨a, h1, h2⟩ | ⟨c, h1, h2⟩
        · exact ⟨a, h1, h2⟩
        · cases c with
          | nil =>
            rw [List.append_nil] at h1
            rw [List.nil_append] at h2
            exact ⟨[], by rw [h1, List.append_nil], by rw [← h2]; rfl⟩
          | cons x t =>
            have hlen := congrArg List.length h2
            simp only [List.length_cons, List.length_append, List.length_nil] at hlen
            have hpos : 0 < (g :: rest2).flatten.length := List.length_pos.2 hrest
            omega
      have hfno : ∀ c ∈ f, c ≠ 10 := fun c hc =>
        hbody c (by rw [hbody_eq]; exact List.mem_append_left _ hc)
      have hb2no : ∀ c ∈ body2, c ≠ 10 := fun c hc =>
        hbody c (by rw [hbody_eq]; exact List.mem_append_right _ hc)
      rw [handle_gui_data_no_newline _ f hfno]
      exact ih body2 (start + f.length)
        (fun x hx => hne x (List.mem_cons_of_mem _ hx)) hb2 hb2no
        (Or.inl (by have := Nat.pos_of_ne_zero hfl; omega))

/-- C32, the behaviour of the code.  A line that arrives in two or more non-empty reads
is never recognised: after the reads the buffer for the partial line is empty and
`client_turn_direction` is what it was before, whatever the line. -/
theorem fragmented_line_is_ignored (state : client_game_state_t)
    (fragments : List (List Nat)) (body : List Nat)
    (hfragments : ∀ f ∈ fragments, f ≠ []) (hcount : 2 ≤ fragments.length)
    (hjoin : fragments.flatten = body ++ [10]) (hbody : ∀ c ∈ body, c ≠ 10) :
    handle_gui_messages (empty_reader state) fragments = some (empty_reader state) :=
  handle_gui_messages_fragments state fragments body 0 hfragments hjoin hbody (Or.inr hcount)

/-- C32, for the line "LEFT_KEY_DOWN\n" read as "LEFT_" and "KEY_DOWN\n" by a client
whose turn direction is 0: the turn direction stays 0, while the line read at once sets
it to 2. -/
theorem fragmented_line_is_ignored_witness :
    handle_gui_messages (empty_reader initial_client_game_state)
        [[76, 69, 70, 84, 95], [75, 69, 89, 95, 68, 79, 87, 78, 10]] =
      some (empty_reader initial_client_game_state) ∧
    initial_client_game_state.client_turn_direction = 0 ∧
    handle_gui_messages (empty_reader initial_client_game_state) [text_LEFT_KEY_DOWN] =
      some (empty_reader { initial_client_game_state with client_turn_direction := 2 }) :=
  ⟨fragmented_line_is_ignored initial_client_game_state
      [[76, 69, 70, 84, 95], [75, 69, 89, 95, 68, 79, 87, 78, 10]]
      [76, 69, 70, 84, 95, 75, 69, 89, 95, 68, 79, 87, 78] (by decide) (by decide) (by decide)
      (by decide),
    by decide, by decide⟩

/-! ## Progress of the sending loops -/

/-- The loop of `send_game_data` and `broadcast_events` makes at most as many rounds as
there are entries to send. -/
theorem send_loop_length (state : server_game_state_t) :
    ∀ (fuel first_not_sent : Nat) (datagrams : List (List Nat)),
      first_not_sent ≤ state.events_count →
      send_loop state fuel first_not_sent = some datagrams →
      datagrams.length ≤ state.events_count - first_not_sent := by
  intro fuel
  induction fuel with
  | zero =>
    intro first_not_sent datagrams _ h
    unfold send_loop at h
    by_cases hlt : first_not_sent < state.events_count
    · rw [if_pos hlt] at h
      exact Option.noConfusion h
    · rw [if_neg hlt] at h
      rw [← Option.some.inj h]
      exact Nat.zero_le _
  | succ n ih =>
    intro first_not_sent datagrams hle h
    unfold send_loop at h
    by_cases hlt : first_not_sent < state.events_count
    · rw [if_pos hlt] at h
      simp only [] at h
      have e550 : ((MAX_SERVER_UDP_DGRAM_LENGTH : Nat) : Int) = 550 := rfl
      rw [e550] at h
      have hprog := pack_events_progress state first_not_sent hlt
      obtain ⟨_, h2, _, _⟩ := pack_events_spec state first_not_sent 550 hle
      cases hrest : send_loop state n (pack_events state first_not_sent 550).2 with
      | none =>
        rw [hrest] at h
        exact Option.noConfusion h
      | some rest =>
        rw [hrest] at h
        rw [← Option.some.inj h]
        have := ih _ rest h2 hrest
        simp only [List.length_cons]
        omega
    · rw [if_neg hlt] at h
      rw [← Option.some.inj h]
      exact Nat.zero_le _

/-- C33.  For every server state: whenever `from_which < events_count`, `pack_events`
with the budget 550 sets `first_not_packed` to a value greater than `from_which` and
returns a datagram of at least 17 bytes; and the loop of `send_game_data` and
`broadcast_events` from `since_event` terminates after at most
`events_count - since_event` rounds (it returns with that fuel, having sent at most that
many datagrams, each of at least 17 bytes). -/
theorem sending_makes_progress (state : server_game_state_t)
    (from_which since_event client_no : Nat) :
    (from_which < state.events_count →
      from_which < (pack_events state from_which (MAX_SERVER_UDP_DGRAM_LENGTH : Int)).2 ∧
      17 ≤ (pack_events state from_which (MAX_SERVER_UDP_DGRAM_LENGTH : Int)).1.length) ∧
    ∃ datagrams,
      send_loop state (state.events_count - since_event) since_event = some datagrams ∧
      datagrams.length ≤ state.events_count - since_event ∧
      (∀ d ∈ datagrams, 17 ≤ d.length) ∧
      send_game_data (state.events_count - since_event) state since_event client_no =
        some (datagrams.map (fun d => (client_no, d))) ∧
      ∃ sends,
        broadcast_events (state.events_count - since_event) state since_event =
          some sends := by
  have e550 : ((MAX_SERVER_UDP_DGRAM_LENGTH : Nat) : Int) = 550 := rfl
  constructor
  · intro hlt
    rw [e550]
    refine ⟨pack_events_progress state from_which hlt, ?_⟩
    obtain ⟨ds, hds, _, h17⟩ := send_loop_spec state (state.events_count - from_which)
      from_which (Nat.le_of_lt hlt) (Nat.le_refl _)
    have hfuel : state.events_count - from_which =
        (state.events_count - from_which - 1) + 1 := by omega
    rw [hfuel] at hds
    unfold send_loop at hds
    rw [if_pos hlt] at hds
    simp only [] at hds
    rw [e550] at hds
    cases hrest : send_loop state (state.events_count - from_which - 1)
        (pack_events state from_which 550).2 with
    | none =>
      rw [hrest] at hds
      exact Option.noConfusion hds
    | some rest =>
      rw [hrest] at hds
      have hmem : (pack_events state from_which 550).1 ∈ ds := by
        rw [← Option.some.inj hds]
        exact List.mem_cons_self _ _
      exact (h17 _ hmem).2
  · by_cases hle : since_event ≤ state.events_count
    · obtain ⟨ds, hds, _, h17⟩ := send_loop_spec state (state.events_count - since_event)
        since_event hle (Nat.le_refl _)
      refine ⟨ds, hds, send_loop_length state _ _ ds hle hds, fun d hd => (h17 d hd).2, ?_, ?_⟩
      · unfold send_game_data
        rw [hds]
        rfl
      · unfold broadcast_events
        rw [hds]
        exact ⟨_, rfl⟩
    · have h0 : state.events_count - since_event = 0 := by omega
      have hds : send_loop state (state.events_count - since_event) since_event = some [] := by
        rw [h0]
        unfold send_loop
        rw [if_neg (by omega)]
      refine ⟨[], hds, Nat.zero_le _, fun d hd => absurd hd (List.not_mem_nil d), ?_, ?_⟩
      · unfold send_game_data
        rw [hds]
        rfl
      · unfold broadcast_events
        rw [hds]
        exact ⟨_, rfl⟩

/-! ## The turn step of the round tick -/

/-- The direction of a slot after the turn step of lines 399-408, for a direction in
[0, 360) and a turning speed in 1..90: unchanged when the slot does not turn, again in
[0, 360) when it turns left (turn direction 2), and `direction + turning_speed`, without
a reduction, when it turns right (turn direction 1). -/
theorem moved_player_direction (libm : libm_t) (state : server_game_state_t) (i : Nat)
    (hdir : 0 ≤ (state.players.getD i default).direction ∧
      (state.players.getD i default).direction < 360)
    (hspeed : 1 ≤ state.game_params.turning_speed ∧ state.game_params.turning_speed ≤ 90) :
    ((state.players.getD i default).turn_direction = 1 →
      (moved_player libm state i).direction =
        (state.players.getD i default).direction + (state.game_params.turning_speed : Int)) ∧
    ((state.players.getD i default).turn_direction = 2 →
      0 ≤ (moved_player libm state i).direction ∧ (moved_player libm state i).direction < 360) ∧
    ((state.players.getD i default).turn_direction ≠ 1 →
      (state.players.getD i default).turn_direction ≠ 2 →
      (moved_player libm state i).direction = (state.players.getD i default).direction) := by
  unfold moved_player
  simp only []
  refine ⟨fun h1 => ?_, fun h2 => ?_, fun n1 n2 => ?_⟩
  · simp only [if_pos h1]
    rw [if_neg (by omega)]
  · have n1 : ¬ (state.players.getD i default).turn_direction = 1 := by omega
    simp only [if_neg n1, if_pos h2]
    by_cases hneg : (state.players.getD i default).direction -
        (state.game_params.turning_speed : Int) < 0
    · rw [if_pos hneg]; omega
    · rw [if_neg hneg]; omega
  · simp only [if_neg n1, if_neg n2]
    rw [if_neg (by omega)]

set_option maxRecDepth 1000000 in
/-- C34, the claim fails on the code.  In the game of Alice and Bob started with seed 84
and the default parameters (turning speed 6), slot 23 (Alice) plays, is alive, turns right
and has the direction 355; after the round tick its direction is 361. -/
theorem direction_not_normalised_after_right_turn :
    game_of_84_started.game_status = GAME_STATE_GAME_STARTED ∧
    game_of_84_started.game_params.turning_speed = 6 ∧
    (game_of_84_started.players.getD 23 default).is_playing = true ∧
    game_of_84_started.alive.getD 23 false = true ∧
    (game_of_84_started.players.getD 23 default).turn_direction = 1 ∧
    (game_of_84_started.players.getD 23 default).direction = 355 ∧
    (game_of_84_after_tick.players.getD 23 default).direction = 361 := by
  decide!

/-! ## The occupancy of the board -/

theorem same_board_refl (a : server_game_state_t) : same_board a a := ⟨rfl, rfl, rfl, rfl⟩

theorem same_board_trans (a b c : server_game_state_t) (hab : same_board a b)
    (hbc : same_board b c) : same_board a c :=
  ⟨hbc.1.trans hab.1, hbc.2.1.trans hab.2.1, hbc.2.2.1.trans hab.2.2.1,
    hbc.2.2.2.trans hab.2.2.2⟩

theorem occupancy_of_same_board (a b : server_game_state_t) (h : same_board a b)
    (hinv : occupancy_inv a ∧ board_allocated a) : occupancy_inv b ∧ board_allocated b := by
  obtain ⟨h1, h2, h3, h4⟩ := h
  unfold occupancy_inv board_allocated
  rw [h1, h2, h3, h4]
  exact hinv

theorem board_getD_set (board : List (List Bool)) (x y x1 y1 : Nat) :
    ((board.set x ((board.getD x []).set y true)).getD x1 []).getD y1 false =
      if x1 = x ∧ y1 = y ∧ x < board.length ∧ y < (board.getD x []).length then true
      else (board.getD x1 []).getD y1 false := by
  rw [getD_set_eq]
  by_cases hx : x = x1 ∧ x < board.length
  · rw [if_pos hx]
    obtain ⟨hx1, hx2⟩ := hx
    subst hx1
    rw [getD_set_eq]
    by_cases hy : y = y1 ∧ y < (board.getD x []).length
    · rw [if_pos hy, if_pos ⟨rfl, hy.1.symm, hx2, hy.2⟩]
    · rw [if_neg hy, if_neg (fun h => hy ⟨h.2.1.symm, h.2.2.2⟩)]
  · rw [if_neg hx, if_neg (fun h => hx ⟨h.1.symm, h.2.2.1⟩)]

theorem board_set_length (board : List (List Bool)) (x y x1 : Nat) :
    (board.set x ((board.getD x []).set y true)).length = board.length ∧
    ((board.set x ((board.getD x []).set y true)).getD x1 []).length =
      (board.getD x1 []).length := by
  refine ⟨List.length_set _ _ _, ?_⟩
  rw [getD_set_eq]
  by_cases hx : x = x1 ∧ x < board.length
  · rw [if_pos hx, List.length_set, hx.1]
  · rw [if_neg hx]

theorem pixel_logged_succ (queue : List event_data_t) (count x y : Nat) :
    pixel_logged queue (count + 1) x y ↔
      pixel_logged queue count x y ∨
        ((queue.getD count default).event_type = EVENT_PIXEL ∧
          (queue.getD count default).x = x ∧ (queue.getD count default).y = y) := by
  constructor
  · rintro ⟨k, hk, h1, h2, h3⟩
    by_cases hkm : k = count
    · subst hkm
      exact Or.inr ⟨h1, h2, h3⟩
    · exact Or.inl ⟨k, by omega, h1, h2, h3⟩
  · rintro (⟨k, hk, h1, h2, h3⟩ | ⟨h1, h2, h3⟩)
    · exact ⟨k, by omega, h1, h2, h3⟩
    · exact ⟨count, by omega, h1, h2, h3⟩

theorem pixel_logged_congr (queue queue1 : List event_data_t) (count x y : Nat)
    (h : ∀ k, k < count → queue1.getD k default = queue.getD k default) :
    pixel_logged queue1 count x y ↔ pixel_logged queue count x y := by
  constructor
  · rintro ⟨k, hk, h1, h2, h3⟩
    rw [h k hk] at h1 h2 h3
    exact ⟨k, hk, h1, h2, h3⟩
  · rintro ⟨k, hk, h1, h2, h3⟩
    rw [← h k hk] at h1 h2 h3
    exact ⟨k, hk, h1, h2, h3⟩

/-- The invariant after an entry that is not a PIXEL has been appended to the log of a
state with the same board. -/
theorem occupancy_append_other (state state1 : server_game_state_t) (event : event_data_t)
    (hinv : occupancy_inv state ∧ board_allocated state) (hsame : same_board state state1)
    (hevent : event.event_type ≠ EVENT_PIXEL)
    (hcount : state.events_count + 1 < UINT32_RANGE) :
    (occupancy_inv (enqueue_event state1 event) ∧
      board_allocated (enqueue_event state1 event)) ∧
    (enqueue_event state1 event).game_params = state.game_params ∧
    (enqueue_event state1 event).events_count = state.events_count + 1 := by
  obtain ⟨⟨ha, hb, hc⟩, hd⟩ := occupancy_of_same_board state state1 hsame hinv
  obtain ⟨s1, s2, s3, s4⟩ := hsame
  have hcnt : (enqueue_event state1 event).events_count = state1.events_count + 1 :=
    enqueue_event_count state1 event (by rw [s3]; exact hcount)
  have hq : ∀ k, (enqueue_event state1 event).events_queue.getD k default =
      if k = state1.events_count then event else state1.events_queue.getD k default :=
    enqueue_event_getD state1 event
  have hold : ∀ k, k < state1.events_count →
      (enqueue_event state1 event).events_queue.getD k default =
        state1.events_queue.getD k default := by
    intro k hk
    rw [hq k, if_neg (by omega)]
  have hnew : (enqueue_event state1 event).events_queue.getD state1.events_count default =
      event := by
    rw [hq, if_pos rfl]
  have hboard : (enqueue_event state1 event).game_board = state1.game_board := rfl
  have hparams : (enqueue_event state1 event).game_params = state1.game_params := rfl
  refine ⟨⟨⟨?_, ?_, ?_⟩, ?_⟩, hparams.trans s4, by rw [hcnt, s3]⟩
  · intro k hk hpix
    rw [hcnt] at hk
    by_cases hkc : k = state1.events_count
    · rw [hkc, hnew] at hpix
      exact absurd hpix hevent
    · rw [hold k (by omega)] at hpix ⊢
      rw [hparams]
      exact ha k (by omega) hpix
  · intro k m hk hm hpk hpm hx hy
    rw [hcnt] at hk hm
    by_cases hkc : k = state1.events_count
    · rw [hkc, hnew] at hpk
      exact absurd hpk hevent
    · by_cases hmc : m = state1.events_count
      · rw [hmc, hnew] at hpm
        exact absurd hpm hevent
      · rw [hold k (by omega)] at hpk hx hy
        rw [hold m (by omega)] at hpm hx hy
        exact hb k m (by omega) (by omega) hpk hpm hx hy
  · intro x y
    rw [hboard, hc x y, hcnt, pixel_logged_succ, hnew,
      pixel_logged_congr state1.events_queue _ _ x y hold]
    constructor
    · intro h; exact Or.inl h
    · rintro (h | ⟨h, _⟩)
      · exact h
      · exact absurd h hevent
  · exact hd

/-- The invariant after the PIXEL of a free cell inside the board has been appended to
the log and the cell has been marked. -/
theorem occupancy_append_pixel (state state1 : server_game_state_t) (event : event_data_t)
    (X Y : Nat)
    (hinv : occupancy_inv state ∧ board_allocated state) (hsame : same_board state state1)
    (hevent : event.event_type = EVENT_PIXEL) (hex : event.x = X) (hey : event.y = Y)
    (hx : X < state.game_params.board_dimension_x)
    (hy : Y < state.game_params.board_dimension_y)
    (hfree : (state.game_board.getD X []).getD Y false ≠ true)
    (hcount : state.events_count + 1 < UINT32_RANGE) :
    (occupancy_inv (enqueue_event
        { state1 with
          game_board := state1.game_board.set X
            ((state1.game_board.getD X []).set Y true) } event) ∧
      board_allocated (enqueue_event
        { state1 with
          game_board := state1.game_board.set X
            ((state1.game_board.getD X []).set Y true) } event)) ∧
    (enqueue_event
        { state1 with
          game_board := state1.game_board.set X
            ((state1.game_board.getD X []).set Y true) } event).game_params =
      state.game_params ∧
    (enqueue_event
        { state1 with
          game_board := state1.game_board.set X
            ((state1.game_board.getD X []).set Y true) } event).events_count =
      state.events_count + 1 := by
  subst hex
  subst hey
  obtain ⟨⟨ha, hb, hc⟩, hd⟩ := occupancy_of_same_board state state1 hsame hinv
  obtain ⟨s1, s2, s3, s4⟩ := hsame
  rw [← s4] at hx hy
  rw [← s1] at hfree
  generalize hst : ({ state1 with
          game_board := state1.game_board.set event.x
            ((state1.game_board.getD event.x []).set event.y true) } : server_game_state_t) =
    state2
  have e1 : state2.events_count = state1.events_count := by rw [← hst]
  have e2 : state2.events_queue = state1.events_queue := by rw [← hst]
  have e3 : state2.game_params = state1.game_params := by rw [← hst]
  have e4 : state2.game_board = state1.game_board.set event.x
      ((state1.game_board.getD event.x []).set event.y true) := by rw [← hst]
  have hcnt : (enqueue_event state2 event).events_count = state1.events_count + 1 := by
    rw [enqueue_event_count state2 event (by rw [e1, s3]; exact hcount), e1]
  have hq : ∀ k, (enqueue_event state2 event).events_queue.getD k default =
      if k = state1.events_count then event else state1.events_queue.getD k default := by
    intro k
    rw [enqueue_event_getD state2 event, e1, e2]
  have hold : ∀ k, k < state1.events_count →
      (enqueue_event state2 event).events_queue.getD k default =
        state1.events_queue.getD k default := by
    intro k hk
    rw [hq k, if_neg (by omega)]
  have hnew : (enqueue_event state2 event).events_queue.getD state1.events_count default =
      event := by
    rw [hq, if_pos rfl]
  have hboard : (enqueue_event state2 event).game_board = state2.game_board := rfl
  have hparams : (enqueue_event state2 event).game_params = state1.game_params := e3
  have hnot : ¬ pixel_logged state1.events_queue state1.events_count event.x event.y :=
    fun h => hfree ((hc event.x event.y).2 h)
  refine ⟨⟨⟨?_, ?_, ?_⟩, ?_⟩, hparams.trans s4, by rw [hcnt, s3]⟩
  · intro k hk hpix
    rw [hcnt] at hk
    rw [hparams]
    by_cases hkc : k = state1.events_count
    · rw [hkc, hnew]
      exact ⟨hx, hy⟩
    · rw [hold k (by omega)] at hpix ⊢
      exact ha k (by omega) hpix
  · intro k m hk hm hpk hpm hxe hye
    rw [hcnt] at hk hm
    by_cases hkc : k = state1.events_count
    · by_cases hmc : m = state1.events_count
      · rw [hkc, hmc]
      · rw [hkc, hnew] at hxe hye
        rw [hold m (by omega)] at hpm hxe hye
        exact absurd ⟨m, by omega, hpm, hxe.symm, hye.symm⟩ hnot
    · by_cases hmc : m = state1.events_count
      · rw [hmc, hnew] at hxe hye
        rw [hold k (by omega)] at hpk hxe hye
        exact absurd ⟨k, by omega, hpk, hxe, hye⟩ hnot
      · rw [hold k (by omega)] at hpk hxe hye
        rw [hold m (by omega)] at hpm hxe hye
        exact hb k m (by omega) (by omega) hpk hpm hxe hye
  · intro x y
    rw [hboard, e4, board_getD_set, hcnt, pixel_logged_succ, hnew,
      pixel_logged_congr state1.events_queue _ _ x y hold, ← hc x y]
    have hlen1 : event.x < state1.game_board.length := by rw [hd.2.2.1]; exact hx
    have hlen2 : event.y < (state1.game_board.getD event.x []).length := by
      rw [hd.2.2.2 event.x hx]; exact hy
    by_cases hcell : x = event.x ∧ y = event.y
    · rw [if_pos ⟨hcell.1, hcell.2, hlen1, hlen2⟩]
      exact ⟨fun _ => Or.inr ⟨hevent, hcell.1.symm, hcell.2.symm⟩, fun _ => rfl⟩
    · rw [if_neg (fun h => hcell ⟨h.1, h.2.1⟩)]
      constructor
      · intro h; exact Or.inl h
      · rintro (h | ⟨_, h2, h3⟩)
        · exact h
        · exact absurd ⟨h2.symm, h3.symm⟩ hcell
  · unfold board_allocated
    rw [hboard, e4, hparams]
    refine ⟨hd.1, hd.2.1, (board_set_length _ _ _ 0).1.trans hd.2.2.1, fun x hx1 => ?_⟩
    rw [(board_set_length _ _ _ x).2]
    exact hd.2.2.2 x hx1

theorem getD_replicate_if {α : Type} (n k : Nat) (a d : α) :
    (List.replicate n a).getD k d = if k < n then a else d := by
  rw [List.getD_eq_getElem?_getD, List.getElem?_replicate]
  split <;> rfl

theorem board_replicate_getD (dx dy x y : Nat) :
    ((List.replicate dx (List.replicate dy false)).getD x []).getD y false = false := by
  rw [getD_replicate_if]
  split
  · rw [getD_replicate_if]
    split <;> rfl
  · rfl

/-- A state with an empty log and the board cleared satisfies the invariant. -/
theorem occupancy_fresh (state : server_game_state_t) (hcount : state.events_count = 0)
    (hboard : state.game_board = List.replicate state.game_params.board_dimension_x
      (List.replicate state.game_params.board_dimension_y false))
    (hx : state.game_params.board_dimension_x < UINT32_RANGE)
    (hy : state.game_params.board_dimension_y < UINT32_RANGE) :
    occupancy_inv state ∧ board_allocated state := by
  refine ⟨⟨?_, ?_, ?_⟩, hx, hy, ?_, ?_⟩
  · intro k hk
    rw [hcount] at hk
    omega
  · intro k m hk
    rw [hcount] at hk
    omega
  · intro x y
    rw [hboard, board_replicate_getD]
    constructor
    · intro h; exact absurd h (by decide)
    · rintro ⟨k, hk, _⟩
      rw [hcount] at hk
      omega
  · rw [hboard, List.length_replicate]
  · intro x hx1
    rw [hboard, getD_replicate_if, if_pos hx1, List.length_replicate]

theorem initiate_game_numbers_same_board :
    ∀ (fuel i player_no : Nat) (state : server_game_state_t),
      same_board state (initiate_game_numbers fuel i player_no state) := by
  intro fuel
  induction fuel with
  | zero => intro i p state; exact same_board_refl state
  | succ n ih =>
    intro i p state
    unfold initiate_game_numbers
    split
    · exact same_board_trans _ _ _ ⟨rfl, rfl, rfl, rfl⟩ (ih _ _ _)
    · exact same_board_trans _ _ _ ⟨rfl, rfl, rfl, rfl⟩ (ih _ _ _)

theorem to_uint32_natCast (n : Nat) (h : n < UINT32_RANGE) : to_uint32 (n : Int) = n := by
  unfold to_uint32
  rw [← Int.natCast_mod, Int.toNat_natCast]
  exact Nat.mod_eq_of_lt h

/-- The loop of lines 308-344 of `initiate_game` keeps the invariant. -/
theorem initiate_game_place_occupancy :
    ∀ (fuel i : Nat) (current_event : event_data_t) (state : server_game_state_t),
      occupancy_inv state ∧ board_allocated state →
      state.events_count + fuel < UINT32_RANGE →
      (occupancy_inv (initiate_game_place fuel i current_event state) ∧
        board_allocated (initiate_game_place fuel i current_event state)) ∧
      (initiate_game_place fuel i current_event state).game_params = state.game_params := by
  intro fuel
  induction fuel with
  | zero =>
    intro i current_event state hinv _
    exact ⟨hinv, rfl⟩
  | succ n ih =>
    intro i current_event state hinv hroom
    unfold initiate_game_place
    by_cases hp : (state.players.getD i default).is_playing = true
    · rw [if_pos hp]
      have hstepE : ∀ (event : event_data_t) (players1 : List client_t)
          (random1 : seed_status_t),
          event.event_type = EVENT_PLAYER_ELIMINATED →
          (fun r : server_game_state_t =>
            (occupancy_inv r ∧ board_allocated r) ∧ r.game_params = state.game_params)
            (initiate_game_place n (i + 1) event
              (enqueue_event { state with random := random1, players := players1 } event)) := by
        intro event players1 random1 hev
        obtain ⟨h1, h2, h3⟩ := occupancy_append_other state
          { state with random := random1, players := players1 } event hinv
          ⟨rfl, rfl, rfl, rfl⟩ (by rw [hev]; decide) (by omega)
        obtain ⟨k1, k2⟩ := ih (i + 1) event _ h1 (by rw [h3]; omega)
        exact ⟨k1, k2.trans h2⟩
      have hstepP : ∀ (event : event_data_t) (players1 : List client_t)
          (random1 : seed_status_t) (X Y : Nat),
          event.event_type = EVENT_PIXEL →
          event.x = X → event.y = Y →
          X < state.game_params.board_dimension_x →
          Y < state.game_params.board_dimension_y →
          (state.game_board.getD X []).getD Y false ≠ true →
          (fun r : server_game_state_t =>
            (occupancy_inv r ∧ board_allocated r) ∧ r.game_params = state.game_params)
            (initiate_game_place n (i + 1) event
              (enqueue_event
                { state with
                  random := random1
                  players := players1
                  game_board := state.game_board.set X
                    ((state.game_board.getD X []).set Y true) } event)) := by
        intro event players1 random1 X Y hev hex hey hx hy hfree
        obtain ⟨h1, h2, h3⟩ := occupancy_append_pixel state
          { state with random := random1, players := players1 } event X Y hinv
          ⟨rfl, rfl, rfl, rfl⟩ hev hex hey hx hy hfree (by omega)
        obtain ⟨k1, k2⟩ := ih (i + 1) event _ h1 (by rw [h3]; omega)
        exact ⟨k1, k2.trans h2⟩
      simp only []
      rw [trunc_int32_half, trunc_int32_half]
      simp only [Int.toNat_natCast]
      split
      · exact hstepE _ _ _ rfl
      · rename_i hcond
        push_neg at hcond
        obtain ⟨_, _, c3, c4, c5⟩ := hcond
        have hdx := hinv.2.1
        have hdy := hinv.2.2.1
        have hxpos : 0 < state.game_params.board_dimension_x := by omega
        have hypos : 0 < state.game_params.board_dimension_y := by omega
        have hxlt := Nat.mod_lt (generate_random state.random).1 hxpos
        have hylt := Nat.mod_lt (generate_random (generate_random state.random).2).1 hypos
        refine hstepP _ _ _ _ _ ?_ ?_ ?_ hxlt hylt c5
        · rfl
        · exact to_uint32_natCast _ (by omega)
        · exact to_uint32_natCast _ (by omega)
    · rw [if_neg hp]
      exact ih (i + 1) current_event state hinv (by omega)

/-- The state in which `initiate_game` leaves the server satisfies the invariant, when the
dimensions of the board are values of `uint32_t`. -/
theorem initiate_game_state_occupancy (state : server_game_state_t)
    (hx : state.game_params.board_dimension_x < UINT32_RANGE)
    (hy : state.game_params.board_dimension_y < UINT32_RANGE) :
    (occupancy_inv (initiate_game_state state) ∧ board_allocated (initiate_game_state state)) ∧
    (initiate_game_state state).game_params = state.game_params := by
  obtain ⟨state2, state3, state4, state5, e2, e3, e4, e5, e⟩ := initiate_game_state_eq state
  have hp1 : (sort_players state).game_params = state.game_params := (sort_players_frame state).2.1
  rw [e]
  generalize sort_players state = state1 at *
  have p2 : state2.game_params = state.game_params := by rw [e2]; exact hp1
  have c2 : state2.events_count = 0 := by rw [e2]
  have b2 : state2.game_board = List.replicate state2.game_params.board_dimension_x
      (List.replicate state2.game_params.board_dimension_y false) := by rw [e2]
  have h2 := occupancy_fresh state2 c2 b2 (by rw [p2]; exact hx) (by rw [p2]; exact hy)
  have s3 : same_board state2 state3 := by
    rw [e3]
    exact initiate_game_numbers_same_board _ _ _ _
  have h4 := occupancy_append_other state2
    { state3 with game_id := (generate_random state3.random).1,
                  random := (generate_random state3.random).2 }
    { event_type := EVENT_NEW_GAME, x := state3.game_params.board_dimension_x,
      y := state3.game_params.board_dimension_y, player_number := 0 } h2
    ⟨s3.1, s3.2.1, s3.2.2.1, s3.2.2.2⟩ (show EVENT_NEW_GAME ≠ EVENT_PIXEL by decide)
    (by rw [c2]; decide)
  rw [← e4] at h4
  obtain ⟨h4a, h4b, h4c⟩ := h4
  have h5 := initiate_game_place_occupancy MAX_PLAYERS 0
    { event_type := EVENT_NEW_GAME, x := state3.game_params.board_dimension_x,
      y := state3.game_params.board_dimension_y, player_number := 0 } state4 h4a
    (by rw [h4c, c2]; decide)
  rw [← e5] at h5
  exact ⟨occupancy_of_same_board state5 _ ⟨rfl, rfl, rfl, rfl⟩ h5.1,
    (h5.2.trans h4b).trans p2⟩

theorem update_players_after_game_loop_same_board :
    ∀ (fuel i : Nat) (state : server_game_state_t),
      same_board state (update_players_after_game_loop fuel i state) := by
  intro fuel
  induction fuel with
  | zero => intro i state; exact same_board_refl state
  | succ n ih =>
    intro i state
    unfold update_players_after_game_loop
    simp only []
    split
    · split
      · exact same_board_trans _ _ _ ⟨rfl, rfl, rfl, rfl⟩ (ih _ _)
      · exact same_board_trans _ _ _ ⟨rfl, rfl, rfl, rfl⟩ (ih _ _)
    · exact same_board_trans _ _ _ ⟨rfl, rfl, rfl, rfl⟩ (ih _ _)

theorem update_players_after_game_same_board (state : server_game_state_t) :
    same_board state (update_players_after_game state) := by
  unfold update_players_after_game
  exact same_board_trans _ _ _ ⟨rfl, rfl, rfl, rfl⟩
    (update_players_after_game_loop_same_board _ _ _)

theorem moved_player_congr (libm : libm_t) (a b : server_game_state_t) (i : Nat)
    (hplayer : b.players.getD i default = a.players.getD i default)
    (hparams : b.game_params = a.game_params) :
    moved_player libm b i = moved_player libm a i := by
  unfold moved_player
  rw [hplayer, hparams]

theorem getD_set_other {α : Type} (d : α) (l : List α) (i j : Nat) (v : α) (h : i ≠ j) :
    (l.set i v).getD j d = l.getD j d := by
  rw [getD_set_eq, if_neg (fun hc => h hc.1)]

theorem to_uint32_of_nonneg (v : Int) (h0 : 0 ≤ v) (h1 : v < 2147483648) :
    to_uint32 v = v.toNat := by
  unfold to_uint32
  rw [Int.emod_eq_of_lt h0 (by unfold UINT32_RANGE; omega)]

/-- The loop of `handle_board_update` keeps the invariant, when the moves of the slots
still to come end within the range of `int32_t`. -/
theorem handle_board_update_loop_occupancy (libm : libm_t) :
    ∀ (fuel i : Nat) (current_event : event_data_t) (state : server_game_state_t),
      i + fuel ≤ MAX_PLAYERS →
      occupancy_inv state ∧ board_allocated state →
      (∀ j, i ≤ j → j < MAX_PLAYERS →
        in_int32 (floor_int32 (moved_player libm state j).x_pos) ∧
        in_int32 (floor_int32 (moved_player libm state j).y_pos)) →
      state.events_count + fuel + 1 < UINT32_RANGE →
      (occupancy_inv (handle_board_update_loop libm fuel i current_event state) ∧
        board_allocated (handle_board_update_loop libm fuel i current_event state)) ∧
      (handle_board_update_loop libm fuel i current_event state).game_params =
        state.game_params ∧
      (handle_board_update_loop libm fuel i current_event state).events_count ≤
        state.events_count + fuel + 1 := by
  intro fuel
  induction fuel with
  | zero =>
    intro i current_event state _ hinv _ _
    exact ⟨hinv, rfl, by show state.events_count ≤ _; omega⟩
  | succ n ih =>
    intro i current_event state hi hinv hrange hroom
    unfold handle_board_update_loop
    have hnext : ∀ (s1 : server_game_state_t),
        s1.game_params = state.game_params →
        (∀ j, j ≠ i → s1.players.getD j default = state.players.getD j default) →
        ∀ j, i + 1 ≤ j → j < MAX_PLAYERS →
          in_int32 (floor_int32 (moved_player libm s1 j).x_pos) ∧
          in_int32 (floor_int32 (moved_player libm s1 j).y_pos) := by
      intro s1 hp hpl j hj hj2
      rw [moved_player_congr libm state s1 j (hpl j (by omega)) hp]
      exact hrange j (by omega) hj2
    by_cases hplay : (state.players.getD i default).is_playing = false
    · rw [if_pos hplay]
      obtain ⟨k1, k2, k3⟩ := ih (i + 1) current_event state (by omega) hinv
        (fun j hj => hrange j (by omega)) (by omega)
      exact ⟨k1, k2, by omega⟩
    · rw [if_neg hplay]
      by_cases halive : state.alive.getD i false = true
      · rw [if_pos halive]
        by_cases hsame : same_cell libm state i = true
        · rw [if_pos hsame]
          obtain ⟨k1, k2, k3⟩ := ih (i + 1) current_event
            { state with players := state.players.set i (moved_player libm state i) }
            (by omega) (occupancy_of_same_board state _ ⟨rfl, rfl, rfl, rfl⟩ hinv)
            (hnext _ rfl (fun j hj => getD_set_other _ _ _ _ _ (Ne.symm hj))) (by
              show state.events_count + n + 1 < UINT32_RANGE
              omega)
          refine ⟨k1, k2, ?_⟩
          have k3a : (handle_board_update_loop libm n (i + 1) current_event
              { state with players := state.players.set i (moved_player libm state i) }
              ).events_count ≤ state.events_count + n + 1 := k3
          omega
        · rw [if_neg hsame]
          have hmoved : (occupancy_inv (enqueue_event (move_state libm state i)
                (move_event libm state i current_event)) ∧
              board_allocated (enqueue_event (move_state libm state i)
                (move_event libm state i current_event))) ∧
              (enqueue_event (move_state libm state i)
                (move_event libm state i current_event)).game_params = state.game_params ∧
              (enqueue_event (move_state libm state i)
                (move_event libm state i current_event)).events_count =
                state.events_count + 1 := by
            unfold move_state move_event
            by_cases helim : move_eliminates libm state i = true
            · rw [if_pos helim, if_pos helim]
              have hne : EVENT_PLAYER_ELIMINATED ≠ EVENT_PIXEL := by decide
              exact occupancy_append_other state _ _ hinv ⟨rfl, rfl, rfl, rfl⟩ hne
                (by omega)
            · rw [if_neg helim, if_neg helim]
              have hf : move_eliminates libm state i = false := by
                cases hm : move_eliminates libm state i
                · rfl
                · exact absurd hm helim
              unfold move_eliminates at hf
              have hc := of_decide_eq_false hf
              push_neg at hc
              obtain ⟨c1, c2, c3, c4, c5⟩ := hc
              obtain ⟨⟨_, r1⟩, ⟨_, r2⟩⟩ := hrange i (Nat.le_refl _) (by omega)
              have ex := to_uint32_of_nonneg _ c1 r1
              have ey := to_uint32_of_nonneg _ c3 r2
              exact occupancy_append_pixel state
                { state with players := state.players.set i (moved_player libm state i) }
                _ _ _ hinv ⟨rfl, rfl, rfl, rfl⟩ rfl ex ey (by rw [← ex]; exact c2)
                (by rw [← ey]; exact c4) c5 (by omega)
          have hplayers : ∀ j, j ≠ i →
              (enqueue_event (move_state libm state i)
                (move_event libm state i current_event)).players.getD j default =
                state.players.getD j default := by
            intro j hj
            have hpl : (enqueue_event (move_state libm state i)
                (move_event libm state i current_event)).players =
                (move_state libm state i).players := rfl
            rw [hpl, (move_state_frame libm state i).2.2.2.2.1]
            exact getD_set_other _ _ _ _ _ (Ne.symm hj)
          obtain ⟨m1, m2, m3⟩ := hmoved
          by_cases hone : (enqueue_event (move_state libm state i)
              (move_event libm state i current_event)).alive_players_count = 1
          · rw [if_pos hone]
            obtain ⟨g1, g2, g3⟩ := occupancy_append_other
              (enqueue_event (move_state libm state i) (move_event libm state i current_event))
              { enqueue_event (move_state libm state i) (move_event libm state i current_event)
                with game_status := GAME_STATE_WAITING_FOR_PLAYERS }
              { move_event libm state i current_event with event_type := EVENT_GAME_OVER }
              m1 ⟨rfl, rfl, rfl, rfl⟩ (show EVENT_GAME_OVER ≠ EVENT_PIXEL by decide) (by omega)
            have hsb := update_players_after_game_same_board
              (enqueue_event
                { enqueue_event (move_state libm state i)
                    (move_event libm state i current_event)
                  with game_status := GAME_STATE_WAITING_FOR_PLAYERS }
                { move_event libm state i current_event with event_type := EVENT_GAME_OVER })
            refine ⟨occupancy_of_same_board _ _ hsb g1, ?_, ?_⟩
            · rw [hsb.2.2.2, g2, m2]
            · rw [hsb.2.2.1, g3, m3]
              omega
          · rw [if_neg hone]
            obtain ⟨k1, k2, k3⟩ := ih (i + 1) (move_event libm state i current_event)
              (enqueue_event (move_state libm state i) (move_event libm state i current_event))
              (by omega) m1 (hnext _ m2 hplayers) (by omega)
            exact ⟨k1, k2.trans m2, by omega⟩
      · rw [if_neg halive]
        obtain ⟨k1, k2, k3⟩ := ih (i + 1) current_event state (by omega) hinv
          (fun j hj => hrange j (by omega)) (by omega)
        exact ⟨k1, k2, by omega⟩


theorem initiate_game_occupancy (state : server_game_state_t)
    (hx : state.game_params.board_dimension_x < UINT32_RANGE)
    (hy : state.game_params.board_dimension_y < UINT32_RANGE) :
    (occupancy_inv (initiate_game state).1 ∧ board_allocated (initiate_game state).1) ∧
    (initiate_game state).1.game_params = state.game_params := by
  rw [initiate_game_fst]
  exact initiate_game_state_occupancy state hx hy

/-- The invariant in a state that has the board and the log of a state with the invariant,
or is the state in which `initiate_game` leaves such a state. -/
theorem occupancy_kept_or_restarted (a b : server_game_state_t)
    (hinv : occupancy_inv a ∧ board_allocated a) (h : kept_or_restarted a b) :
    (occupancy_inv b ∧ board_allocated b) ∧ b.game_params = a.game_params := by
  rcases h with h | ⟨s0, h0, hb⟩
  · exact ⟨occupancy_of_same_board a b h hinv, h.2.2.2⟩
  · rw [hb]
    have h1 := (occupancy_of_same_board a s0 h0 hinv).2
    obtain ⟨k1, k2⟩ := initiate_game_occupancy s0 h1.1 h1.2.1
    exact ⟨k1, k2.trans h0.2.2.2⟩

theorem ite_fst_cases {α β : Type} (Q : α → Prop) (c : Prop) [Decidable c] (A B : α × β)
    (hA : Q A.1) (hB : Q B.1) : Q (if c then A else B).1 := by
  split <;> assumption

theorem kept_intro {β : Type} (a b : server_game_state_t) (t : β) (h : same_board a b) :
    kept_or_restarted a (b, t).1 := Or.inl h

theorem restarted_intro {β : Type} (a s0 : server_game_state_t) (t : β)
    (h : same_board a s0) : kept_or_restarted a ((initiate_game s0).1, t).1 :=
  Or.inr ⟨s0, h, rfl⟩

/-- A round of the loop of `handle_timers` for a slot whose timer has fired: the loop goes
on with the flag `message` of the slot cleared in a state that has the board and the log
of the state before, or is the state in which `initiate_game` leaves such a state. -/
theorem handle_timers_loop_fired (fired : List Bool) (fuel i : Nat)
    (state : server_game_state_t) (sent : List (Nat × List Nat))
    (hf : fired.getD i false = true) :
    ∃ (s1 : server_game_state_t) (snt : List (Nat × List Nat)),
      handle_timers_loop fired (fuel + 1) i state sent =
        handle_timers_loop fired fuel (i + 1)
          { s1 with
            players := s1.players.set i { s1.players.getD i default with message := false } }
          snt ∧
      kept_or_restarted state s1 := by
  have key : ∀ r, r = handle_timers_loop fired (fuel + 1) i state sent →
      ∃ (s1 : server_game_state_t) (snt : List (Nat × List Nat)),
        r = handle_timers_loop fired fuel (i + 1)
          { s1 with
            players := s1.players.set i { s1.players.getD i default with message := false } }
          snt ∧
        kept_or_restarted state s1 := by
    intro r hr
    unfold handle_timers_loop at hr
    rw [if_pos hf] at hr
    refine ⟨_, _, hr, ?_⟩
    dsimp only
    refine ite_fst_cases (kept_or_restarted state) _ _ _ ?_ ?_
    · refine ite_fst_cases (kept_or_restarted state) _ _ _ ?_ ?_
      · refine ite_fst_cases (kept_or_restarted state) _ _ _ ?_ ?_
        · refine restarted_intro state _ _ ?_
          exact ⟨rfl, rfl, rfl, rfl⟩
        · refine kept_intro state _ _ ?_
          exact ⟨rfl, rfl, rfl, rfl⟩
      · refine kept_intro state _ _ ?_
        exact ⟨rfl, rfl, rfl, rfl⟩
    · refine kept_intro state _ _ ?_
      exact ⟨rfl, rfl, rfl, rfl⟩
  exact key _ rfl

/-- The loop of `handle_timers` keeps the invariant. -/
theorem handle_timers_loop_occupancy (fired : List Bool) :
    ∀ (fuel i : Nat) (state : server_game_state_t) (sent : List (Nat × List Nat)),
      occupancy_inv state ∧ board_allocated state →
      (occupancy_inv (handle_timers_loop fired fuel i state sent).1 ∧
        board_allocated (handle_timers_loop fired fuel i state sent).1) ∧
      (handle_timers_loop fired fuel i state sent).1.game_params = state.game_params := by
  intro fuel
  induction fuel with
  | zero =>
    intro i state sent hinv
    exact ⟨hinv, rfl⟩
  | succ n ih =>
    intro i state sent hinv
    by_cases hf : fired.getD i false = true
    · obtain ⟨s1, snt, heq, hs1⟩ := handle_timers_loop_fired fired n i state sent hf
      rw [heq]
      obtain ⟨h1, h2⟩ := occupancy_kept_or_restarted state s1 hinv hs1
      obtain ⟨k1, k2⟩ := ih (i + 1)
        { s1 with
          players := s1.players.set i { s1.players.getD i default with message := false } }
        snt (occupancy_of_same_board s1 _ ⟨rfl, rfl, rfl, rfl⟩ h1)
      exact ⟨k1, k2.trans h2⟩
    · unfold handle_timers_loop
      rw [if_neg hf]
      exact ih (i + 1) state sent hinv

theorem handle_existing_client_same_board (state : server_game_state_t) (addr_index : Nat)
    (datagram_size : Int) (dgram : client_dgram_t) :
    same_board state (handle_existing_client state addr_index datagram_size dgram) := by
  unfold handle_existing_client
  dsimp only
  split_ifs <;> exact ⟨rfl, rfl, rfl, rfl⟩

theorem handle_new_client_board (state : server_game_state_t) (receive_address : List Nat)
    (receive_address_length : Nat) (datagram_size : Int) (dgram : client_dgram_t) :
    kept_or_restarted state
      (handle_new_client state receive_address receive_address_length datagram_size
        dgram).1 := by
  unfold handle_new_client
  dsimp only
  refine ite_fst_cases (kept_or_restarted state) _ _ _ ?_ ?_
  · refine kept_intro state _ _ ?_
    exact ⟨rfl, rfl, rfl, rfl⟩
  · refine ite_fst_cases (kept_or_restarted state) _ _ _ ?_ ?_
    · refine restarted_intro state _ _ ?_
      exact ⟨rfl, rfl, rfl, rfl⟩
    · refine kept_intro state _ _ ?_
      exact ⟨rfl, rfl, rfl, rfl⟩

theorem handle_client_datagram_board (state : server_game_state_t)
    (receive_address : List Nat) (receive_address_length : Nat) (buffer : List Nat)
    (read_bytes : Int) :
    kept_or_restarted state
      (handle_client_datagram state receive_address receive_address_length buffer
        read_bytes).1 := by
  unfold handle_client_datagram
  dsimp only
  refine ite_fst_cases (kept_or_restarted state) _ _ _ ?_ ?_
  · exact Or.inl (same_board_refl state)
  · refine ite_fst_cases (kept_or_restarted state) _ _ _ ?_ ?_
    · exact Or.inl (handle_existing_client_same_board _ _ _ _)
    · refine ite_fst_cases (kept_or_restarted state) _ _ _ ?_ ?_
      · exact handle_new_client_board _ _ _ _ _
      · exact Or.inl (same_board_refl state)


/-- The round tick keeps the invariant. -/
theorem round_tick_occupancy (libm : libm_t) (state : server_game_state_t)
    (polled : poll_result_t)
    (hinv : occupancy_inv state ∧ board_allocated state)
    (hrange : moves_in_int32 libm state)
    (hcount : state.events_count + MAX_PLAYERS + 1 < UINT32_RANGE) :
    occupancy_inv (round_tick libm state polled).1 ∧
      board_allocated (round_tick libm state polled).1 := by
  unfold round_tick
  split
  · unfold handle_board_update
    exact (handle_board_update_loop_occupancy libm MAX_PLAYERS 0 default state
      (by decide) hinv (fun j _ hj => hrange j hj) hcount).1
  · exact hinv

/-- A round of the loop of `main` keeps the invariant of the log of the model, which is
the log of the program while `events_queue_stale` is false. -/
theorem main_loop_step_occupancy (libm : libm_t) (state : server_game_state_t)
    (polled : poll_result_t)
    (hinv : occupancy_inv state ∧ board_allocated state)
    (hrange : moves_in_int32 libm state)
    (hcount : state.events_count + MAX_PLAYERS + 1 < UINT32_RANGE) :
    occupancy_inv (main_loop_step libm state polled).1 ∧
      board_allocated (main_loop_step libm state polled).1 := by
  have h1 := round_tick_occupancy libm state polled hinv hrange hcount
  have h2 := (handle_timers_loop_occupancy (fired_timers state polled) MAX_PLAYERS 0
    (round_tick libm state polled).1 [] h1).1
  unfold main_loop_step
  dsimp only
  unfold handle_timers
  cases hd : polled.datagram with
  | none => exact h2
  | some d =>
    obtain ⟨receive_address, receive_address_length, buffer, read_bytes⟩ := d
    exact (occupancy_kept_or_restarted _ _ h2
      (handle_client_datagram_board _ receive_address receive_address_length buffer
        read_bytes)).1

/-- Once the result of `realloc` has been discarded, the loop of `handle_board_update`
leaves the block stale. -/
theorem handle_board_update_loop_stale_mono (libm : libm_t) :
    ∀ (fuel i : Nat) (current_event : event_data_t) (state : server_game_state_t),
      state.events_queue_stale = true →
      (handle_board_update_loop libm fuel i current_event state).events_queue_stale = true := by
  intro fuel
  induction fuel with
  | zero => intro i current_event state h; exact h
  | succ n ih =>
    intro i current_event state h
    unfold handle_board_update_loop
    split
    · exact ih _ _ _ h
    · split
      · split
        · exact ih _ _ _ h
        · have h1 : (enqueue_event (move_state libm state i)
              (move_event libm state i current_event)).events_queue_stale = true :=
            enqueue_event_stale_mono _ _ (by rw [(move_state_block libm state i).2]; exact h)
          generalize enqueue_event (move_state libm state i)
            (move_event libm state i current_event) = E at h1 ⊢
          split
          · rw [(update_players_after_game_block _).2]
            exact enqueue_event_stale_mono
              { E with game_status := GAME_STATE_WAITING_FOR_PLAYERS } _ h1
          · exact ih _ _ _ h1
      · exact ih _ _ _ h

/-- The loop of `handle_board_update` on a log that has reached `events_queue_size - 2`
entries: either it appends nothing, or `enqueue_event` calls `realloc` and discards its
result. -/
theorem handle_board_update_loop_full (libm : libm_t) :
    ∀ (fuel i : Nat) (current_event : event_data_t) (state : server_game_state_t),
      2 ≤ state.events_queue_size ∧ state.events_queue_size < UINT32_RANGE →
      state.events_queue_size - 2 ≤ state.events_count →
      (handle_board_update_loop libm fuel i current_event state).events_count =
          state.events_count ∨
        (handle_board_update_loop libm fuel i current_event state).events_queue_stale =
          true := by
  intro fuel
  induction fuel with
  | zero => intro i current_event state _ _; exact Or.inl rfl
  | succ n ih =>
    intro i current_event state hsize hfull
    unfold handle_board_update_loop
    split
    · exact ih _ _ _ hsize hfull
    · split
      · split
        · exact ih (i + 1) current_event
            { state with players := state.players.set i (moved_player libm state i) }
            hsize hfull
        · have h1 : (enqueue_event (move_state libm state i)
              (move_event libm state i current_event)).events_queue_stale = true :=
            enqueue_event_block_stale _ _
              (by rw [(move_state_block libm state i).1]; exact hsize)
              (by rw [(move_state_block libm state i).1,
                    (move_state_frame libm state i).2.2.2.1]; exact hfull)
          generalize enqueue_event (move_state libm state i)
            (move_event libm state i current_event) = E at h1 ⊢
          split
          · right
            rw [(update_players_after_game_block _).2]
            exact enqueue_event_stale_mono
              { E with game_status := GAME_STATE_WAITING_FOR_PLAYERS } _ h1
          · right
            exact handle_board_update_loop_stale_mono libm _ _ _ _ h1
      · exact ih _ _ _ hsize hfull

/-- A round tick on a log that has reached `events_queue_size - 2` entries: when the tick
appends an entry, `enqueue_event` calls `realloc` and discards its result. -/
theorem round_tick_full (libm : libm_t) (state : server_game_state_t)
    (polled : poll_result_t)
    (hsize : 2 ≤ state.events_queue_size ∧ state.events_queue_size < UINT32_RANGE)
    (hfull : state.events_queue_size - 2 ≤ state.events_count)
    (hnew : (round_tick libm state polled).1.events_count ≠ state.events_count) :
    (round_tick libm state polled).1.events_queue_stale = true := by
  unfold round_tick at hnew ⊢
  split at hnew
  · rename_i hc
    rw [if_pos hc]
    rw [handle_board_update_fst] at hnew ⊢
    rcases handle_board_update_loop_full libm MAX_PLAYERS 0 default state hsize hfull with h | h
    · exact absurd h hnew
    · exact h
  · exact absurd rfl hnew

/-- C40 holds on the code only while the log has room in its block.  The occupancy
invariant of the log of the server (every PIXEL entry lies inside the board, no two PIXEL
entries name the same cell, and a cell of `game_board` is true exactly when a PIXEL entry
names it) holds in the state in which `initiate_game` leaves the server, and every round
of the loop of `main` (round tick, timeouts, datagram) keeps it, for a board of the
dimensions of the parameters, as long as the moves of the tick end within the range of
`int32_t`, the event numbers stay below 2^32 and no call of `enqueue_event` takes the
branch of `realloc` (`events_queue_stale` is false afterwards).  When the log has
reached `events_queue_size - 2` entries, a round tick that appends an entry calls
`realloc` and discards its result: the entry is written through a pointer to a block that
may have been released. -/
theorem occupancy_invariant (libm : libm_t) (state : server_game_state_t)
    (polled : poll_result_t)
    (hinv : occupancy_inv state) (hboard : board_allocated state)
    (hrange : moves_in_int32 libm state)
    (hcount : state.events_count + MAX_PLAYERS + 1 < UINT32_RANGE)
    (hsize : 2 ≤ state.events_queue_size ∧ state.events_queue_size < UINT32_RANGE) :
    ((initiate_game state).1.events_queue_stale = false →
      occupancy_inv (initiate_game state).1 ∧ board_allocated (initiate_game state).1) ∧
    ((main_loop_step libm state polled).1.events_queue_stale = false →
      occupancy_inv (main_loop_step libm state polled).1 ∧
        board_allocated (main_loop_step libm state polled).1) ∧
    (state.events_queue_size - 2 ≤ state.events_count →
      (round_tick libm state polled).1.events_count ≠ state.events_count →
      (round_tick libm state polled).1.events_queue_stale = true) :=
  ⟨fun _ => (initiate_game_occupancy state hboard.1 hboard.2.1).1,
    fun _ => main_loop_step_occupancy libm state polled ⟨hinv, hboard⟩ hrange hcount,
    round_tick_full libm state polled hsize⟩

/-- The server state as `main` initialises it satisfies the invariant, for dimensions of
the board that are values of `uint32_t`. -/
theorem initial_server_state_occupancy (seed : Nat) (params : game_params_t)
    (hx : params.board_dimension_x < UINT32_RANGE)
    (hy : params.board_dimension_y < UINT32_RANGE) :
    occupancy_inv (initial_server_state seed params) ∧
      board_allocated (initial_server_state seed params) :=
  occupancy_fresh _ rfl rfl hx hy

theorem lobby_with_alice_occupancy :
    occupancy_inv lobby_with_alice ∧ board_allocated lobby_with_alice := by
  unfold lobby_with_alice
  exact (occupancy_kept_or_restarted _ _
    (initial_server_state_occupancy 91923 default_params (by decide) (by decide))
    (handle_client_datagram_board (initial_server_state 91923 default_params) address_Alice 28
      (session_1_dgram 2 0 name_Alice) 18)).1

set_option maxRecDepth 1000000 in
theorem game_of_91923_started_occupancy :
    occupancy_inv game_of_91923_started.1 ∧ board_allocated game_of_91923_started.1 := by
  unfold game_of_91923_started
  exact main_loop_step_occupancy east_libm lobby_with_alice _ lobby_with_alice_occupancy
    (by decide!) (by decide!)

set_option maxRecDepth 1000000 in
/-- C40, for the game of Alice and Bob of seed 91923: the state after its first round
tick, in which Alice leaves the board and the game ends, has a log of 5 entries in a
block of 4096 entries that has not been reallocated, and satisfies the invariant. -/
theorem occupancy_invariant_witness :
    game_of_91923_started.1.events_count = 3 ∧
    game_of_91923_started.1.events_queue_size = 4096 ∧
    moves_in_int32 east_libm game_of_91923_started.1 ∧
    game_of_91923_ended.1.events_count = 5 ∧
    game_of_91923_ended.1.events_queue_stale = false ∧
    occupancy_inv game_of_91923_ended.1 ∧ board_allocated game_of_91923_ended.1 :=
  ⟨by decide!, by decide!, by decide!, by decide!, by decide!,
    (occupancy_invariant east_libm game_of_91923_started.1
      { round_timer := true, slot_timers := [], datagram := none }
      game_of_91923_started_occupancy.1 game_of_91923_started_occupancy.2
      (by decide!) (by decide!) (by decide!)).2.1 (by decide!)⟩

/-! ## NEW_GAME is entry 0 of the log only -/

theorem new_game_only_first_of_same_board (a b : server_game_state_t)
    (h : same_board a b) (ha : new_game_only_first a) : new_game_only_first b := by
  intro k hk h0
  rw [h.2.1]
  exact ha k (by rw [← h.2.2.1]; exact hk) h0

/-- The log that `initiate_game` writes holds NEW_GAME at index 0 only. -/
theorem initiate_game_new_game_only_first (state : server_game_state_t) :
    new_game_only_first (initiate_game state).1 := by
  rw [initiate_game_fst]
  obtain ⟨_, _, _, _, _, h6, _, _, h9⟩ := initiate_game_state_spec state
  intro k hk h0
  rw [h6] at hk
  obtain ⟨s, s1, s2, s3⟩ := playing_count_surj (sort_players state).players MAX_PLAYERS
    (k - 1) (by omega)
  have hty := (h9 s s1 s2).2.2.2.2.2.2
  rw [s3] at hty
  have ek : k - 1 + 1 = k := by omega
  rw [ek] at hty
  rcases hty with hty | hty
  · rw [hty]
    decide
  · rw [hty.1]
    decide

theorem new_game_only_first_enqueue (state state1 : server_game_state_t)
    (event : event_data_t) (hlog : new_game_only_first state)
    (hq : state1.events_queue = state.events_queue)
    (hc : state1.events_count = state.events_count)
    (hroom : state.events_count + 1 < UINT32_RANGE)
    (hevent : event.event_type ≠ EVENT_NEW_GAME) :
    new_game_only_first (enqueue_event state1 event) := by
  intro k hk h0
  rw [enqueue_event_count _ _ (by rw [hc]; exact hroom), hc] at hk
  rw [enqueue_event_getD]
  by_cases hkc : k = state1.events_count
  · rw [if_pos hkc]
    exact hevent
  · rw [if_neg hkc, hq]
    exact hlog k (by rw [hc] at hkc; omega) h0

theorem move_event_not_new_game (libm : libm_t) (state : server_game_state_t) (i : Nat)
    (current_event : event_data_t) :
    (move_event libm state i current_event).event_type ≠ EVENT_NEW_GAME := by
  rcases move_event_cases libm state i current_event with h | h
  · rw [h.2.1]
    decide
  · rw [h.2.1]
    decide

/-- The loop of `handle_board_update` appends no NEW_GAME entry. -/
theorem handle_board_update_loop_new_game_only_first (libm : libm_t) :
    ∀ (fuel i : Nat) (current_event : event_data_t) (state : server_game_state_t),
      new_game_only_first state →
      state.events_count + fuel + 1 < UINT32_RANGE →
      new_game_only_first (handle_board_update_loop libm fuel i current_event state) := by
  intro fuel
  induction fuel with
  | zero => intro i current_event state hlog _; exact hlog
  | succ n ih =>
    intro i current_event state hlog hroom
    unfold handle_board_update_loop
    split
    · exact ih _ _ _ hlog (by omega)
    · split
      · split
        · exact ih (i + 1) current_event
            { state with players := state.players.set i (moved_player libm state i) }
            (new_game_only_first_of_same_board state _ ⟨rfl, rfl, rfl, rfl⟩ hlog)
            (by show state.events_count + n + 1 < UINT32_RANGE; omega)
        · have hframe := move_state_frame libm state i
          have hlog1 : new_game_only_first
              (enqueue_event (move_state libm state i)
                (move_event libm state i current_event)) :=
            new_game_only_first_enqueue state _ _ hlog hframe.2.2.1 hframe.2.2.2.1
              (by omega) (move_event_not_new_game libm state i current_event)
          have hcount1 : (enqueue_event (move_state libm state i)
              (move_event libm state i current_event)).events_count =
              state.events_count + 1 := by
            rw [enqueue_event_count _ _ (by rw [hframe.2.2.2.1]; omega), hframe.2.2.2.1]
          generalize enqueue_event (move_state libm state i)
            (move_event libm state i current_event) = E at hlog1 hcount1 ⊢
          split
          · refine new_game_only_first_of_same_board _ _
              (update_players_after_game_same_board _) ?_
            exact new_game_only_first_enqueue E
              { E with game_status := GAME_STATE_WAITING_FOR_PLAYERS } _ hlog1 rfl rfl
              (by rw [hcount1]; omega)
              (show ¬ EVENT_GAME_OVER = EVENT_NEW_GAME by decide)
          · exact ih _ _ _ hlog1 (by rw [hcount1]; omega)
      · exact ih _ _ _ hlog (by omega)

theorem new_game_only_first_kept_or_restarted (a b : server_game_state_t)
    (ha : new_game_only_first a) (h : kept_or_restarted a b) : new_game_only_first b := by
  rcases h with h | ⟨s0, _, hb⟩
  · exact new_game_only_first_of_same_board a b h ha
  · rw [hb]
    exact initiate_game_new_game_only_first s0

theorem handle_timers_loop_new_game_only_first (fired : List Bool) :
    ∀ (fuel i : Nat) (state : server_game_state_t) (sent : List (Nat × List Nat)),
      new_game_only_first state →
      new_game_only_first (handle_timers_loop fired fuel i state sent).1 := by
  intro fuel
  induction fuel with
  | zero => intro i state sent hlog; exact hlog
  | succ n ih =>
    intro i state sent hlog
    by_cases hf : fired.getD i false = true
    · obtain ⟨s1, snt, heq, hs1⟩ := handle_timers_loop_fired fired n i state sent hf
      rw [heq]
      exact ih (i + 1) _ snt
        (new_game_only_first_of_same_board s1 _ ⟨rfl, rfl, rfl, rfl⟩
          (new_game_only_first_kept_or_restarted state s1 hlog hs1))
    · unfold handle_timers_loop
      rw [if_neg hf]
      exact ih (i + 1) state sent hlog

/-- NEW_GAME is entry 0 of the log only in the state that `main` initialises: the log is
empty. -/
theorem initial_server_state_new_game_only_first (seed : Nat) (params : game_params_t) :
    new_game_only_first (initial_server_state seed params) :=
  fun k hk _ => absurd hk (Nat.not_lt_zero k)

/-- Every round of the loop of `main` (round tick, timeouts, datagram, with a new
`initiate_game` or without) in which no call of `enqueue_event` takes the branch of
`realloc` keeps NEW_GAME at index 0 only, while the event numbers stay below 2^32: with
`initial_server_state_new_game_only_first`, the condition `new_game_only_first` holds in
the states that the server reaches before the block of the log is reallocated. -/
theorem main_loop_step_new_game_only_first (libm : libm_t) (state : server_game_state_t)
    (polled : poll_result_t)
    (hlog : new_game_only_first state)
    (hroom : state.events_count + MAX_PLAYERS + 1 < UINT32_RANGE)
    (_hblock : (main_loop_step libm state polled).1.events_queue_stale = false) :
    new_game_only_first (main_loop_step libm state polled).1 := by
  have h1 : new_game_only_first (round_tick libm state polled).1 := by
    unfold round_tick
    split
    · rw [handle_board_update_fst]
      exact handle_board_update_loop_new_game_only_first libm MAX_PLAYERS 0 default state hlog
        hroom
    · exact hlog
  have h2 := handle_timers_loop_new_game_only_first (fired_timers state polled) MAX_PLAYERS 0
    (round_tick libm state polled).1 [] h1
  unfold main_loop_step
  dsimp only
  unfold handle_timers
  cases hd : polled.datagram with
  | none => exact h2
  | some d =>
    obtain ⟨receive_address, receive_address_length, buffer, read_bytes⟩ := d
    exact new_game_only_first_kept_or_restarted _ _ h2
      (handle_client_datagram_board _ receive_address receive_address_length buffer
        read_bytes)

/-! ## The starting cells of a game -/

set_option maxRecDepth 1000000 in
/-- C35, the claim fails on the code.  With seed 416429 and the default parameters (board
640 x 480) the worms of Alice and of Bob both start in the cell (167, 58): `initiate_game`
logs the PIXEL of player 0 and the PLAYER_ELIMINATED of player 1.  The slot of Bob stays
alive and `alive_players_count` is 2. -/
theorem start_cell_already_occupied :
    game_of_416429_started.events_count = 3 ∧
    game_of_416429_started.events_queue.getD 1 default =
      { event_type := EVENT_PIXEL, player_number := 0, x := 167, y := 58 } ∧
    (game_of_416429_started.events_queue.getD 2 default).event_type =
      EVENT_PLAYER_ELIMINATED ∧
    (game_of_416429_started.events_queue.getD 2 default).player_number = 1 ∧
    (game_of_416429_started.players.getD 24 default).is_playing = true ∧
    (game_of_416429_started.players.getD 24 default).player_number = 1 ∧
    game_of_416429_started.alive.getD 24 false = true ∧
    game_of_416429_started.alive_players_count = 2 := by
  decide!

theorem start_cell_placed (player : client_t) (n m : Nat) (direction : Int) :
    start_cell { player with x_pos := (n : ℚ) + 1 / 2, y_pos := (m : ℚ) + 1 / 2,
                             direction := direction } = (n, m) := by
  unfold start_cell
  simp only []
  rw [trunc_int32_half, trunc_int32_half, Int.toNat_natCast, Int.toNat_natCast]

/-- The loop of lines 308-344 of `initiate_game` on a board whose occupied cells are the
cells of the playing slots before `i`: the entry logged for a playing slot is a
PLAYER_ELIMINATED when an earlier playing slot has its cell, and the PIXEL of its cell
otherwise. -/
theorem initiate_game_place_cells :
    ∀ (fuel i : Nat) (current_event : event_data_t) (state : server_game_state_t),
      board_allocated state →
      0 < state.game_params.board_dimension_x → 0 < state.game_params.board_dimension_y →
      state.events_count + fuel < UINT32_RANGE →
      (∀ x y, (state.game_board.getD x []).getD y false = true ↔
        ∃ t, t < i ∧ (state.players.getD t default).is_playing = true ∧
          start_cell (state.players.getD t default) = (x, y)) →
      ∀ s, i ≤ s → s < i + fuel → (state.players.getD s default).is_playing = true →
        (start_cell_taken (initiate_game_place fuel i current_event state).players s →
          ((initiate_game_place fuel i current_event state).events_queue.getD
            (state.events_count + playing_count state.players i (s - i)) default).event_type =
              EVENT_PLAYER_ELIMINATED) ∧
        (¬ start_cell_taken (initiate_game_place fuel i current_event state).players s →
          ((initiate_game_place fuel i current_event state).events_queue.getD
            (state.events_count + playing_count state.players i (s - i)) default).event_type =
              EVENT_PIXEL ∧
          ((initiate_game_place fuel i current_event state).events_queue.getD
            (state.events_count + playing_count state.players i (s - i)) default).x =
            (start_cell ((initiate_game_place fuel i current_event state).players.getD s
              default)).1 ∧
          ((initiate_game_place fuel i current_event state).events_queue.getD
            (state.events_count + playing_count state.players i (s - i)) default).y =
            (start_cell ((initiate_game_place fuel i current_event state).players.getD s
              default)).2) := by
  intro fuel
  induction fuel with
  | zero => intro i _ state _ _ _ _ _ s h1 h2; omega
  | succ n ih =>
    intro i current_event state halloc hxpos hypos hroom hb s hs1 hs2 hsp
    unfold initiate_game_place
    by_cases hp : (state.players.getD i default).is_playing = true
    · rw [if_pos hp]
      have hil := is_playing_lt_length state.players i hp
      have hxlt := Nat.mod_lt (generate_random state.random).1 hxpos
      have hylt := Nat.mod_lt (generate_random (generate_random state.random).2).1 hypos
      have hstep : ∀ (event : event_data_t) (random1 : seed_status_t)
          (board1 : List (List Bool)) (direction : Int),
          ((event.event_type = EVENT_PLAYER_ELIMINATED ∧ board1 = state.game_board ∧
              (state.game_board.getD
                ((generate_random state.random).1 % state.game_params.board_dimension_x)
                []).getD
                ((generate_random (generate_random state.random).2).1 %
                  state.game_params.board_dimension_y) false = true) ∨
            (event.event_type = EVENT_PIXEL ∧
              event.x =
                (generate_random state.random).1 % state.game_params.board_dimension_x ∧
              event.y = (generate_random (generate_random state.random).2).1 %
                state.game_params.board_dimension_y ∧
              board1 = state.game_board.set
                ((generate_random state.random).1 % state.game_params.board_dimension_x)
                ((state.game_board.getD
                  ((generate_random state.random).1 % state.game_params.board_dimension_x)
                  []).set
                  ((generate_random (generate_random state.random).2).1 %
                    state.game_params.board_dimension_y) true) ∧
              (state.game_board.getD
                ((generate_random state.random).1 % state.game_params.board_dimension_x)
                []).getD
                ((generate_random (generate_random state.random).2).1 %
                  state.game_params.board_dimension_y) false ≠ true)) →
          (fun r : server_game_state_t =>
            (start_cell_taken r.players s →
              (r.events_queue.getD
                (state.events_count + playing_count state.players i (s - i))
                default).event_type = EVENT_PLAYER_ELIMINATED) ∧
            (¬ start_cell_taken r.players s →
              (r.events_queue.getD
                (state.events_count + playing_count state.players i (s - i))
                default).event_type = EVENT_PIXEL ∧
              (r.events_queue.getD
                (state.events_count + playing_count state.players i (s - i)) default).x =
                (start_cell (r.players.getD s default)).1 ∧
              (r.events_queue.getD
                (state.events_count + playing_count state.players i (s - i)) default).y =
                (start_cell (r.players.getD s default)).2))
            (initiate_game_place n (i + 1) event
              (enqueue_event
                { state with
                  random := random1
                  players := state.players.set i
                    { state.players.getD i default with
                      x_pos := (((generate_random state.random).1 %
                        state.game_params.board_dimension_x : Nat) : ℚ) + 1 / 2
                      y_pos := (((generate_random (generate_random state.random).2).1 %
                        state.game_params.board_dimension_y : Nat) : ℚ) + 1 / 2
                      direction := direction }
                  game_board := board1 } event)) := by
        intro event random1 board1 direction hcase
        generalize hX : (generate_random state.random).1 %
          state.game_params.board_dimension_x = X at *
        generalize hY : (generate_random (generate_random state.random).2).1 %
          state.game_params.board_dimension_y = Y at *
        generalize hS : enqueue_event
          { state with
            random := random1
            players := state.players.set i
              { state.players.getD i default with
                x_pos := (X : ℚ) + 1 / 2, y_pos := (Y : ℚ) + 1 / 2, direction := direction }
            game_board := board1 } event = S1
        have hcount : S1.events_count = state.events_count + 1 := by
          rw [← hS, enqueue_event_count _ _ (by
            show state.events_count + 1 < UINT32_RANGE
            omega)]
        have hqueue : ∀ k, S1.events_queue.getD k default =
            if k = state.events_count then event else state.events_queue.getD k default := by
          intro k
          rw [← hS, enqueue_event_getD]
        have hplayers : S1.players = state.players.set i
            { state.players.getD i default with
              x_pos := (X : ℚ) + 1 / 2, y_pos := (Y : ℚ) + 1 / 2, direction := direction } := by
          rw [← hS]; rfl
        have hparams : S1.game_params = state.game_params := by rw [← hS]; rfl
        have hboard : S1.game_board = board1 := by rw [← hS]; rfl
        have hget : ∀ t, t ≠ i → S1.players.getD t default = state.players.getD t default := by
          intro t ht
          rw [hplayers, getD_set_of_ne _ _ _ _ _ (fun h => ht h.symm)]
        have hgeti : S1.players.getD i default =
            { state.players.getD i default with
              x_pos := (X : ℚ) + 1 / 2, y_pos := (Y : ℚ) + 1 / 2, direction := direction } := by
          rw [hplayers, getD_set_eq, if_pos ⟨rfl, hil⟩]
        have hcelli : start_cell (S1.players.getD i default) = (X, Y) := by
          rw [hgeti]
          exact start_cell_placed _ X Y direction
        have hflag : ∀ t, (S1.players.getD t default).is_playing =
            (state.players.getD t default).is_playing := by
          intro t
          by_cases ht : t = i
          · rw [ht, hgeti]
          · rw [hget t ht]
        have hpc : ∀ a b, playing_count S1.players a b = playing_count state.players a b :=
          fun a b => playing_count_congr _ _ a b hflag
        have hocc : (state.game_board.getD X []).getD Y false = true ↔
            ∃ t, t < i ∧ (state.players.getD t default).is_playing = true ∧
              start_cell (state.players.getD t default) = (X, Y) := hb X Y
        have hlenx : X < state.game_board.length := by rw [halloc.2.2.1]; exact hxlt
        have hleny : Y < (state.game_board.getD X []).length := by
          rw [halloc.2.2.2 X hxlt]; exact hylt
        have hboard1 : ∀ x y, (board1.getD x []).getD y false = true ↔
            ((state.game_board.getD x []).getD y false = true ∨ (x = X ∧ y = Y)) := by
          intro x y
          rcases hcase with ⟨_, hb1, hocc1⟩ | ⟨_, _, _, hb1, _⟩
          · rw [hb1]
            constructor
            · intro h; exact Or.inl h
            · rintro (h | ⟨h1, h2⟩)
              · exact h
              · rw [h1, h2]; exact hocc1
          · rw [hb1, board_getD_set]
            by_cases hc : x = X ∧ y = Y
            · rw [if_pos ⟨hc.1, hc.2, hlenx, hleny⟩]
              exact ⟨fun _ => Or.inr hc, fun _ => rfl⟩
            · rw [if_neg (fun h => hc ⟨h.1, h.2.1⟩)]
              constructor
              · intro h; exact Or.inl h
              · rintro (h | h)
                · exact h
                · exact absurd h hc
        have halloc1 : board_allocated S1 := by
          unfold board_allocated
          rw [hparams, hboard]
          rcases hcase with ⟨_, hb1, _⟩ | ⟨_, _, _, hb1, _⟩
          · rw [hb1]; exact halloc
          · rw [hb1]
            refine ⟨halloc.1, halloc.2.1, (board_set_length _ _ _ 0).1.trans halloc.2.2.1,
              fun x hx1 => ?_⟩
            rw [(board_set_length _ _ _ x).2]
            exact halloc.2.2.2 x hx1
        have hb1 : ∀ x y, (S1.game_board.getD x []).getD y false = true ↔
            ∃ t, t < i + 1 ∧ (S1.players.getD t default).is_playing = true ∧
              start_cell (S1.players.getD t default) = (x, y) := by
          intro x y
          rw [hboard, hboard1, hb x y]
          constructor
          · rintro (⟨t, ht, h1, h2⟩ | ⟨h1, h2⟩)
            · exact ⟨t, by omega, by rw [hflag]; exact h1, by rw [hget t (by omega)]; exact h2⟩
            · exact ⟨i, by omega, by rw [hflag]; exact hp, by rw [hcelli, h1, h2]⟩
          · rintro ⟨t, ht, h1, h2⟩
            by_cases hti : t = i
            · rw [hti, hcelli] at h2
              exact Or.inr ⟨(Prod.mk.inj h2).1.symm, (Prod.mk.inj h2).2.symm⟩
            · rw [hflag] at h1
              rw [hget t hti] at h2
              exact Or.inl ⟨t, by omega, h1, h2⟩
        obtain ⟨_, _, _, _, _, _, k7, k8, _, _⟩ := initiate_game_place_spec n (i + 1) event S1
          (by rw [hcount]; omega)
        have hc : playing_count state.players i (n + 1) =
            1 + playing_count state.players (i + 1) n := by
          rw [playing_count_succ, if_pos hp]
        by_cases hsi : s = i
        · subst hsi
          simp only [Nat.sub_self, playing_count_zero, Nat.add_zero]
          have hq : (initiate_game_place n (s + 1) event S1).events_queue.getD
              state.events_count default = event := by
            rw [k7 _ (by rw [hcount]; omega), hqueue, if_pos rfl]
          have hps : (initiate_game_place n (s + 1) event S1).players.getD s default =
              S1.players.getD s default := k8 s (Or.inl (Nat.lt_succ_self s))
          have htaken : start_cell_taken (initiate_game_place n (s + 1) event S1).players s ↔
              (state.game_board.getD X []).getD Y false = true := by
            rw [hocc]
            unfold start_cell_taken
            rw [hps, hcelli]
            constructor
            · rintro ⟨t, ht, h1, h2⟩
              rw [k8 t (Or.inl (by omega))] at h1 h2
              rw [hflag] at h1
              rw [hget t (by omega)] at h2
              exact ⟨t, ht, h1, h2⟩
            · rintro ⟨t, ht, h1, h2⟩
              refine ⟨t, ht, ?_, ?_⟩
              · rw [k8 t (Or.inl (by omega)), hflag]; exact h1
              · rw [k8 t (Or.inl (by omega)), hget t (by omega)]; exact h2
          rw [htaken, hq, hps, hcelli]
          rcases hcase with ⟨h1, _, h3⟩ | ⟨h1, h2, h3, _, h5⟩
          · exact ⟨fun _ => h1, fun h => absurd h3 h⟩
          · exact ⟨fun h => absurd h h5, fun _ => ⟨h1, h2, h3⟩⟩
        · have hpcs : playing_count state.players i (s - i) =
              1 + playing_count state.players (i + 1) (s - (i + 1)) := by
            obtain ⟨m, hm⟩ : ∃ m, s - i = m + 1 := ⟨s - i - 1, by omega⟩
            have hm2 : s - (i + 1) = m := by omega
            rw [hm, hm2, playing_count_succ, if_pos hp]
          have h := ih (i + 1) event S1 halloc1 (by rw [hparams]; exact hxpos)
            (by rw [hparams]; exact hypos) (by rw [hcount]; omega) hb1 s (by omega) (by omega)
            (by rw [hflag]; exact hsp)
          rw [hcount, hpc] at h
          have e3 : state.events_count + 1 +
              playing_count state.players (i + 1) (s - (i + 1)) =
              state.events_count + playing_count state.players i (s - i) := by omega
          rw [e3] at h
          exact h
      simp only []
      rw [trunc_int32_half, trunc_int32_half]
      simp only [Int.toNat_natCast]
      have hux := to_uint32_natCast ((generate_random state.random).1 %
        state.game_params.board_dimension_x) (by have := halloc.1; omega)
      have huy := to_uint32_natCast ((generate_random (generate_random state.random).2).1 %
        state.game_params.board_dimension_y) (by have := halloc.2.1; omega)
      rw [hux, huy]
      split
      · rename_i hcond
        refine hstep _ _ _ _ (Or.inl ⟨rfl, rfl, ?_⟩)
        rcases hcond with h | h | h | h | h
        · omega
        · omega
        · omega
        · omega
        · exact h
      · rename_i hcond
        push_neg at hcond
        exact hstep _ _ _ _ (Or.inr ⟨rfl, rfl, rfl, rfl, hcond.2.2.2.2⟩)
    · rw [if_neg hp]
      have hsi : s ≠ i := by
        intro h
        rw [h] at hsp
        exact hp hsp
      have hpcs : playing_count state.players i (s - i) =
          playing_count state.players (i + 1) (s - (i + 1)) := by
        obtain ⟨m, hm⟩ : ∃ m, s - i = m + 1 := ⟨s - i - 1, by omega⟩
        have hm2 : s - (i + 1) = m := by omega
        rw [hm, hm2, playing_count_succ, if_neg hp, Nat.zero_add]
      have hb1 : ∀ x y, (state.game_board.getD x []).getD y false = true ↔
          ∃ t, t < i + 1 ∧ (state.players.getD t default).is_playing = true ∧
            start_cell (state.players.getD t default) = (x, y) := by
        intro x y
        rw [hb x y]
        constructor
        · rintro ⟨t, ht, h1, h2⟩
          exact ⟨t, by omega, h1, h2⟩
        · rintro ⟨t, ht, h1, h2⟩
          have hti : t ≠ i := by
            intro h
            rw [h] at h1
            exact hp h1
          exact ⟨t, by omega, h1, h2⟩
      have h := ih (i + 1) current_event state halloc hxpos hypos (by omega) hb1 s (by omega)
        (by omega) hsp
      rw [hpcs]
      exact h

/-- C35 (amended).  For a board with dimensions from 1 up (and below 2^32),
`initiate_game` logs after the NEW_GAME entry one entry for every playing slot, in the
order of the slots: the PIXEL of the cell in which the slot starts when no earlier playing
slot starts in that cell, and the PLAYER_ELIMINATED of the slot otherwise. -/
theorem initiate_game_start_cells (state result : server_game_state_t) (s : Nat)
    (hresult : (initiate_game state).1 = result)
    (hx : 0 < state.game_params.board_dimension_x ∧
      state.game_params.board_dimension_x < UINT32_RANGE)
    (hy : 0 < state.game_params.board_dimension_y ∧
      state.game_params.board_dimension_y < UINT32_RANGE)
    (hs : s < MAX_PLAYERS)
    (hplay : (result.players.getD s default).is_playing = true) :
    result.events_count = playing_count result.players 0 MAX_PLAYERS + 1 ∧
    (result.events_queue.getD (playing_count result.players 0 s + 1) default).player_number =
      (result.players.getD s default).player_number ∧
    (start_cell_taken result.players s →
      (result.events_queue.getD (playing_count result.players 0 s + 1) default).event_type =
        EVENT_PLAYER_ELIMINATED) ∧
    (¬ start_cell_taken result.players s →
      (result.events_queue.getD (playing_count result.players 0 s + 1) default).event_type =
        EVENT_PIXEL ∧
      (result.events_queue.getD (playing_count result.players 0 s + 1) default).x =
        (start_cell (result.players.getD s default)).1 ∧
      (result.events_queue.getD (playing_count result.players 0 s + 1) default).y =
        (start_cell (result.players.getD s default)).2) := by
  rw [initiate_game_fst] at hresult
  obtain ⟨state2, state3, state4, state5, e2, e3, e4, e5, e⟩ := initiate_game_state_eq state
  have hp1 : (sort_players state).game_params = state.game_params := (sort_players_frame state).2.1
  rw [e] at hresult
  generalize sort_players state = state1 at *
  have p2 : state2.game_params = state.game_params := by rw [e2]; exact hp1
  have c2 : state2.events_count = 0 := by rw [e2]
  have b2 : state2.game_board = List.replicate state2.game_params.board_dimension_x
      (List.replicate state2.game_params.board_dimension_y false) := by rw [e2]
  have h2 := occupancy_fresh state2 c2 b2 (by rw [p2]; exact hx.2) (by rw [p2]; exact hy.2)
  have s3 : same_board state2 state3 := by
    rw [e3]
    exact initiate_game_numbers_same_board _ _ _ _
  have h4 := occupancy_append_other state2
    { state3 with game_id := (generate_random state3.random).1,
                  random := (generate_random state3.random).2 }
    { event_type := EVENT_NEW_GAME, x := state3.game_params.board_dimension_x,
      y := state3.game_params.board_dimension_y, player_number := 0 } h2
    ⟨s3.1, s3.2.1, s3.2.2.1, s3.2.2.2⟩ (show EVENT_NEW_GAME ≠ EVENT_PIXEL by decide)
    (by rw [c2]; decide)
  rw [← e4] at h4
  obtain ⟨⟨_, h4a⟩, h4b, h4c⟩ := h4
  have c4 : state4.events_count = 1 := by rw [h4c, c2]
  have p4 : state4.game_params = state.game_params := h4b.trans p2
  have b4 : state4.game_board = state2.game_board := by
    rw [e4]
    exact s3.1
  have hb : ∀ x y, (state4.game_board.getD x []).getD y false = true ↔
      ∃ t, t < 0 ∧ (state4.players.getD t default).is_playing = true ∧
        start_cell (state4.players.getD t default) = (x, y) := by
    intro x y
    rw [b4, b2, board_replicate_getD]
    constructor
    · intro h; exact absurd h (by decide)
    · rintro ⟨t, ht, _⟩
      omega
  obtain ⟨_, k2, _, _, _, _, _, _, k9, k10⟩ := initiate_game_place_spec MAX_PLAYERS 0
    { event_type := EVENT_NEW_GAME, x := state3.game_params.board_dimension_x,
      y := state3.game_params.board_dimension_y, player_number := 0 } state4
    (by rw [c4]; decide)
  have hcells := initiate_game_place_cells MAX_PLAYERS 0
    { event_type := EVENT_NEW_GAME, x := state3.game_params.board_dimension_x,
      y := state3.game_params.board_dimension_y, player_number := 0 } state4 h4a
    (by rw [p4]; exact hx.1) (by rw [p4]; exact hy.1) (by rw [c4]; decide) hb s
    (Nat.zero_le _) (by omega)
  rw [← e5] at k2 k9 k10 hcells
  have hrp : result.players = state5.players := by rw [← hresult]
  have hrq : result.events_queue = state5.events_queue := by rw [← hresult]
  have hrc : result.events_count = state5.events_count := by rw [← hresult]
  have hpc : ∀ a b, playing_count state5.players a b = playing_count state4.players a b :=
    fun a b => playing_count_congr _ _ a b (fun j => (k9 j).1)
  have hplay4 : (state4.players.getD s default).is_playing = true := by
    rw [← (k9 s).1, ← hrp]
    exact hplay
  obtain ⟨_, _, _, b4n, _⟩ := k10 s (Nat.zero_le _) (by omega) hplay4
  have hc := hcells hplay4
  rw [Nat.sub_zero, c4, Nat.add_comm 1 _] at hc b4n
  rw [hrp, hrq, hrc, k2, c4]
  simp only [hpc]
  rw [(k9 s).2.1]
  exact ⟨by omega, b4n, hc.1, hc.2⟩

set_option maxRecDepth 1000000 in
/-- C35 (amended), in the game started from the lobby of seed 416429: slot 23 (Alice,
player 0) starts in the cell (167, 58) before any other slot and gets the PIXEL of that
cell; slot 24 (Bob, player 1) starts in the same cell and gets a PLAYER_ELIMINATED. -/
theorem initiate_game_start_cells_witness :
    start_cell ((initiate_game lobby_of_416429).1.players.getD 23 default) = (167, 58) ∧
    start_cell ((initiate_game lobby_of_416429).1.players.getD 24 default) = (167, 58) ∧
    ((initiate_game lobby_of_416429).1.events_queue.getD
      (playing_count (initiate_game lobby_of_416429).1.players 0 23 + 1) default).event_type =
        EVENT_PIXEL ∧
    ((initiate_game lobby_of_416429).1.events_queue.getD
      (playing_count (initiate_game lobby_of_416429).1.players 0 24 + 1) default).event_type =
        EVENT_PLAYER_ELIMINATED :=
  ⟨by decide!, by decide!,
    ((initiate_game_start_cells lobby_of_416429 (initiate_game lobby_of_416429).1 23 rfl
      (by decide) (by decide) (by decide) (by decide!)).2.2.2 (by
        rintro ⟨t, ht, h1, _⟩
        have hnone : ∀ t, t < 23 →
            ((initiate_game lobby_of_416429).1.players.getD t default).is_playing = false := by
          decide!
        rw [hnone t ht] at h1
        exact Bool.noConfusion h1)).1,
    (initiate_game_start_cells lobby_of_416429 (initiate_game lobby_of_416429).1 24 rfl
      (by decide) (by decide) (by decide) (by decide!)).2.2.1
        ⟨23, by decide, by decide!, by decide!⟩⟩

/-! ## The sort of the slots: order, empty names and equal names -/

theorem strcmp_pos_iff : ∀ (a b : List Nat), 0 < strcmp a b ↔ strcmp b a < 0 := by
  intro a
  induction a with
  | nil =>
    intro b
    cases b with
    | nil => unfold strcmp; decide
    | cons y ys =>
      unfold strcmp
      by_cases hy : y = 0
      · rw [if_pos hy, if_pos hy]
      · rw [if_neg hy, if_neg hy]; decide
  | cons x xs ih =>
    intro b
    cases b with
    | nil =>
      unfold strcmp
      by_cases hx : x = 0
      · rw [if_pos hx, if_pos hx]
      · rw [if_neg hx, if_neg hx]; decide
    | cons y ys =>
      rw [strcmp, strcmp]
      by_cases h1 : x < y
      · have h2 : ¬ y < x := by omega
        simp only [if_pos h1, if_neg h2]
        decide
      · by_cases h2 : y < x
        · simp only [if_neg h1, if_pos h2]
          decide
        · have hxy : x = y := by omega
          by_cases hx : x = 0
          · have hy : y = 0 := by omega
            simp only [if_neg h1, if_neg h2, if_pos hx, if_pos hy]
          · have hy : ¬ y = 0 := by omega
            simp only [if_neg h1, if_neg h2, if_neg hx, if_neg hy]
            exact ih ys

theorem strcmp_le_iff (a b : List Nat) : strcmp a b ≤ 0 ↔ ¬ strcmp b a < 0 := by
  rw [← strcmp_pos_iff]
  omega

theorem strcmp_lt_nonempty (a b : List Nat) (h : strcmp a b < 0) : strlen b ≠ 0 := by
  rw [strcmp_lt_iff] at h
  intro hb
  have hb1 : c_str b = [] := List.length_eq_zero.1 hb
  rw [hb1] at h
  generalize c_str a = ca at h
  cases h

theorem strcmp_empty_lt (a b : List Nat) (ha : strlen a = 0) (hb : strlen b ≠ 0) :
    strcmp a b < 0 := by
  rw [strcmp_lt_iff]
  have ha1 : c_str a = [] := List.length_eq_zero.1 ha
  rw [ha1]
  cases hc : c_str b with
  | nil => exact absurd (by unfold strlen; rw [hc]; rfl) hb
  | cons y ys => exact List.Lex.nil

theorem strcmp_lt_of_not_lt (a b c : List Nat) (hab : strcmp a b < 0)
    (hcb : ¬ strcmp c b < 0) : strcmp a c < 0 := by
  rw [strcmp_lt_iff] at hab hcb ⊢
  rcases (List.Lex.isTrichotomous (α := Nat) (· < ·)).trichotomous (c_str c) (c_str b)
    with h | h | h
  · exact absurd h hcb
  · rw [h]; exact hab
  · exact IsTrans.trans (r := List.Lex (· < ·)) _ _ _ hab h

/-- The inner loop of `sort_players` returns the first of the least slots: the name of
every slot before it, from slot `i` on, is greater. -/
theorem sort_players_min_first (players : List client_t) (i : Nat) :
    ∀ (fuel j index_min : Nat), i ≤ index_min → index_min ≤ j →
      (∀ k, i ≤ k → k < j →
        ¬ strcmp (players.getD k default).name (players.getD index_min default).name < 0) →
      (∀ k, i ≤ k → k < index_min →
        strcmp (players.getD index_min default).name (players.getD k default).name < 0) →
      ∀ k, i ≤ k → k < sort_players_min players fuel j index_min →
        strcmp (players.getD (sort_players_min players fuel j index_min) default).name
          (players.getD k default).name < 0 := by
  intro fuel
  induction fuel with
  | zero =>
    intro j m _ _ _ h4
    exact h4
  | succ n ih =>
    intro j m h1 h2 h3 h4
    unfold sort_players_min
    by_cases hlt : strcmp (players.getD j default).name (players.getD m default).name < 0
    · rw [if_pos hlt]
      exact ih (j + 1) j (by omega) (by omega) (fun k hk1 hk2 => by
        by_cases hkj : k = j
        · rw [hkj]; exact strcmp_irrefl _
        · intro hk
          exact h3 k hk1 (by omega) (strcmp_trans _ _ _ hk hlt))
        (fun k hk1 hk2 => strcmp_lt_of_not_lt _ _ _ hlt (h3 k hk1 hk2))
    · rw [if_neg hlt]
      exact ih (j + 1) m h1 (by omega) (fun k hk1 hk2 => by
        by_cases hkj : k = j
        · rw [hkj]; exact hlt
        · exact h3 k hk1 (by omega)) h4

theorem swap_eq_append : ∀ (l : List client_t) (i m : Nat) (a b : client_t), i < m →
    m < l.length →
    (l.set i b).set m a =
      l.take i ++ b :: ((l.drop (i + 1)).take (m - i - 1) ++ a :: l.drop (m + 1)) := by
  intro l
  induction l with
  | nil => intro i m a b _ hm; exact absurd hm (Nat.not_lt_zero _)
  | cons x xs ih =>
    intro i m a b him hm
    cases m with
    | zero => omega
    | succ m1 =>
      cases i with
      | zero =>
        simp only [List.set_cons_zero, List.set_cons_succ, List.take_zero, List.nil_append,
          List.drop_succ_cons, List.drop_zero, Nat.add_sub_cancel, Nat.sub_zero]
        rw [List.set_eq_take_append_cons_drop, if_pos (by simpa using hm)]
      | succ i1 =>
        simp only [List.set_cons_succ, List.take_succ_cons, List.drop_succ_cons,
          List.cons_append]
        rw [ih i1 m1 a b (by omega) (by simpa using hm)]
        have e : m1 + 1 - (i1 + 1) - 1 = m1 - i1 - 1 := by omega
        rw [e]

theorem empty_named_swap (A M R : List client_t) (p q : client_t)
    (hM : ∀ x ∈ M, strlen x.name ≠ 0) (hp : strlen p.name ≠ 0) :
    empty_named (A ++ q :: (M ++ p :: R)) = empty_named (A ++ p :: (M ++ q :: R)) := by
  have hMnil : M.filter (fun p => strlen p.name == 0) = [] := by
    rw [List.filter_eq_nil_iff]
    intro x hx
    have := hM x hx
    simpa using this
  have hpf : (strlen p.name == 0) = false := by simpa using hp
  unfold empty_named
  simp only [List.filter_append, List.filter_cons, hMnil, hpf, List.nil_append]
  by_cases hq : (strlen q.name == 0) = true
  · simp [hq]
  · simp [hq]

theorem swap_empty_named (players : List client_t) (i m : Nat) (him : i ≤ m)
    (hm : m < players.length)
    (hfirst : ∀ k, i ≤ k → k < m →
      strcmp (players.getD m default).name (players.getD k default).name < 0) :
    empty_named ((players.set i (players.getD m default)).set m (players.getD i default)) =
      empty_named players := by
  by_cases h : i = m
  · subst h
    rw [set_getD_self, set_getD_self]
  · have hlt : i < m := by omega
    have hi : i < players.length := by omega
    have e1 := swap_eq_append players i m (players.getD i default) (players.getD m default)
      hlt hm
    have e2 := swap_eq_append players i m (players.getD m default) (players.getD i default)
      hlt hm
    have e3 : (players.set i (players.getD i default)).set m (players.getD m default) =
        players := by
      rw [set_getD_self, set_getD_self]
    rw [e3] at e2
    rw [e1]
    refine (empty_named_swap _ _ _ _ _ ?_ ?_).trans (congrArg empty_named e2.symm)
    · intro x hx
      obtain ⟨n, hn, rfl⟩ := List.mem_iff_getElem.1 hx
      rw [List.length_take, List.length_drop] at hn
      have hk := hfirst (i + 1 + n) (by omega) (by omega)
      rw [List.getD_eq_getElem _ _ (by omega : i + 1 + n < players.length)] at hk
      rw [List.getElem_take, List.getElem_drop]
      exact strcmp_lt_nonempty _ _ hk
    · exact strcmp_lt_nonempty _ _ (hfirst i (Nat.le_refl _) hlt)

/-- The outer loop of `sort_players` keeps the slots with an empty name in their order. -/
theorem sort_players_loop_empty_named :
    ∀ (fuel i : Nat) (players : List client_t), i + fuel = MAX_PLAYERS →
      players.length = MAX_PLAYERS →
      empty_named (sort_players_loop fuel i players) = empty_named players := by
  intro fuel
  induction fuel with
  | zero => intro i players _ _; rfl
  | succ n ih =>
    intro i players hi hlen
    unfold sort_players_loop
    simp only []
    obtain ⟨m1, m2, _⟩ := sort_players_min_spec players i (MAX_PLAYERS - i) i i
      (Nat.le_refl _) (Nat.le_refl _) (fun k hk1 hk2 => by omega)
    have m4 := sort_players_min_first players i (MAX_PLAYERS - i) i i
      (Nat.le_refl _) (Nat.le_refl _) (fun k hk1 hk2 => by omega) (fun k hk1 hk2 => by omega)
    generalize sort_players_min players (MAX_PLAYERS - i) i i = m at m1 m2 m4 ⊢
    have hm : m < MAX_PLAYERS := by
      rcases m2 with m2 | m2 <;> omega
    rw [ih (i + 1) _ (by omega) (by rw [List.length_set, List.length_set]; exact hlen)]
    exact swap_empty_named players i m m1 (by omega) m4

/-- C38, amended.  The selection sort of `sort_players` over the 25-slot table: the result
is a permutation of the slots, the names stand in non-decreasing byte-wise (`strcmp`)
order, every slot with an empty name stands before every slot with a name, and the slots
with an empty name keep their relative order.  Slots with equal names that are not empty
may change their order. -/
theorem sort_players_sorts (state : server_game_state_t)
    (hlen : state.players.length = MAX_PLAYERS) :
    (sort_players state).players.Perm state.players ∧
    (∀ a b, a ≤ b → b < MAX_PLAYERS →
      strcmp ((sort_players state).players.getD a default).name
        ((sort_players state).players.getD b default).name ≤ 0) ∧
    (∀ a b, a < MAX_PLAYERS → b < MAX_PLAYERS →
      strlen ((sort_players state).players.getD a default).name = 0 →
      strlen ((sort_players state).players.getD b default).name ≠ 0 → a < b) ∧
    empty_named (sort_players state).players = empty_named state.players := by
  obtain ⟨q1, _, q3⟩ := sort_players_spec state hlen
  refine ⟨q1, fun a b hab hb => (strcmp_le_iff _ _).2 (q3 a b hab hb), ?_, ?_⟩
  · intro a b ha hb hea heb
    by_contra hlt
    exact q3 b a (by omega) ha (strcmp_empty_lt _ _ hea heb)
  · have h := sort_players_loop_empty_named MAX_PLAYERS 0 state.players (Nat.zero_add _) hlen
    unfold sort_players
    dsimp only
    exact h

/-- C38, amended, at the lobby in which three ready slots have connected as "C", "A" and
"B": after the sort the slots 22, 23 and 24 hold A, B and C, and the 22 slots without a
name stand before them in their order. -/
theorem sort_players_sorts_witness :
    lobby_C_A_B.players.length = MAX_PLAYERS ∧
    (sort_players lobby_C_A_B).players.Perm lobby_C_A_B.players ∧
    ((sort_players lobby_C_A_B).players.map (fun p => c_str p.name)).drop 22 =
      [name_A, name_B, name_C] ∧
    empty_named (sort_players lobby_C_A_B).players = empty_named lobby_C_A_B.players :=
  have h := sort_players_sorts lobby_C_A_B (by decide!)
  ⟨by decide!, h.1, by decide!, h.2.2.2⟩

set_option maxRecDepth 1000000 in
/-- C38, counterexample.  In the lobby in which slot 0 (the client of Alice) and slot 1
(the client of Bob, after its reassignment) both hold the name "Alice", `sort_players`
puts slot 1 into slot 23 and slot 0 into slot 24: the two slots with equal names stand in
the opposite order after the sort. -/
theorem sort_players_swaps_equal_names :
    lobby_two_alices.game_status = GAME_STATE_WAITING_FOR_PLAYERS ∧
    lobby_two_alices.players.length = MAX_PLAYERS ∧
    (lobby_two_alices.players.getD 0 default).name =
      (lobby_two_alices.players.getD 1 default).name ∧
    c_str (lobby_two_alices.players.getD 0 default).name = name_Alice ∧
    (lobby_two_alices.players.getD 0 default).conn.address = address_Alice ∧
    (lobby_two_alices.players.getD 1 default).conn.address = address_Bob ∧
    (sort_players lobby_two_alices).players.getD 23 default =
      lobby_two_alices.players.getD 1 default ∧
    (sort_players lobby_two_alices).players.getD 24 default =
      lobby_two_alices.players.getD 0 default := by
  decide!

/-! ## The counters of the lobby and the player numbers of the log -/

set_option maxRecDepth 1000000 in
/-- C36 fails on the code in two ways.  During a game: Alice (ready), Carol (not ready)
and Bob (ready) are in the lobby, three playing slots with `players_count = 3`, and the
slot of Carol times out.  `handle_timers` decrements `players_count` to 2, leaves
`is_playing` set on the slot and calls `initiate_game`: in the started game three slots
are playing while `players_count = 2`, and entry 3 of the log is a PIXEL event with player
number 2.  After a game: the game of Alice and Bob of seed 91923 ends with
`players_count = 2` and a log of 5 entries whose entry 2 is the PIXEL of player 1; when
the address of Bob then opens session 2 without a name, `handle_existing_client`
decrements `players_count` to 1 while the log is kept, and the player number 1 of entry 2
is not below `players_count`; the NEW_GAME record of the kept log, which listed Alice and
Bob, now lists Alice alone. -/
theorem player_number_not_below_players_count :
    (lobby_alice_carol_bob.game_status = GAME_STATE_WAITING_FOR_PLAYERS ∧
      lobby_alice_carol_bob.players_count = 3 ∧
      playing_count lobby_alice_carol_bob.players 0 MAX_PLAYERS = 3 ∧
      game_after_timeout_of_carol.1.game_status = GAME_STATE_GAME_STARTED ∧
      game_after_timeout_of_carol.1.players_count = 2 ∧
      playing_count game_after_timeout_of_carol.1.players 0 MAX_PLAYERS = 3 ∧
      game_after_timeout_of_carol.1.events_count = 4 ∧
      (game_after_timeout_of_carol.1.events_queue.getD 3 default).event_type = EVENT_PIXEL ∧
      (game_after_timeout_of_carol.1.events_queue.getD 3 default).player_number = 2 ∧
      ¬ log_numbers_below game_after_timeout_of_carol.1.players_count
        game_after_timeout_of_carol.1) ∧
    (game_of_91923_ended.1.game_status = GAME_STATE_WAITING_FOR_PLAYERS ∧
      game_of_91923_ended.1.players_count = 2 ∧
      log_numbers_below game_of_91923_ended.1.players_count game_of_91923_ended.1 ∧
      lobby_bob_watching.game_status = GAME_STATE_WAITING_FOR_PLAYERS ∧
      lobby_bob_watching.players_count = 1 ∧
      lobby_bob_watching.events_count = 5 ∧
      (lobby_bob_watching.events_queue.getD 2 default).event_type = EVENT_PIXEL ∧
      (lobby_bob_watching.events_queue.getD 2 default).player_number = 1 ∧
      ¬ log_numbers_below lobby_bob_watching.players_count lobby_bob_watching ∧
      (event_record game_of_91923_ended.1 0).drop 17 =
        name_Alice ++ [0] ++ name_Bob ++ [0] ++ [226, 15, 88, 72] ∧
      (event_record lobby_bob_watching 0).drop 17 =
        name_Alice ++ [0] ++ [229, 236, 222, 181]) := by
  decide!

theorem log_numbers_below_enqueue (count : Nat) (state state1 : server_game_state_t)
    (event : event_data_t) (hlog : log_numbers_below count state)
    (hq : state1.events_queue = state.events_queue)
    (hc : state1.events_count = state.events_count)
    (hroom : state.events_count + 1 < UINT32_RANGE)
    (hevent : (event.event_type = EVENT_PIXEL ∨ event.event_type = EVENT_PLAYER_ELIMINATED) →
      event.player_number < count) :
    log_numbers_below count (enqueue_event state1 event) := by
  intro k hk hty
  rw [enqueue_event_count _ _ (by rw [hc]; exact hroom), hc] at hk
  rw [enqueue_event_getD] at hty ⊢
  by_cases hkc : k = state1.events_count
  · rw [if_pos hkc] at hty ⊢
    exact hevent hty
  · rw [if_neg hkc] at hty ⊢
    rw [hq] at hty ⊢
    exact hlog k (by rw [hc] at hkc; omega) hty

theorem log_numbers_below_congr (count : Nat) (a b : server_game_state_t)
    (hq : b.events_queue = a.events_queue) (hc : b.events_count = a.events_count)
    (hlog : log_numbers_below count a) : log_numbers_below count b := by
  intro k hk hty
  rw [hq] at hty ⊢
  rw [hc] at hk
  exact hlog k hk hty

theorem move_event_number (libm : libm_t) (state : server_game_state_t) (i : Nat)
    (current_event : event_data_t) :
    (move_event libm state i current_event).player_number =
      (state.players.getD i default).player_number := by
  unfold move_event
  split
  · exact (moved_player_frame libm state i).1
  · exact (moved_player_frame libm state i).1

/-- The loop of `handle_board_update` appends entries with the player numbers of playing
slots and, unless it ends the game, keeps `players_count` and the `is_playing` flags and
player numbers of the slots. -/
theorem handle_board_update_loop_numbers (libm : libm_t) (count : Nat) :
    ∀ (fuel i : Nat) (current_event : event_data_t) (state : server_game_state_t),
      i + fuel ≤ MAX_PLAYERS →
      slot_numbers_below count state → log_numbers_below count state →
      state.events_count + fuel + 1 < UINT32_RANGE →
      log_numbers_below count (handle_board_update_loop libm fuel i current_event state) ∧
      ((handle_board_update_loop libm fuel i current_event state).game_status =
          GAME_STATE_GAME_STARTED →
        (handle_board_update_loop libm fuel i current_event state).players_count =
          state.players_count ∧
        ∀ j, ((handle_board_update_loop libm fuel i current_event state).players.getD j
              default).is_playing = (state.players.getD j default).is_playing ∧
          ((handle_board_update_loop libm fuel i current_event state).players.getD j
              default).player_number = (state.players.getD j default).player_number) := by
  intro fuel
  induction fuel with
  | zero =>
    intro i current_event state _ _ hlog _
    exact ⟨hlog, fun _ => ⟨rfl, fun j => ⟨rfl, rfl⟩⟩⟩
  | succ n ih =>
    intro i current_event state hi hslots hlog hroom
    unfold handle_board_update_loop
    have hmovedslot : ∀ j,
        ((state.players.set i (moved_player libm state i)).getD j default).is_playing =
          (state.players.getD j default).is_playing ∧
        ((state.players.set i (moved_player libm state i)).getD j default).player_number =
          (state.players.getD j default).player_number := fun j =>
      ⟨getD_set_field (fun p => p.is_playing) _ _ _ (moved_player_frame libm state i).2.1 j,
        getD_set_field (fun p => p.player_number) _ _ _ (moved_player_frame libm state i).1 j⟩
    by_cases hplay : (state.players.getD i default).is_playing = false
    · rw [if_pos hplay]
      exact ih (i + 1) current_event state (by omega) hslots hlog (by omega)
    · rw [if_neg hplay]
      have hplaying : (state.players.getD i default).is_playing = true := by
        cases h : (state.players.getD i default).is_playing
        · exact absurd h hplay
        · rfl
      by_cases halive : state.alive.getD i false = true
      · rw [if_pos halive]
        by_cases hsame : same_cell libm state i = true
        · rw [if_pos hsame]
          obtain ⟨k1, k2⟩ := ih (i + 1) current_event
            { state with players := state.players.set i (moved_player libm state i) }
            (by omega)
            (fun j hj hp => by
              have e := hmovedslot j
              have hp1 : ((state.players.set i (moved_player libm state i)).getD j
                  default).is_playing = true := hp
              rw [e.1] at hp1
              show ((state.players.set i (moved_player libm state i)).getD j
                  default).player_number < count
              rw [e.2]
              exact hslots j hj hp1)
            (log_numbers_below_congr count state _ rfl rfl hlog)
            (by show state.events_count + n + 1 < UINT32_RANGE; omega)
          refine ⟨k1, fun hst => ?_⟩
          obtain ⟨k3, k4⟩ := k2 hst
          exact ⟨k3, fun j => ⟨(k4 j).1.trans (hmovedslot j).1,
            (k4 j).2.trans (hmovedslot j).2⟩⟩
        · rw [if_neg hsame]
          have hpn : (move_event libm state i current_event).player_number < count := by
            rw [move_event_number]
            exact hslots i (by omega) hplaying
          have hframe := move_state_frame libm state i
          have hlog1 : log_numbers_below count
              (enqueue_event (move_state libm state i)
                (move_event libm state i current_event)) :=
            log_numbers_below_enqueue count state _ _ hlog hframe.2.2.1 hframe.2.2.2.1
              (by omega) (fun _ => hpn)
          have hcount1 : (enqueue_event (move_state libm state i)
              (move_event libm state i current_event)).events_count =
              state.events_count + 1 := by
            rw [enqueue_event_count _ _ (by rw [hframe.2.2.2.1]; omega), hframe.2.2.2.1]
          have hplayers1 : (enqueue_event (move_state libm state i)
              (move_event libm state i current_event)).players =
              state.players.set i (moved_player libm state i) := hframe.2.2.2.2.1
          by_cases hone : (enqueue_event (move_state libm state i)
              (move_event libm state i current_event)).alive_players_count = 1
          · rw [if_pos hone]
            have hsame2 := update_players_after_game_same
              (enqueue_event
                { enqueue_event (move_state libm state i)
                    (move_event libm state i current_event)
                  with game_status := GAME_STATE_WAITING_FOR_PLAYERS }
                { move_event libm state i current_event with event_type := EVENT_GAME_OVER })
            refine ⟨?_, fun hst => ?_⟩
            · refine log_numbers_below_congr count _ _ hsame2.1.1 hsame2.1.2.1 ?_
              refine log_numbers_below_enqueue count
                (enqueue_event (move_state libm state i)
                  (move_event libm state i current_event)) _ _ hlog1 rfl rfl
                (by rw [hcount1]; omega) ?_
              intro hty
              rcases hty with hty | hty
              · exact absurd hty (show ¬ EVENT_GAME_OVER = EVENT_PIXEL by decide)
              · exact absurd hty (show ¬ EVENT_GAME_OVER = EVENT_PLAYER_ELIMINATED by decide)
            · rw [hsame2.2] at hst
              exact absurd hst
                (show ¬ GAME_STATE_WAITING_FOR_PLAYERS = GAME_STATE_GAME_STARTED by decide)
          · rw [if_neg hone]
            obtain ⟨k1, k2⟩ := ih (i + 1) (move_event libm state i current_event)
              (enqueue_event (move_state libm state i) (move_event libm state i current_event))
              (by omega)
              (fun j hj hp => by
                rw [hplayers1] at hp ⊢
                rw [(hmovedslot j).1] at hp
                rw [(hmovedslot j).2]
                exact hslots j hj hp)
              hlog1 (by rw [hcount1]; omega)
            refine ⟨k1, fun hst => ?_⟩
            obtain ⟨k3, k4⟩ := k2 hst
            refine ⟨k3.trans hframe.2.2.2.2.2.2.1, fun j => ?_⟩
            rw [hplayers1] at k4
            exact ⟨(k4 j).1.trans (hmovedslot j).1, (k4 j).2.trans (hmovedslot j).2⟩
      · rw [if_neg halive]
        exact ih (i + 1) current_event state (by omega) hslots hlog (by omega)

/-- The start of a game from a state whose playing slots are as many as its ready
players: `initiate_game` leaves the game of `ready_players` players on. -/
theorem initiate_game_numbers_ok (state : server_game_state_t)
    (hlen : state.players.length = MAX_PLAYERS)
    (hplaying : playing_count state.players 0 MAX_PLAYERS = state.ready_players) :
    game_numbers_ok state.ready_players (initiate_game state).1 := by
  rw [initiate_game_fst]
  obtain ⟨h1, h2, _, _, _, h6, h7, h8, h9⟩ := initiate_game_state_spec state
  obtain ⟨q1, q2, _⟩ := sort_players_spec state hlen
  have hcount : playing_count (sort_players state).players 0 MAX_PLAYERS =
      state.ready_players := by
    rw [← hplaying]
    have e1 := playing_count_eq_countP (sort_players state).players
    have e2 := playing_count_eq_countP state.players
    rw [q2] at e1
    rw [hlen] at e2
    rw [e1, e2]
    exact q1.countP_eq _
  refine ⟨h1, h2, ?_, ?_, ?_⟩
  · rw [playing_count_congr _ _ 0 MAX_PLAYERS (fun j => (h8 j).1)]
    exact hcount
  · intro s hs hp
    have hp1 : ((sort_players state).players.getD s default).is_playing = true := by
      rw [← (h8 s).1]; exact hp
    rw [(h9 s hs hp1).1, ← hcount]
    exact playing_count_lt _ s MAX_PLAYERS hs hp1
  · intro k hk hty
    rw [h6] at hk
    by_cases hk0 : k = 0
    · rw [hk0, h7] at hty
      rcases hty with hty | hty
      · exact absurd hty (show ¬ EVENT_NEW_GAME = EVENT_PIXEL by decide)
      · exact absurd hty (show ¬ EVENT_NEW_GAME = EVENT_PLAYER_ELIMINATED by decide)
    · obtain ⟨s, s1, s2, s3⟩ := playing_count_surj (sort_players state).players MAX_PLAYERS
        (k - 1) (by omega)
      have hnum := (h9 s s1 s2).2.2.2.2.2.1
      rw [s3] at hnum
      have ek : k - 1 + 1 = k := by omega
      rw [ek] at hnum
      rw [hnum, ← hcount]
      omega

/-- The tick of a round of the game of `count` players: the entries of the log stay below
`count`, and unless the tick ends the game the game is on as before. -/
theorem round_tick_numbers (libm : libm_t) (count : Nat) (state : server_game_state_t)
    (polled : poll_result_t) (hok : game_numbers_ok count state)
    (hroom : state.events_count + MAX_PLAYERS + 1 < UINT32_RANGE) :
    log_numbers_below count (round_tick libm state polled).1 ∧
    ((round_tick libm state polled).1.game_status = GAME_STATE_GAME_STARTED →
      game_numbers_ok count (round_tick libm state polled).1) := by
  obtain ⟨g1, g2, g3, g4, g5⟩ := hok
  unfold round_tick
  by_cases hc : polled.round_timer = true ∧ state.game_status = GAME_STATE_GAME_STARTED
  · rw [if_pos hc, handle_board_update_fst]
    obtain ⟨k1, k2⟩ := handle_board_update_loop_numbers libm count MAX_PLAYERS 0 default state
      (by omega) g4 g5 hroom
    refine ⟨k1, fun hst => ?_⟩
    obtain ⟨k3, k4⟩ := k2 hst
    refine ⟨hst, k3.trans g2, ?_, ?_, k1⟩
    · rw [playing_count_congr _ _ 0 MAX_PLAYERS (fun j => (k4 j).1)]
      exact g3
    · intro j hj hp
      rw [(k4 j).1] at hp
      rw [(k4 j).2]
      exact g4 j hj hp
  · rw [if_neg hc]
    exact ⟨g5, fun _ => ⟨g1, g2, g3, g4, g5⟩⟩

/-- A round of the game of `count` players whose tick does not end the game leaves the
game on; the log is that of the model, which is the log of the program while
`events_queue_stale` is false. -/
theorem main_loop_step_numbers (libm : libm_t) (count : Nat) (state : server_game_state_t)
    (polled : poll_result_t) (hok : game_numbers_ok count state)
    (hroom : state.events_count + MAX_PLAYERS + 1 < UINT32_RANGE)
    (htick : (round_tick libm state polled).1.game_status = GAME_STATE_GAME_STARTED) :
    game_numbers_ok count (main_loop_step libm state polled).1 := by
  obtain ⟨t1, t2, t3, t4, t5⟩ := (round_tick_numbers libm count state polled hok hroom).2 htick
  obtain ⟨s1, s2, _, _, _, s6, s7, _, s9, s10⟩ := main_loop_step_same_game libm state polled htick
  refine ⟨s6.trans t1, s7.trans t2, ?_, ?_, log_numbers_below_congr count _ _ s1 s2 t5⟩
  · rw [playing_count_congr _ _ 0 MAX_PLAYERS s10]
    exact t3
  · intro j hj hp
    rw [s10 j] at hp
    rw [s9 j]
    exact t4 j hj hp

theorem rounds_of_game_numbers (libm : libm_t) (count : Nat) :
    ∀ (rounds : List poll_result_t) (start state : server_game_state_t),
      game_numbers_ok count start → rounds_of_game libm start rounds = some state →
      game_numbers_ok count state := by
  intro rounds
  induction rounds with
  | nil =>
    intro start state hok hr
    unfold rounds_of_game at hr
    rw [← Option.some.inj hr]
    exact hok
  | cons polled rest ih =>
    intro start state hok hr
    unfold rounds_of_game at hr
    by_cases hc : start.game_status = GAME_STATE_GAME_STARTED ∧
        start.events_count + MAX_PLAYERS + 1 < UINT32_RANGE ∧
        (round_tick libm start polled).1.game_status = GAME_STATE_GAME_STARTED ∧
        (main_loop_step libm start polled).1.events_queue_stale = false
    · rw [if_pos hc] at hr
      exact ih _ state (main_loop_step_numbers libm count start polled hok hc.2.1 hc.2.2.1) hr
    · rw [if_neg hc] at hr
      exact absurd hr (by simp)

theorem rounds_of_game_single (libm : libm_t) (state : server_game_state_t)
    (polled : poll_result_t)
    (h : state.game_status = GAME_STATE_GAME_STARTED ∧
      state.events_count + MAX_PLAYERS + 1 < UINT32_RANGE ∧
      (round_tick libm state polled).1.game_status = GAME_STATE_GAME_STARTED ∧
      (main_loop_step libm state polled).1.events_queue_stale = false) :
    rounds_of_game libm state [polled] = some (main_loop_step libm state polled).1 := by
  unfold rounds_of_game
  rw [if_pos h]
  unfold rounds_of_game
  rfl

/-- The player numbers of a game that starts with as many playing slots as ready players.
When `initiate_game` starts a game from a state of 25 slots whose playing slots are as
many as its ready players, `players_count` is that number, the playing slots are
`players_count` many, and every PIXEL and PLAYER_ELIMINATED entry of the log has a player
number below `players_count`.  After any rounds of the game (`rounds_of_game`: each
starts while the game is on, its tick does not end the game, and the block of the log is
not reallocated) the game is on with the same `players_count`, the playing slots are
`players_count` many and carry player numbers below it, and every PIXEL and
PLAYER_ELIMINATED entry of the log has a player number below it; the entries that the
tick of a further round appends without a reallocation, also the tick that ends the game,
have player numbers below the `players_count` of the game. -/
theorem player_numbers_of_game (libm : libm_t) (lobby state : server_game_state_t)
    (rounds : List poll_result_t)
    (hlen : lobby.players.length = MAX_PLAYERS)
    (hplaying : playing_count lobby.players 0 MAX_PLAYERS = lobby.ready_players)
    (hrounds : rounds_of_game libm (initiate_game lobby).1 rounds = some state) :
    (initiate_game lobby).1.players_count = lobby.ready_players ∧
    playing_count (initiate_game lobby).1.players 0 MAX_PLAYERS =
      (initiate_game lobby).1.players_count ∧
    log_numbers_below (initiate_game lobby).1.players_count (initiate_game lobby).1 ∧
    state.game_status = GAME_STATE_GAME_STARTED ∧
    state.players_count = (initiate_game lobby).1.players_count ∧
    playing_count state.players 0 MAX_PLAYERS = state.players_count ∧
    slot_numbers_below state.players_count state ∧
    log_numbers_below state.players_count state ∧
    ∀ polled, state.events_count + MAX_PLAYERS + 1 < UINT32_RANGE →
      (round_tick libm state polled).1.events_queue_stale = false →
      log_numbers_below (initiate_game lobby).1.players_count
        (round_tick libm state polled).1 := by
  have hstart := initiate_game_numbers_ok lobby hlen hplaying
  have hstate := rounds_of_game_numbers libm lobby.ready_players rounds _ state hstart hrounds
  obtain ⟨a1, a2, a3, a4, a5⟩ := hstart
  obtain ⟨b1, b2, b3, b4, b5⟩ := hstate
  refine ⟨a2, a3.trans a2.symm, ?_, b1, b2.trans a2.symm, b3.trans b2.symm, ?_, ?_, ?_⟩
  · rw [a2]; exact a5
  · rw [b2]; exact b4
  · rw [b2]; exact b5
  · intro polled hroom _
    rw [a2]
    exact (round_tick_numbers libm lobby.ready_players state polled ⟨b1, b2, b3, b4, b5⟩
      hroom).1

set_option maxRecDepth 1000000 in
/-- The player numbers of the game of Alice and Bob of seed 91923 and the round in which a
datagram of Bob (turn direction 0) arrives: the game started from the lobby of two
playing, ready slots has `players_count = 2`; after the round the game is on with the
same `players_count` and the numbers of the log are below 2, and they are below 2 after
the round tick that follows, which ends the game. -/
theorem player_numbers_of_game_witness :
    lobby_with_alice_and_bob.players.length = MAX_PLAYERS ∧
    playing_count lobby_with_alice_and_bob.players 0 MAX_PLAYERS =
      lobby_with_alice_and_bob.ready_players ∧
    lobby_with_alice_and_bob.ready_players = 2 ∧
    rounds_of_game east_libm (initiate_game lobby_with_alice_and_bob).1
      [datagram_round address_Bob (session_1_dgram 0 3 name_Bob) 16] =
      some (main_loop_step east_libm (initiate_game lobby_with_alice_and_bob).1
        (datagram_round address_Bob (session_1_dgram 0 3 name_Bob) 16)).1 ∧
    (main_loop_step east_libm (initiate_game lobby_with_alice_and_bob).1
      (datagram_round address_Bob (session_1_dgram 0 3 name_Bob) 16)).1.players_count =
      (initiate_game lobby_with_alice_and_bob).1.players_count ∧
    log_numbers_below
      (main_loop_step east_libm (initiate_game lobby_with_alice_and_bob).1
        (datagram_round address_Bob (session_1_dgram 0 3 name_Bob) 16)).1.players_count
      (main_loop_step east_libm (initiate_game lobby_with_alice_and_bob).1
        (datagram_round address_Bob (session_1_dgram 0 3 name_Bob) 16)).1 ∧
    log_numbers_below (initiate_game lobby_with_alice_and_bob).1.players_count
      (round_tick east_libm
        (main_loop_step east_libm (initiate_game lobby_with_alice_and_bob).1
          (datagram_round address_Bob (session_1_dgram 0 3 name_Bob) 16)).1
        { round_timer := true, slot_timers := [], datagram := none }).1 :=
  have hr := rounds_of_game_single east_libm (initiate_game lobby_with_alice_and_bob).1
    (datagram_round address_Bob (session_1_dgram 0 3 name_Bob) 16) (by decide!)
  have h := player_numbers_of_game east_libm lobby_with_alice_and_bob _ _ (by decide!)
    (by decide!) hr
  ⟨by decide!, by decide!, by decide!, hr, h.2.2.2.2.1, h.2.2.2.2.2.2.2.1,
    h.2.2.2.2.2.2.2.2 { round_timer := true, slot_timers := [], datagram := none }
      (by decide!) (by decide!)⟩

set_option maxRecDepth 1000000 in
/-- C37.  The ready accounting fails in two ways while the server waits.  A spectator slot
(no name) that sends a datagram of its session with turn direction 1 is marked ready by
`handle_existing_client`, and `ready_players` becomes 1 with `players_count = 0`: a slot
without a name is ready.  A spectator slot that receives session id 2 with the name "Bob"
and turn direction 1 is counted in `players_count` and `ready_players`, which become 1,
but its flag `ready` stays unset: `ready_players` is 1 and no slot is marked ready.  In
both states `players_count` is the number of active slots with a name. -/
theorem ready_accounting_not_kept :
    lobby_with_spectator.game_status = GAME_STATE_WAITING_FOR_PLAYERS ∧
    lobby_with_spectator.ready_players = 0 ∧
    ready_flag_count lobby_with_spectator.players = 0 ∧
    spectator_ready.game_status = GAME_STATE_WAITING_FOR_PLAYERS ∧
    (spectator_ready.players.getD 0 default).conn.is_connection_active = true ∧
    strlen (spectator_ready.players.getD 0 default).name = 0 ∧
    (spectator_ready.players.getD 0 default).ready = true ∧
    spectator_ready.ready_players = 1 ∧
    spectator_ready.players_count = 0 ∧
    named_active_count spectator_ready.players = 0 ∧
    spectator_renamed.game_status = GAME_STATE_WAITING_FOR_PLAYERS ∧
    spectator_renamed.ready_players = 1 ∧
    ready_flag_count spectator_renamed.players = 0 ∧
    spectator_renamed.players_count = 1 ∧
    named_active_count spectator_renamed.players = 1 := by
  decide!

/-! ## A NEW_GAME record with more names than rows of `game_players` -/

/-- Each store of `parse_player_names` is followed by an increment of `players_count`:
the counter grows by the number of stores (as a `uint8_t`). -/
theorem parse_player_names_loop_players_count (buffer : List Nat) (remaining : Nat) :
    ∀ (fuel offset names_count current_name_len : Nat) (state : client_game_state_t),
      (parse_player_names_loop buffer remaining fuel offset names_count current_name_len
        state).2.players_count % 256 =
      (state.players_count +
        (parse_player_names_rows buffer remaining fuel offset names_count
          current_name_len).length) % 256 := by
  intro fuel
  induction fuel with
  | zero => intro offset names_count current_name_len state; rfl
  | succ n ih =>
    intro offset names_count current_name_len state
    unfold parse_player_names_loop parse_player_names_rows
    by_cases h1 : offset < remaining
    · simp only [if_pos h1]
      by_cases h2 : byte_at buffer offset ≥ PLAYER_NAME_MINIMAL_ASCII ∧
          byte_at buffer offset ≤ PLAYER_NAME_MAXIMAL_ASCII
      · simp only [if_pos h2]
        by_cases h3 : current_name_len + 1 > 20
        · simp only [if_pos h3]
          rfl
        · simp only [if_neg h3]
          exact ih _ _ _ _
      · simp only [if_neg h2]
        by_cases h4 : byte_at buffer offset = 0
        · simp only [if_pos h4]
          by_cases h5 : current_name_len = 0
          · simp only [if_pos h5]
            rfl
          · simp only [if_neg h5]
            rw [if_neg (by decide)]
            rw [ih]
            simp only [List.length_cons]
            omega
        · simp only [if_neg h4]
          rfl
    · simp only [if_neg h1]
      rfl

set_option maxRecDepth 1000000 in
/-- C39.  The NEW_GAME record of 73 bytes that lists the 26 names "A" to "Z" has the
right checksum and fits in a datagram of 550 bytes.  `parse_player_names`, called on its
52 name bytes by a client at the start of its first game, stores into the rows 0, 1, ...,
25 of `game_players`: the last store is into row 25, outside the table of 25 rows.  With
that store left out of account it returns `true` and `players_count` is 26. -/
theorem parse_player_names_stores_outside_table :
    new_game_record_of_26_names.length = 73 ∧
    4 + 73 ≤ MAX_SERVER_UDP_DGRAM_LENGTH ∧
    ntohl new_game_record_of_26_names 0 = 65 ∧
    byte_at new_game_record_of_26_names 8 = EVENT_NEW_GAME ∧
    crc_32 new_game_record_of_26_names 69 = ntohl new_game_record_of_26_names 69 ∧
    (deserialize_event_record client_before_first_game new_game_record_of_26_names 73).1
      ≠ -1 ∧
    client_before_first_game.players_count = 0 ∧
    client_before_first_game.game_players.length = MAX_PLAYERS ∧
    parse_player_names_stores (new_game_record_of_26_names.drop 17) 52 = List.range 26 ∧
    25 ∈ parse_player_names_stores (new_game_record_of_26_names.drop 17) 52 ∧
    (parse_player_names (new_game_record_of_26_names.drop 17) 52
      client_before_first_game).1 = true ∧
    (parse_player_names (new_game_record_of_26_names.drop 17) 52
      client_before_first_game).2.players_count = 26 ∧
    (deserialize_event_record client_before_first_game new_game_record_of_26_names
      73).2.players_count = 26 := by
  decide!

end ScreenWorms
